import Mathlib

/-!
# MultiClusterHub reconciler

A shallow embedding of `controllers/multiclusterhub_controller.go`:
`Reconcile`, `finalizeHub`, `addFinalizer`, `installCRDs`, `deployResources`,
`ingressDomain`, `updatePausedCondition` and `setDefaults`.

The Go code is written in a small state-and-early-return monad (`Proc`): a Go
`return v` is `ret v`, a call of a helper that lives in another file of the
repository is `call`, which asks the environment `Env` for the helper's
outcome and records the call in the trace of the state.
-/

namespace Hub

/-! ## Results and errors -/

/-- An error value of the Go code, identified with its text (`err.Error()`). -/
abbrev Error := String

/-- The `ctrl.Result` of controller-runtime: requeue flag and requeue delay (in nanoseconds). -/
structure Result where
  Requeue : Bool
  RequeueAfter : Nat
  deriving DecidableEq, Repr

/-- The zero value `ctrl.Result{}`. -/
def Result.empty : Result := ⟨false, 0⟩

/-- A pair `(ctrl.Result, error)` as returned by `Reconcile` and its steps. -/
abbrev Outcome := Result × Option Error

/-- The zero outcome `ctrl.Result{}, nil`. -/
def Outcome.empty : Outcome := (Result.empty, none)

/-- The Go variable `resyncPeriod = time.Second * 20`, in nanoseconds. -/
def resyncPeriod : Nat := 1000000000 * 20

/-- The Go constant `hubFinalizer`. -/
def hubFinalizer : String := "finalizer.operator.open-cluster-management.io"

/-- The Go constant `crdPathEnvVar`. -/
def crdPathEnvVar : String := "CRDS_PATH"

/-- The Go constant `templatesPathEnvVar`. -/
def templatesPathEnvVar : String := "TEMPLATES_PATH"

/-- The Go constant `templatesKind`. -/
def templatesKind : String := "multiclusterhub"

/-! ## The condition ledger -/

/-- Modelled from the spec: the `type` enum of a condition (§3); `Progressing`, `Terminating`
and `Blocked` are the ones the controller file names, the API package that declares them is
not part of the sources. -/
inductive HubConditionType
  | Complete
  | Progressing
  | Terminating
  | Blocked
  deriving DecidableEq, Repr

/-- The `metav1.ConditionStatus` values. -/
inductive ConditionStatus
  | ConditionTrue
  | ConditionFalse
  | ConditionUnknown
  deriving DecidableEq, Repr

/-- Modelled from the spec: a condition, `{type, status, reason, message, lastTransitionTime,
lastUpdateTime}` (§3). -/
structure HubCondition where
  type : HubConditionType
  status : ConditionStatus
  reason : String
  message : String
  lastTransitionTime : Nat
  lastUpdateTime : Nat
  deriving DecidableEq, Repr

/-- Modelled from the spec: the reason code `Paused` of §4.6 (the constant `PausedReason` is
declared outside the controller file). -/
def PausedReason : String := "Paused"

/-- Modelled from the spec: the reason code `Resumed` of §4.6 (constant `ResumedReason`). -/
def ResumedReason : String := "Resumed"

/-- Modelled from the spec: the reason code `NewComponent` of §8 (constant
`NewComponentReason`). -/
def NewComponentReason : String := "NewComponent"

/-- Modelled from the spec: a stable reason code (§7); the constant `CRDRenderReason` is
declared outside the controller file, its text here is its name. -/
def CRDRenderReason : String := "CRDRenderReason"

/-- Modelled from the spec: a stable reason code (§7); constant `ResourceRenderReason`. -/
def ResourceRenderReason : String := "ResourceRenderReason"

/-- Modelled from the spec: a stable reason code (§7); constant `DeployFailedReason`. -/
def DeployFailedReason : String := "DeployFailedReason"

/-- Modelled from the spec: a stable reason code (§7); constant `DeleteTimestampReason`. -/
def DeleteTimestampReason : String := "DeleteTimestampReason"

/-- Modelled from the spec: a stable reason code (§7); constant `ResourceBlockReason`. -/
def ResourceBlockReason : String := "ResourceBlockReason"

/-- Modelled from the spec: `NewHubCondition` builds a condition whose two timestamps are
both `now` (§4.1, "append a new entry with both timestamps = now"). -/
def NewHubCondition (now : Nat) (type : HubConditionType) (status : ConditionStatus)
    (reason message : String) : HubCondition :=
  { type := type, status := status, reason := reason, message := message,
    lastTransitionTime := now, lastUpdateTime := now }

/-- Modelled from the spec: the update of a stored condition by `Set` (§4.1):
`lastTransitionTime` changes only if the status differs, `lastUpdateTime` whenever status,
reason or message differs. -/
def mergeCondition (stored c : HubCondition) : HubCondition :=
  { type := stored.type, status := c.status, reason := c.reason, message := c.message,
    lastTransitionTime :=
      if stored.status ≠ c.status then c.lastTransitionTime else stored.lastTransitionTime,
    lastUpdateTime :=
      if stored.status ≠ c.status ∨ stored.reason ≠ c.reason ∨ stored.message ≠ c.message
      then c.lastUpdateTime else stored.lastUpdateTime }

/-- Modelled from the spec: `Set` on the ordered ledger (§4.1): append when no condition of
the type exists, update the stored entry in place otherwise. -/
def setCondition : List HubCondition → HubCondition → List HubCondition
  | [], c => [c]
  | x :: xs, c => if x.type = c.type then mergeCondition x c :: xs else x :: setCondition xs c

/-- Modelled from the spec: `Get(type)` (§4.1), the condition of that type or absent. -/
def getCondition (l : List HubCondition) (t : HubConditionType) : Option HubCondition :=
  l.find? (fun c => decide (c.type = t))

/-- Modelled from the spec: `Remove(type)` (§4.1): delete the entry if present. -/
def removeCondition (l : List HubCondition) (t : HubConditionType) : List HubCondition :=
  l.filter (fun c => decide (c.type ≠ t))

/-! ## The primary resource -/

/-- The components `Reconcile` asks `Enabled` about (`operatorv1.Repo`, ...). -/
inductive Component
  | Repo
  | ManagementIngress
  | Console
  | Insights
  | GRC
  | ClusterLifecycle
  | Volsync
  | Search
  | ClusterBackup
  | ClusterProxyAddon
  deriving DecidableEq, Repr

/-- Modelled from the spec: one entry of the per-component enablement list of the spec (§3). -/
structure ComponentConfig where
  Name : Component
  Enabled : Bool
  deriving DecidableEq, Repr

/-- The fields of `MultiClusterHubSpec` the controller file reads or writes. -/
structure MultiClusterHubSpec where
  Components : List ComponentConfig
  EnableClusterBackup : Bool
  SeparateCertificateManagement : Bool
  DisableHubSelfManagement : Bool
  AvailabilityConfig : String
  SSLCiphers : List String
  deriving DecidableEq, Repr

/-- The fields of `MultiClusterHubStatus` the controller file reads or writes. -/
structure MultiClusterHubStatus where
  HubConditions : List HubCondition
  CurrentVersion : String
  DesiredVersion : String
  deriving DecidableEq, Repr

/-- The `MultiClusterHub` object: the metadata the controller file uses (name, namespace,
deletion timestamp, finalizers, and the pause, image-repository and override-configmap
annotations), its spec and its status. -/
structure MultiClusterHub where
  Name : String
  Namespace : String
  DeletionTimestamp : Option Nat
  Finalizers : List String
  AnnotationPause : Bool
  AnnotationImageRepo : String
  AnnotationImageOverridesCM : String
  Spec : MultiClusterHubSpec
  Status : MultiClusterHubStatus
  deriving DecidableEq, Repr

/-- The zero value `&operatorv1.MultiClusterHub{}`. -/
def MultiClusterHub.zero : MultiClusterHub :=
  { Name := "", Namespace := "", DeletionTimestamp := none, Finalizers := [],
    AnnotationPause := false, AnnotationImageRepo := "", AnnotationImageOverridesCM := "",
    Spec := { Components := [], EnableClusterBackup := false,
              SeparateCertificateManagement := false, DisableHubSelfManagement := false,
              AvailabilityConfig := "", SSLCiphers := [] },
    Status := { HubConditions := [], CurrentVersion := "", DesiredVersion := "" } }

/-- `SetHubCondition(&m.Status, c)`: the ledger's `Set` on the status of the hub. -/
def SetHubCondition (status : MultiClusterHubStatus) (c : HubCondition) :
    MultiClusterHubStatus :=
  { status with HubConditions := setCondition status.HubConditions c }

/-- `GetHubCondition(m.Status, t)`: the ledger's `Get`. -/
def GetHubCondition (status : MultiClusterHubStatus) (t : HubConditionType) :
    Option HubCondition :=
  getCondition status.HubConditions t

/-- `RemoveHubCondition(&m.Status, t)`: the ledger's `Remove`. -/
def RemoveHubCondition (status : MultiClusterHubStatus) (t : HubConditionType) :
    MultiClusterHubStatus :=
  { status with HubConditions := removeCondition status.HubConditions t }

/-- Modelled from the spec: `m.Enabled(c)`, the enablement of a component in the spec (§3):
the flag of its first entry, disabled when it has none. -/
def MultiClusterHub.Enabled (m : MultiClusterHub) (c : Component) : Bool :=
  match m.Spec.Components.find? (fun x => decide (x.Name = c)) with
  | some x => x.Enabled
  | none => false

/-- Modelled from the spec: `utils.IsPaused(m)`, the pause marker of the hub (§4.6). -/
def IsPaused (m : MultiClusterHub) : Bool := m.AnnotationPause

/-- `utils.GetImageRepository(m)`: the annotation `mch-imageRepository`. -/
def GetImageRepository (m : MultiClusterHub) : String := m.AnnotationImageRepo

/-- `utils.GetImageOverridesConfigmap(m)`: the name of the override config map. -/
def GetImageOverridesConfigmap (m : MultiClusterHub) : String := m.AnnotationImageOverridesCM

/-- Modelled from the spec: `contains(list, s)` on a finalizer list. -/
def contains (list : List String) (s : String) : Bool := decide (s ∈ list)

/-- Modelled from the spec: `remove(list, s)`, the finalizer list without `s` (§4.4, "remove
the finalizer"), the other entries kept in order. -/
def remove (list : List String) (s : String) : List String :=
  list.filter (fun v => decide (v ≠ s))

/-! ## Objects handed to the helpers -/

/-- A map of image overrides (`map[string]string`), as a list of key/value pairs. -/
abbrev Overrides := List (String × String)

/-- The factories of desired bodies that `Reconcile` calls (`helmrepo.Deployment`,
`helmrepo.Service`, `channel.Channel`, `subscription.OldClusterBackup`,
`subscription.ManagementIngress`, ..., `subscription.Namespace`,
`subscription.NamespaceUnstructured`). -/
inductive Factory
  | helmrepoDeployment
  | helmrepoService
  | channelChannel
  | OldClusterBackup
  | ManagementIngress
  | Console
  | Insights
  | GRC
  | ClusterLifecycle
  | Volsync
  | Search
  | ClusterBackup
  | ClusterProxyAddon
  | Namespace
  | NamespaceUnstructured
  deriving DecidableEq, Repr

/-- A desired body: the factory that builds it together with the cached image overrides and
ingress domain it is given (`none` for a factory that does not take the argument). The hub
argument of the factory is the hub of the pass, which the helper receives as well. -/
structure Desired where
  factory : Factory
  overrides : Option Overrides
  ingress : Option String
  deriving DecidableEq, Repr

/-- What `unstructured.NestedString` finds at a path: nothing, a string, or a value that is
not a string (or a path that runs through a value that is not a map), with the accessor
error the library reports for it, which names the path, the value and its type. -/
inductive NestedField
  | absent
  | str (s : String)
  | other (err : Error)
  deriving DecidableEq, Repr

/-- The part of an `unstructured.Unstructured` object the controller file reads or writes:
kind, name, namespace, labels, and the nested fields `spec.names.kind` and `spec.group`. -/
structure Unstructured where
  Kind : String
  Name : String
  Namespace : String
  Labels : List (String × String)
  specNamesKind : NestedField
  specGroup : NestedField
  deriving DecidableEq, Repr

/-- `unstructured.NestedString`: the string, whether it was found, and the error for a value
of another type. -/
def NestedString (f : NestedField) : String × Bool × Option Error :=
  match f with
  | .absent => ("", false, none)
  | .str s => (s, true, none)
  | .other err => ("", false, some err)

/-- Insert or overwrite a key of a string map kept as a list of pairs. -/
def setKey (l : List (String × String)) (k v : String) : List (String × String) :=
  match l with
  | [] => [(k, v)]
  | x :: xs => if x.1 = k then (k, v) :: xs else x :: setKey xs k v

/-- Look a key up in a string map kept as a list of pairs. -/
def lookupKey (l : List (String × String)) (k : String) : Option String :=
  match l.find? (fun x => decide (x.1 = k)) with
  | some x => some x.2
  | none => none

/-- Modelled from the spec: `utils.AddInstallerLabel` stamps the identity label pair
`installer.name`, `installer.namespace` on the object (§3). -/
def AddInstallerLabel (u : Unstructured) (name ns : String) : Unstructured :=
  { u with Labels := setKey (setKey u.Labels "installer.name" name) "installer.namespace" ns }

/-- A reconcile request: the namespaced name of a hub. -/
structure Request where
  Name : String
  Namespace : String
  deriving DecidableEq, Repr

/-- The part of `configv1.ClusterVersion` that `setDefaults` reads: the versions of
`Status.History`. -/
structure ClusterVersion where
  History : List String
  deriving DecidableEq, Repr

/-- The calls `Reconcile` and its functions make into the rest of the repository, the
cluster client and the file system, each named after the function called, with the
arguments that tell two calls apart. -/
inductive Call
  | Get (req : Request)
  | listDeployments
  | listHelmReleases
  | listCustomResources
  | syncHubStatus (originalStatus : MultiClusterHubStatus)
  | removePluginFromConsole
  | ensureHubIsExported
  | cleanupAppSubscriptions
  | cleanupNamespaces
  | cleanupFoundation
  | cleanupClusterRoles
  | cleanupClusterRoleBindings
  | cleanupMultiClusterEngine
  | cleanupCRDs
  | cleanupPullSecret
  | orphanOwnedMultiClusterEngine
  | Update (m : MultiClusterHub)
  | GetClusterVersion
  | Setenv (key value : String)
  | manifestGetImageOverrides
  | overrideOauthImage
  | OverrideImagesFromConfigmap (ns name : String)
  | maintainImageManifestConfigmap
  | CustomSelfMgmtHubUpgradeRequired
  | BeginEnsuringHubIsUpgradeable
  | labelDeployments
  | ensureNoSubscription (u : Desired)
  | ensureSubscription (u : Desired)
  | ensureSubscriptionOperatorIsRunning
  | ReadDir (dir : String)
  | ReadFile (dir fileName : String)
  | Deploy (u : Unstructured)
  | ensurePullSecretCreated (ns : String)
  | ensureDeployment (u : Desired)
  | ensureService (u : Desired)
  | ensureChannel (u : Desired)
  | ensureNoDeployment (u : Desired)
  | ensureNoService (u : Desired)
  | ensureNoUnstructured (u : Desired)
  | ensureMultiClusterEngine
  | GetIngress
  | ensureNamespace (u : Desired)
  | ensureNoNamespace (u : Desired)
  | ensureHubIsImported
  | addPluginToConsole
  | ensureRemovalsGone
  deriving DecidableEq, Repr

/-- What a run leaves in the trace: a call with what it returned, and the writes of the
controller file to the condition ledger of the hub. -/
inductive Event
  | call (c : Call) (out : Outcome)
  | SetHubCondition (c : HubCondition)
  | RemoveHubCondition (t : HubConditionType)
  deriving DecidableEq, Repr

/-- The `CacheSpec` of the reconciler: the fields `Reconcile` and `ingressDomain` use. -/
structure CacheSpec where
  ImageOverrides : Overrides
  ManifestVersion : String
  ImageRepository : String
  ImageOverridesCM : String
  IngressDomain : String
  deriving DecidableEq, Repr

/-- The environment of the controller file: the helpers that live in other files of the
repository, the cluster client and the file system, over a cluster state `C`.

Modelled from the spec: a helper that is handed the hub may change the cluster and the
status of the hub, not its metadata or spec (§3: the orchestrator mutates "status only, plus
one-time defaulting of spec"); the defaulting helpers of `setDefaults` change the spec. -/
structure Env (C : Type) where
  /-- The helpers returning `(ctrl.Result, error)` or `error`: outcome, new hub status, new
  cluster state. For a helper returning only `error` the result component is not read. -/
  exec : Call → MultiClusterHub → C → Outcome × MultiClusterHubStatus × C
  /-- The clock `metav1.Now()`. -/
  Now : C → Nat
  /-- `utils.IsUnitTest()`. -/
  IsUnitTest : Bool
  /-- `r.Client.Get` of the hub. -/
  Get : Request → C → Except Error MultiClusterHub
  /-- `errors.IsNotFound`. -/
  IsNotFound : Error → Bool
  /-- `r.pluginIsSupported(m)`. -/
  pluginIsSupported : MultiClusterHub → C → Bool
  /-- `r.ComponentsAreRunning(m)`. -/
  ComponentsAreRunning : MultiClusterHub → C → Bool
  /-- `imageoverrides.GetImageOverrides()`, read from the process environment. -/
  GetImageOverrides : List (String × String) → Overrides
  /-- `manifest.GetImageOverrides(m)`. -/
  manifestGetImageOverrides : MultiClusterHub → C → Except Error Overrides
  /-- `r.overrideOauthImage(ctx, imageOverrides)`. -/
  overrideOauthImage : Overrides → C → Except Error Overrides
  /-- `utils.OverrideImageRepository(imageOverrides, imageRepo)`. -/
  OverrideImageRepository : Overrides → String → Overrides
  /-- `r.OverrideImagesFromConfigmap(imageOverrides, namespace, name)`. -/
  OverrideImagesFromConfigmap : Overrides → String → String → C → Except Error Overrides
  /-- `version.Version`. -/
  Version : String
  /-- `r.CustomSelfMgmtHubUpgradeRequired(m)`. -/
  CustomSelfMgmtHubUpgradeRequired : MultiClusterHub → C → Except Error Bool
  /-- `r.Client.Get` of the `configv1.ClusterVersion` named `version`. -/
  GetClusterVersion : C → Except Error ClusterVersion
  /-- `r.Client.Get` of the `configv1.Ingress` named `cluster`: its `Spec.Domain`. -/
  GetIngress : C → Except Error String
  /-- `os.ReadDir`: the names of the directory's entries. -/
  ReadDir : String → C → Except Error (List String)
  /-- `ioutil.ReadFile(filepath.Clean(path.Join(dir, fileName)))`. -/
  ReadFile : String → String → C → Except Error String
  /-- `yaml.Unmarshal` of a file's bytes into an unstructured object. -/
  Unmarshal : String → Except Error Unstructured
  /-- `deploying.Deploy(r.Client, u)`: `(err, ok)` and the new cluster state. -/
  Deploy : Unstructured → C → (Option Error × Bool) × C
  /-- `controllerutil.SetControllerReference(m, res, r.Scheme)`; its error is only logged. -/
  SetControllerReference : MultiClusterHub → Unstructured → Unstructured
  /-- `path.Join`. -/
  pathJoin : List String → String
  /-- The helper `mergeErrors`, which joins the texts of the collected errors. -/
  mergeErrors : List Error → String
  /-- `utils.SetDefaultComponents(m)`: the spec it leaves and whether it changed it. -/
  SetDefaultComponents : MultiClusterHubSpec → MultiClusterHubSpec × Bool
  /-- `utils.DeduplicateComponents(m)`. -/
  DeduplicateComponents : MultiClusterHubSpec → MultiClusterHubSpec × Bool
  /-- `utils.MigrateToggles(m)`. -/
  MigrateToggles : MultiClusterHubSpec → MultiClusterHubSpec × Bool
  /-- `utils.MchIsValid(m)`. -/
  MchIsValid : MultiClusterHub → Bool
  /-- `utils.AvailabilityConfigIsValid`. -/
  AvailabilityConfigIsValid : String → Bool
  /-- `utils.DefaultSSLCiphers`. -/
  DefaultSSLCiphers : List String
  /-- `operatorv1.HAHigh`. -/
  HAHigh : String

/-- The state a run works on: the hub object `m`, the reconciler's cache, the process
environment variables, the cluster, and the trace of what has been done. -/
structure St (C : Type) where
  hub : MultiClusterHub
  cache : CacheSpec
  environ : List (String × String)
  cluster : C
  trace : List Event

/-! ## Go function bodies: state, early return and panic -/

/-- How a statement ends: control goes on with a value, the function returns `r`, or the
goroutine panics. -/
inductive Flow (ρ α : Type)
  | next (a : α)
  | done (r : ρ)
  | panic (msg : String)

/-- A piece of the body of a Go function whose return type is `ρ`. -/
def Proc (C ρ α : Type) : Type := St C → Flow ρ α × St C

/-- Sequencing of statements: a `return` or a panic skips what follows. -/
def Proc.bind {C ρ α β : Type} (m : Proc C ρ α) (f : α → Proc C ρ β) : Proc C ρ β :=
  fun s =>
    match m s with
    | (.next a, s1) => f a s1
    | (.done r, s1) => (.done r, s1)
    | (.panic msg, s1) => (.panic msg, s1)

/-- A statement that only computes a value. -/
def Proc.pure {C ρ α : Type} (a : α) : Proc C ρ α := fun s => (.next a, s)

instance (C ρ : Type) : Monad (Proc C ρ) where
  pure := Proc.pure
  bind := Proc.bind

/-- The Go statement `return r`. -/
def ret {C ρ α : Type} (r : ρ) : Proc C ρ α := fun s => (.done r, s)

/-- A run-time panic of Go (an index out of range). -/
def goPanic {C ρ α : Type} (msg : String) : Proc C ρ α := fun s => (.panic msg, s)

/-- A Go function with body `body`, as a statement of its caller: the value the body
returns, by `return` or at its end, is the value of the call; a panic goes on to the
caller. -/
def Proc.fn {C ρ σ : Type} (body : Proc C ρ ρ) : Proc C σ ρ :=
  fun s =>
    match body s with
    | (.next r, s1) => (.next r, s1)
    | (.done r, s1) => (.next r, s1)
    | (.panic msg, s1) => (.panic msg, s1)

/-- A function body with a deferred function: `deferred` runs when the body has returned `r`
and gives the value the function returns; it also runs when the body panics, and the panic
then goes on. -/
def withDefer {C ρ : Type} (body : Proc C ρ ρ) (deferred : ρ → Proc C ρ ρ) (zero : ρ) :
    Proc C ρ ρ :=
  fun s =>
    match body s with
    | (.next r, s1) => deferred r s1
    | (.done r, s1) => deferred r s1
    | (.panic msg, s1) => (.panic msg, (deferred zero s1).2)

/-- Read the state. -/
def getSt {C ρ : Type} : Proc C ρ (St C) := fun s => (.next s, s)

/-- Change the hub object `m` in place. -/
def modifyHub {C ρ : Type} (f : MultiClusterHub → MultiClusterHub) : Proc C ρ Unit :=
  fun s => (.next (), { s with hub := f s.hub })

/-- Change the reconciler's cache. -/
def modifyCache {C ρ : Type} (f : CacheSpec → CacheSpec) : Proc C ρ Unit :=
  fun s => (.next (), { s with cache := f s.cache })

/-- Call a helper returning `(ctrl.Result, error)` (or `error`): the environment gives the
outcome, the hub status and the cluster it leaves; the call is recorded. -/
def call {C ρ : Type} (env : Env C) (c : Call) : Proc C ρ Outcome :=
  fun s =>
    (.next (env.exec c s.hub s.cluster).1,
      { s with hub := { s.hub with Status := (env.exec c s.hub s.cluster).2.1 },
               cluster := (env.exec c s.hub s.cluster).2.2,
               trace := s.trace ++ [Event.call c (env.exec c s.hub s.cluster).1] })

/-- The error of an `Except` value, as a Go `error`. -/
def errOf {α : Type} (x : Except Error α) : Option Error :=
  match x with
  | .ok _ => none
  | .error e => some e

/-- Call a helper that reads the cluster or the file system and returns a value and an
error; the call is recorded with its error. -/
def ask {C ρ α : Type} (c : Call) (f : C → Except Error α) : Proc C ρ (Except Error α) :=
  fun s =>
    (.next (f s.cluster),
      { s with trace := s.trace ++ [Event.call c (Result.empty, errOf (f s.cluster))] })

/-- The idiom `v, err := f(); if err != nil then return ctrl.Result{}, err`. -/
def must {C α : Type} (c : Call) (f : C → Except Error α) : Proc C Outcome α := do
  let x ← ask c f
  match x with
  | .error err => ret (Result.empty, some err)
  | .ok v => pure v

/-- `deploying.Deploy(r.Client, u)`: `(err, ok)`; the call is recorded with its error. -/
def deploy {C ρ : Type} (env : Env C) (u : Unstructured) : Proc C ρ (Option Error × Bool) :=
  fun s =>
    (.next (env.Deploy u s.cluster).1,
      { s with cluster := (env.Deploy u s.cluster).2,
               trace := s.trace ++ [Event.call (Call.Deploy u) (Result.empty, (env.Deploy u s.cluster).1.1)] })

/-- The statements `c := NewHubCondition(t, status, reason, message)` and
`SetHubCondition(&m.Status, *c)`. -/
def setHubCondition {C ρ : Type} (env : Env C) (t : HubConditionType) (status : ConditionStatus)
    (reason message : String) : Proc C ρ Unit :=
  fun s =>
    (.next (),
      { s with
        hub := { s.hub with
          Status := (SetHubCondition s.hub.Status
            (NewHubCondition (env.Now s.cluster) t status reason message)) },
        trace := s.trace ++
          [Event.SetHubCondition (NewHubCondition (env.Now s.cluster) t status reason message)] })

/-- The statement `RemoveHubCondition(&m.Status, t)`. -/
def removeHubCondition {C ρ : Type} (t : HubConditionType) : Proc C ρ Unit :=
  fun s =>
    (.next (),
      { s with hub := { s.hub with Status := RemoveHubCondition s.hub.Status t },
               trace := s.trace ++ [Event.RemoveHubCondition t] })

/-- `os.Getenv`: the value of the variable, empty when it is not set. -/
def Getenv (environ : List (String × String)) (key : String) : String :=
  (lookupKey environ key).getD ""

/-- `os.Setenv`: it fails on an empty key, on `=` or NUL in the key and on NUL in the
value, and sets the variable otherwise. -/
def Setenv {C ρ : Type} (key value : String) : Proc C ρ (Option Error) :=
  fun s =>
    if key = "" ∨ '=' ∈ key.toList ∨ Char.ofNat 0 ∈ key.toList ∨ Char.ofNat 0 ∈ value.toList then
      (.next (some "setenv: invalid argument"),
        { s with trace := s.trace ++ [Event.call (Call.Setenv key value)
                    (Result.empty, some "setenv: invalid argument")] })
    else
      (.next none,
        { s with environ := setKey s.environ key value,
                 trace := s.trace ++ [Event.call (Call.Setenv key value) (Result.empty, none)] })

/-- The scan of `filepath.Ext` from the end of the path: `rev` is what is left of the
reversed path, `acc` the characters already passed. -/
def extScan : List Char → List Char → List Char
  | [], _ => []
  | c :: rev, acc =>
    if c = '/' then [] else if c = '.' then '.' :: acc else extScan rev (c :: acc)

/-- `filepath.Ext`: the suffix beginning at the last dot of the last element of the path,
empty if there is no dot. -/
def Ext (path : String) : String := String.mk (extScan path.toList.reverse [])

/-! ## `ingressDomain`, `finalizeHub`, `addFinalizer` -/

/-- The Go function `ingressDomain`. -/
def ingressDomain {C σ : Type} (env : Env C) : Proc C σ Outcome :=
  Proc.fn (do
    let s ← getSt
    if s.cache.IngressDomain ≠ "" ∨ env.IsUnitTest = true then
      ret (Result.empty, none)
    else
      let ingress ← ask Call.GetIngress env.GetIngress
      match ingress with
      | .error err => ret (Result.empty, some err)
      | .ok domain =>
        modifyCache (fun c => { c with IngressDomain := domain })
        return (Result.empty, none))

/-- A teardown stage `if err := f(m); err != nil then return err`. -/
def stage {C : Type} (env : Env C) (c : Call) : Proc C (Option Error) Unit := do
  let out ← call env c
  if out.2 ≠ none then ret out.2 else pure ()

/-- The Go function `finalizeHub`. -/
def finalizeHub {C σ : Type} (env : Env C) : Proc C σ (Option Error) :=
  Proc.fn (do
    let s ← getSt
    (if env.pluginIsSupported s.hub s.cluster = true then
      stage env Call.removePluginFromConsole
    else pure ())
    stage env Call.ensureHubIsExported
    stage env Call.cleanupAppSubscriptions
    stage env Call.cleanupNamespaces
    stage env Call.cleanupFoundation
    stage env Call.cleanupClusterRoles
    stage env Call.cleanupClusterRoleBindings
    stage env Call.cleanupMultiClusterEngine
    stage env Call.cleanupCRDs
    let s ← getSt
    (if s.hub.Spec.SeparateCertificateManagement = true then
      stage env Call.cleanupPullSecret
    else pure ())
    stage env Call.orphanOwnedMultiClusterEngine
    return none)

/-- The Go function `addFinalizer`: append `hubFinalizer` and update the hub. -/
def addFinalizer {C σ : Type} (env : Env C) : Proc C σ (Option Error) :=
  Proc.fn (do
    modifyHub (fun m => { m with Finalizers := m.Finalizers ++ [hubFinalizer] })
    let s ← getSt
    let out ← call env (Call.Update s.hub)
    if out.2 ≠ none then ret out.2 else return none)

/-! ## `installCRDs` and `deployResources` -/

/-- The first loop of `installCRDs`: read, parse and check every `.yaml` file of the
directory; `crds` and `errs` are the two slices being built. -/
def renderCRDs {C ρ : Type} (env : Env C) (m : MultiClusterHub) (crdDir : String) :
    List String → List Unstructured → List Error → Proc C ρ (List Unstructured × List Error)
  | [], crds, errs => pure (crds, errs)
  | fileName :: files, crds, errs =>
    if Ext fileName ≠ ".yaml" then renderCRDs env m crdDir files crds errs
    else do
      let src ← ask (Call.ReadFile crdDir fileName) (env.ReadFile crdDir fileName)
      match src with
      | .error err =>
        renderCRDs env m crdDir files crds
          (errs ++ ["error reading file " ++ fileName ++ " : " ++ err])
      | .ok src =>
        match env.Unmarshal src with
        | .error err =>
          renderCRDs env m crdDir files crds
            (errs ++ ["error unmarshalling file " ++ fileName ++ " to unstructured: " ++ err])
        | .ok crd =>
          match (NestedString crd.specNamesKind).2.2 with
          | some err =>
            renderCRDs env m crdDir files crds
              (errs ++ ["error getting Kind field from " ++ fileName ++ ": " ++ err])
          | none =>
            match (NestedString crd.specGroup).2.2 with
            | some err =>
              renderCRDs env m crdDir files crds
                (errs ++ ["error getting Group field for " ++ fileName ++ " : " ++ err])
            | none =>
              if crd.Kind ≠ "CustomResourceDefinition" ∨ (NestedString crd.specNamesKind).1 = ""
                  ∨ (NestedString crd.specGroup).1 = "" then
                renderCRDs env m crdDir files crds
                  (errs ++ ["error verifying file " ++ fileName ++ " is a crd"])
              else
                renderCRDs env m crdDir files
                  (crds ++ [AddInstallerLabel crd m.Name m.Namespace]) errs

/-- The second loop of `installCRDs`: deploy every rendered definition, stop at the first
that fails. -/
def deployCRDs {C : Type} (env : Env C) : List Unstructured → Proc C (String × Option Error) Unit
  | [] => pure ()
  | crd :: crds => do
    let r ← deploy env crd
    if r.1 ≠ none then
      ret (DeployFailedReason, some ("Failed to deploy " ++ crd.Kind ++ " " ++ crd.Name))
    else do
      (if r.2 = true then
        setHubCondition env HubConditionType.Progressing ConditionStatus.ConditionTrue
          NewComponentReason ("created new resource: " ++ crd.Kind ++ " " ++ crd.Name)
      else pure ())
      deployCRDs env crds

/-- The Go function `installCRDs`: the reason code and the error. -/
def installCRDs {C σ : Type} (env : Env C) : Proc C σ (String × Option Error) :=
  Proc.fn (do
    let s ← getSt
    match lookupKey s.environ crdPathEnvVar with
    | none => ret (CRDRenderReason, some (crdPathEnvVar ++ " environment variable is required"))
    | some crdDir =>
      let files ← ask (Call.ReadDir crdDir) (env.ReadDir crdDir)
      match files with
      | .error err =>
        ret (CRDRenderReason, some ("unable to read CRD files from " ++ crdDir ++ " : " ++ err))
      | .ok files =>
        let r ← renderCRDs env s.hub crdDir files [] []
        if r.2.length > 0 then
          ret (CRDRenderReason, some ("failed to render CRD templates: " ++ env.mergeErrors r.2))
        else do
          deployCRDs env r.1
          return ("", none))

/-- The first loop of `deployResources`: read and parse every `.yaml` file. -/
def renderResources {C ρ : Type} (env : Env C) (resourceDir : String) :
    List String → List Unstructured → List Error → Proc C ρ (List Unstructured × List Error)
  | [], resources, errs => pure (resources, errs)
  | fileName :: files, resources, errs =>
    if Ext fileName ≠ ".yaml" then renderResources env resourceDir files resources errs
    else do
      let src ← ask (Call.ReadFile resourceDir fileName) (env.ReadFile resourceDir fileName)
      match src with
      | .error err =>
        renderResources env resourceDir files resources
          (errs ++ ["error reading file " ++ fileName ++ " : " ++ err])
      | .ok src =>
        match env.Unmarshal src with
        | .error err =>
          renderResources env resourceDir files resources
            (errs ++ ["error unmarshalling file " ++ fileName ++ " to unstructured: " ++ err])
        | .ok resource => renderResources env resourceDir files (resources ++ [resource]) errs

/-- The second loop of `deployResources`: set the controller reference on a resource of the
hub's namespace and deploy it, stop at the first that fails. -/
def deployAll {C : Type} (env : Env C) : List Unstructured → Proc C (String × Option Error) Unit
  | [] => pure ()
  | res :: resources => do
    let s ← getSt
    let res1 := if res.Namespace = s.hub.Namespace then env.SetControllerReference s.hub res else res
    let r ← deploy env res1
    if r.1 ≠ none then
      ret (DeployFailedReason, some ("Failed to deploy " ++ res1.Kind ++ " " ++ res1.Name))
    else do
      (if r.2 = true then
        setHubCondition env HubConditionType.Progressing ConditionStatus.ConditionTrue
          NewComponentReason ("created new resource: " ++ res1.Kind ++ " " ++ res1.Name)
      else pure ())
      deployAll env resources

/-- The Go function `deployResources`: the reason code and the error. -/
def deployResources {C σ : Type} (env : Env C) : Proc C σ (String × Option Error) :=
  Proc.fn (do
    let s ← getSt
    match lookupKey s.environ templatesPathEnvVar with
    | none =>
      ret (ResourceRenderReason, some (templatesPathEnvVar ++ " environment variable is required"))
    | some dir =>
      let resourceDir := env.pathJoin [dir, templatesKind, "base"]
      let files ← ask (Call.ReadDir resourceDir) (env.ReadDir resourceDir)
      match files with
      | .error err =>
        ret (ResourceRenderReason,
          some ("unable to read resource files from " ++ resourceDir ++ " : " ++ err))
      | .ok files =>
        let r ← renderResources env resourceDir files [] []
        if r.2.length > 0 then
          ret (CRDRenderReason, some ("failed to render resources: " ++ env.mergeErrors r.2))
        else do
          deployAll env r.1
          return ("", none))

/-! ## `updatePausedCondition` and `setDefaults` -/

/-- The Go function `updatePausedCondition`. -/
def updatePausedCondition {C ρ : Type} (env : Env C) : Proc C ρ Unit := do
  let s ← getSt
  let c := GetHubCondition s.hub.Status HubConditionType.Progressing
  if IsPaused s.hub = true then
    match c with
    | none =>
      setHubCondition env HubConditionType.Progressing ConditionStatus.ConditionUnknown
        PausedReason "Multiclusterhub is paused"
    | some c =>
      if c.reason ≠ PausedReason then
        setHubCondition env HubConditionType.Progressing ConditionStatus.ConditionUnknown
          PausedReason "Multiclusterhub is paused"
      else pure ()
  else
    match c with
    | none => pure ()
    | some c =>
      if c.reason = PausedReason then
        setHubCondition env HubConditionType.Progressing ConditionStatus.ConditionTrue
          ResumedReason "Multiclusterhub is resumed"
      else pure ()

/-- A defaulting helper of `utils` applied to the hub: it may change the spec and says
whether it did. -/
def applyDefaulting {C ρ : Type} (f : MultiClusterHubSpec → MultiClusterHubSpec × Bool) :
    Proc C ρ Bool :=
  fun s => (.next (f s.hub.Spec).2, { s with hub := { s.hub with Spec := (f s.hub.Spec).1 } })

/-- The Go function `setDefaults`. -/
def setDefaults {C σ : Type} (env : Env C) : Proc C σ Outcome :=
  Proc.fn (do
    let c1 ← applyDefaulting env.SetDefaultComponents
    let c2 ← applyDefaulting env.DeduplicateComponents
    let c3 ← applyDefaulting env.MigrateToggles
    let updateNecessary := c1 || c2 || c3
    let s ← getSt
    if env.MchIsValid s.hub = true ∧ Getenv s.environ "ACM_HUB_OCP_VERSION" ≠ ""
        ∧ updateNecessary = false then
      ret (Result.empty, none)
    else do
      let u1 ← (if s.hub.Spec.SSLCiphers.length = 0 then do
          modifyHub (fun m => { m with Spec := { m.Spec with SSLCiphers := env.DefaultSSLCiphers } })
          pure true
        else pure updateNecessary)
      let s ← getSt
      let u2 ← (if env.AvailabilityConfigIsValid s.hub.Spec.AvailabilityConfig = false then do
          modifyHub (fun m => { m with Spec := { m.Spec with AvailabilityConfig := env.HAHigh } })
          pure true
        else pure u1)
      let clusterVersion ← must Call.GetClusterVersion env.GetClusterVersion
      (if clusterVersion.History.length = 0 ∧ env.IsUnitTest = false then
        ret (Result.empty, none)
      else pure ())
      let currentClusterVersion ← (if env.IsUnitTest = true then pure "4.9.0"
        else match clusterVersion.History with
          | v :: _ => pure v
          | [] => goPanic "index out of range [0] with length 0")
      let err ← Setenv "ACM_HUB_OCP_VERSION" currentClusterVersion
      if err ≠ none then ret (Result.empty, err)
      else if u2 = true then do
        let s ← getSt
        let out ← call env (Call.Update s.hub)
        if out.2 ≠ none then ret (Result.empty, out.2) else ret (⟨true, 0⟩, none)
      else ret (Result.empty, none))

/-! ## `Reconcile` -/

/-- `helmrepo.Deployment(m, r.CacheSpec.ImageOverrides)`. -/
def helmrepo.Deployment (cache : CacheSpec) : Desired :=
  ⟨Factory.helmrepoDeployment, some cache.ImageOverrides, none⟩

/-- `helmrepo.Service(m)`. -/
def helmrepo.Service : Desired := ⟨Factory.helmrepoService, none, none⟩

/-- `channel.Channel(m)`. -/
def channel.Channel : Desired := ⟨Factory.channelChannel, none, none⟩

/-- `subscription.OldClusterBackup(m)`. -/
def subscription.OldClusterBackup : Desired := ⟨Factory.OldClusterBackup, none, none⟩

/-- `subscription.ManagementIngress(m, r.CacheSpec.ImageOverrides, r.CacheSpec.IngressDomain)`. -/
def subscription.ManagementIngress (cache : CacheSpec) : Desired :=
  ⟨Factory.ManagementIngress, some cache.ImageOverrides, some cache.IngressDomain⟩

/-- `subscription.Console(m, r.CacheSpec.ImageOverrides, r.CacheSpec.IngressDomain)`. -/
def subscription.Console (cache : CacheSpec) : Desired :=
  ⟨Factory.Console, some cache.ImageOverrides, some cache.IngressDomain⟩

/-- `subscription.Insights(m, r.CacheSpec.ImageOverrides, r.CacheSpec.IngressDomain)`. -/
def subscription.Insights (cache : CacheSpec) : Desired :=
  ⟨Factory.Insights, some cache.ImageOverrides, some cache.IngressDomain⟩

/-- `subscription.GRC(m, r.CacheSpec.ImageOverrides)`. -/
def subscription.GRC (cache : CacheSpec) : Desired :=
  ⟨Factory.GRC, some cache.ImageOverrides, none⟩

/-- `subscription.ClusterLifecycle(m, r.CacheSpec.ImageOverrides)`. -/
def subscription.ClusterLifecycle (cache : CacheSpec) : Desired :=
  ⟨Factory.ClusterLifecycle, some cache.ImageOverrides, none⟩

/-- `subscription.Volsync(m, r.CacheSpec.ImageOverrides)`. -/
def subscription.Volsync (cache : CacheSpec) : Desired :=
  ⟨Factory.Volsync, some cache.ImageOverrides, none⟩

/-- `subscription.Search(m, r.CacheSpec.ImageOverrides)`. -/
def subscription.Search (cache : CacheSpec) : Desired :=
  ⟨Factory.Search, some cache.ImageOverrides, none⟩

/-- `subscription.ClusterBackup(m, r.CacheSpec.ImageOverrides)`. -/
def subscription.ClusterBackup (cache : CacheSpec) : Desired :=
  ⟨Factory.ClusterBackup, some cache.ImageOverrides, none⟩

/-- `subscription.ClusterProxyAddon(m, r.CacheSpec.ImageOverrides, r.CacheSpec.IngressDomain)`. -/
def subscription.ClusterProxyAddon (cache : CacheSpec) : Desired :=
  ⟨Factory.ClusterProxyAddon, some cache.ImageOverrides, some cache.IngressDomain⟩

/-- `subscription.Namespace()`. -/
def subscription.Namespace : Desired := ⟨Factory.Namespace, none, none⟩

/-- `subscription.NamespaceUnstructured()`. -/
def subscription.NamespaceUnstructured : Desired := ⟨Factory.NamespaceUnstructured, none, none⟩

/-- `regexp.MatchString("^2.4", v)`: `2`, any character but a newline, `4` at the start. -/
def matchString24 (v : String) : Bool :=
  match v.toList with
  | a :: b :: c :: _ => decide (a = '2') && decide (b ≠ Char.ofNat 10) && decide (c = '4')
  | _ => false

/-- `regexp.MatchString("^2.5", v)`: `2`, any character but a newline, `5` at the start. -/
def matchString25 (v : String) : Bool :=
  match v.toList with
  | a :: b :: c :: _ => decide (a = '2') && decide (b ≠ Char.ofNat 10) && decide (c = '5')
  | _ => false

/-- The guard that follows most steps of `Reconcile`:
`if result != (ctrl.Result{}) then return result, err`. -/
def guardResult {C : Type} (step : Proc C Outcome Outcome) : Proc C Outcome Unit := do
  let out ← step
  if out.1 ≠ Result.empty then ret out else pure ()

/-- A helper call followed by the guard: `result, err = r.f(m, ...)` and
`if result != (ctrl.Result{}) then return result, err`. -/
def guarded {C : Type} (env : Env C) (c : Call) : Proc C Outcome Unit :=
  guardResult (call env c)

/-- The block of `Reconcile` for one optional component: `ensureSubscription` of the desired
body if the component is enabled, `ensureNoSubscription` of the same body otherwise, then the
guard. -/
def ensureComponent {C : Type} (env : Env C) (c : Component) (body : CacheSpec → Desired) :
    Proc C Outcome Unit := do
  let s ← getSt
  guardResult (if s.hub.Enabled c = true then call env (Call.ensureSubscription (body s.cache))
    else call env (Call.ensureNoSubscription (body s.cache)))

/-- Lines 166-189 of `Reconcile`: the hub is marked to be deleted. -/
def deletionBranch {C : Type} (env : Env C) : Proc C Outcome Outcome := do
  setHubCondition env HubConditionType.Terminating ConditionStatus.ConditionTrue
    DeleteTimestampReason "Multiclusterhub is being cleaned up."
  let s ← getSt
  if contains s.hub.Finalizers hubFinalizer = true then
    let err ← finalizeHub env
    if err ≠ none then ret (⟨false, resyncPeriod⟩, none)
    else do
      modifyHub (fun m => { m with Finalizers := remove m.Finalizers hubFinalizer })
      let s ← getSt
      let out ← call env (Call.Update s.hub)
      if out.2 ≠ none then ret (Result.empty, out.2) else ret (Result.empty, none)
  else ret (Result.empty, none)

/-- Lines 192-197: add the finalizer. -/
def stepAddFinalizer {C : Type} (env : Env C) : Proc C Outcome Unit := do
  let s ← getSt
  if contains s.hub.Finalizers hubFinalizer = false then
    let err ← addFinalizer env
    if err ≠ none then ret (Result.empty, err) else pure ()
  else pure ()

/-- Lines 199-206: default the spec. -/
def stepSetDefaults {C : Type} (env : Env C) : Proc C Outcome Unit := do
  let out ← setDefaults env
  if out.1 ≠ Result.empty then ret (Result.empty, out.2)
  else if out.2 ≠ none then ret (⟨true, 0⟩, out.2)
  else pure ()

/-- Lines 208-250: resolve the image overrides, fill the cache, store the manifest. -/
def stepImageOverrides {C : Type} (env : Env C) : Proc C Outcome Unit := do
  let s ← getSt
  let o0 := env.GetImageOverrides s.environ
  let o1 ← (if o0.length = 0 then
      must Call.manifestGetImageOverrides (env.manifestGetImageOverrides s.hub)
    else pure o0)
  let o2 ← must Call.overrideOauthImage (env.overrideOauthImage o1)
  let o3 := if GetImageRepository s.hub ≠ "" then
      env.OverrideImageRepository o2 (GetImageRepository s.hub) else o2
  let o4 ← (if GetImageOverridesConfigmap s.hub ≠ "" then
      must (Call.OverrideImagesFromConfigmap s.hub.Namespace (GetImageOverridesConfigmap s.hub))
        (env.OverrideImagesFromConfigmap o3 s.hub.Namespace (GetImageOverridesConfigmap s.hub))
    else pure o3)
  modifyCache (fun c =>
    { c with
      ImageOverrides := o4,
      ManifestVersion := env.Version,
      ImageRepository := GetImageRepository s.hub,
      ImageOverridesCM := GetImageOverridesConfigmap s.hub })
  let out ← call env Call.maintainImageManifestConfigmap
  if out.2 ≠ none then ret (Result.empty, out.2) else pure ()

/-- Lines 252-264: the upgrade of a self-managed hub. -/
def stepUpgrade {C : Type} (env : Env C) : Proc C Outcome Unit := do
  let s ← getSt
  let CustomUpgradeRequired ← must Call.CustomSelfMgmtHubUpgradeRequired
    (env.CustomSelfMgmtHubUpgradeRequired s.hub)
  if CustomUpgradeRequired = true then
    let out ← call env Call.BeginEnsuringHubIsUpgradeable
    if out.2 ≠ none then ret (⟨false, resyncPeriod⟩, none) else pure ()
  else pure ()

/-- Lines 266-271: label the deployments owned by helm releases. -/
def stepLabelDeployments {C : Type} (env : Env C) : Proc C Outcome Unit := do
  let out ← call env Call.labelDeployments
  if out.2 ≠ none then ret (Result.empty, none) else pure ()

/-- Lines 273-278: the pause gate. -/
def stepPauseGate {C : Type} (env : Env C) : Proc C Outcome Unit := do
  updatePausedCondition env
  let s ← getSt
  if IsPaused s.hub = true then ret (Result.empty, none) else pure ()

/-- Lines 280-295: the 2.4 to 2.5 upgrade logic for cluster backup. -/
def stepCompatGuard {C : Type} (env : Env C) : Proc C Outcome Unit := do
  let s ← getSt
  let matchCurrent := matchString24 s.hub.Status.CurrentVersion
  let matchDesired := matchString25 s.hub.Status.DesiredVersion
  if matchCurrent = true ∧ matchDesired = true then
    if s.hub.Spec.EnableClusterBackup = true then do
      setHubCondition env HubConditionType.Blocked ConditionStatus.ConditionTrue
        ResourceBlockReason
        "When upgrading from version 2.4 to 2.5, cluster backup must be disabled"
      ret (Result.empty, none)
    else do
      guarded env (Call.ensureNoSubscription subscription.OldClusterBackup)
      removeHubCondition HubConditionType.Blocked
  else pure ()

/-- Lines 297-300: the subscription operator. -/
def stepOperator {C : Type} (env : Env C) : Proc C Outcome Unit :=
  guarded env Call.ensureSubscriptionOperatorIsRunning

/-- Lines 302-314: install the CRDs. -/
def stepInstallCRDs {C : Type} (env : Env C) : Proc C Outcome Unit := do
  let r ← installCRDs env
  match r.2 with
  | some err => do
    setHubCondition env HubConditionType.Progressing ConditionStatus.ConditionFalse r.1
      ("Error installing CRDs: " ++ err)
    ret (Result.empty, some err)
  | none => pure ()

/-- Lines 320-330: the pull secret. -/
def stepPullSecret {C : Type} (env : Env C) : Proc C Outcome Unit := do
  let s ← getSt
  let out ← call env (Call.ensurePullSecretCreated s.hub.Namespace)
  match out.2 with
  | some err => do
    setHubCondition env HubConditionType.Progressing ConditionStatus.ConditionFalse err
      ("Error fetching Pull Secret: " ++ err)
    ret (out.1, some ("failed to find pullsecret: " ++ err))
  | none => pure ()

/-- Lines 332-362: the helm repository deployment, service and channel. -/
def stepRepo {C : Type} (env : Env C) : Proc C Outcome Unit := do
  let s ← getSt
  if s.hub.Enabled Component.Repo = true then do
    guarded env (Call.ensureDeployment (helmrepo.Deployment s.cache))
    guarded env (Call.ensureService helmrepo.Service)
    guarded env (Call.ensureChannel channel.Channel)
  else do
    guarded env (Call.ensureNoDeployment (helmrepo.Deployment s.cache))
    guarded env (Call.ensureNoService helmrepo.Service)
    guarded env (Call.ensureNoUnstructured channel.Channel)

/-- Lines 364-372: the multicluster engine and the ingress domain. -/
def stepEngineIngress {C : Type} (env : Env C) : Proc C Outcome Unit := do
  guarded env Call.ensureMultiClusterEngine
  guardResult (ingressDomain env)

/-- Lines 374-385: deploy the base templates. -/
def stepDeployResources {C : Type} (env : Env C) : Proc C Outcome Unit := do
  let r ← deployResources env
  match r.2 with
  | some err => do
    setHubCondition env HubConditionType.Progressing ConditionStatus.ConditionFalse r.1
      ("Error deploying resources: " ++ err)
    ret (Result.empty, some err)
  | none => pure ()

/-- Lines 444-462: the cluster backup component, with its namespace. -/
def stepClusterBackup {C : Type} (env : Env C) : Proc C Outcome Unit := do
  let s ← getSt
  if s.hub.Enabled Component.ClusterBackup = true then do
    guarded env (Call.ensureNamespace subscription.Namespace)
    guarded env (Call.ensureSubscription (subscription.ClusterBackup s.cache))
  else do
    guarded env (Call.ensureNoSubscription (subscription.ClusterBackup s.cache))
    guarded env (Call.ensureNoNamespace subscription.NamespaceUnstructured)

/-- Lines 387-470: the subscriptions of the optional components. -/
def stepComponents {C : Type} (env : Env C) : Proc C Outcome Unit := do
  ensureComponent env Component.ManagementIngress subscription.ManagementIngress
  ensureComponent env Component.Console subscription.Console
  ensureComponent env Component.Insights subscription.Insights
  ensureComponent env Component.GRC subscription.GRC
  ensureComponent env Component.ClusterLifecycle subscription.ClusterLifecycle
  ensureComponent env Component.Volsync subscription.Volsync
  ensureComponent env Component.Search subscription.Search
  stepClusterBackup env
  ensureComponent env Component.ClusterProxyAddon subscription.ClusterProxyAddon

/-- Lines 472-484: import or export the hub itself, outside unit tests. -/
def stepSelfRegistration {C : Type} (env : Env C) : Proc C Outcome Unit := do
  let s ← getSt
  if env.IsUnitTest = false then
    if s.hub.Spec.DisableHubSelfManagement = false then
      guarded env Call.ensureHubIsImported
    else
      guarded env Call.ensureHubIsExported
  else pure ()

/-- Lines 486-498: the console plugin and the removal sweep, once the components run. -/
def stepCleanup {C : Type} (env : Env C) : Proc C Outcome Unit := do
  let s ← getSt
  if env.ComponentsAreRunning s.hub s.cluster = true then do
    (if env.pluginIsSupported s.hub s.cluster = true then
      guarded env Call.addPluginToConsole
    else pure ())
    guarded env Call.ensureRemovalsGone
  else pure ()

/-- Lines 297-500 of `Reconcile`: the pass from the subscription operator on; the final
`return retQueue, retError` returns the zero values of the named results. -/
def convergeFromOperator {C : Type} (env : Env C) : Proc C Outcome Outcome := do
  stepOperator env
  stepInstallCRDs env
  stepPullSecret env
  stepRepo env
  stepEngineIngress env
  stepDeployResources env
  stepComponents env
  stepSelfRegistration env
  stepCleanup env
  return (Result.empty, none)

/-- Lines 280-500 of `Reconcile`: the pass from the compatibility guard on. -/
def convergeFromCompatGuard {C : Type} (env : Env C) : Proc C Outcome Outcome := do
  stepCompatGuard env
  convergeFromOperator env

/-- Lines 273-500 of `Reconcile`: the pass from the pause gate on. -/
def convergeFromPauseGate {C : Type} (env : Env C) : Proc C Outcome Outcome := do
  stepPauseGate env
  convergeFromCompatGuard env

/-- Lines 192-500 of `Reconcile`: the convergence pass of a hub that is not being deleted. -/
def convergencePass {C : Type} (env : Env C) : Proc C Outcome Outcome := do
  stepAddFinalizer env
  stepSetDefaults env
  stepImageOverrides env
  stepUpgrade env
  stepLabelDeployments env
  convergeFromPauseGate env

/-- Lines 162-500 of `Reconcile`: the pass, which runs once the hub and the listings are
loaded: the teardown if the deletion timestamp is set, the convergence steps otherwise. -/
def reconcilePass {C : Type} (env : Env C) : Proc C Outcome Outcome := do
  let s ← getSt
  if s.hub.DeletionTimestamp.isSome = true then deletionBranch env
  else convergencePass env

/-- The deferred function of `Reconcile`: sync the status, and put its result and error in
the places the pass left empty. -/
def deferredSync {C : Type} (env : Env C) (originalStatus : MultiClusterHubStatus)
    (r : Outcome) : Proc C Outcome Outcome := do
  let status ← call env (Call.syncHubStatus originalStatus)
  return (if r.1 = Result.empty then status.1 else r.1, if r.2 = none then status.2 else r.2)

/-- Lines 116-146 of `Reconcile`: fetch the hub and list the deployments, helm releases and
custom resources. -/
def loadHub {C : Type} (env : Env C) (req : Request) : Proc C Outcome Unit := do
  modifyHub (fun _ => MultiClusterHub.zero)
  let got ← ask (Call.Get req) (env.Get req)
  match got with
  | .error err =>
    if env.IsNotFound err = true then ret (Result.empty, none) else ret (Result.empty, some err)
  | .ok m => do
    modifyHub (fun _ => m)
    let out ← call env Call.listDeployments
    if out.2 ≠ none then ret (Result.empty, out.2)
    else do
      let out ← call env Call.listHelmReleases
      if out.2 ≠ none then ret (Result.empty, out.2)
      else do
        let out ← call env Call.listCustomResources
        if out.2 ≠ none then ret (Result.empty, out.2) else pure ()

/-- The Go function `Reconcile`. -/
def Reconcile {C σ : Type} (env : Env C) (req : Request) : Proc C σ Outcome :=
  Proc.fn (do
    loadHub env req
    let s ← getSt
    withDefer (reconcilePass env) (deferredSync env s.hub.Status) (Result.empty, none))


/-! ## Reference notions used in the statements -/

/-- The error a helper returns when called in state `s`. -/
def errorOf {C : Type} (env : Env C) (c : Call) (s : St C) : Option Error :=
  (env.exec c s.hub s.cluster).1.2

/-- The state a call of a helper leaves. -/
def afterCall {C : Type} (env : Env C) (c : Call) (s : St C) : St C :=
  { s with hub := { s.hub with Status := (env.exec c s.hub s.cluster).2.1 },
           cluster := (env.exec c s.hub s.cluster).2.2,
           trace := s.trace ++ [Event.call c (env.exec c s.hub s.cluster).1] }

/-- The state a sequence of helper calls leaves when all of them are made. -/
def afterCalls {C : Type} (env : Env C) (cs : List Call) (s : St C) : St C :=
  cs.foldl (fun s c => afterCall env c s) s

/-- The fail-fast run of a list of stages: the first error ends it. -/
def runStages {C : Type} (env : Env C) : List Call → St C → Option Error × St C
  | [], s => (none, s)
  | c :: cs, s =>
    match errorOf env c s with
    | some e => (some e, afterCall env c s)
    | none => runStages env cs (afterCall env c s)

/-- The teardown stages in the fixed order of the specification (§4.4), the two conditional
ones only when they apply: console plugin removal when the plugin is supported, pull secret
removal when certificate management is separate. -/
def teardownStages (pluginSupported separateCert : Bool) : List Call :=
  (if pluginSupported then [Call.removePluginFromConsole] else []) ++
  [Call.ensureHubIsExported, Call.cleanupAppSubscriptions, Call.cleanupNamespaces,
   Call.cleanupFoundation, Call.cleanupClusterRoles, Call.cleanupClusterRoleBindings,
   Call.cleanupMultiClusterEngine, Call.cleanupCRDs] ++
  (if separateCert then [Call.cleanupPullSecret] else []) ++
  [Call.orphanOwnedMultiClusterEngine]

/-- The teardown stages that apply to the hub in state `s`. -/
def stagesOf {C : Type} (env : Env C) (s : St C) : List Call :=
  teardownStages (env.pluginIsSupported s.hub s.cluster) s.hub.Spec.SeparateCertificateManagement

/-- The calls of a list of events, in order. -/
def callsOf (l : List Event) : List Call :=
  l.filterMap (fun e => match e with
    | Event.call c _ => some c
    | _ => none)

/-- The events a run from `s` to `s1` has added to the trace. -/
def newEvents {C : Type} (s s1 : St C) : List Event := s1.trace.drop s.trace.length

/-- The calls a run from `s` to `s1` has made, in order. -/
def newCalls {C : Type} (s s1 : St C) : List Call := callsOf (newEvents s s1)

/-! ## Example environments -/

/-- An environment over a one-point cluster in which every helper succeeds with an empty
outcome and leaves the status of the hub as it is; no hub is stored, files and directories
are empty. -/
def quietEnv : Env Unit :=
  { exec := fun _ m _ => ((Result.empty, none), m.Status, ()),
    Now := fun _ => 0,
    IsUnitTest := false,
    Get := fun _ _ => .error "not found",
    IsNotFound := fun e => decide (e = "not found"),
    pluginIsSupported := fun _ _ => false,
    ComponentsAreRunning := fun _ _ => true,
    GetImageOverrides := fun _ => [("image", "override")],
    manifestGetImageOverrides := fun _ _ => .ok [],
    overrideOauthImage := fun o _ => .ok o,
    OverrideImageRepository := fun o _ => o,
    OverrideImagesFromConfigmap := fun o _ _ _ => .ok o,
    Version := "2.5.0",
    CustomSelfMgmtHubUpgradeRequired := fun _ _ => .ok false,
    GetClusterVersion := fun _ => .ok ⟨["4.10.0"]⟩,
    GetIngress := fun _ => .ok "apps.example.com",
    ReadDir := fun _ _ => .ok [],
    ReadFile := fun _ _ _ => .ok "",
    Unmarshal := fun _ => .error "empty document",
    Deploy := fun _ _ => ((none, false), ()),
    SetControllerReference := fun _ u => u,
    pathJoin := fun l => String.intercalate "/" l,
    mergeErrors := fun l => String.intercalate "; " l,
    SetDefaultComponents := fun sp => (sp, false),
    DeduplicateComponents := fun sp => (sp, false),
    MigrateToggles := fun sp => (sp, false),
    MchIsValid := fun _ => true,
    AvailabilityConfigIsValid := fun a => decide (a = "High" ∨ a = "Basic"),
    DefaultSSLCiphers := ["ECDHE-RSA-AES256-GCM-SHA384"],
    HAHigh := "High" }

/-- The environment `quietEnv` with the hub `m` stored under every name. -/
def envWithHub (m : MultiClusterHub) : Env Unit :=
  { quietEnv with Get := fun _ _ => .ok m }

/-- The environment `base` in which the helper call `c` returns the outcome `out`. -/
def withOutcome (base : Env Unit) (c : Call) (out : Outcome) : Env Unit :=
  { base with exec := fun c1 m cl => if c1 = c then (out, m.Status, ()) else base.exec c1 m cl }

/-- An example hub: named `hub` in namespace `ocm`, high availability, with the finalizers,
deletion timestamp, pause marker and components given. -/
def exampleHub (finalizers : List String) (deletion : Option Nat) (paused : Bool)
    (components : List ComponentConfig) : MultiClusterHub :=
  { Name := "hub", Namespace := "ocm", DeletionTimestamp := deletion, Finalizers := finalizers,
    AnnotationPause := paused, AnnotationImageRepo := "", AnnotationImageOverridesCM := "",
    Spec := { Components := components, EnableClusterBackup := false,
              SeparateCertificateManagement := false, DisableHubSelfManagement := false,
              AvailabilityConfig := "High", SSLCiphers := ["ECDHE-RSA-AES256-GCM-SHA384"] },
    Status := { HubConditions := [], CurrentVersion := "2.5.0", DesiredVersion := "2.5.0" } }

/-- An example state around the hub `m`: empty cache with a known ingress domain, the three
environment variables set, empty trace. -/
def exampleSt (m : MultiClusterHub) : St Unit :=
  { hub := m,
    cache := { ImageOverrides := [], ManifestVersion := "", ImageRepository := "",
               ImageOverridesCM := "", IngressDomain := "apps.example.com" },
    environ := [("CRDS_PATH", "/crds"), ("TEMPLATES_PATH", "/templates"),
                ("ACM_HUB_OCP_VERSION", "4.10.0")],
    cluster := (),
    trace := [] }

/-! ## Reference notions for `Reconcile` -/

/-- The state in which the teardown starts: the state of the pass with the `Terminating`
condition set. -/
def teardownStart {C : Type} (env : Env C) (s : St C) : St C :=
  { s with
    hub := { s.hub with
      Status := (SetHubCondition s.hub.Status
        (NewHubCondition (env.Now s.cluster) HubConditionType.Terminating
          ConditionStatus.ConditionTrue DeleteTimestampReason
          "Multiclusterhub is being cleaned up.")) },
    trace := s.trace ++
      [Event.SetHubCondition (NewHubCondition (env.Now s.cluster) HubConditionType.Terminating
        ConditionStatus.ConditionTrue DeleteTimestampReason
        "Multiclusterhub is being cleaned up.")] }

/-- The state `s` with `hubFinalizer` taken off the finalizer list of the hub. -/
def withoutFinalizer {C : Type} (s : St C) : St C :=
  { s with hub := { s.hub with Finalizers := remove s.hub.Finalizers hubFinalizer } }

/-- How the deferred function of `Reconcile` combines the outcome `r` of the pass with the
outcome `status` of the status sync. -/
def combine (r status : Outcome) : Outcome :=
  (if r.1 = Result.empty then status.1 else r.1, if r.2 = none then status.2 else r.2)

/-- Whether a call is the status sync. -/
def isSync (c : Call) : Bool :=
  match c with
  | Call.syncHubStatus _ => true
  | _ => false

/-- Whether a call is the update of the hub object. -/
def isUpdate (c : Call) : Bool :=
  match c with
  | Call.Update _ => true
  | _ => false

/-- The part of a state that no helper call changes: the hub without its status, the cache
and the process environment. -/
def frame {C : Type} (s : St C) :
    (String × String × Option Nat × List String × Bool × String × String × MultiClusterHubSpec)
      × CacheSpec × List (String × String) :=
  ((s.hub.Name, s.hub.Namespace, s.hub.DeletionTimestamp, s.hub.Finalizers,
    s.hub.AnnotationPause, s.hub.AnnotationImageRepo, s.hub.AnnotationImageOverridesCM,
    s.hub.Spec), s.cache, s.environ)

/-- The state in which the pass starts when the hub `m` has been fetched: the four calls of
the loading phase made. -/
def passStart {C : Type} (env : Env C) (req : Request) (m : MultiClusterHub) (s : St C) : St C :=
  afterCalls env [Call.listDeployments, Call.listHelmReleases, Call.listCustomResources]
    { s with hub := m, trace := s.trace ++ [Event.call (Call.Get req) (Result.empty, none)] }

/-- The state in which the teardown ends: `finalizeHub` run from `teardownStart`. -/
def teardownEnd {C : Type} (env : Env C) (s : St C) : St C :=
  ((finalizeHub env : Proc C Outcome (Option Error)) (teardownStart env s)).2

/-- The hub object that the deletion branch hands to `r.Client.Update` after a successful
teardown: the hub as the teardown left it, with `hubFinalizer` taken off. -/
def persisted {C : Type} (env : Env C) (s : St C) : MultiClusterHub :=
  (withoutFinalizer (teardownEnd env s)).hub

/-- The calls that only the convergence steps make: defaulting, image overrides, upgrade
check, labelling, CRD install and template deployment, pull-secret check, the ensure-present
and ensure-absent helpers, import of the hub, console plugin registration and the removal
sweep. -/
def isConvergenceCall (c : Call) : Bool :=
  match c with
  | Call.GetClusterVersion => true
  | Call.Setenv _ _ => true
  | Call.manifestGetImageOverrides => true
  | Call.overrideOauthImage => true
  | Call.OverrideImagesFromConfigmap _ _ => true
  | Call.maintainImageManifestConfigmap => true
  | Call.CustomSelfMgmtHubUpgradeRequired => true
  | Call.BeginEnsuringHubIsUpgradeable => true
  | Call.labelDeployments => true
  | Call.ensureNoSubscription _ => true
  | Call.ensureSubscription _ => true
  | Call.ensureSubscriptionOperatorIsRunning => true
  | Call.ReadDir _ => true
  | Call.ReadFile _ _ => true
  | Call.Deploy _ => true
  | Call.ensurePullSecretCreated _ => true
  | Call.ensureDeployment _ => true
  | Call.ensureService _ => true
  | Call.ensureChannel _ => true
  | Call.ensureNoDeployment _ => true
  | Call.ensureNoService _ => true
  | Call.ensureNoUnstructured _ => true
  | Call.ensureMultiClusterEngine => true
  | Call.GetIngress => true
  | Call.ensureNamespace _ => true
  | Call.ensureNoNamespace _ => true
  | Call.ensureHubIsImported => true
  | Call.addPluginToConsole => true
  | Call.ensureRemovalsGone => true
  | _ => false

/-- A hub in deletion that carries `hubFinalizer` and one more finalizer. -/
def deletedHub : MultiClusterHub := exampleHub ["keep.me", hubFinalizer] (some 1) false []

/-- An environment that stores `deletedHub` and in which the teardown stage `cleanupCRDs`
fails. -/
def stuckEnv : Env Unit :=
  withOutcome (envWithHub deletedHub) Call.cleanupCRDs (Result.empty, some "crds remain")

/-- The environment `base` in which the status sync started from the status of `deletedHub`
fails with a conflict. -/
def syncFails (base : Env Unit) : Env Unit :=
  withOutcome base (Call.syncHubStatus deletedHub.Status) (Result.empty, some "conflict")

/-- The request for the example hub. -/
def exampleReq : Request := ⟨"hub", "ocm"⟩

/-- The state before `Reconcile` runs in the examples: no hub object yet. -/
def startSt : St Unit := exampleSt MultiClusterHub.zero

/-- A paused hub with no condition yet. -/
def pausedHub : MultiClusterHub := exampleHub [hubFinalizer] none true []

/-- A paused hub whose status already holds a `Progressing` condition with reason `Paused`
and status `True`. -/
def pausedHubTrue : MultiClusterHub :=
  { pausedHub with
    Status := { HubConditions := [⟨HubConditionType.Progressing, ConditionStatus.ConditionTrue,
                  PausedReason, "Multiclusterhub is paused", 7, 7⟩],
                CurrentVersion := "2.5.0", DesiredVersion := "2.5.0" } }

/-! ## Reference notions for the component stage -/

/-- The call the specification expects for an optional component (§4.6 step 11):
ensure-present of its desired body if the component is enabled, ensure-absent of the same
body if it is not. -/
def expectedCall (m : MultiClusterHub) (cache : CacheSpec) (c : Component)
    (body : CacheSpec → Desired) : Call :=
  if m.Enabled c = true then Call.ensureSubscription (body cache)
  else Call.ensureNoSubscription (body cache)

/-- The optional components in the fixed order of the claim, each with the factory of its
desired subscription. -/
def componentOrder : List (Component × (CacheSpec → Desired)) :=
  [(Component.ManagementIngress, subscription.ManagementIngress),
   (Component.Console, subscription.Console),
   (Component.Insights, subscription.Insights),
   (Component.GRC, subscription.GRC),
   (Component.ClusterLifecycle, subscription.ClusterLifecycle),
   (Component.Volsync, subscription.Volsync),
   (Component.Search, subscription.Search),
   (Component.ClusterBackup, subscription.ClusterBackup),
   (Component.ClusterProxyAddon, subscription.ClusterProxyAddon)]

/-- The subscription calls of a complete component stage: the expected call of every
component, in order. -/
def componentPlan (m : MultiClusterHub) (cache : CacheSpec) : List Call :=
  componentOrder.map (fun p => expectedCall m cache p.1 p.2)

/-- All the calls of a complete component stage: the subscription calls, and around the one
of cluster backup the call that ensures its namespace present (before) or absent (after). -/
def componentCalls (m : MultiClusterHub) (cache : CacheSpec) : List Call :=
  [expectedCall m cache Component.ManagementIngress subscription.ManagementIngress,
   expectedCall m cache Component.Console subscription.Console,
   expectedCall m cache Component.Insights subscription.Insights,
   expectedCall m cache Component.GRC subscription.GRC,
   expectedCall m cache Component.ClusterLifecycle subscription.ClusterLifecycle,
   expectedCall m cache Component.Volsync subscription.Volsync,
   expectedCall m cache Component.Search subscription.Search] ++
  (if m.Enabled Component.ClusterBackup = true then
    [Call.ensureNamespace subscription.Namespace,
     Call.ensureSubscription (subscription.ClusterBackup cache)]
   else
    [Call.ensureNoSubscription (subscription.ClusterBackup cache),
     Call.ensureNoNamespace subscription.NamespaceUnstructured]) ++
  [expectedCall m cache Component.ClusterProxyAddon subscription.ClusterProxyAddon]

/-- Whether a call is `ensureSubscription` or `ensureNoSubscription`. -/
def isSubscriptionCall (c : Call) : Bool :=
  match c with
  | Call.ensureSubscription _ => true
  | Call.ensureNoSubscription _ => true
  | _ => false

/-- The run of a list of helper calls each followed by the guard
`if result != (ctrl.Result{}) then return result, err`. -/
def runGuarded {C : Type} (env : Env C) : List Call → St C → Flow Outcome Unit × St C
  | [], s => (Flow.next (), s)
  | c :: cs, s =>
    if (env.exec c s.hub s.cluster).1.1 ≠ Result.empty then
      (Flow.done (env.exec c s.hub s.cluster).1, afterCall env c s)
    else runGuarded env cs (afterCall env c s)

/-- The factory of the desired body of a subscription call. -/
def subscriptionFactory (c : Call) : Option Factory :=
  match c with
  | Call.ensureSubscription u => some u.factory
  | Call.ensureNoSubscription u => some u.factory
  | _ => none

/-- A hub with the console enabled and search disabled. -/
def consoleHub : MultiClusterHub :=
  exampleHub [hubFinalizer] none false [⟨Component.Console, true⟩, ⟨Component.Search, false⟩]

/-- The reason of the `Progressing` condition in the status of the hub of a state. -/
def progressingReason {C : Type} (s : St C) : Option String :=
  (GetHubCondition s.hub.Status HubConditionType.Progressing).map (fun c => c.reason)

/-- The environment `quietEnv` in which the pull-secret check of namespace `ocm` fails with
the error `err`. -/
def pullSecretFails (err : Error) : Env Unit :=
  withOutcome quietEnv (Call.ensurePullSecretCreated "ocm") (Result.empty, some err)

/-- A hub that is being converged: finalizer present, not deleted, not paused. -/
def plainHub : MultiClusterHub := exampleHub [hubFinalizer] none false []

/-- The environment `quietEnv` in which the `Get` of the cluster ingress fails. -/
def ingressFails : Env Unit :=
  { quietEnv with GetIngress := fun _ => .error "ingress not found" }

/-- A state around `plainHub` in which the ingress domain has not been cached yet. -/
def coldSt : St Unit :=
  { exampleSt plainHub with
    cache := { ImageOverrides := [], ManifestVersion := "", ImageRepository := "",
               ImageOverridesCM := "", IngressDomain := "" } }



/-- The hub `plainHub` with the given current and desired versions, cluster-backup switch and
conditions. -/
def upgradeHub (cur des : String) (backup : Bool) (conds : List HubCondition) :
    MultiClusterHub :=
  { plainHub with
    Spec := { Components := [], EnableClusterBackup := backup,
              SeparateCertificateManagement := false, DisableHubSelfManagement := false,
              AvailabilityConfig := "High", SSLCiphers := ["ECDHE-RSA-AES256-GCM-SHA384"] },
    Status := { HubConditions := conds, CurrentVersion := cur, DesiredVersion := des } }

/-- A `Blocked` condition left by an earlier pass. -/
def staleBlocked : HubCondition :=
  ⟨HubConditionType.Blocked, ConditionStatus.ConditionTrue, ResourceBlockReason,
    "When upgrading from version 2.4 to 2.5, cluster backup must be disabled", 3, 3⟩

/-! ## Reference notions for statements about runs -/

/-- The postcondition of a run given by a condition `A` on the events after which the run
goes on (or panics) and a condition `B r` on the events after which it returns `r`. -/
def Post {ρ α : Type} (A : Event → Prop) (B : ρ → Event → Prop) (fl : Flow ρ α)
    (l : List Event) : Prop :=
  match fl with
  | Flow.next _ => ∀ e ∈ l, A e
  | Flow.done r => ∀ e ∈ l, B r e
  | Flow.panic _ => ∀ e ∈ l, A e

/-- A statement about every run of `m`: the events it adds to the trace and the way it ends
satisfy `Q`. -/
def Holds {C ρ α : Type} (m : Proc C ρ α) (Q : Flow ρ α → List Event → Prop) : Prop :=
  ∀ s, ∃ l, (m s).2.trace = s.trace ++ l ∧ Q (m s).1 l

/-- The spec after the three defaulting helpers of `setDefaults`, run in the order of the
source (`SetDefaultComponents`, `DeduplicateComponents`, `MigrateToggles`), and whether one
of them reports a change. -/
def defaultedSpec {C : Type} (env : Env C) (spec : MultiClusterHubSpec) :
    MultiClusterHubSpec × Bool :=
  ((env.MigrateToggles (env.DeduplicateComponents (env.SetDefaultComponents spec).1).1).1,
    (env.SetDefaultComponents spec).2 ||
      (env.DeduplicateComponents (env.SetDefaultComponents spec).1).2 ||
      (env.MigrateToggles (env.DeduplicateComponents (env.SetDefaultComponents spec).1).1).2)

/-- Whether a defaulting or migration step of `setDefaults` changes the spec: one of the
three helpers reports a change, the list of SSL ciphers is empty (it is replaced by the
default list), or the availability config is not valid (it is replaced by `High`). -/
def specChanged {C : Type} (env : Env C) (spec : MultiClusterHubSpec) : Bool :=
  (defaultedSpec env spec).2 || decide ((defaultedSpec env spec).1.SSLCiphers.length = 0) ||
    !(env.AvailabilityConfigIsValid (defaultedSpec env spec).1.AvailabilityConfig)

/-- Lines 838-882 of `setDefaults`, from the read of the cluster version on, with the value
`updateNecessary` has there. -/
def setDefaultsVersion {C : Type} (env : Env C) (updateNecessary : Bool) :
    Proc C Outcome Outcome := do
  let clusterVersion ← must Call.GetClusterVersion env.GetClusterVersion
  (if clusterVersion.History.length = 0 ∧ env.IsUnitTest = false then
    ret (Result.empty, none)
  else pure ())
  let currentClusterVersion ← (if env.IsUnitTest = true then pure "4.9.0"
    else match clusterVersion.History with
      | v :: _ => pure v
      | [] => goPanic "index out of range [0] with length 0")
  let err ← Setenv "ACM_HUB_OCP_VERSION" currentClusterVersion
  if err ≠ none then ret (Result.empty, err)
  else if updateNecessary = true then do
    let s ← getSt
    let out ← call env (Call.Update s.hub)
    if out.2 ≠ none then ret (Result.empty, out.2) else ret (⟨true, 0⟩, none)
  else ret (Result.empty, none)

/-- What the end of `setDefaults` does, in terms of the flag `u` (`updateNecessary`), the
way it ends and the events `l` it adds: it calls `Update` only if `u` is set, at most once;
with `u` not set it returns an empty result, with an error only from the read of the cluster
version or from `Setenv`; after an `Update` without error it returns
`ctrl.Result{Requeue: true}, nil`; it always returns. -/
def versionPost (u : Bool) (fl : Flow Outcome Outcome) (l : List Event) : Prop :=
  (∀ m, Call.Update m ∈ callsOf l → u = true) ∧
  ((callsOf l).filter isUpdate).length ≤ 1 ∧
  (u = false → ∀ out, fl = Flow.done out → out.1 = Result.empty ∧
    (out.2 ≠ none → ∃ c r, Event.call c (r, out.2) ∈ l ∧
      (c = Call.GetClusterVersion ∨ ∃ k v, c = Call.Setenv k v))) ∧
  (∀ m r, Event.call (Call.Update m) (r, none) ∈ l → fl = Flow.done (⟨true, 0⟩, none)) ∧
  ((∃ out, fl = Flow.done out) ∨ ∃ msg, fl = Flow.panic msg)

/-- The state of a first pass around the hub `m`: as `exampleSt m`, but the variable
`ACM_HUB_OCP_VERSION` has not been set yet. -/
def firstPassSt (m : MultiClusterHub) : St Unit :=
  { exampleSt m with environ := [("CRDS_PATH", "/crds"), ("TEMPLATES_PATH", "/templates")] }

/-- The hub `plainHub` without a list of SSL ciphers. -/
def cipherlessHub : MultiClusterHub :=
  { plainHub with
    Spec := { Components := [], EnableClusterBackup := false,
              SeparateCertificateManagement := false, DisableHubSelfManagement := false,
              AvailabilityConfig := "High", SSLCiphers := [] } }

/-- The hub `cipherlessHub` with the default list of SSL ciphers of `quietEnv`. -/
def cipheredHub : MultiClusterHub :=
  { plainHub with
    Spec := { Components := [], EnableClusterBackup := false,
              SeparateCertificateManagement := false, DisableHubSelfManagement := false,
              AvailabilityConfig := "High", SSLCiphers := ["ECDHE-RSA-AES256-GCM-SHA384"] } }

/-- The environment `quietEnv` in which the cluster version cannot be read. -/
def versionFails : Env Unit :=
  { quietEnv with GetClusterVersion := fun _ => .error "clusterversion unavailable" }

/-! ## Reference notions for `installCRDs` -/

/-- The files of a directory listing that `installCRDs` looks at: those with the extension
`.yaml`. -/
def yamlFiles (files : List String) : List String :=
  files.filter (fun f => decide (Ext f = ".yaml"))

/-- Structural validation of a parsed definition, in the words of the specification: its
kind is `CustomResourceDefinition` and it declares a non-empty string `spec.names.kind` and
a non-empty string `spec.group`. -/
def validCRD (crd : Unstructured) : Bool :=
  match crd.specNamesKind, crd.specGroup with
  | NestedField.str k, NestedField.str g =>
    decide (crd.Kind = "CustomResourceDefinition" ∧ k ≠ "" ∧ g ≠ "")
  | _, _ => false

/-- What the specification asks of one `.yaml` file of the CRD directory: if it can be read,
parses and passes structural validation, the definition with the installer labels of the
hub; otherwise the file fails. -/
def goodCRD {C : Type} (env : Env C) (m : MultiClusterHub) (crdDir : String) (c : C)
    (fileName : String) : Option Unstructured :=
  match env.ReadFile crdDir fileName c with
  | .error _ => none
  | .ok src =>
    match env.Unmarshal src with
    | .error _ => none
    | .ok crd => if validCRD crd = true then some (AddInstallerLabel crd m.Name m.Namespace)
      else none

/-- The definitions of a directory listing that render: those of its `.yaml` files that can
be read, parse and pass validation, in the order of the listing. -/
def renderedCRDs {C : Type} (env : Env C) (m : MultiClusterHub) (crdDir : String) (c : C)
    (files : List String) : List Unstructured :=
  (yamlFiles files).filterMap (goodCRD env m crdDir c)

/-- The `.yaml` files of a directory listing that fail to read, parse or validate. -/
def failedFiles {C : Type} (env : Env C) (m : MultiClusterHub) (crdDir : String) (c : C)
    (files : List String) : List String :=
  (yamlFiles files).filter (fun f => (goodCRD env m crdDir c f).isNone)

/-- The events of reading the `.yaml` files of a directory listing. -/
def readEvents {C : Type} (env : Env C) (crdDir : String) (c : C) (files : List String) :
    List Event :=
  (yamlFiles files).map (fun f =>
    Event.call (Call.ReadFile crdDir f) (Result.empty, errOf (env.ReadFile crdDir f c)))

/-- A definition that passes structural validation. -/
def widgetCRD : Unstructured :=
  ⟨"CustomResourceDefinition", "widgets.example.com", "", [], NestedField.str "Widget",
    NestedField.str "example.com"⟩

/-- A definition that does not declare `spec.names.kind`. -/
def kindlessCRD : Unstructured :=
  ⟨"CustomResourceDefinition", "gadgets.example.com", "", [], NestedField.absent,
    NestedField.str "example.com"⟩

/-- The environment `quietEnv` with a CRD directory that lists `files`: the content of a file
is its name, `widget.yaml` parses to `widgetCRD`, `kindless.yaml` to `kindlessCRD`, and no
other file parses. -/
def crdEnv (files : List String) : Env Unit :=
  { quietEnv with
    ReadDir := fun _ _ => .ok files,
    ReadFile := fun _ f _ => .ok f,
    Unmarshal := fun src =>
      if src = "widget.yaml" then .ok widgetCRD
      else if src = "kindless.yaml" then .ok kindlessCRD
      else .error "cannot unmarshal" }

/-- A hub that has not been given `hubFinalizer` yet. -/
def freshHub : MultiClusterHub := exampleHub ["keep.me"] none false []

/-- The hub `freshHub` with `hubFinalizer` appended to its finalizers. -/
def finalizedHub : MultiClusterHub := exampleHub ["keep.me", hubFinalizer] none false []

/-- The environment `quietEnv` in which the `Update` of `finalizedHub` fails with a
conflict. -/
def updateFails : Env Unit :=
  withOutcome quietEnv (Call.Update finalizedHub) (Result.empty, some "conflict")

/-! ## `SetupWithManager`: the handlers of the watches -/

/-- The Go expression `labels[key]` on a `map[string]string`: the value of the key, the
empty string when the map does not hold it. -/
def labelValue (labels : List (String × String)) (key : String) : String :=
  (lookupKey labels key).getD ""

/-- The `DeleteFunc` of the `APIService` watch (lines 520-528), given the labels of the
deleted object; the queue is kept as the list of the requests handed to `q.Add`. -/
def apiServiceDeleteFunc (labels : List (String × String)) (q : List Request) : List Request :=
  q ++ [⟨labelValue labels "installer.name", labelValue labels "installer.namespace"⟩]

/-- The map function of the label-correlated `Deployment` watch (lines 530-537), given the
labels of the object. -/
def deploymentMapFunc (labels : List (String × String)) : List Request :=
  [⟨labelValue labels "installer.name", labelValue labels "installer.namespace"⟩]

/-- The map function of the `ClusterVersion` watch (lines 538-551), given what
`r.Client.List` returns for the hubs; `Items[0]` on an empty list is a run-time panic, given
as an error. -/
def clusterVersionMapFunc (listed : Except Error (List MultiClusterHub)) :
    Except String (List Request) :=
  match listed with
  | .ok items =>
    if items.length > 0 then
      match items with
      | mch :: _ => .ok [⟨mch.Name, mch.Namespace⟩]
      | [] => .error "index out of range [0] with length 0"
    else .ok []
  | .error _ => .ok []

/-! ## Reference notions for the error policy of a pass -/

/-- What a pass does with a non-nil error of a helper call. -/
inductive ErrorPolicy
  /-- The pass returns a non-nil error. -/
  | returned
  /-- The error is logged and the pass returns `ctrl.Result{RequeueAfter: resyncPeriod}, nil`. -/
  | requeued
  /-- The pass ends with `ctrl.Result{}, nil`. -/
  | ended
  /-- The call is followed by the guard `result != (ctrl.Result{})` only: the pass returns
  the result and the error if the result is not empty. -/
  | guarded
  /-- Nothing is specified. -/
  | unspecified
  deriving DecidableEq, Repr

/-- The policy of the deletion branch: the error of a teardown stage is logged and answered
with a timed requeue, the error of the `Update` that persists the hub is returned. -/
def teardownPolicy (c : Call) : ErrorPolicy :=
  match c with
  | Call.Update _ => ErrorPolicy.returned
  | Call.removePluginFromConsole => ErrorPolicy.requeued
  | Call.ensureHubIsExported => ErrorPolicy.requeued
  | Call.cleanupAppSubscriptions => ErrorPolicy.requeued
  | Call.cleanupNamespaces => ErrorPolicy.requeued
  | Call.cleanupFoundation => ErrorPolicy.requeued
  | Call.cleanupClusterRoles => ErrorPolicy.requeued
  | Call.cleanupClusterRoleBindings => ErrorPolicy.requeued
  | Call.cleanupMultiClusterEngine => ErrorPolicy.requeued
  | Call.cleanupCRDs => ErrorPolicy.requeued
  | Call.cleanupPullSecret => ErrorPolicy.requeued
  | Call.orphanOwnedMultiClusterEngine => ErrorPolicy.requeued
  | _ => ErrorPolicy.unspecified

/-- The policy of the convergence steps, read off `Reconcile`, `setDefaults`, `installCRDs`
and `deployResources`: the errors tested with `err != nil` and returned (for the directory
and file reads and `Deploy`, wrapped in the error of `installCRDs` or `deployResources`);
the error of `BeginEnsuringHubIsUpgradeable`, logged and answered with a timed requeue; the
error of `labelDeployments`, which ends the pass; the helpers followed only by the guard on
the result. Nothing is specified for the `Get` inside `ingressDomain`. -/
def convergencePolicy (c : Call) : ErrorPolicy :=
  match c with
  | Call.Update _ => ErrorPolicy.returned
  | Call.GetClusterVersion => ErrorPolicy.returned
  | Call.Setenv _ _ => ErrorPolicy.returned
  | Call.manifestGetImageOverrides => ErrorPolicy.returned
  | Call.overrideOauthImage => ErrorPolicy.returned
  | Call.OverrideImagesFromConfigmap _ _ => ErrorPolicy.returned
  | Call.maintainImageManifestConfigmap => ErrorPolicy.returned
  | Call.CustomSelfMgmtHubUpgradeRequired => ErrorPolicy.returned
  | Call.ensurePullSecretCreated _ => ErrorPolicy.returned
  | Call.ReadDir _ => ErrorPolicy.returned
  | Call.ReadFile _ _ => ErrorPolicy.returned
  | Call.Deploy _ => ErrorPolicy.returned
  | Call.BeginEnsuringHubIsUpgradeable => ErrorPolicy.requeued
  | Call.labelDeployments => ErrorPolicy.ended
  | Call.ensureNoSubscription _ => ErrorPolicy.guarded
  | Call.ensureSubscription _ => ErrorPolicy.guarded
  | Call.ensureSubscriptionOperatorIsRunning => ErrorPolicy.guarded
  | Call.ensureDeployment _ => ErrorPolicy.guarded
  | Call.ensureService _ => ErrorPolicy.guarded
  | Call.ensureChannel _ => ErrorPolicy.guarded
  | Call.ensureNoDeployment _ => ErrorPolicy.guarded
  | Call.ensureNoService _ => ErrorPolicy.guarded
  | Call.ensureNoUnstructured _ => ErrorPolicy.guarded
  | Call.ensureMultiClusterEngine => ErrorPolicy.guarded
  | Call.ensureNamespace _ => ErrorPolicy.guarded
  | Call.ensureNoNamespace _ => ErrorPolicy.guarded
  | Call.ensureHubIsImported => ErrorPolicy.guarded
  | Call.ensureHubIsExported => ErrorPolicy.guarded
  | Call.addPluginToConsole => ErrorPolicy.guarded
  | Call.ensureRemovalsGone => ErrorPolicy.guarded
  | _ => ErrorPolicy.unspecified

/-- The policy of a pass: that of the deletion branch if the hub is being deleted, that of
the convergence steps otherwise. -/
def errorPolicy (deleting : Bool) (c : Call) : ErrorPolicy :=
  if deleting = true then teardownPolicy c else convergencePolicy c

/-- The outcome `ctrl.Result{RequeueAfter: resyncPeriod}, nil`. -/
def timedRequeue : Outcome := (⟨false, resyncPeriod⟩, none)

/-- The outcome `r` of a pass follows the policy `p` for a call that returned `out` with a
non-nil error. -/
def follows (p : ErrorPolicy) (out r : Outcome) : Prop :=
  match p with
  | ErrorPolicy.returned => r.2 ≠ none
  | ErrorPolicy.requeued => r = timedRequeue
  | ErrorPolicy.ended => r = (Result.empty, none)
  | ErrorPolicy.guarded => out.1 ≠ Result.empty → r = out
  | ErrorPolicy.unspecified => True

/-- Under the policy `p` a pass may go on after a call that returned `out` with a non-nil
error: nothing is specified, or the call is guarded and its result is empty. -/
def mayGoOn (p : ErrorPolicy) (out : Outcome) : Prop :=
  match p with
  | ErrorPolicy.guarded => out.1 = Result.empty
  | ErrorPolicy.unspecified => True
  | _ => False

/-- An event after which a pass may go on: not the status sync, and a call with a non-nil
error only where the policy lets the pass go on. -/
def quietEvent (pol : Call → ErrorPolicy) (e : Event) : Prop :=
  match e with
  | Event.call c out => isSync c = false ∧ (out.2 ≠ none → mayGoOn (pol c) out)
  | _ => True

/-- An event that agrees with the outcome `r` a pass returns: not the status sync, and for a
call with a non-nil error, `r` follows the policy of the call. -/
def settledEvent (pol : Call → ErrorPolicy) (r : Outcome) (e : Event) : Prop :=
  match e with
  | Event.call c out => isSync c = false ∧ (out.2 ≠ none → follows (pol c) out r)
  | _ => True

/-- An event that agrees with every outcome that carries an error. -/
def returnedEvent (pol : Call → ErrorPolicy) (e : Event) : Prop :=
  ∀ r : Outcome, r.2 ≠ none → settledEvent pol r e


/-- The postcondition of a render loop that started with `n` errors collected: it ends
normally with at least `n` errors; no event of it is the status sync, its events agree with
every outcome that carries an error, and if no error has been added, the pass may go on
after every event. -/
def renderPost {ρ α : Type} (pol : Call → ErrorPolicy) (n : Nat)
    (fl : Flow ρ (α × List Error)) (l : List Event) : Prop :=
  ∃ r, fl = Flow.next r ∧ n ≤ r.2.length ∧
    (r.2.length ≤ n → ∀ e ∈ l, quietEvent pol e) ∧ ∀ e ∈ l, returnedEvent pol e

/-- The postcondition of a deploy loop: if it goes on, the pass may go on after every event;
if it returns, it returns an error and its events agree with every outcome that carries an
error. -/
def deployPost {α : Type} (pol : Call → ErrorPolicy) (fl : Flow (String × Option Error) α)
    (l : List Event) : Prop :=
  match fl with
  | Flow.next _ => ∀ e ∈ l, quietEvent pol e
  | Flow.done r => r.2 ≠ none ∧ ∀ e ∈ l, returnedEvent pol e
  | Flow.panic _ => False

/-- The postcondition of `installCRDs` and `deployResources`: the function returns; if it
returns no error, the pass may go on after every event; in any case its events agree with
every outcome that carries an error. -/
def fnPost {σ : Type} (pol : Call → ErrorPolicy) (fl : Flow σ (String × Option Error))
    (l : List Event) : Prop :=
  ∃ r, fl = Flow.next r ∧ (r.2 = none → ∀ e ∈ l, quietEvent pol e) ∧
    ∀ e ∈ l, returnedEvent pol e

/-- An environment that stores `plainHub` and in which the listing of the deployments
fails. -/
def listingFails : Env Unit :=
  withOutcome (envWithHub plainHub) Call.listDeployments
    (Result.empty, some "deployments unavailable")

/-- The hub `deletedHub` with the `Terminating` condition that an earlier pass has set. -/
def terminatingHub : MultiClusterHub :=
  { deletedHub with
    Status := { HubConditions := [⟨HubConditionType.Terminating, ConditionStatus.ConditionTrue,
                  DeleteTimestampReason, "Multiclusterhub is being cleaned up.", 5, 5⟩],
                CurrentVersion := "2.5.0", DesiredVersion := "2.5.0" } }

/-- An environment that stores `terminatingHub` and in which the teardown stage
`cleanupCRDs` fails. -/
def stuckTerminating : Env Unit :=
  withOutcome (envWithHub terminatingHub) Call.cleanupCRDs (Result.empty, some "crds remain")

/-! ## Reference notions for runs that return -/

/-- The postcondition of a run that does not end in a run-time panic of Go: the run goes on
to the next statement or returns. -/
def Returns {ρ α : Type} (fl : Flow ρ α) (_ : List Event) : Prop :=
  match fl with
  | Flow.next _ => True
  | Flow.done _ => True
  | Flow.panic _ => False

/-- Lines 862-882 of `setDefaults`, from the setting of `ACM_HUB_OCP_VERSION` on, with the
values `currentClusterVersion` and `updateNecessary` have there. -/
def setDefaultsPersist {C : Type} (env : Env C) (currentClusterVersion : String)
    (updateNecessary : Bool) : Proc C Outcome Outcome := do
  let err ← Setenv "ACM_HUB_OCP_VERSION" currentClusterVersion
  if err ≠ none then ret (Result.empty, err)
  else if updateNecessary = true then do
    let s ← getSt
    let out ← call env (Call.Update s.hub)
    if out.2 ≠ none then ret (Result.empty, out.2) else ret (⟨true, 0⟩, none)
  else ret (Result.empty, none)

/-- The environment `quietEnv` in which the cluster version has no history yet. -/
def noHistory : Env Unit :=
  { quietEnv with GetClusterVersion := fun _ => .ok ⟨[]⟩ }

/-! ## Reference notions for the guards of the component stage -/

/-- Whether the guard `if result != (ctrl.Result{})` lets the pass go on after every call of
the list, the calls made in order from `s`: each of them returns the empty result. -/
def passes {C : Type} (env : Env C) : List Call → St C → Bool
  | [], _ => true
  | c :: cs, s =>
    decide ((env.exec c s.hub s.cluster).1.1 = Result.empty) && passes env cs (afterCall env c s)

/-- A hub with cluster backup enabled. -/
def backupHub : MultiClusterHub :=
  exampleHub [hubFinalizer] none false [⟨Component.ClusterBackup, true⟩]

/-- The environment `quietEnv` in which ensuring the namespace of cluster backup asks for a
requeue. -/
def namespacePending : Env Unit :=
  withOutcome quietEnv (Call.ensureNamespace subscription.Namespace) (⟨true, 0⟩, none)

/-- The environment `quietEnv` in which the directory of the templates cannot be read. -/
def unreadableTemplates : Env Unit :=
  { quietEnv with ReadDir := fun _ _ => .error "no such directory" }

/-- The environment `quietEnv` in which every directory holds the one file `cm.yaml`, which
does not parse. -/
def brokenTemplate : Env Unit :=
  { quietEnv with ReadDir := fun _ _ => .ok ["cm.yaml"] }

/-- The state of `Reconcile` when the hub `m` has been fetched: the `Get` is recorded, no
listing has been made yet. -/
def fetched {C : Type} (req : Request) (m : MultiClusterHub) (s : St C) : St C :=
  { s with hub := m, trace := s.trace ++ [Event.call (Call.Get req) (Result.empty, none)] }

/-- An environment that stores `plainHub` and in which the listing of the helm releases
fails. -/
def helmListingFails : Env Unit :=
  withOutcome (envWithHub plainHub) Call.listHelmReleases
    (Result.empty, some "helm releases unavailable")
/-! ## Reading runs -/

@[simp] theorem bind_apply {C ρ α β : Type} (m : Proc C ρ α) (f : α → Proc C ρ β) (s : St C) :
    (m >>= f) s = match m s with
      | (.next a, s1) => f a s1
      | (.done r, s1) => (.done r, s1)
      | (.panic msg, s1) => (.panic msg, s1) := rfl

@[simp] theorem pure_apply {C ρ α : Type} (a : α) (s : St C) :
    (pure a : Proc C ρ α) s = (.next a, s) := rfl

@[simp] theorem ret_apply {C ρ α : Type} (r : ρ) (s : St C) :
    (ret r : Proc C ρ α) s = (.done r, s) := rfl

@[simp] theorem getSt_apply {C ρ : Type} (s : St C) :
    (getSt : Proc C ρ (St C)) s = (.next s, s) := rfl

theorem call_apply {C ρ : Type} (env : Env C) (c : Call) (s : St C) :
    (call env c : Proc C ρ Outcome) s =
      (.next (env.exec c s.hub s.cluster).1, afterCall env c s) := rfl

theorem stage_apply {C : Type} (env : Env C) (c : Call) (s : St C) :
    stage env c s = match errorOf env c s with
      | some e => (.done (some e), afterCall env c s)
      | none => (.next (), afterCall env c s) := by
  simp only [stage, bind_apply, call_apply, errorOf]
  cases h : (env.exec c s.hub s.cluster).1.2 <;> simp [h]

@[simp] theorem afterCall_spec {C : Type} (env : Env C) (c : Call) (s : St C) :
    (afterCall env c s).hub.Spec = s.hub.Spec := rfl

@[simp] theorem afterCall_finalizers {C : Type} (env : Env C) (c : Call) (s : St C) :
    (afterCall env c s).hub.Finalizers = s.hub.Finalizers := rfl

@[simp] theorem afterCall_trace {C : Type} (env : Env C) (c : Call) (s : St C) :
    (afterCall env c s).trace = s.trace ++ [Event.call c (env.exec c s.hub s.cluster).1] := rfl

theorem fn_pure {C ρ σ : Type} (r : ρ) (s : St C) :
    (Proc.fn (pure r : Proc C ρ ρ) : Proc C σ ρ) s = (.next r, s) := rfl

theorem fn_pure_bind {C ρ σ α : Type} (a : α) (f : α → Proc C ρ ρ) (s : St C) :
    (Proc.fn (pure a >>= f) : Proc C σ ρ) s = (Proc.fn (f a) : Proc C σ ρ) s := rfl

theorem fn_getSt_bind {C ρ σ : Type} (f : St C → Proc C ρ ρ) (s : St C) :
    (Proc.fn (getSt >>= f) : Proc C σ ρ) s = (Proc.fn (f s) : Proc C σ ρ) s := rfl

theorem fn_stage_bind {C σ : Type} (env : Env C) (c : Call)
    (f : Unit → Proc C (Option Error) (Option Error)) (s : St C) :
    (Proc.fn (stage env c >>= f) : Proc C σ (Option Error)) s = match errorOf env c s with
      | some e => (.next (some e), afterCall env c s)
      | none => (Proc.fn (f ()) : Proc C σ (Option Error)) (afterCall env c s) := by
  simp only [Proc.fn, bind_apply, stage_apply]
  cases errorOf env c s <;> rfl

/-! ## The teardown pipeline -/

theorem finalizeHub_eq_runStages {C σ : Type} (env : Env C) (s : St C) :
    (finalizeHub env : Proc C σ (Option Error)) s =
      (.next (runStages env (stagesOf env s) s).1, (runStages env (stagesOf env s) s).2) := by
  unfold finalizeHub stagesOf
  cases hp : env.pluginIsSupported s.hub s.cluster <;>
  cases hq : s.hub.Spec.SeparateCertificateManagement <;>
  simp only [teardownStages, runStages, if_true, if_false, List.append, List.nil_append,
    List.cons_append, Bool.false_eq_true, fn_pure, fn_pure_bind, fn_getSt_bind,
    fn_stage_bind, afterCall_spec, hp, hq] <;>
  (repeat' split) <;> rfl

theorem afterCalls_nil {C : Type} (env : Env C) (s : St C) : afterCalls env [] s = s := rfl

theorem afterCalls_cons {C : Type} (env : Env C) (c : Call) (cs : List Call) (s : St C) :
    afterCalls env (c :: cs) s = afterCalls env cs (afterCall env c s) := rfl

theorem runStages_first_error {C : Type} (env : Env C) :
    ∀ (cs : List Call) (s : St C) (k : Nat) (ck : Call) (e : Error),
      cs[k]? = some ck →
      (∀ j c, j < k → cs[j]? = some c → errorOf env c (afterCalls env (cs.take j) s) = none) →
      errorOf env ck (afterCalls env (cs.take k) s) = some e →
      runStages env cs s = (some e, afterCalls env (cs.take (k + 1)) s) := by
  intro cs
  induction cs with
  | nil => intro s k ck e hk; simp at hk
  | cons c cs ih =>
    intro s k ck e hk hbefore hfail
    cases k with
    | zero =>
      simp only [List.getElem?_cons_zero, Option.some.injEq] at hk
      subst hk
      simp only [List.take_zero, afterCalls_nil] at hfail
      simp [runStages, hfail, afterCalls_cons, afterCalls_nil]
    | succ k =>
      have h0 : errorOf env c s = none := by
        have := hbefore 0 c (Nat.succ_pos k) (by simp)
        simpa [afterCalls_nil] using this
      simp only [List.getElem?_cons_succ] at hk
      simp only [runStages, h0, List.take_succ_cons, afterCalls_cons]
      apply ih (afterCall env c s) k ck e hk
      · intro j c1 hj hc1
        have := hbefore (j + 1) c1 (Nat.succ_lt_succ hj) (by simpa using hc1)
        simpa [afterCalls_cons] using this
      · simpa [afterCalls_cons] using hfail

theorem runStages_no_error {C : Type} (env : Env C) :
    ∀ (cs : List Call) (s : St C),
      (∀ j c, cs[j]? = some c → errorOf env c (afterCalls env (cs.take j) s) = none) →
      runStages env cs s = (none, afterCalls env cs s) := by
  intro cs
  induction cs with
  | nil => intro s _; rfl
  | cons c cs ih =>
    intro s h
    have h0 : errorOf env c s = none := by
      have := h 0 c (by simp)
      simpa [afterCalls_nil] using this
    simp only [runStages, h0, afterCalls_cons]
    apply ih
    intro j c1 hc1
    have := h (j + 1) c1 (by simpa using hc1)
    simpa [afterCalls_cons] using this

theorem afterCalls_trace {C : Type} (env : Env C) :
    ∀ (cs : List Call) (s : St C),
      ∃ l, (afterCalls env cs s).trace = s.trace ++ l ∧ callsOf l = cs := by
  intro cs
  induction cs with
  | nil => intro s; exact ⟨[], by simp [afterCalls_nil], rfl⟩
  | cons c cs ih =>
    intro s
    obtain ⟨l, hl, hc⟩ := ih (afterCall env c s)
    refine ⟨Event.call c (env.exec c s.hub s.cluster).1 :: l, ?_, ?_⟩
    · simp [afterCalls_cons, hl]
    · simp [callsOf, List.filterMap_cons] at hc ⊢
      exact hc

theorem newCalls_afterCalls {C : Type} (env : Env C) (cs : List Call) (s : St C) :
    newCalls s (afterCalls env cs s) = cs := by
  obtain ⟨l, hl, hc⟩ := afterCalls_trace env cs s
  simp [newCalls, newEvents, hl, hc]

theorem teardownStages_nodup (p q : Bool) : (teardownStages p q).Nodup := by
  cases p <;> cases q <;> decide

/-- C1: `finalizeHub` runs the teardown stages that apply in the fixed order and stops at the
first failure. If stage `k` of the list is the first one to return an error `e`, then
`finalizeHub` returns `e`, the stages it has called are exactly the stages up to and
including `k`, each of them once, and no stage after `k` has been called. -/
theorem finalizeHub_fail_fast {C σ : Type} (env : Env C) (s : St C) (k : Nat) (ck : Call)
    (e : Error)
    (hk : (stagesOf env s)[k]? = some ck)
    (hbefore : ∀ j c, j < k → (stagesOf env s)[j]? = some c →
      errorOf env c (afterCalls env ((stagesOf env s).take j) s) = none)
    (hfail : errorOf env ck (afterCalls env ((stagesOf env s).take k) s) = some e) :
    ((finalizeHub env : Proc C σ (Option Error)) s).1 = Flow.next (some e) ∧
    newCalls s ((finalizeHub env : Proc C σ (Option Error)) s).2
      = (stagesOf env s).take (k + 1) ∧
    (∀ c ∈ (stagesOf env s).take (k + 1),
      (newCalls s ((finalizeHub env : Proc C σ (Option Error)) s).2).count c = 1) ∧
    (∀ c ∈ (stagesOf env s).drop (k + 1),
      c ∉ newCalls s ((finalizeHub env : Proc C σ (Option Error)) s).2) := by
  have hrun := runStages_first_error env (stagesOf env s) s k ck e hk hbefore hfail
  have hcalls : newCalls s ((finalizeHub env : Proc C σ (Option Error)) s).2
      = (stagesOf env s).take (k + 1) := by
    rw [finalizeHub_eq_runStages, hrun]
    exact newCalls_afterCalls env _ s
  have hnodup : (stagesOf env s).Nodup := teardownStages_nodup _ _
  have hsplit : ((stagesOf env s).take (k + 1) ++ (stagesOf env s).drop (k + 1)).Nodup := by
    rw [List.take_append_drop]; exact hnodup
  rw [List.nodup_append] at hsplit
  refine ⟨?_, hcalls, ?_, ?_⟩
  · rw [finalizeHub_eq_runStages, hrun]
  · intro c hc
    rw [hcalls]
    exact List.count_eq_one_of_mem hsplit.1 hc
  · intro c hc hmem
    rw [hcalls] at hmem
    exact hsplit.2.2 hmem hc

/-- C1, an instance: with the plugin unsupported and `cleanupNamespaces` failing, the export
of the hub and the cleanup of the subscriptions have run, then `cleanupNamespaces`, and
nothing else. -/
theorem finalizeHub_fail_fast_witness :
    ((finalizeHub (withOutcome quietEnv Call.cleanupNamespaces (Result.empty, some "busy")) :
        Proc Unit Unit (Option Error)) (exampleSt (exampleHub [hubFinalizer] (some 1) false []))).1
      = Flow.next (some "busy") ∧
    newCalls (exampleSt (exampleHub [hubFinalizer] (some 1) false []))
      ((finalizeHub (withOutcome quietEnv Call.cleanupNamespaces (Result.empty, some "busy")) :
        Proc Unit Unit (Option Error)) (exampleSt (exampleHub [hubFinalizer] (some 1) false []))).2
      = [Call.ensureHubIsExported, Call.cleanupAppSubscriptions, Call.cleanupNamespaces] := by
  have h := finalizeHub_fail_fast (σ := Unit)
    (withOutcome quietEnv Call.cleanupNamespaces (Result.empty, some "busy"))
    (exampleSt (exampleHub [hubFinalizer] (some 1) false [])) 2 Call.cleanupNamespaces "busy"
    (by decide)
    (by
      intro j c hj hc
      interval_cases j
      · have : c = Call.ensureHubIsExported := by
          have h0 : (stagesOf (withOutcome quietEnv Call.cleanupNamespaces (Result.empty, some "busy"))
            (exampleSt (exampleHub [hubFinalizer] (some 1) false [])))[0]? = some Call.ensureHubIsExported := by decide
          rw [h0] at hc; exact (Option.some.inj hc).symm
        subst this; rfl
      · have : c = Call.cleanupAppSubscriptions := by
          have h0 : (stagesOf (withOutcome quietEnv Call.cleanupNamespaces (Result.empty, some "busy"))
            (exampleSt (exampleHub [hubFinalizer] (some 1) false [])))[1]? = some Call.cleanupAppSubscriptions := by decide
          rw [h0] at hc; exact (Option.some.inj hc).symm
        subst this; rfl)
    (by rfl)
  exact ⟨h.1, h.2.1⟩

/-! ## The deletion branch and the deferred status sync -/

theorem setHubCondition_apply {C ρ : Type} (env : Env C) (t : HubConditionType)
    (st : ConditionStatus) (reason message : String) (s : St C) :
    (setHubCondition env t st reason message : Proc C ρ Unit) s =
      (.next (),
        { s with
          hub := { s.hub with
            Status := (SetHubCondition s.hub.Status
              (NewHubCondition (env.Now s.cluster) t st reason message)) },
          trace := s.trace ++
            [Event.SetHubCondition (NewHubCondition (env.Now s.cluster) t st reason message)] }) :=
  rfl

theorem modifyHub_apply {C ρ : Type} (f : MultiClusterHub → MultiClusterHub) (s : St C) :
    (modifyHub f : Proc C ρ Unit) s = (.next (), { s with hub := f s.hub }) := rfl

theorem setTerminating_apply {C ρ : Type} (env : Env C) (s : St C) :
    (setHubCondition env HubConditionType.Terminating ConditionStatus.ConditionTrue
      DeleteTimestampReason "Multiclusterhub is being cleaned up." : Proc C ρ Unit) s =
      (.next (), teardownStart env s) := rfl

theorem removeFinalizer_apply {C ρ : Type} (s : St C) :
    (modifyHub (fun m => { m with Finalizers := remove m.Finalizers hubFinalizer }) :
      Proc C ρ Unit) s = (.next (), withoutFinalizer s) := rfl

@[simp] theorem teardownStart_finalizers {C : Type} (env : Env C) (s : St C) :
    (teardownStart env s).hub.Finalizers = s.hub.Finalizers := rfl

@[simp] theorem ite_apply_proc {C ρ α : Type} (c : Prop) [Decidable c] (a b : Proc C ρ α)
    (s : St C) : (if c then a else b) s = if c then a s else b s := by
  split <;> rfl

theorem deletionBranch_apply {C : Type} (env : Env C) (s : St C) :
    deletionBranch env s =
      if contains s.hub.Finalizers hubFinalizer = true then
        match runStages env (stagesOf env (teardownStart env s)) (teardownStart env s) with
        | (some _, s2) => (.done (⟨false, resyncPeriod⟩, none), s2)
        | (none, s2) =>
          (.done (Result.empty, errorOf env (Call.Update (withoutFinalizer s2).hub)
              (withoutFinalizer s2)),
            afterCall env (Call.Update (withoutFinalizer s2).hub) (withoutFinalizer s2))
      else (.done (Result.empty, none), teardownStart env s) := by
  simp only [deletionBranch, bind_apply, setTerminating_apply, getSt_apply, ite_apply_proc,
    teardownStart_finalizers, finalizeHub_eq_runStages, removeFinalizer_apply, call_apply,
    ret_apply]
  split
  · rcases runStages env (stagesOf env (teardownStart env s)) (teardownStart env s)
      with ⟨_ | e, s2⟩
    · simp only [ne_eq, not_true_eq_false, if_false, errorOf]
      cases (env.exec (Call.Update (withoutFinalizer s2).hub) (withoutFinalizer s2).hub
        (withoutFinalizer s2).cluster).1.2 <;> simp
    · simp
  · rfl

theorem reconcilePass_deleting {C : Type} (env : Env C) (s : St C)
    (h : s.hub.DeletionTimestamp.isSome = true) :
    reconcilePass env s = deletionBranch env s := by
  simp [reconcilePass, h]

theorem reconcilePass_converging {C : Type} (env : Env C) (s : St C)
    (h : s.hub.DeletionTimestamp.isSome = false) :
    reconcilePass env s = convergencePass env s := by
  simp [reconcilePass, h]

theorem Reconcile_apply {C σ : Type} (env : Env C) (req : Request) (s s1 : St C)
    (hload : loadHub env req s = (Flow.next (), s1)) :
    (Reconcile env req : Proc C σ Outcome) s =
      match reconcilePass env s1 with
      | (.next r, s2) =>
        (.next (combine r (env.exec (Call.syncHubStatus s1.hub.Status) s2.hub s2.cluster).1),
          afterCall env (Call.syncHubStatus s1.hub.Status) s2)
      | (.done r, s2) =>
        (.next (combine r (env.exec (Call.syncHubStatus s1.hub.Status) s2.hub s2.cluster).1),
          afterCall env (Call.syncHubStatus s1.hub.Status) s2)
      | (.panic msg, s2) => (.panic msg, afterCall env (Call.syncHubStatus s1.hub.Status) s2) := by
  simp only [Reconcile, Proc.fn, bind_apply, hload, getSt_apply, withDefer, deferredSync,
    call_apply, pure_apply, combine]
  rcases reconcilePass env s1 with ⟨_ | _ | _, s2⟩ <;> rfl

@[simp] theorem afterCall_frame {C : Type} (env : Env C) (c : Call) (s : St C) :
    frame (afterCall env c s) = frame s := rfl

@[simp] theorem teardownStart_frame {C : Type} (env : Env C) (s : St C) :
    frame (teardownStart env s) = frame s := rfl

theorem frame_finalizers {C : Type} (s s1 : St C) (h : frame s1 = frame s) :
    s1.hub.Finalizers = s.hub.Finalizers := by
  simp only [frame, Prod.mk.injEq] at h
  exact h.1.2.2.2.1

theorem frame_spec {C : Type} (s s1 : St C) (h : frame s1 = frame s) :
    s1.hub.Spec = s.hub.Spec := by
  simp only [frame, Prod.mk.injEq] at h
  exact h.1.2.2.2.2.2.2.2

theorem frame_deletion {C : Type} (s s1 : St C) (h : frame s1 = frame s) :
    s1.hub.DeletionTimestamp = s.hub.DeletionTimestamp := by
  simp only [frame, Prod.mk.injEq] at h
  exact h.1.2.2.1

theorem runStages_frame {C : Type} (env : Env C) :
    ∀ (cs : List Call) (s : St C), frame (runStages env cs s).2 = frame s := by
  intro cs
  induction cs with
  | nil => intro s; rfl
  | cons c cs ih =>
    intro s
    simp only [runStages]
    cases errorOf env c s with
    | none => simp only [ih, afterCall_frame]
    | some e => simp only [afterCall_frame]

theorem runStages_trace {C : Type} (env : Env C) :
    ∀ (cs : List Call) (s : St C),
      ∃ l, (runStages env cs s).2.trace = s.trace ++ l ∧ ∃ n, callsOf l = cs.take n := by
  intro cs
  induction cs with
  | nil => intro s; exact ⟨[], by simp [runStages], 0, rfl⟩
  | cons c cs ih =>
    intro s
    simp only [runStages]
    cases errorOf env c s with
    | none =>
      obtain ⟨l, hl, n, hn⟩ := ih (afterCall env c s)
      refine ⟨Event.call c (env.exec c s.hub s.cluster).1 :: l, ?_, n + 1, ?_⟩
      · simp [hl]
      · simp only [callsOf, List.filterMap_cons, List.take_succ_cons] at hn ⊢
        rw [hn]
    | some e =>
      refine ⟨[Event.call c (env.exec c s.hub s.cluster).1], ?_, 1, ?_⟩
      · simp
      · simp [callsOf]

theorem runStages_ok_calls {C : Type} (env : Env C) :
    ∀ (cs : List Call) (s : St C), (runStages env cs s).1 = none →
      ∃ l, (runStages env cs s).2.trace = s.trace ++ l ∧ callsOf l = cs := by
  intro cs
  induction cs with
  | nil => intro s _; exact ⟨[], by simp [runStages], rfl⟩
  | cons c cs ih =>
    intro s
    simp only [runStages]
    cases errorOf env c s with
    | none =>
      intro h
      obtain ⟨l, hl, hn⟩ := ih (afterCall env c s) h
      refine ⟨Event.call c (env.exec c s.hub s.cluster).1 :: l, ?_, ?_⟩
      · simp [hl]
      · simp only [callsOf, List.filterMap_cons] at hn ⊢
        rw [hn]
    | some e => intro h; simp at h

theorem newEvents_append {C : Type} (s s1 : St C) (l : List Event)
    (h : s1.trace = s.trace ++ l) : newEvents s s1 = l := by
  simp [newEvents, h]

theorem callsOf_append (l1 l2 : List Event) : callsOf (l1 ++ l2) = callsOf l1 ++ callsOf l2 := by
  simp [callsOf, List.filterMap_append]

theorem teardownStages_not_update (p q : Bool) :
    ∀ c ∈ teardownStages p q, isUpdate c = false := by
  cases p <;> cases q <;> decide

theorem teardownStages_not_sync (p q : Bool) :
    ∀ c ∈ teardownStages p q, isSync c = false := by
  cases p <;> cases q <;> decide

theorem teardownStages_sublist (p q : Bool) :
    ∀ c ∈ teardownStages p q, c ∈ teardownStages true true := by
  cases p <;> cases q <;> decide

theorem loadHub_next {C : Type} (env : Env C) (req : Request) (s s1 : St C)
    (h : loadHub env req s = (Flow.next (), s1)) :
    ∃ m, env.Get req s.cluster = .ok m ∧ s1 = passStart env req m s := by
  simp only [loadHub, bind_apply, modifyHub_apply] at h
  unfold ask at h
  simp only at h
  cases hg : env.Get req s.cluster with
  | error err =>
    simp only [hg, ite_apply_proc, ret_apply] at h
    split at h <;> simp at h
  | ok m =>
    refine ⟨m, rfl, ?_⟩
    simp only [hg, bind_apply, modifyHub_apply, call_apply, ite_apply_proc, ret_apply,
      pure_apply, errOf] at h
    split at h
    · simp at h
    · split at h
      · simp at h
      · split at h
        · simp at h
        · simp only [Prod.mk.injEq, true_and] at h
          rw [← h]
          rfl

theorem passStart_frame {C : Type} (env : Env C) (req : Request) (m : MultiClusterHub)
    (s : St C) :
    (passStart env req m s).hub.Finalizers = m.Finalizers ∧
    (passStart env req m s).hub.DeletionTimestamp = m.DeletionTimestamp ∧
    (passStart env req m s).hub.Spec = m.Spec := ⟨rfl, rfl, rfl⟩

theorem passStart_calls {C : Type} (env : Env C) (req : Request) (m : MultiClusterHub)
    (s : St C) :
    ∃ l, (passStart env req m s).trace = s.trace ++ l ∧
      callsOf l = [Call.Get req, Call.listDeployments, Call.listHelmReleases,
        Call.listCustomResources] := by
  obtain ⟨l, hl, hc⟩ := afterCalls_trace env
    [Call.listDeployments, Call.listHelmReleases, Call.listCustomResources]
    { s with hub := m, trace := s.trace ++ [Event.call (Call.Get req) (Result.empty, none)] }
  refine ⟨Event.call (Call.Get req) (Result.empty, none) :: l, ?_, ?_⟩
  · simp only [passStart, hl, List.append_assoc, List.singleton_append]
  · simp only [callsOf, List.filterMap_cons] at hc ⊢
    rw [hc]

theorem finalizeHub_frame {C σ : Type} (env : Env C) (s : St C) :
    frame ((finalizeHub env : Proc C σ (Option Error)) s).2 = frame s := by
  rw [finalizeHub_eq_runStages]
  exact runStages_frame env _ s

theorem finalizeHub_trace {C σ : Type} (env : Env C) (s : St C) :
    ∃ l, ((finalizeHub env : Proc C σ (Option Error)) s).2.trace = s.trace ++ l ∧
      ∃ n, callsOf l = (stagesOf env s).take n := by
  rw [finalizeHub_eq_runStages]
  exact runStages_trace env _ s

theorem timed_ne_empty : (⟨false, resyncPeriod⟩ : Result) ≠ Result.empty := by decide

theorem teardownStart_trace {C : Type} (env : Env C) (s : St C) :
    ∃ c, (teardownStart env s).trace = s.trace ++ [Event.SetHubCondition c] ∧
      c.type = HubConditionType.Terminating ∧ c.status = ConditionStatus.ConditionTrue :=
  ⟨_, rfl, rfl, rfl⟩

/-- What the deletion branch does when the finalizer is present and a teardown stage
fails. -/
theorem deletionBranch_failure {C : Type} (env : Env C) (s : St C) (e : Error)
    (hfin : contains s.hub.Finalizers hubFinalizer = true)
    (hfail : ((finalizeHub env : Proc C Outcome (Option Error)) (teardownStart env s)).1
      = Flow.next (some e)) :
    deletionBranch env s = (Flow.done (⟨false, resyncPeriod⟩, none),
      ((finalizeHub env : Proc C Outcome (Option Error)) (teardownStart env s)).2) := by
  rw [finalizeHub_eq_runStages] at hfail ⊢
  rw [deletionBranch_apply, if_pos hfin]
  simp only [Flow.next.injEq] at hfail
  rcases hr : runStages env (stagesOf env (teardownStart env s)) (teardownStart env s)
    with ⟨r, s2⟩
  rw [hr] at hfail
  simp only at hfail
  subst hfail
  rfl

/-- What the deletion branch does when the finalizer is present and every teardown stage
succeeds. -/
theorem deletionBranch_success {C : Type} (env : Env C) (s : St C)
    (hfin : contains s.hub.Finalizers hubFinalizer = true)
    (hok : ((finalizeHub env : Proc C Outcome (Option Error)) (teardownStart env s)).1
      = Flow.next none) :
    deletionBranch env s =
      (Flow.done (Result.empty,
          errorOf env (Call.Update (withoutFinalizer
            ((finalizeHub env : Proc C Outcome (Option Error)) (teardownStart env s)).2).hub)
            (withoutFinalizer
              ((finalizeHub env : Proc C Outcome (Option Error)) (teardownStart env s)).2)),
        afterCall env (Call.Update (withoutFinalizer
            ((finalizeHub env : Proc C Outcome (Option Error)) (teardownStart env s)).2).hub)
          (withoutFinalizer
            ((finalizeHub env : Proc C Outcome (Option Error)) (teardownStart env s)).2)) := by
  rw [finalizeHub_eq_runStages] at hok ⊢
  rw [deletionBranch_apply, if_pos hfin]
  simp only [Flow.next.injEq] at hok
  rcases hr : runStages env (stagesOf env (teardownStart env s)) (teardownStart env s)
    with ⟨r, s2⟩
  rw [hr] at hok
  simp only at hok
  subst hok
  rfl

/-- C2 (amended): for a hub that is loaded with its deletion timestamp set and
`hubFinalizer` among its finalizers, if `finalizeHub` returns an error then the pass returns
a requeue after `resyncPeriod` with no error; `Reconcile` returns that requeue together with
the error of the deferred status sync (no error when the status sync succeeds), leaves the
finalizer list unchanged and makes no `Update` call. -/
theorem reconcile_teardown_failure {C σ : Type} (env : Env C) (req : Request) (s s1 : St C)
    (e : Error)
    (hload : loadHub env req s = (Flow.next (), s1))
    (hdel : s1.hub.DeletionTimestamp.isSome = true)
    (hfin : contains s1.hub.Finalizers hubFinalizer = true)
    (hfail : ((finalizeHub env : Proc C Outcome (Option Error)) (teardownStart env s1)).1
      = Flow.next (some e)) :
    reconcilePass env s1 = (Flow.done (⟨false, resyncPeriod⟩, none),
      ((finalizeHub env : Proc C Outcome (Option Error)) (teardownStart env s1)).2) ∧
    ((Reconcile env req : Proc C σ Outcome) s).1 =
      Flow.next (⟨false, resyncPeriod⟩,
        errorOf env (Call.syncHubStatus s1.hub.Status)
          ((finalizeHub env : Proc C Outcome (Option Error)) (teardownStart env s1)).2) ∧
    ((Reconcile env req : Proc C σ Outcome) s).2.hub.Finalizers = s1.hub.Finalizers ∧
    (∀ c ∈ newCalls s ((Reconcile env req : Proc C σ Outcome) s).2, isUpdate c = false) := by
  have hpass : reconcilePass env s1 = (Flow.done (⟨false, resyncPeriod⟩, none),
      ((finalizeHub env : Proc C Outcome (Option Error)) (teardownStart env s1)).2) := by
    rw [reconcilePass_deleting env s1 hdel]
    exact deletionBranch_failure env s1 e hfin hfail
  have hrec := Reconcile_apply (σ := σ) env req s s1 hload
  rw [hpass] at hrec
  simp only at hrec
  refine ⟨hpass, ?_, ?_, ?_⟩
  · rw [hrec]
    simp only [combine, timed_ne_empty, if_false, if_true, errorOf]
  · rw [hrec]
    have hf := finalizeHub_frame (σ := Outcome) env (teardownStart env s1)
    rw [afterCall_finalizers, frame_finalizers _ _ hf, teardownStart_finalizers]
  · obtain ⟨m, _, hs1⟩ := loadHub_next env req s s1 hload
    obtain ⟨l0, hl0, hc0⟩ := passStart_calls env req m s
    obtain ⟨l1, hl1, n, hn⟩ := finalizeHub_trace (σ := Outcome) env (teardownStart env s1)
    obtain ⟨c0, hc, _, _⟩ := teardownStart_trace env s1
    rw [hrec]
    intro c hmem
    have htr : (afterCall env (Call.syncHubStatus s1.hub.Status)
        ((finalizeHub env : Proc C Outcome (Option Error)) (teardownStart env s1)).2).trace
        = s.trace ++ (l0 ++ [Event.SetHubCondition c0] ++ l1 ++
          [Event.call (Call.syncHubStatus s1.hub.Status)
            (env.exec (Call.syncHubStatus s1.hub.Status)
              ((finalizeHub env : Proc C Outcome (Option Error)) (teardownStart env s1)).2.hub
              ((finalizeHub env : Proc C Outcome (Option Error)) (teardownStart env s1)).2.cluster).1]) := by
      rw [afterCall_trace, hl1, hc, hs1, hl0]
      simp only [List.append_assoc]
    rw [newCalls, newEvents_append _ _ _ htr] at hmem
    simp only [callsOf_append, hc0, hn, List.mem_append] at hmem
    rcases hmem with ((h | h) | h) | h
    · simp only [List.mem_cons, List.mem_singleton, List.not_mem_nil, or_false] at h
      rcases h with h | h | h | h <;> subst h <;> rfl
    · simp [callsOf] at h
    · exact teardownStages_not_update _ _ c (List.mem_of_mem_take h)
    · simp only [callsOf, List.filterMap_cons, List.filterMap_nil, List.mem_singleton] at h
      subst h; rfl

/-- C2, an instance: `deletedHub` with the stage `cleanupCRDs` failing and the status sync
succeeding: `Reconcile` returns the requeue after `resyncPeriod` and no error, and both
finalizers are still there. -/
theorem reconcile_teardown_failure_witness :
    ((Reconcile stuckEnv exampleReq : Proc Unit Unit Outcome) startSt).1
      = Flow.next (⟨false, resyncPeriod⟩, none) ∧
    ((Reconcile stuckEnv exampleReq : Proc Unit Unit Outcome) startSt).2.hub.Finalizers
      = ["keep.me", hubFinalizer] := by
  have h := reconcile_teardown_failure (σ := Unit) stuckEnv exampleReq startSt
    (loadHub stuckEnv exampleReq startSt).2 "crds remain" (by rfl) (by rfl) (by rfl) (by rfl)
  exact ⟨h.2.1, h.2.2.1⟩

/-- C2 as stated fails: `deletedHub` has its deletion timestamp set and carries
`hubFinalizer`, `finalizeHub` returns an error, and `Reconcile` returns the requeue after
`resyncPeriod` together with the error of the deferred status sync, not with no error. -/
theorem reconcile_teardown_failure_counterexample :
    (∃ s1, loadHub (syncFails stuckEnv) exampleReq startSt = (Flow.next (), s1) ∧
      s1.hub.DeletionTimestamp.isSome = true ∧
      contains s1.hub.Finalizers hubFinalizer = true ∧
      ((finalizeHub (syncFails stuckEnv) : Proc Unit Outcome (Option Error))
        (teardownStart (syncFails stuckEnv) s1)).1 = Flow.next (some "crds remain")) ∧
    ((Reconcile (syncFails stuckEnv) exampleReq : Proc Unit Unit Outcome) startSt).1
      = Flow.next (⟨false, resyncPeriod⟩, some "conflict") ∧
    ((Reconcile (syncFails stuckEnv) exampleReq : Proc Unit Unit Outcome) startSt).1
      ≠ Flow.next (⟨false, resyncPeriod⟩, none) := by
  refine ⟨⟨(loadHub (syncFails stuckEnv) exampleReq startSt).2, by rfl, by rfl, by rfl, by rfl⟩,
    by rfl, ?_⟩
  have h : ((Reconcile (syncFails stuckEnv) exampleReq : Proc Unit Unit Outcome) startSt).1
      = Flow.next (⟨false, resyncPeriod⟩, some "conflict") := by rfl
  rw [h]
  intro hne
  simp only [Flow.next.injEq, Prod.mk.injEq, true_and] at hne
  exact absurd hne (by simp)

/-! ## The ledger -/

theorem getCondition_setCondition (l : List HubCondition) (c : HubCondition) :
    ∃ c1, getCondition (setCondition l c) c.type = some c1 ∧ c1.type = c.type ∧
      c1.status = c.status ∧ c1.reason = c.reason ∧ c1.message = c.message := by
  induction l with
  | nil => exact ⟨c, by simp [setCondition, getCondition], rfl, rfl, rfl, rfl⟩
  | cons x xs ih =>
    by_cases hx : x.type = c.type
    · refine ⟨mergeCondition x c, ?_, hx, rfl, rfl, rfl⟩
      simp [setCondition, getCondition, hx, mergeCondition]
    · obtain ⟨c1, h1, h2⟩ := ih
      refine ⟨c1, ?_, h2⟩
      simp only [setCondition, hx, if_false, getCondition, List.find?_cons, decide_False]
      exact h1

theorem GetHubCondition_SetHubCondition (status : MultiClusterHubStatus) (c : HubCondition) :
    ∃ c1, GetHubCondition (SetHubCondition status c) c.type = some c1 ∧ c1.type = c.type ∧
      c1.status = c.status ∧ c1.reason = c.reason ∧ c1.message = c.message :=
  getCondition_setCondition status.HubConditions c

/-! ## C3 and C4: the deletion branch -/

theorem teardownEnd_frame {C : Type} (env : Env C) (s : St C) :
    frame (teardownEnd env s) = frame s := by
  unfold teardownEnd
  rw [finalizeHub_frame, teardownStart_frame]

theorem remove_filter (l : List String) (f : String) :
    remove l f = l.filter (fun v => decide (v ≠ f)) := rfl

theorem mem_remove (l : List String) (f g : String) :
    g ∈ remove l f ↔ g ∈ l ∧ g ≠ f := by
  simp [remove]

theorem count_remove (l : List String) (f : String) : (remove l f).count f = 0 := by
  rw [List.count_eq_zero]
  intro h
  exact ((mem_remove l f f).1 h).2 rfl

/-- C3 (amended): for a hub that is loaded with its deletion timestamp set and
`hubFinalizer` among its finalizers: if every teardown stage succeeds and the update
succeeds, the pass ends with no error after calling, in this order, the teardown stages and
the `Update` of the hub with `hubFinalizer` removed and every other finalizer kept in order;
`Reconcile` then returns the result and the error of the deferred status sync (no error when
the status sync succeeds). And whenever the pass makes an `Update` call or ends with another
finalizer list than it started with, `finalizeHub` has returned no error. -/
theorem reconcile_teardown_success {C σ : Type} (env : Env C) (req : Request) (s s1 : St C)
    (hload : loadHub env req s = (Flow.next (), s1))
    (hdel : s1.hub.DeletionTimestamp.isSome = true)
    (hfin : contains s1.hub.Finalizers hubFinalizer = true) :
    (((finalizeHub env : Proc C Outcome (Option Error)) (teardownStart env s1)).1
        = Flow.next none →
      errorOf env (Call.Update (persisted env s1)) (withoutFinalizer (teardownEnd env s1))
        = none →
      reconcilePass env s1 = (Flow.done (Result.empty, none),
        afterCall env (Call.Update (persisted env s1)) (withoutFinalizer (teardownEnd env s1))) ∧
      newCalls s1 (reconcilePass env s1).2
        = stagesOf env (teardownStart env s1) ++ [Call.Update (persisted env s1)] ∧
      (persisted env s1).Finalizers
        = s1.hub.Finalizers.filter (fun v => decide (v ≠ hubFinalizer)) ∧
      hubFinalizer ∉ (persisted env s1).Finalizers ∧
      (∀ f ∈ s1.hub.Finalizers, f ≠ hubFinalizer → f ∈ (persisted env s1).Finalizers) ∧
      ((Reconcile env req : Proc C σ Outcome) s).1 =
        Flow.next (env.exec (Call.syncHubStatus s1.hub.Status)
          (reconcilePass env s1).2.hub (reconcilePass env s1).2.cluster).1 ∧
      ((Reconcile env req : Proc C σ Outcome) s).2.hub.Finalizers
        = remove s1.hub.Finalizers hubFinalizer) ∧
    (((∃ c ∈ newCalls s1 (reconcilePass env s1).2, isUpdate c = true) ∨
        (reconcilePass env s1).2.hub.Finalizers ≠ s1.hub.Finalizers) →
      ((finalizeHub env : Proc C Outcome (Option Error)) (teardownStart env s1)).1
        = Flow.next none) := by
  have hfr := teardownEnd_frame env s1
  have hpf : (persisted env s1).Finalizers = remove s1.hub.Finalizers hubFinalizer := by
    show remove (teardownEnd env s1).hub.Finalizers hubFinalizer = _
    rw [frame_finalizers _ _ hfr]
  constructor
  · intro hok hupd
    have hpass : reconcilePass env s1 = (Flow.done (Result.empty, none),
        afterCall env (Call.Update (persisted env s1))
          (withoutFinalizer (teardownEnd env s1))) := by
      rw [reconcilePass_deleting env s1 hdel, deletionBranch_success env s1 hfin hok]
      show (Flow.done (Result.empty, errorOf env (Call.Update (persisted env s1))
        (withoutFinalizer (teardownEnd env s1))), _) = _
      rw [hupd]
      rfl
    have hrec := Reconcile_apply (σ := σ) env req s s1 hload
    rw [hpass] at hrec ⊢
    simp only at hrec
    refine ⟨rfl, ?_, ?_, ?_, ?_, ?_, ?_⟩
    · have hok1 : (runStages env (stagesOf env (teardownStart env s1))
          (teardownStart env s1)).1 = none := by
        rw [finalizeHub_eq_runStages] at hok
        simpa using hok
      obtain ⟨l, hl, hc⟩ := runStages_ok_calls env _ _ hok1
      obtain ⟨c0, hc0, _, _⟩ := teardownStart_trace env s1
      have htr : (afterCall env (Call.Update (persisted env s1))
          (withoutFinalizer (teardownEnd env s1))).trace
          = s1.trace ++ ([Event.SetHubCondition c0] ++ l ++
            [Event.call (Call.Update (persisted env s1))
              (env.exec (Call.Update (persisted env s1))
                (withoutFinalizer (teardownEnd env s1)).hub
                (withoutFinalizer (teardownEnd env s1)).cluster).1]) := by
        rw [afterCall_trace]
        show (teardownEnd env s1).trace ++ _ = _
        unfold teardownEnd
        rw [finalizeHub_eq_runStages]
        simp only [hl, hc0, List.append_assoc]
      rw [newCalls, newEvents_append _ _ _ htr]
      simp only [callsOf_append, hc]
      simp [callsOf]
    · rw [hpf]; rfl
    · rw [hpf]
      intro h
      exact ((mem_remove _ _ _).1 h).2 rfl
    · intro f hf hne
      rw [hpf]
      exact (mem_remove _ _ _).2 ⟨hf, hne⟩
    · rw [hrec]
      simp only [combine, if_true]
    · rw [hrec, afterCall_finalizers, afterCall_finalizers]
      exact hpf
  · intro h
    rcases hfh : ((finalizeHub env : Proc C Outcome (Option Error)) (teardownStart env s1)).1
      with a | r | msg
    · cases a with
      | none => rfl
      | some e =>
        exfalso
        have hpass := deletionBranch_failure env s1 e hfin hfh
        rw [← reconcilePass_deleting env s1 hdel] at hpass
        rw [hpass] at h
        rcases h with ⟨c, hc, hupd⟩ | h
        · obtain ⟨l1, hl1, n, hn⟩ := finalizeHub_trace (σ := Outcome) env (teardownStart env s1)
          obtain ⟨c0, hc0, _, _⟩ := teardownStart_trace env s1
          have htr : ((finalizeHub env : Proc C Outcome (Option Error))
              (teardownStart env s1)).2.trace
              = s1.trace ++ ([Event.SetHubCondition c0] ++ l1) := by
            rw [hl1, hc0, List.append_assoc]
          rw [newCalls, newEvents_append _ _ _ htr, callsOf_append, hn] at hc
          simp only [callsOf, List.filterMap_cons, List.filterMap_nil, List.nil_append] at hc
          have := teardownStages_not_update _ _ c (List.mem_of_mem_take hc)
          rw [this] at hupd
          exact absurd hupd (by simp)
        · apply h
          have hf := finalizeHub_frame (σ := Outcome) env (teardownStart env s1)
          exact (frame_finalizers _ _ hf).trans (teardownStart_finalizers env s1)
    · rw [finalizeHub_eq_runStages] at hfh
      simp at hfh
    · rw [finalizeHub_eq_runStages] at hfh
      simp at hfh

/-- C3, an instance: `deletedHub` with every helper succeeding: `Reconcile` returns no error,
the hub is updated with only the other finalizer left, after the nine teardown stages that
apply. -/
theorem reconcile_teardown_success_witness :
    ((Reconcile (envWithHub deletedHub) exampleReq : Proc Unit Unit Outcome) startSt).1
      = Flow.next (Result.empty, none) ∧
    ((Reconcile (envWithHub deletedHub) exampleReq : Proc Unit Unit Outcome) startSt).2.hub.Finalizers
      = ["keep.me"] ∧
    newCalls (loadHub (envWithHub deletedHub) exampleReq startSt).2
      (reconcilePass (envWithHub deletedHub) (loadHub (envWithHub deletedHub) exampleReq startSt).2).2
      = [Call.ensureHubIsExported, Call.cleanupAppSubscriptions, Call.cleanupNamespaces,
         Call.cleanupFoundation, Call.cleanupClusterRoles, Call.cleanupClusterRoleBindings,
         Call.cleanupMultiClusterEngine, Call.cleanupCRDs, Call.orphanOwnedMultiClusterEngine,
         Call.Update (persisted (envWithHub deletedHub)
           (loadHub (envWithHub deletedHub) exampleReq startSt).2)] := by
  have h := (reconcile_teardown_success (σ := Unit) (envWithHub deletedHub) exampleReq startSt
    (loadHub (envWithHub deletedHub) exampleReq startSt).2 (by rfl) (by rfl) (by rfl)).1
    (by rfl) (by rfl)
  exact ⟨h.2.2.2.2.2.1, h.2.2.2.2.2.2, h.2.1⟩

/-- C3 as stated fails: `deletedHub` has its deletion timestamp set and carries
`hubFinalizer`, every teardown stage and the update succeed, the finalizer is removed, and
`Reconcile` returns the error of the deferred status sync instead of no error. -/
theorem reconcile_teardown_success_counterexample :
    (∃ s1, loadHub (syncFails (envWithHub deletedHub)) exampleReq startSt = (Flow.next (), s1) ∧
      s1.hub.DeletionTimestamp.isSome = true ∧
      contains s1.hub.Finalizers hubFinalizer = true ∧
      ((finalizeHub (syncFails (envWithHub deletedHub)) : Proc Unit Outcome (Option Error))
        (teardownStart (syncFails (envWithHub deletedHub)) s1)).1 = Flow.next none ∧
      errorOf (syncFails (envWithHub deletedHub))
        (Call.Update (persisted (syncFails (envWithHub deletedHub)) s1))
        (withoutFinalizer (teardownEnd (syncFails (envWithHub deletedHub)) s1)) = none) ∧
    ((Reconcile (syncFails (envWithHub deletedHub)) exampleReq : Proc Unit Unit Outcome)
      startSt).2.hub.Finalizers = ["keep.me"] ∧
    ((Reconcile (syncFails (envWithHub deletedHub)) exampleReq : Proc Unit Unit Outcome)
      startSt).1 = Flow.next (Result.empty, some "conflict") := by
  refine ⟨⟨(loadHub (syncFails (envWithHub deletedHub)) exampleReq startSt).2,
    by rfl, by rfl, by rfl, by rfl, by rfl⟩, by rfl, by rfl⟩

theorem runStages_events {C : Type} (env : Env C) :
    ∀ (cs : List Call) (s : St C),
      ∃ l, (runStages env cs s).2.trace = s.trace ++ l ∧
        ∀ e ∈ l, ∃ c out, e = Event.call c out ∧ c ∈ cs := by
  intro cs
  induction cs with
  | nil => intro s; exact ⟨[], by simp [runStages], by simp⟩
  | cons c cs ih =>
    intro s
    simp only [runStages]
    cases errorOf env c s with
    | none =>
      obtain ⟨l, hl, hn⟩ := ih (afterCall env c s)
      refine ⟨Event.call c (env.exec c s.hub s.cluster).1 :: l, ?_, ?_⟩
      · simp [hl]
      · intro e he
        rcases List.mem_cons.1 he with h | h
        · exact ⟨c, _, h, List.mem_cons_self _ _⟩
        · obtain ⟨c1, out, h1, h2⟩ := hn e h
          exact ⟨c1, out, h1, List.mem_cons_of_mem _ h2⟩
    | some e =>
      refine ⟨[Event.call c (env.exec c s.hub s.cluster).1], ?_, ?_⟩
      · simp
      · intro e he
        rw [List.mem_singleton] at he
        exact ⟨c, _, he, List.mem_cons_self _ _⟩

theorem frame_cache {C : Type} (s s1 : St C) (h : frame s1 = frame s) : s1.cache = s.cache := by
  simp only [frame, Prod.mk.injEq] at h
  exact h.2.1

theorem frame_environ {C : Type} (s s1 : St C) (h : frame s1 = frame s) :
    s1.environ = s.environ := by
  simp only [frame, Prod.mk.injEq] at h
  exact h.2.2

theorem teardownStages_not_convergence :
    ∀ c ∈ teardownStages true true, isConvergenceCall c = false := by decide

/-- The end of the deletion branch: what it has added to the trace after the `Terminating`
condition, and what it has left of the state. -/
theorem deletionBranch_end {C : Type} (env : Env C) (s : St C) :
    ∃ l, (deletionBranch env s).2.trace = (teardownStart env s).trace ++ l ∧
      (∀ e ∈ l, ∃ c1 out, e = Event.call c1 out ∧
        (c1 ∈ teardownStages true true ∨ c1 = Call.Update (persisted env s))) ∧
      (deletionBranch env s).2.hub.Spec = s.hub.Spec ∧
      (deletionBranch env s).2.cache = s.cache ∧
      (deletionBranch env s).2.environ = s.environ ∧
      ((deletionBranch env s).2.hub.Finalizers = s.hub.Finalizers ∨
        (deletionBranch env s).2.hub.Finalizers = remove s.hub.Finalizers hubFinalizer) := by
  have hfr := teardownEnd_frame env s
  have hend : (runStages env (stagesOf env (teardownStart env s)) (teardownStart env s)).2
      = teardownEnd env s := by
    unfold teardownEnd
    rw [finalizeHub_eq_runStages]
  obtain ⟨l, hl, hev⟩ := runStages_events env (stagesOf env (teardownStart env s))
    (teardownStart env s)
  have hev1 : ∀ e ∈ l, ∃ c1 out, e = Event.call c1 out ∧
      (c1 ∈ teardownStages true true ∨ c1 = Call.Update (persisted env s)) := by
    intro e he
    obtain ⟨c1, out, h1, h2⟩ := hev e he
    exact ⟨c1, out, h1, Or.inl (teardownStages_sublist _ _ c1 h2)⟩
  rw [deletionBranch_apply]
  split
  · rcases hr : runStages env (stagesOf env (teardownStart env s)) (teardownStart env s)
      with ⟨_ | e, s2⟩
    · rw [hr] at hend hl
      simp only at hend hl
      subst hend
      refine ⟨l ++ [Event.call (Call.Update (persisted env s))
        (env.exec (Call.Update (persisted env s)) (withoutFinalizer (teardownEnd env s)).hub
          (withoutFinalizer (teardownEnd env s)).cluster).1], ?_, ?_, ?_, ?_, ?_, ?_⟩
      · simp only [afterCall_trace]
        show (teardownEnd env s).trace ++ _ = _
        rw [hl, List.append_assoc]
        rfl
      · intro e he
        rcases List.mem_append.1 he with h | h
        · exact hev1 e h
        · rw [List.mem_singleton] at h
          exact ⟨_, _, h, Or.inr rfl⟩
      · show (teardownEnd env s).hub.Spec = _
        exact frame_spec _ _ hfr
      · show (teardownEnd env s).cache = _
        exact frame_cache _ _ hfr
      · show (teardownEnd env s).environ = _
        exact frame_environ _ _ hfr
      · right
        show remove (teardownEnd env s).hub.Finalizers hubFinalizer = _
        rw [frame_finalizers _ _ hfr]
    · rw [hr] at hend hl
      simp only at hend hl
      subst hend
      exact ⟨l, hl, hev1, frame_spec s (teardownEnd env s) hfr,
        frame_cache s (teardownEnd env s) hfr, frame_environ s (teardownEnd env s) hfr,
        Or.inl (frame_finalizers s (teardownEnd env s) hfr)⟩
  · exact ⟨[], by simp, by simp, rfl, rfl, rfl, Or.inl rfl⟩

/-- C4: in a pass over a hub whose deletion timestamp is set, whether or not the finalizer
is present, the first thing recorded is the setting of the `Terminating` condition to `True`
(and the ledger then holds `Terminating` with status `True`); everything else the pass does
is a call of a teardown stage or the one `Update` that persists the hub without
`hubFinalizer`; no call of a convergence step is made, the spec, the cache and the process
environment are left as they were, and no finalizer is added. -/
theorem deletion_runs_only_teardown {C : Type} (env : Env C) (s : St C)
    (hdel : s.hub.DeletionTimestamp.isSome = true) :
    (∃ c l, (reconcilePass env s).2.trace = s.trace ++ Event.SetHubCondition c :: l ∧
      c.type = HubConditionType.Terminating ∧ c.status = ConditionStatus.ConditionTrue ∧
      (∀ e ∈ l, ∃ c1 out, e = Event.call c1 out ∧
        (c1 ∈ teardownStages true true ∨ c1 = Call.Update (persisted env s)))) ∧
    (∃ c1, GetHubCondition (teardownStart env s).hub.Status HubConditionType.Terminating
        = some c1 ∧ c1.status = ConditionStatus.ConditionTrue) ∧
    (∀ c ∈ newCalls s (reconcilePass env s).2, isConvergenceCall c = false) ∧
    (reconcilePass env s).2.hub.Spec = s.hub.Spec ∧
    (reconcilePass env s).2.cache = s.cache ∧
    (reconcilePass env s).2.environ = s.environ ∧
    (∀ f ∈ (reconcilePass env s).2.hub.Finalizers, f ∈ s.hub.Finalizers) ∧
    (reconcilePass env s).2.hub.Finalizers.count hubFinalizer
      ≤ s.hub.Finalizers.count hubFinalizer := by
  rw [reconcilePass_deleting env s hdel]
  obtain ⟨l, hl, hev, hspec, hcache, henv, hfin⟩ := deletionBranch_end env s
  obtain ⟨c0, hc0, ht, hs⟩ := teardownStart_trace env s
  have htr : (deletionBranch env s).2.trace = s.trace ++ (Event.SetHubCondition c0 :: l) := by
    rw [hl, hc0, List.append_assoc]
    rfl
  refine ⟨⟨c0, l, htr, ht, hs, hev⟩, ?_, ?_, hspec, hcache, henv, ?_, ?_⟩
  · obtain ⟨c1, h1, _, h3, _⟩ := GetHubCondition_SetHubCondition s.hub.Status
      (NewHubCondition (env.Now s.cluster) HubConditionType.Terminating
        ConditionStatus.ConditionTrue DeleteTimestampReason
        "Multiclusterhub is being cleaned up.")
    exact ⟨c1, h1, h3⟩
  · intro c hc
    rw [newCalls, newEvents_append _ _ _ htr] at hc
    simp only [callsOf, List.filterMap_cons] at hc
    obtain ⟨e, he, hce⟩ := List.mem_filterMap.1 hc
    obtain ⟨c1, out, h1, h2⟩ := hev e he
    subst h1
    simp only [Option.some.injEq] at hce
    subst hce
    rcases h2 with h2 | h2
    · exact teardownStages_not_convergence _ h2
    · rw [h2]; rfl
  · intro f hf
    rcases hfin with h | h
    · rw [h] at hf; exact hf
    · rw [h] at hf; exact ((mem_remove _ _ _).1 hf).1
  · rcases hfin with h | h
    · rw [h]
    · rw [h, count_remove]; exact Nat.zero_le _

/-- C4, an instance: `deletedHub` in the environment where `cleanupCRDs` fails: the calls of
the pass are the eight teardown stages up to `cleanupCRDs`, none of them a convergence
step. -/
theorem deletion_runs_only_teardown_witness :
    (∀ c ∈ newCalls (exampleSt deletedHub)
        (reconcilePass stuckEnv (exampleSt deletedHub)).2, isConvergenceCall c = false) ∧
    (reconcilePass stuckEnv (exampleSt deletedHub)).2.hub.Spec = deletedHub.Spec ∧
    newCalls (exampleSt deletedHub) (reconcilePass stuckEnv (exampleSt deletedHub)).2
      = [Call.ensureHubIsExported, Call.cleanupAppSubscriptions, Call.cleanupNamespaces,
         Call.cleanupFoundation, Call.cleanupClusterRoles, Call.cleanupClusterRoleBindings,
         Call.cleanupMultiClusterEngine, Call.cleanupCRDs] := by
  have h := deletion_runs_only_teardown stuckEnv (exampleSt deletedHub) (by rfl)
  exact ⟨h.2.2.1, h.2.2.2.1, by rfl⟩

/-! ## C10: the pause gate -/

theorem setPaused_trace {C ρ : Type} (env : Env C) (s : St C) :
    ((setHubCondition env HubConditionType.Progressing ConditionStatus.ConditionUnknown
      PausedReason "Multiclusterhub is paused" : Proc C ρ Unit) s).2.hub.Status =
      SetHubCondition s.hub.Status (NewHubCondition (env.Now s.cluster)
        HubConditionType.Progressing ConditionStatus.ConditionUnknown PausedReason
        "Multiclusterhub is paused") := rfl

/-- What `updatePausedCondition` does to a paused hub. -/
theorem updatePausedCondition_paused {C ρ : Type} (env : Env C) (s : St C)
    (hp : IsPaused s.hub = true) :
    ((updatePausedCondition env : Proc C ρ Unit) s).1 = Flow.next () ∧
    frame ((updatePausedCondition env : Proc C ρ Unit) s).2 = frame s ∧
    ((updatePausedCondition env : Proc C ρ Unit) s).2.cluster = s.cluster ∧
    newCalls s ((updatePausedCondition env : Proc C ρ Unit) s).2 = [] ∧
    ∃ c, GetHubCondition ((updatePausedCondition env : Proc C ρ Unit) s).2.hub.Status
        HubConditionType.Progressing = some c ∧ c.reason = PausedReason ∧
      (c.status = ConditionStatus.ConditionUnknown ∨
        (GetHubCondition s.hub.Status HubConditionType.Progressing = some c ∧
          ((updatePausedCondition env : Proc C ρ Unit) s).2.hub.Status = s.hub.Status)) := by
  have happly : (updatePausedCondition env : Proc C ρ Unit) s =
      match GetHubCondition s.hub.Status HubConditionType.Progressing with
      | none => (setHubCondition env HubConditionType.Progressing
          ConditionStatus.ConditionUnknown PausedReason "Multiclusterhub is paused" :
            Proc C ρ Unit) s
      | some c =>
        if c.reason ≠ PausedReason then
          (setHubCondition env HubConditionType.Progressing
            ConditionStatus.ConditionUnknown PausedReason "Multiclusterhub is paused" :
              Proc C ρ Unit) s
        else (Flow.next (), s) := by
    simp only [updatePausedCondition, bind_apply, getSt_apply, hp, if_true]
    cases GetHubCondition s.hub.Status HubConditionType.Progressing with
    | none => rfl
    | some c => simp only [ite_apply_proc, pure_apply]
  have hset := GetHubCondition_SetHubCondition s.hub.Status (NewHubCondition (env.Now s.cluster)
    HubConditionType.Progressing ConditionStatus.ConditionUnknown PausedReason
    "Multiclusterhub is paused")
  obtain ⟨c1, h1, _, h3, h4, _⟩ := hset
  have hnew : ∀ (t : List Event) (e : Event), callsOf ((t ++ [e]).drop t.length) = callsOf [e] := by
    intro t e; simp
  rw [happly]
  cases hc : GetHubCondition s.hub.Status HubConditionType.Progressing with
  | none =>
    refine ⟨rfl, rfl, rfl, ?_, c1, h1, h4, Or.inl h3⟩
    exact (hnew _ _).trans rfl
  | some c =>
    by_cases hr : c.reason = PausedReason
    · have hif : (if c.reason ≠ PausedReason then
          (setHubCondition env HubConditionType.Progressing
            ConditionStatus.ConditionUnknown PausedReason "Multiclusterhub is paused" :
              Proc C ρ Unit) s
        else (Flow.next (), s)) = (Flow.next (), s) := by
        rw [if_neg (not_not.2 hr)]
      dsimp only
      rw [hif]
      refine ⟨rfl, rfl, rfl, ?_, c, hc, hr, Or.inr ⟨rfl, rfl⟩⟩
      simp [newCalls, newEvents, callsOf]
    · have hif : (if c.reason ≠ PausedReason then
          (setHubCondition env HubConditionType.Progressing
            ConditionStatus.ConditionUnknown PausedReason "Multiclusterhub is paused" :
              Proc C ρ Unit) s
        else (Flow.next (), s)) = (setHubCondition env HubConditionType.Progressing
            ConditionStatus.ConditionUnknown PausedReason "Multiclusterhub is paused" :
              Proc C ρ Unit) s := by
        rw [if_pos hr]
      dsimp only
      rw [hif]
      refine ⟨rfl, rfl, rfl, ?_, c1, h1, h4, Or.inl h3⟩
      exact (hnew _ _).trans rfl

/-- C10 (amended): a pass that reaches the pause gate with a hub that carries the pause
marker ends there with the empty outcome and no error, without any call: none of the
compatibility guard, CRD install, pull-secret check, component steps, template deployment,
self-registration or removal sweep runs. It leaves a `Progressing` condition with reason
`Paused`: with status `Unknown` when the gate has set it (no `Progressing` condition, or one
with another reason, was there), and otherwise the `Progressing` condition with reason
`Paused` that was already there, as it was. -/
theorem pause_gate_stops_pass {C : Type} (env : Env C) (s : St C)
    (hp : IsPaused s.hub = true) :
    convergeFromPauseGate env s
      = (Flow.done (Result.empty, none), ((updatePausedCondition env : Proc C Outcome Unit) s).2) ∧
    newCalls s (convergeFromPauseGate env s).2 = [] ∧
    frame (convergeFromPauseGate env s).2 = frame s ∧
    (∃ c, GetHubCondition (convergeFromPauseGate env s).2.hub.Status
        HubConditionType.Progressing = some c ∧ c.reason = PausedReason ∧
      (c.status = ConditionStatus.ConditionUnknown ∨
        (GetHubCondition s.hub.Status HubConditionType.Progressing = some c ∧
          (convergeFromPauseGate env s).2.hub.Status = s.hub.Status))) ∧
    ((∀ c, GetHubCondition s.hub.Status HubConditionType.Progressing = some c →
        c.reason = PausedReason → c.status = ConditionStatus.ConditionUnknown) →
      ∃ c, GetHubCondition (convergeFromPauseGate env s).2.hub.Status
          HubConditionType.Progressing = some c ∧ c.reason = PausedReason ∧
        c.status = ConditionStatus.ConditionUnknown) := by
  obtain ⟨hflow, hframe, hcl, hcalls, c, hc, hreason, hstatus⟩ :=
    updatePausedCondition_paused (ρ := Outcome) env s hp
  have hpaused : IsPaused ((updatePausedCondition env : Proc C Outcome Unit) s).2.hub = true := by
    have : ((updatePausedCondition env : Proc C Outcome Unit) s).2.hub.AnnotationPause
        = s.hub.AnnotationPause := by
      simp only [frame, Prod.mk.injEq] at hframe
      exact hframe.1.2.2.2.2.1
    simp only [IsPaused] at hp ⊢
    rw [this]; exact hp
  have hrun : convergeFromPauseGate env s
      = (Flow.done (Result.empty, none),
          ((updatePausedCondition env : Proc C Outcome Unit) s).2) := by
    simp only [convergeFromPauseGate, stepPauseGate, bind_apply]
    rcases hu : (updatePausedCondition env : Proc C Outcome Unit) s with ⟨fl, s1⟩
    rw [hu] at hflow hpaused
    simp only at hflow hpaused
    subst hflow
    simp only [getSt_apply, hpaused, if_true, ite_apply_proc, ret_apply]
  rw [hrun]
  refine ⟨rfl, hcalls, hframe, ⟨c, hc, hreason, hstatus⟩, ?_⟩
  intro hwf
  refine ⟨c, hc, hreason, ?_⟩
  rcases hstatus with h | ⟨h, _⟩
  · exact h
  · exact hwf c h hreason

/-- C10, an instance: the paused hub without conditions: the pass ends at the gate with the
empty outcome, has made no call there, and `Progressing` is `Unknown` with reason
`Paused`. -/
theorem pause_gate_stops_pass_witness :
    (convergeFromPauseGate quietEnv (exampleSt pausedHub)).1 = Flow.done (Result.empty, none) ∧
    newCalls (exampleSt pausedHub) (convergeFromPauseGate quietEnv (exampleSt pausedHub)).2 = [] ∧
    GetHubCondition (convergeFromPauseGate quietEnv (exampleSt pausedHub)).2.hub.Status
      HubConditionType.Progressing
      = some ⟨HubConditionType.Progressing, ConditionStatus.ConditionUnknown, PausedReason,
          "Multiclusterhub is paused", 0, 0⟩ := by
  have h := pause_gate_stops_pass quietEnv (exampleSt pausedHub) (by rfl)
  exact ⟨by rw [h.1], h.2.1, by rfl⟩

/-- C10 as stated fails: `pausedHubTrue` is not being deleted and carries the pause marker;
its pass reaches the pause gate and ends there with the empty outcome, and the
`Progressing` condition is left with reason `Paused` and status `True`, not `Unknown`. -/
theorem pause_gate_stops_pass_counterexample :
    pausedHubTrue.DeletionTimestamp = none ∧ IsPaused pausedHubTrue = true ∧
    (reconcilePass quietEnv (exampleSt pausedHubTrue)).1 = Flow.done (Result.empty, none) ∧
    (reconcilePass quietEnv (exampleSt pausedHubTrue)).2.trace.getLast?
      = some (Event.call Call.labelDeployments (Result.empty, none)) ∧
    GetHubCondition (reconcilePass quietEnv (exampleSt pausedHubTrue)).2.hub.Status
      HubConditionType.Progressing
      = some ⟨HubConditionType.Progressing, ConditionStatus.ConditionTrue, PausedReason,
          "Multiclusterhub is paused", 7, 7⟩ ∧
    (∀ c, GetHubCondition (reconcilePass quietEnv (exampleSt pausedHubTrue)).2.hub.Status
        HubConditionType.Progressing = some c → c.status ≠ ConditionStatus.ConditionUnknown) := by
  refine ⟨rfl, rfl, by rfl, by rfl, by rfl, ?_⟩
  intro c hc
  have h : GetHubCondition (reconcilePass quietEnv (exampleSt pausedHubTrue)).2.hub.Status
      HubConditionType.Progressing
      = some ⟨HubConditionType.Progressing, ConditionStatus.ConditionTrue, PausedReason,
          "Multiclusterhub is paused", 7, 7⟩ := by rfl
  rw [h] at hc
  cases hc
  decide

/-! ## C9: the component stage -/

theorem guardResult_call_apply {C : Type} (env : Env C) (c : Call) (s : St C) :
    guardResult (call env c) s =
      if (env.exec c s.hub s.cluster).1.1 ≠ Result.empty then
        (Flow.done (env.exec c s.hub s.cluster).1, afterCall env c s)
      else (Flow.next (), afterCall env c s) := by
  simp only [guardResult, bind_apply, call_apply, ite_apply_proc, ret_apply, pure_apply]

theorem guarded_apply {C : Type} (env : Env C) (c : Call) (s : St C) :
    guarded env c s = runGuarded env [c] s := by
  simp only [guarded, guardResult_call_apply, runGuarded]

theorem ensureComponent_apply {C : Type} (env : Env C) (c : Component)
    (body : CacheSpec → Desired) (s : St C) :
    ensureComponent env c body s = runGuarded env [expectedCall s.hub s.cache c body] s := by
  simp only [ensureComponent, bind_apply, getSt_apply, expectedCall, runGuarded]
  cases h : s.hub.Enabled c
  · simp only [Bool.false_eq_true, if_false, guardResult_call_apply]
  · simp only [if_true, guardResult_call_apply]

theorem runGuarded_append {C : Type} (env : Env C) :
    ∀ (l1 l2 : List Call) (s : St C),
      runGuarded env (l1 ++ l2) s =
        match runGuarded env l1 s with
        | (Flow.next _, s1) => runGuarded env l2 s1
        | (Flow.done r, s1) => (Flow.done r, s1)
        | (Flow.panic msg, s1) => (Flow.panic msg, s1) := by
  intro l1
  induction l1 with
  | nil => intro l2 s; rfl
  | cons c cs ih =>
    intro l2 s
    simp only [List.cons_append, runGuarded]
    split
    · rfl
    · exact ih l2 _

theorem runGuarded_frame {C : Type} (env : Env C) :
    ∀ (cs : List Call) (s : St C), frame (runGuarded env cs s).2 = frame s := by
  intro cs
  induction cs with
  | nil => intro s; rfl
  | cons c cs ih =>
    intro s
    simp only [runGuarded]
    split
    · rfl
    · rw [ih]; rfl

theorem expectedCall_frame {C : Type} (s s1 : St C) (h : frame s1 = frame s) (c : Component)
    (body : CacheSpec → Desired) :
    expectedCall s1.hub s1.cache c body = expectedCall s.hub s.cache c body := by
  simp only [expectedCall, MultiClusterHub.Enabled, frame_spec s s1 h, frame_cache s s1 h]

theorem bind_runGuarded {C : Type} (env : Env C) (l1 l2 : List Call)
    (m : Proc C Outcome Unit) (f : Unit → Proc C Outcome Unit)
    (s : St C) (hm : m s = runGuarded env l1 s)
    (hf : ∀ s1, frame s1 = frame s → f () s1 = runGuarded env l2 s1) :
    (m >>= f) s = runGuarded env (l1 ++ l2) s := by
  rw [runGuarded_append, bind_apply, hm]
  have hfr := runGuarded_frame env l1 s
  rcases hr : runGuarded env l1 s with ⟨_ | r | msg, s1⟩
  · rw [hr] at hfr
    exact hf s1 hfr
  · rfl
  · rfl

theorem stepClusterBackup_apply {C : Type} (env : Env C) (s : St C) :
    stepClusterBackup env s = runGuarded env
      (if s.hub.Enabled Component.ClusterBackup = true then
        [Call.ensureNamespace subscription.Namespace,
         Call.ensureSubscription (subscription.ClusterBackup s.cache)]
       else
        [Call.ensureNoSubscription (subscription.ClusterBackup s.cache),
         Call.ensureNoNamespace subscription.NamespaceUnstructured]) s := by
  unfold stepClusterBackup
  rw [bind_apply, getSt_apply]
  cases h : s.hub.Enabled Component.ClusterBackup
  · simp only [h, Bool.false_eq_true, if_false]
    refine bind_runGuarded env [_] [_] _ _ s (guarded_apply env _ s) (fun s1 _ => ?_)
    exact guarded_apply env _ s1
  · simp only [h, if_true]
    refine bind_runGuarded env [_] [_] _ _ s (guarded_apply env _ s) (fun s1 _ => ?_)
    exact guarded_apply env _ s1

theorem stepComponents_eq_runGuarded {C : Type} (env : Env C) (s : St C) :
    stepComponents env s = runGuarded env (componentCalls s.hub s.cache) s := by
  have key : ∀ (c : Component) (body : CacheSpec → Desired) (s1 : St C),
      frame s1 = frame s →
      ensureComponent env c body s1 = runGuarded env [expectedCall s.hub s.cache c body] s1 := by
    intro c body s1 h
    rw [ensureComponent_apply, expectedCall_frame s s1 h]
  have keyB : ∀ (s1 : St C), frame s1 = frame s →
      stepClusterBackup env s1 = runGuarded env
        (if s.hub.Enabled Component.ClusterBackup = true then
          [Call.ensureNamespace subscription.Namespace,
           Call.ensureSubscription (subscription.ClusterBackup s.cache)]
         else
          [Call.ensureNoSubscription (subscription.ClusterBackup s.cache),
           Call.ensureNoNamespace subscription.NamespaceUnstructured]) s1 := by
    intro s1 h
    rw [stepClusterBackup_apply]
    simp only [MultiClusterHub.Enabled, frame_spec s s1 h, frame_cache s s1 h]
  unfold stepComponents componentCalls
  refine bind_runGuarded env [_] _ _ _ s (key _ _ s rfl) (fun s1 h1 => ?_)
  refine bind_runGuarded env [_] _ _ _ s1 (key _ _ s1 h1) (fun s2 h2 => ?_)
  have h2 := h2.trans h1
  refine bind_runGuarded env [_] _ _ _ s2 (key _ _ s2 h2) (fun s3 h3 => ?_)
  have h3 := h3.trans h2
  refine bind_runGuarded env [_] _ _ _ s3 (key _ _ s3 h3) (fun s4 h4 => ?_)
  have h4 := h4.trans h3
  refine bind_runGuarded env [_] _ _ _ s4 (key _ _ s4 h4) (fun s5 h5 => ?_)
  have h5 := h5.trans h4
  refine bind_runGuarded env [_] _ _ _ s5 (key _ _ s5 h5) (fun s6 h6 => ?_)
  have h6 := h6.trans h5
  refine bind_runGuarded env [_] _ _ _ s6 (key _ _ s6 h6) (fun s7 h7 => ?_)
  have h7 := h7.trans h6
  refine bind_runGuarded env _ [_] _ _ s7 (keyB s7 h7) (fun s8 h8 => ?_)
  have h8 := h8.trans h7
  exact key _ _ s8 h8

theorem runGuarded_trace {C : Type} (env : Env C) :
    ∀ (cs : List Call) (s : St C),
      ∃ l n, (runGuarded env cs s).2.trace = s.trace ++ l ∧ callsOf l = cs.take n ∧
        (cs ≠ [] → 1 ≤ n) ∧
        ((runGuarded env cs s).1 = Flow.next () → callsOf l = cs) ∧
        (∀ r, (runGuarded env cs s).1 = Flow.done r → r.1 ≠ Result.empty) := by
  intro cs
  induction cs with
  | nil =>
    intro s
    exact ⟨[], 0, by simp [runGuarded], rfl, by simp, fun _ => rfl, by simp [runGuarded]⟩
  | cons c cs ih =>
    intro s
    simp only [runGuarded]
    by_cases hg : (env.exec c s.hub s.cluster).1.1 ≠ Result.empty
    · rw [if_pos hg]
      refine ⟨[Event.call c (env.exec c s.hub s.cluster).1], 1, ?_, ?_, fun _ => le_refl 1, ?_, ?_⟩
      · simp
      · simp [callsOf]
      · intro h; simp at h
      · intro r hr
        simp only [Flow.done.injEq] at hr
        rw [← hr]; exact hg
    · rw [if_neg hg]
      obtain ⟨l, n, hl, hn, _, hnext, hdone⟩ := ih (afterCall env c s)
      refine ⟨Event.call c (env.exec c s.hub s.cluster).1 :: l, n + 1, ?_, ?_,
        fun _ => Nat.succ_le_succ (Nat.zero_le n), ?_, hdone⟩
      · simp [hl]
      · simp only [callsOf, List.filterMap_cons, List.take_succ_cons] at hn ⊢
        rw [hn]
      · intro h
        have := hnext h
        simp only [callsOf, List.filterMap_cons] at this ⊢
        rw [this]

theorem expectedCall_isSubscription (m : MultiClusterHub) (cache : CacheSpec) (c : Component)
    (body : CacheSpec → Desired) : isSubscriptionCall (expectedCall m cache c body) = true := by
  unfold expectedCall
  split <;> rfl

theorem componentCalls_filter (m : MultiClusterHub) (cache : CacheSpec) :
    (componentCalls m cache).filter isSubscriptionCall = componentPlan m cache := by
  unfold componentCalls componentPlan componentOrder
  have e1 : isSubscriptionCall (Call.ensureNamespace subscription.Namespace) = false := rfl
  have e2 : isSubscriptionCall (Call.ensureNoNamespace subscription.NamespaceUnstructured)
      = false := rfl
  have e3 : isSubscriptionCall (Call.ensureSubscription (subscription.ClusterBackup cache))
      = true := rfl
  have e4 : isSubscriptionCall (Call.ensureNoSubscription (subscription.ClusterBackup cache))
      = true := rfl
  cases h : m.Enabled Component.ClusterBackup
  · have hcb : expectedCall m cache Component.ClusterBackup subscription.ClusterBackup
        = Call.ensureNoSubscription (subscription.ClusterBackup cache) := by
      simp [expectedCall, h]
    simp [List.filter_cons, expectedCall_isSubscription, e1, e2, e3, e4, hcb]
  · have hcb : expectedCall m cache Component.ClusterBackup subscription.ClusterBackup
        = Call.ensureSubscription (subscription.ClusterBackup cache) := by
      simp [expectedCall, h]
    simp [List.filter_cons, expectedCall_isSubscription, e1, e2, e3, e4, hcb]

theorem mem_componentPlan (m : MultiClusterHub) (cache : CacheSpec) (c : Call)
    (h : c ∈ componentPlan m cache) :
    ∃ p ∈ componentOrder, c = expectedCall m cache p.1 p.2 := by
  simp only [componentPlan, List.mem_map] at h
  obtain ⟨p, hp, hc⟩ := h
  exact ⟨p, hp, hc.symm⟩

theorem componentOrder_factory (cache : CacheSpec) :
    ∀ p ∈ componentOrder, ∀ q ∈ componentOrder, p.2 cache = q.2 cache → p.1 = q.1 := by
  intro p hp q hq h
  have hf : (p.2 cache).factory = (q.2 cache).factory := by rw [h]
  simp only [componentOrder, List.mem_cons, List.mem_singleton, List.not_mem_nil, or_false] at hp hq
  rcases hp with rfl | rfl | rfl | rfl | rfl | rfl | rfl | rfl | rfl <;>
  rcases hq with rfl | rfl | rfl | rfl | rfl | rfl | rfl | rfl | rfl <;>
  first
  | rfl
  | exact Factory.noConfusion hf

theorem subscriptionFactory_expectedCall (m : MultiClusterHub) (cache : CacheSpec)
    (c : Component) (body : CacheSpec → Desired) :
    subscriptionFactory (expectedCall m cache c body) = some (body cache).factory := by
  unfold expectedCall
  split <;> rfl

theorem componentPlan_nodup (m : MultiClusterHub) (cache : CacheSpec) :
    (componentPlan m cache).Nodup := by
  apply List.Nodup.of_map subscriptionFactory
  simp only [componentPlan, componentOrder, List.map, subscriptionFactory_expectedCall]
  show [some Factory.ManagementIngress, some Factory.Console, some Factory.Insights,
    some Factory.GRC, some Factory.ClusterLifecycle, some Factory.Volsync, some Factory.Search,
    some Factory.ClusterBackup, some Factory.ClusterProxyAddon].Nodup
  decide

theorem stepComponents_calls {C : Type} (env : Env C) (s : St C) :
    ∃ n, 1 ≤ n ∧ newCalls s (stepComponents env s).2 = (componentCalls s.hub s.cache).take n ∧
      ((stepComponents env s).1 = Flow.next () →
        newCalls s (stepComponents env s).2 = componentCalls s.hub s.cache) := by
  rw [stepComponents_eq_runGuarded]
  obtain ⟨l, n, hl, hn, h1, hnext, _⟩ := runGuarded_trace env (componentCalls s.hub s.cache) s
  have hne : componentCalls s.hub s.cache ≠ [] := by
    simp [componentCalls]
  refine ⟨n, h1 hne, ?_, ?_⟩
  · rw [newCalls, newEvents_append _ _ _ hl, hn]
  · intro h
    rw [newCalls, newEvents_append _ _ _ hl, hnext h]

/-- The subscription calls of the component stage: they are a non-empty initial part of the
plan that has, for every component in the fixed order, `ensureSubscription` of the desired
body if the component is enabled and `ensureNoSubscription` of the same body if it is not
(the whole plan when the stage runs to its end); no call is made twice;
`ensureSubscription` is called on a component's body only if it is enabled and
`ensureNoSubscription` only if it is not. With Console enabled and Search disabled, a stage
that runs to its end has ensured the Console subscription present and the Search
subscription absent, and not the other way round. -/
theorem stepComponents_subscriptions {C : Type} (env : Env C) (s : St C) :
    componentOrder.map Prod.fst
      = [Component.ManagementIngress, Component.Console, Component.Insights, Component.GRC,
         Component.ClusterLifecycle, Component.Volsync, Component.Search,
         Component.ClusterBackup, Component.ClusterProxyAddon] ∧
    (newCalls s (stepComponents env s).2).filter isSubscriptionCall
      <+: componentPlan s.hub s.cache ∧
    (newCalls s (stepComponents env s).2).filter isSubscriptionCall ≠ [] ∧
    ((stepComponents env s).1 = Flow.next () →
      (newCalls s (stepComponents env s).2).filter isSubscriptionCall
        = componentPlan s.hub s.cache) ∧
    ((newCalls s (stepComponents env s).2).filter isSubscriptionCall).Nodup ∧
    (∀ p ∈ componentOrder,
      (Call.ensureSubscription (p.2 s.cache) ∈ newCalls s (stepComponents env s).2 →
        s.hub.Enabled p.1 = true) ∧
      (Call.ensureNoSubscription (p.2 s.cache) ∈ newCalls s (stepComponents env s).2 →
        s.hub.Enabled p.1 = false)) ∧
    (s.hub.Enabled Component.Console = true → s.hub.Enabled Component.Search = false →
      (stepComponents env s).1 = Flow.next () →
      Call.ensureSubscription (subscription.Console s.cache)
        ∈ newCalls s (stepComponents env s).2 ∧
      Call.ensureNoSubscription (subscription.Search s.cache)
        ∈ newCalls s (stepComponents env s).2 ∧
      Call.ensureNoSubscription (subscription.Console s.cache)
        ∉ newCalls s (stepComponents env s).2 ∧
      Call.ensureSubscription (subscription.Search s.cache)
        ∉ newCalls s (stepComponents env s).2) := by
  obtain ⟨n, hn1, hn, hall⟩ := stepComponents_calls env s
  have hpre : (newCalls s (stepComponents env s).2).filter isSubscriptionCall
      <+: componentPlan s.hub s.cache := by
    rw [hn, ← componentCalls_filter]
    exact (List.take_prefix n _).filter _
  have hmem : ∀ p ∈ componentOrder,
      (Call.ensureSubscription (p.2 s.cache) ∈ newCalls s (stepComponents env s).2 →
        s.hub.Enabled p.1 = true) ∧
      (Call.ensureNoSubscription (p.2 s.cache) ∈ newCalls s (stepComponents env s).2 →
        s.hub.Enabled p.1 = false) := by
    intro p hp
    constructor
    · intro h
      have h1 : Call.ensureSubscription (p.2 s.cache) ∈ componentPlan s.hub s.cache :=
        hpre.subset (List.mem_filter.2 ⟨h, rfl⟩)
      obtain ⟨q, hq, hc⟩ := mem_componentPlan _ _ _ h1
      unfold expectedCall at hc
      split at hc
      · next he =>
        simp only [Call.ensureSubscription.injEq] at hc
        rw [componentOrder_factory s.cache p hp q hq hc]
        exact he
      · exact Call.noConfusion hc
    · intro h
      have h1 : Call.ensureNoSubscription (p.2 s.cache) ∈ componentPlan s.hub s.cache :=
        hpre.subset (List.mem_filter.2 ⟨h, rfl⟩)
      obtain ⟨q, hq, hc⟩ := mem_componentPlan _ _ _ h1
      unfold expectedCall at hc
      split at hc
      · exact Call.noConfusion hc
      · next he =>
        simp only [Call.ensureNoSubscription.injEq] at hc
        rw [componentOrder_factory s.cache p hp q hq hc]
        simpa using he
  refine ⟨rfl, hpre, ?_, ?_, ?_, hmem, ?_⟩
  · rw [hn]
    obtain ⟨k, rfl⟩ : ∃ k, n = k + 1 := ⟨n - 1, by omega⟩
    have : (componentCalls s.hub s.cache).take (k + 1)
        = expectedCall s.hub s.cache Component.ManagementIngress subscription.ManagementIngress
          :: ((componentCalls s.hub s.cache).drop 1).take k := by
      simp [componentCalls]
    rw [this, List.filter_cons, expectedCall_isSubscription]
    simp
  · intro h
    rw [hall h, componentCalls_filter]
  · exact (componentPlan_nodup s.hub s.cache).sublist hpre.sublist
  · intro hcon hsearch hnext
    have hfull := hall hnext
    have hin : ∀ c ∈ componentPlan s.hub s.cache, c ∈ newCalls s (stepComponents env s).2 := by
      intro c hc
      rw [← componentCalls_filter, ← hfull] at hc
      exact (List.mem_filter.1 hc).1
    refine ⟨?_, ?_, ?_, ?_⟩
    · apply hin
      have : Call.ensureSubscription (subscription.Console s.cache)
          = expectedCall s.hub s.cache Component.Console subscription.Console := by
        simp [expectedCall, hcon]
      rw [this]
      simp [componentPlan, componentOrder]
    · apply hin
      have : Call.ensureNoSubscription (subscription.Search s.cache)
          = expectedCall s.hub s.cache Component.Search subscription.Search := by
        simp [expectedCall, hsearch]
      rw [this]
      simp [componentPlan, componentOrder]
    · intro h
      have := (hmem (Component.Console, subscription.Console) (by simp [componentOrder])).2 h
      rw [hcon] at this
      exact absurd this (by simp)
    · intro h
      have := (hmem (Component.Search, subscription.Search) (by simp [componentOrder])).1 h
      rw [hsearch] at this
      exact absurd this (by simp)

/-! ## C8: failures of `installCRDs`, the pull-secret check and `deployResources` -/

theorem ask_apply {C ρ α : Type} (c : Call) (f : C → Except Error α) (s : St C) :
    (ask c f : Proc C ρ (Except Error α)) s =
      (Flow.next (f s.cluster),
        { s with trace := s.trace ++ [Event.call c (Result.empty, errOf (f s.cluster))] }) := rfl

theorem deploy_apply {C ρ : Type} (env : Env C) (u : Unstructured) (s : St C) :
    (deploy env u : Proc C ρ (Option Error × Bool)) s =
      (Flow.next (env.Deploy u s.cluster).1,
        { s with cluster := (env.Deploy u s.cluster).2,
                 trace := s.trace ++ [Event.call (Call.Deploy u)
                   (Result.empty, (env.Deploy u s.cluster).1.1)] }) := rfl

theorem renderCRDs_flow {C ρ : Type} (env : Env C) (m : MultiClusterHub) (crdDir : String) :
    ∀ (files : List String) (crds : List Unstructured) (errs : List Error) (s : St C),
      ∃ v, ((renderCRDs env m crdDir files crds errs : Proc C ρ _) s).1 = Flow.next v := by
  intro files
  induction files with
  | nil => intro crds errs s; exact ⟨_, rfl⟩
  | cons fileName files ih =>
    intro crds errs s
    unfold renderCRDs
    split
    · exact ih _ _ _
    · simp only [bind_apply, ask_apply]
      cases env.ReadFile crdDir fileName s.cluster with
      | error err => exact ih _ _ _
      | ok src =>
        simp only
        cases env.Unmarshal src with
        | error err => exact ih _ _ _
        | ok crd =>
          simp only
          cases (NestedString crd.specNamesKind).2.2 with
          | some err => exact ih _ _ _
          | none =>
            simp only
            cases (NestedString crd.specGroup).2.2 with
            | some err => exact ih _ _ _
            | none =>
              simp only
              split
              · exact ih _ _ _
              · exact ih _ _ _

theorem deployCRDs_flow {C : Type} (env : Env C) :
    ∀ (crds : List Unstructured) (s : St C),
      (deployCRDs env crds s).1 = Flow.next () ∨
      ∃ e, (deployCRDs env crds s).1 = Flow.done (DeployFailedReason, some e) := by
  intro crds
  induction crds with
  | nil => intro s; exact Or.inl rfl
  | cons crd crds ih =>
    intro s
    unfold deployCRDs
    simp only [bind_apply, deploy_apply, ite_apply_proc, ret_apply]
    by_cases h1 : (env.Deploy crd s.cluster).1.1 ≠ none
    · rw [if_pos h1]
      exact Or.inr ⟨_, rfl⟩
    · rw [if_neg h1]
      cases hb : (env.Deploy crd s.cluster).1.2
      · simp only [Bool.false_eq_true, if_false, pure_apply]
        exact ih _
      · simp only [if_true, setHubCondition_apply]
        exact ih _

theorem installCRDs_reason {C σ : Type} (env : Env C) (s : St C) :
    ∃ reason err, ((installCRDs env : Proc C σ _) s).1 = Flow.next (reason, err) ∧
      ((err = none ∧ reason = "") ∨
        (err ≠ none ∧ (reason = CRDRenderReason ∨ reason = DeployFailedReason))) := by
  unfold installCRDs
  simp only [Proc.fn, bind_apply, getSt_apply]
  cases lookupKey s.environ crdPathEnvVar with
  | none => exact ⟨_, _, rfl, Or.inr ⟨by simp, Or.inl rfl⟩⟩
  | some crdDir =>
    simp only [bind_apply, ask_apply]
    cases env.ReadDir crdDir s.cluster with
    | error err => exact ⟨_, _, rfl, Or.inr ⟨by simp, Or.inl rfl⟩⟩
    | ok files =>
      simp only [bind_apply]
      obtain ⟨v, hv⟩ := renderCRDs_flow (ρ := String × Option Error) env s.hub crdDir files [] []
        { s with trace := s.trace ++ [Event.call (Call.ReadDir crdDir)
          (Result.empty, errOf (Except.ok files : Except Error (List String)))] }
      rcases hr : (renderCRDs env s.hub crdDir files [] [] : Proc C (String × Option Error) _)
        { s with trace := s.trace ++ [Event.call (Call.ReadDir crdDir)
          (Result.empty, errOf (Except.ok files : Except Error (List String)))] } with ⟨fl, s1⟩
      rw [hr] at hv
      simp only at hv
      subst hv
      simp only [ite_apply_proc, ret_apply, bind_apply]
      by_cases hlen : v.2.length > 0
      · rw [if_pos hlen]
        exact ⟨_, _, rfl, Or.inr ⟨by simp, Or.inl rfl⟩⟩
      · rw [if_neg hlen]
        rcases deployCRDs_flow env v.1 s1 with h | ⟨e, h⟩
        · rcases hd : deployCRDs env v.1 s1 with ⟨fl, s2⟩
          rw [hd] at h
          simp only at h
          subst h
          exact ⟨_, _, rfl, Or.inl ⟨rfl, rfl⟩⟩
        · rcases hd : deployCRDs env v.1 s1 with ⟨fl, s2⟩
          rw [hd] at h
          simp only at h
          subst h
          exact ⟨_, _, rfl, Or.inr ⟨by simp, Or.inr rfl⟩⟩

theorem renderResources_flow {C ρ : Type} (env : Env C) (resourceDir : String) :
    ∀ (files : List String) (resources : List Unstructured) (errs : List Error) (s : St C),
      ∃ v, ((renderResources env resourceDir files resources errs : Proc C ρ _) s).1
        = Flow.next v := by
  intro files
  induction files with
  | nil => intro resources errs s; exact ⟨_, rfl⟩
  | cons fileName files ih =>
    intro resources errs s
    unfold renderResources
    split
    · exact ih _ _ _
    · simp only [bind_apply, ask_apply]
      cases env.ReadFile resourceDir fileName s.cluster with
      | error err => exact ih _ _ _
      | ok src =>
        simp only
        cases env.Unmarshal src with
        | error err => exact ih _ _ _
        | ok resource => exact ih _ _ _

theorem deployAll_flow {C : Type} (env : Env C) :
    ∀ (resources : List Unstructured) (s : St C),
      (deployAll env resources s).1 = Flow.next () ∨
      ∃ e, (deployAll env resources s).1 = Flow.done (DeployFailedReason, some e) := by
  intro resources
  induction resources with
  | nil => intro s; exact Or.inl rfl
  | cons res resources ih =>
    intro s
    unfold deployAll
    simp only [bind_apply, getSt_apply, deploy_apply, ite_apply_proc, ret_apply]
    generalize (if res.Namespace = s.hub.Namespace then
      env.SetControllerReference s.hub res else res) = res1
    by_cases h1 : (env.Deploy res1 s.cluster).1.1 ≠ none
    · rw [if_pos h1]
      exact Or.inr ⟨_, rfl⟩
    · rw [if_neg h1]
      cases hb : (env.Deploy res1 s.cluster).1.2
      · simp only [Bool.false_eq_true, if_false, pure_apply]
        exact ih _
      · simp only [if_true, setHubCondition_apply]
        exact ih _

theorem deployResources_reason {C σ : Type} (env : Env C) (s : St C) :
    ∃ reason err, ((deployResources env : Proc C σ _) s).1 = Flow.next (reason, err) ∧
      ((err = none ∧ reason = "") ∨
        (err ≠ none ∧ (reason = ResourceRenderReason ∨ reason = CRDRenderReason ∨
          reason = DeployFailedReason))) := by
  unfold deployResources
  simp only [Proc.fn, bind_apply, getSt_apply]
  cases lookupKey s.environ templatesPathEnvVar with
  | none => exact ⟨_, _, rfl, Or.inr ⟨by simp, Or.inl rfl⟩⟩
  | some dir =>
    simp only [bind_apply, ask_apply]
    cases env.ReadDir (env.pathJoin [dir, templatesKind, "base"]) s.cluster with
    | error err => exact ⟨_, _, rfl, Or.inr ⟨by simp, Or.inl rfl⟩⟩
    | ok files =>
      simp only [bind_apply]
      obtain ⟨v, hv⟩ := renderResources_flow (ρ := String × Option Error) env
        (env.pathJoin [dir, templatesKind, "base"]) files [] []
        { s with trace := s.trace ++
          [Event.call (Call.ReadDir (env.pathJoin [dir, templatesKind, "base"]))
            (Result.empty, errOf (Except.ok files : Except Error (List String)))] }
      rcases hr : (renderResources env (env.pathJoin [dir, templatesKind, "base"]) files [] [] :
          Proc C (String × Option Error) _)
        { s with trace := s.trace ++
          [Event.call (Call.ReadDir (env.pathJoin [dir, templatesKind, "base"]))
            (Result.empty, errOf (Except.ok files : Except Error (List String)))] } with ⟨fl, s1⟩
      rw [hr] at hv
      simp only at hv
      subst hv
      simp only [ite_apply_proc, ret_apply, bind_apply]
      by_cases hlen : v.2.length > 0
      · rw [if_pos hlen]
        exact ⟨_, _, rfl, Or.inr ⟨by simp, Or.inr (Or.inl rfl)⟩⟩
      · rw [if_neg hlen]
        rcases deployAll_flow env v.1 s1 with h | ⟨e, h⟩
        · rcases hd : deployAll env v.1 s1 with ⟨fl, s2⟩
          rw [hd] at h
          simp only at h
          subst h
          exact ⟨_, _, rfl, Or.inl ⟨rfl, rfl⟩⟩
        · rcases hd : deployAll env v.1 s1 with ⟨fl, s2⟩
          rw [hd] at h
          simp only at h
          subst h
          exact ⟨_, _, rfl, Or.inr ⟨by simp, Or.inr (Or.inr rfl)⟩⟩

/-- What the three configuration steps do when they fail: the step sets the `Progressing`
condition to `False` and ends the pass with a non-nil error. The reason of the condition is
the reason code `installCRDs` or `deployResources` returns, one of `CRDRenderReason`,
`ResourceRenderReason`, `DeployFailedReason`; for the pull-secret check it is the text of the
error. -/
theorem config_steps_end_pass {C : Type} (env : Env C) (s : St C) :
    (∀ reason err, ((installCRDs env : Proc C Outcome _) s).1 = Flow.next (reason, some err) →
      (stepInstallCRDs env s).1 = Flow.done (Result.empty, some err) ∧
      (reason = CRDRenderReason ∨ reason = DeployFailedReason) ∧
      ∃ c, GetHubCondition (stepInstallCRDs env s).2.hub.Status HubConditionType.Progressing
          = some c ∧ c.status = ConditionStatus.ConditionFalse ∧ c.reason = reason) ∧
    (∀ r err, (env.exec (Call.ensurePullSecretCreated s.hub.Namespace) s.hub s.cluster).1
        = (r, some err) →
      (stepPullSecret env s).1 = Flow.done (r, some ("failed to find pullsecret: " ++ err)) ∧
      ∃ c, GetHubCondition (stepPullSecret env s).2.hub.Status HubConditionType.Progressing
          = some c ∧ c.status = ConditionStatus.ConditionFalse ∧ c.reason = err) ∧
    (∀ reason err, ((deployResources env : Proc C Outcome _) s).1 = Flow.next (reason, some err) →
      (stepDeployResources env s).1 = Flow.done (Result.empty, some err) ∧
      (reason = ResourceRenderReason ∨ reason = CRDRenderReason ∨
        reason = DeployFailedReason) ∧
      ∃ c, GetHubCondition (stepDeployResources env s).2.hub.Status HubConditionType.Progressing
          = some c ∧ c.status = ConditionStatus.ConditionFalse ∧ c.reason = reason) := by
  refine ⟨?_, ?_, ?_⟩
  · intro reason err h
    obtain ⟨reason1, err1, h1, hcase⟩ := installCRDs_reason (σ := Outcome) env s
    rw [h] at h1
    simp only [Flow.next.injEq, Prod.mk.injEq] at h1
    obtain ⟨hr, he⟩ := h1
    subst hr he
    have hreason : reason = CRDRenderReason ∨ reason = DeployFailedReason := by
      rcases hcase with ⟨h0, _⟩ | ⟨_, h0⟩
      · exact absurd h0 (by simp)
      · exact h0
    rcases hi : (installCRDs env : Proc C Outcome _) s with ⟨fl, s1⟩
    rw [hi] at h
    simp only at h
    subst h
    obtain ⟨c1, hc1, _, hs, hrs, _⟩ := GetHubCondition_SetHubCondition s1.hub.Status
      (NewHubCondition (env.Now s1.cluster) HubConditionType.Progressing
        ConditionStatus.ConditionFalse reason ("Error installing CRDs: " ++ err))
    simp only [stepInstallCRDs, bind_apply, hi, setHubCondition_apply, ret_apply]
    exact ⟨trivial, hreason, c1, hc1, hs, hrs⟩
  · intro r err h
    obtain ⟨c1, hc1, _, hs, hrs, _⟩ := GetHubCondition_SetHubCondition
      (afterCall env (Call.ensurePullSecretCreated s.hub.Namespace) s).hub.Status
      (NewHubCondition (env.Now (afterCall env (Call.ensurePullSecretCreated s.hub.Namespace)
        s).cluster) HubConditionType.Progressing
        ConditionStatus.ConditionFalse err ("Error fetching Pull Secret: " ++ err))
    simp only [stepPullSecret, bind_apply, getSt_apply, call_apply, h, setHubCondition_apply,
      ret_apply]
    exact ⟨trivial, c1, hc1, hs, hrs⟩
  · intro reason err h
    obtain ⟨reason1, err1, h1, hcase⟩ := deployResources_reason (σ := Outcome) env s
    rw [h] at h1
    simp only [Flow.next.injEq, Prod.mk.injEq] at h1
    obtain ⟨hr, he⟩ := h1
    subst hr he
    have hreason : reason = ResourceRenderReason ∨ reason = CRDRenderReason ∨
        reason = DeployFailedReason := by
      rcases hcase with ⟨h0, _⟩ | ⟨_, h0⟩
      · exact absurd h0 (by simp)
      · exact h0
    rcases hi : (deployResources env : Proc C Outcome _) s with ⟨fl, s1⟩
    rw [hi] at h
    simp only at h
    subst h
    obtain ⟨c1, hc1, _, hs, hrs, _⟩ := GetHubCondition_SetHubCondition s1.hub.Status
      (NewHubCondition (env.Now s1.cluster) HubConditionType.Progressing
        ConditionStatus.ConditionFalse reason ("Error deploying resources: " ++ err))
    simp only [stepDeployResources, bind_apply, hi, setHubCondition_apply, ret_apply]
    exact ⟨trivial, hreason, c1, hc1, hs, hrs⟩

/-! ## C6: the guard after a step -/

/-- C6, the failing input evaluated: outside the unit tests, with no ingress domain cached
and the `Get` of the cluster ingress failing, `ingressDomain` returns the empty result with
a non-nil error; the guard `result != (ctrl.Result{})` lets the pass go on, and the next
step, `deployResources`, runs (it reads the template directory). -/
theorem ingress_error_does_not_stop_pass :
    ((ingressDomain ingressFails : Proc Unit Outcome Outcome) coldSt).1
      = Flow.next (Result.empty, some "ingress not found") ∧
    (stepEngineIngress ingressFails coldSt).1 = Flow.next () ∧
    newCalls coldSt
      ((stepEngineIngress ingressFails >>= fun _ => stepDeployResources ingressFails) coldSt).2
      = [Call.ensureMultiClusterEngine, Call.GetIngress,
         Call.ReadDir "/templates/multiclusterhub/base"] := by
  refine ⟨by rfl, by rfl, by rfl⟩

/-! ## C11: `updatePausedCondition` -/

theorem updatePausedCondition_apply {C ρ : Type} (env : Env C) (s : St C) :
    (updatePausedCondition env : Proc C ρ Unit) s =
      if IsPaused s.hub = true then
        match GetHubCondition s.hub.Status HubConditionType.Progressing with
        | none => (setHubCondition env HubConditionType.Progressing
            ConditionStatus.ConditionUnknown PausedReason "Multiclusterhub is paused" :
              Proc C ρ Unit) s
        | some c =>
          if c.reason ≠ PausedReason then
            (setHubCondition env HubConditionType.Progressing
              ConditionStatus.ConditionUnknown PausedReason "Multiclusterhub is paused" :
                Proc C ρ Unit) s
          else (Flow.next (), s)
      else
        match GetHubCondition s.hub.Status HubConditionType.Progressing with
        | none => (Flow.next (), s)
        | some c =>
          if c.reason = PausedReason then
            (setHubCondition env HubConditionType.Progressing
              ConditionStatus.ConditionTrue ResumedReason "Multiclusterhub is resumed" :
                Proc C ρ Unit) s
          else (Flow.next (), s) := by
  simp only [updatePausedCondition, bind_apply, getSt_apply]
  by_cases hp : IsPaused s.hub = true
  · simp only [hp, if_true]
    cases GetHubCondition s.hub.Status HubConditionType.Progressing with
    | none => rfl
    | some c => simp only [ite_apply_proc, pure_apply]
  · simp only [hp, if_false]
    cases GetHubCondition s.hub.Status HubConditionType.Progressing with
    | none => rfl
    | some c => simp only [ite_apply_proc, pure_apply]

/-- What `updatePausedCondition` leaves: the state `s` itself, or `s` with one condition set
and recorded. -/
theorem updatePausedCondition_cases {C ρ : Type} (env : Env C) (s : St C) :
    ((updatePausedCondition env : Proc C ρ Unit) s).1 = Flow.next () ∧
    frame ((updatePausedCondition env : Proc C ρ Unit) s).2 = frame s ∧
    ((updatePausedCondition env : Proc C ρ Unit) s).2.cluster = s.cluster ∧
    newCalls s ((updatePausedCondition env : Proc C ρ Unit) s).2 = [] := by
  have hnew : ∀ (t : List Event) (e : Event),
      callsOf ((t ++ [e]).drop t.length) = callsOf [e] := by
    intro t e; simp
  have hset : ∀ (st : ConditionStatus) (reason message : String),
      ((setHubCondition env HubConditionType.Progressing st reason message :
          Proc C ρ Unit) s).1 = Flow.next () ∧
      frame ((setHubCondition env HubConditionType.Progressing st reason message :
          Proc C ρ Unit) s).2 = frame s ∧
      ((setHubCondition env HubConditionType.Progressing st reason message :
          Proc C ρ Unit) s).2.cluster = s.cluster ∧
      newCalls s ((setHubCondition env HubConditionType.Progressing st reason message :
          Proc C ρ Unit) s).2 = [] := by
    intro st reason message
    exact ⟨rfl, rfl, rfl, (hnew _ _).trans rfl⟩
  have hsame : ((Flow.next (), s) : Flow ρ Unit × St C).1 = Flow.next () ∧
      frame ((Flow.next (), s) : Flow ρ Unit × St C).2 = frame s ∧
      ((Flow.next (), s) : Flow ρ Unit × St C).2.cluster = s.cluster ∧
      newCalls s ((Flow.next (), s) : Flow ρ Unit × St C).2 = [] :=
    ⟨rfl, rfl, rfl, by simp [newCalls, newEvents, callsOf]⟩
  rw [updatePausedCondition_apply]
  split
  · split
    · exact hset _ _ _
    · split
      · exact hset _ _ _
      · exact hsame
  · split
    · exact hsame
    · split
      · exact hset _ _ _
      · exact hsame

theorem updatePausedCondition_status {C ρ : Type} (env : Env C) (s : St C) :
    (IsPaused s.hub = true →
      (∀ c, GetHubCondition s.hub.Status HubConditionType.Progressing = some c →
        c.reason ≠ PausedReason) →
      ((updatePausedCondition env : Proc C ρ Unit) s).2.hub.Status =
        SetHubCondition s.hub.Status (NewHubCondition (env.Now s.cluster)
          HubConditionType.Progressing ConditionStatus.ConditionUnknown PausedReason
          "Multiclusterhub is paused")) ∧
    (IsPaused s.hub = false →
      (∃ c, GetHubCondition s.hub.Status HubConditionType.Progressing = some c ∧
        c.reason = PausedReason) →
      ((updatePausedCondition env : Proc C ρ Unit) s).2.hub.Status =
        SetHubCondition s.hub.Status (NewHubCondition (env.Now s.cluster)
          HubConditionType.Progressing ConditionStatus.ConditionTrue ResumedReason
          "Multiclusterhub is resumed")) ∧
    (IsPaused s.hub = true →
      (∃ c, GetHubCondition s.hub.Status HubConditionType.Progressing = some c ∧
        c.reason = PausedReason) →
      ((updatePausedCondition env : Proc C ρ Unit) s).2 = s) ∧
    (IsPaused s.hub = false →
      (∀ c, GetHubCondition s.hub.Status HubConditionType.Progressing = some c →
        c.reason ≠ PausedReason) →
      ((updatePausedCondition env : Proc C ρ Unit) s).2 = s) := by
  rw [updatePausedCondition_apply]
  refine ⟨?_, ?_, ?_, ?_⟩
  · intro hp hc
    rw [if_pos hp]
    cases hg : GetHubCondition s.hub.Status HubConditionType.Progressing with
    | none => rfl
    | some c =>
      dsimp only
      rw [if_pos (hc c hg)]
      rfl
  · rintro hp ⟨c, hg, hr⟩
    rw [if_neg (by rw [hp]; decide), hg]
    dsimp only
    rw [if_pos hr]
    rfl
  · rintro hp ⟨c, hg, hr⟩
    rw [if_pos hp, hg]
    dsimp only
    rw [if_neg (not_not.2 hr)]
  · intro hp hc
    rw [if_neg (by rw [hp]; decide)]
    cases hg : GetHubCondition s.hub.Status HubConditionType.Progressing with
    | none => rfl
    | some c =>
      dsimp only
      rw [if_neg (hc c hg)]

theorem frame_paused {C : Type} (s s1 : St C) (h : frame s1 = frame s) :
    IsPaused s1.hub = IsPaused s.hub := by
  simp only [frame, Prod.mk.injEq] at h
  exact h.1.2.2.2.2.1

/-- C11: `updatePausedCondition` ends normally, calls no helper and changes nothing but the
status of the hub. If the hub is paused and the `Progressing` condition is absent or has a
reason other than `Paused`, the status becomes the old one with `Progressing=Unknown`, reason
`Paused`, set; if the hub is not paused and the `Progressing` condition has the reason
`Paused`, the status becomes the old one with `Progressing=True`, reason `Resumed`, set; in
the two other cases the state is left as it is. After the call the `Progressing` condition
has the reason `Paused` if and only if the hub is paused, and a second call leaves the state
of the first. -/
theorem updatePausedCondition_transitions {C : Type} (env : Env C) (s : St C) :
    ((updatePausedCondition env : Proc C Outcome Unit) s).1 = Flow.next () ∧
    frame ((updatePausedCondition env : Proc C Outcome Unit) s).2 = frame s ∧
    newCalls s ((updatePausedCondition env : Proc C Outcome Unit) s).2 = [] ∧
    (IsPaused s.hub = true →
      (∀ c, GetHubCondition s.hub.Status HubConditionType.Progressing = some c →
        c.reason ≠ PausedReason) →
      ((updatePausedCondition env : Proc C Outcome Unit) s).2.hub.Status =
        SetHubCondition s.hub.Status (NewHubCondition (env.Now s.cluster)
          HubConditionType.Progressing ConditionStatus.ConditionUnknown PausedReason
          "Multiclusterhub is paused") ∧
      ∃ c1, GetHubCondition ((updatePausedCondition env : Proc C Outcome Unit) s).2.hub.Status
          HubConditionType.Progressing = some c1 ∧
        c1.status = ConditionStatus.ConditionUnknown ∧ c1.reason = PausedReason) ∧
    (IsPaused s.hub = false →
      (∃ c, GetHubCondition s.hub.Status HubConditionType.Progressing = some c ∧
        c.reason = PausedReason) →
      ((updatePausedCondition env : Proc C Outcome Unit) s).2.hub.Status =
        SetHubCondition s.hub.Status (NewHubCondition (env.Now s.cluster)
          HubConditionType.Progressing ConditionStatus.ConditionTrue ResumedReason
          "Multiclusterhub is resumed") ∧
      ∃ c1, GetHubCondition ((updatePausedCondition env : Proc C Outcome Unit) s).2.hub.Status
          HubConditionType.Progressing = some c1 ∧
        c1.status = ConditionStatus.ConditionTrue ∧ c1.reason = ResumedReason) ∧
    (IsPaused s.hub = true →
      (∃ c, GetHubCondition s.hub.Status HubConditionType.Progressing = some c ∧
        c.reason = PausedReason) →
      ((updatePausedCondition env : Proc C Outcome Unit) s).2 = s) ∧
    (IsPaused s.hub = false →
      (∀ c, GetHubCondition s.hub.Status HubConditionType.Progressing = some c →
        c.reason ≠ PausedReason) →
      ((updatePausedCondition env : Proc C Outcome Unit) s).2 = s) ∧
    ((∃ c, GetHubCondition ((updatePausedCondition env : Proc C Outcome Unit) s).2.hub.Status
        HubConditionType.Progressing = some c ∧ c.reason = PausedReason) ↔
      IsPaused s.hub = true) ∧
    (updatePausedCondition env : Proc C Outcome Unit)
        ((updatePausedCondition env : Proc C Outcome Unit) s).2
      = (Flow.next (), ((updatePausedCondition env : Proc C Outcome Unit) s).2) := by
  obtain ⟨hflow, hframe, _, hcalls⟩ := updatePausedCondition_cases (ρ := Outcome) env s
  obtain ⟨h1, h2, h3, h4⟩ := updatePausedCondition_status (ρ := Outcome) env s
  have hset1 := GetHubCondition_SetHubCondition s.hub.Status (NewHubCondition (env.Now s.cluster)
    HubConditionType.Progressing ConditionStatus.ConditionUnknown PausedReason
    "Multiclusterhub is paused")
  have hset2 := GetHubCondition_SetHubCondition s.hub.Status (NewHubCondition (env.Now s.cluster)
    HubConditionType.Progressing ConditionStatus.ConditionTrue ResumedReason
    "Multiclusterhub is resumed")
  have hP1 : IsPaused s.hub = true →
      ∃ c, GetHubCondition ((updatePausedCondition env : Proc C Outcome Unit) s).2.hub.Status
        HubConditionType.Progressing = some c ∧ c.reason = PausedReason := by
    intro hp
    by_cases hc : ∃ c, GetHubCondition s.hub.Status HubConditionType.Progressing = some c ∧
        c.reason = PausedReason
    · rw [h3 hp hc]
      exact hc
    · have hc1 : ∀ c, GetHubCondition s.hub.Status HubConditionType.Progressing = some c →
          c.reason ≠ PausedReason := fun c hg hr => hc ⟨c, hg, hr⟩
      rw [h1 hp hc1]
      obtain ⟨c1, hg1, _, _, hr1, _⟩ := hset1
      exact ⟨c1, hg1, hr1⟩
  have hP2 : IsPaused s.hub = false →
      ∀ c, GetHubCondition ((updatePausedCondition env : Proc C Outcome Unit) s).2.hub.Status
        HubConditionType.Progressing = some c → c.reason ≠ PausedReason := by
    intro hp c hg
    by_cases hc : ∃ c, GetHubCondition s.hub.Status HubConditionType.Progressing = some c ∧
        c.reason = PausedReason
    · rw [h2 hp hc] at hg
      obtain ⟨c1, hg1, _, _, hr1, _⟩ := hset2
      have he : some c1 = some c := hg1.symm.trans hg
      cases he
      rw [hr1]
      show ResumedReason ≠ PausedReason
      decide
    · rw [h4 hp (fun c hg hr => hc ⟨c, hg, hr⟩)] at hg
      exact fun hr => hc ⟨c, hg, hr⟩
  refine ⟨hflow, hframe, hcalls, ?_, ?_, h3, h4, ?_, ?_⟩
  · intro hp hc
    refine ⟨h1 hp hc, ?_⟩
    rw [h1 hp hc]
    obtain ⟨c1, hg1, _, hs1, hr1, _⟩ := hset1
    exact ⟨c1, hg1, hs1, hr1⟩
  · intro hp hc
    refine ⟨h2 hp hc, ?_⟩
    rw [h2 hp hc]
    obtain ⟨c1, hg1, _, hs1, hr1, _⟩ := hset2
    exact ⟨c1, hg1, hs1, hr1⟩
  · constructor
    · rintro ⟨c, hg, hr⟩
      by_contra hp
      have hp1 : IsPaused s.hub = false := by
        cases h : IsPaused s.hub
        · rfl
        · exact absurd h hp
      exact hP2 hp1 c hg hr
    · exact hP1
  · have hpause := frame_paused _ _ hframe
    obtain ⟨_, _, k3, k4⟩ := updatePausedCondition_status (ρ := Outcome) env
      ((updatePausedCondition env : Proc C Outcome Unit) s).2
    obtain ⟨kflow, _, _, _⟩ := updatePausedCondition_cases (ρ := Outcome) env
      ((updatePausedCondition env : Proc C Outcome Unit) s).2
    have hst : ((updatePausedCondition env : Proc C Outcome Unit)
        ((updatePausedCondition env : Proc C Outcome Unit) s).2).2
        = ((updatePausedCondition env : Proc C Outcome Unit) s).2 := by
      cases hp : IsPaused s.hub
      · exact k4 (hpause.trans hp) (hP2 hp)
      · exact k3 (hpause.trans hp) (hP1 hp)
    exact Prod.ext kflow hst

/-! ## C12 and C13: the compatibility guard -/

theorem matchString24_of_prefix (rest : String) : matchString24 ("2.4" ++ rest) = true := by
  have h : ("2.4" ++ rest).toList = '2' :: '.' :: '4' :: rest.toList := by
    rw [String.toList, String.data_append]
    rfl
  unfold matchString24
  rw [h]
  show (decide ('2' = '2') && decide ('.' ≠ Char.ofNat 10) && decide (_ = _)) = true
  decide

theorem matchString25_of_prefix (rest : String) : matchString25 ("2.5" ++ rest) = true := by
  have h : ("2.5" ++ rest).toList = '2' :: '.' :: '5' :: rest.toList := by
    rw [String.toList, String.data_append]
    rfl
  unfold matchString25
  rw [h]
  show (decide ('2' = '2') && decide ('.' ≠ Char.ofNat 10) && decide (_ = _)) = true
  decide

theorem stepCompatGuard_blocked {C : Type} (env : Env C) (s : St C)
    (hcur : matchString24 s.hub.Status.CurrentVersion = true)
    (hdes : matchString25 s.hub.Status.DesiredVersion = true)
    (hb : s.hub.Spec.EnableClusterBackup = true) :
    stepCompatGuard env s = (Flow.done (Result.empty, none),
      ((setHubCondition env HubConditionType.Blocked ConditionStatus.ConditionTrue
        ResourceBlockReason
        "When upgrading from version 2.4 to 2.5, cluster backup must be disabled" :
          Proc C Outcome Unit) s).2) := by
  simp only [stepCompatGuard, bind_apply, getSt_apply, hcur, hdes, hb, and_self, if_true,
    setHubCondition_apply, ret_apply]

/-- C12: if the current version of the hub is in the 2.4 line, its desired version in the 2.5
line and cluster backup is enabled, a pass that reaches the compatibility guard sets the
`Blocked` condition to `True` (reason `ResourceBlockReason`) and ends there with the empty
outcome and no error: it makes no call, so no later convergence step runs, and it changes
nothing of the hub but the status. -/
theorem compat_guard_blocks {C : Type} (env : Env C) (s : St C) (cur des : String)
    (hcur : s.hub.Status.CurrentVersion = "2.4" ++ cur)
    (hdes : s.hub.Status.DesiredVersion = "2.5" ++ des)
    (hb : s.hub.Spec.EnableClusterBackup = true) :
    (convergeFromCompatGuard env s).1 = Flow.done (Result.empty, none) ∧
    (convergeFromCompatGuard env s).2.hub.Status =
      SetHubCondition s.hub.Status (NewHubCondition (env.Now s.cluster) HubConditionType.Blocked
        ConditionStatus.ConditionTrue ResourceBlockReason
        "When upgrading from version 2.4 to 2.5, cluster backup must be disabled") ∧
    (∃ c, GetHubCondition (convergeFromCompatGuard env s).2.hub.Status HubConditionType.Blocked
        = some c ∧ c.status = ConditionStatus.ConditionTrue ∧ c.reason = ResourceBlockReason) ∧
    newCalls s (convergeFromCompatGuard env s).2 = [] ∧
    frame (convergeFromCompatGuard env s).2 = frame s := by
  have h24 : matchString24 s.hub.Status.CurrentVersion = true := by
    rw [hcur]; exact matchString24_of_prefix cur
  have h25 : matchString25 s.hub.Status.DesiredVersion = true := by
    rw [hdes]; exact matchString25_of_prefix des
  have hstep := stepCompatGuard_blocked env s h24 h25 hb
  have hpass : convergeFromCompatGuard env s = (Flow.done (Result.empty, none),
      ((setHubCondition env HubConditionType.Blocked ConditionStatus.ConditionTrue
        ResourceBlockReason
        "When upgrading from version 2.4 to 2.5, cluster backup must be disabled" :
          Proc C Outcome Unit) s).2) := by
    simp only [convergeFromCompatGuard, bind_apply, hstep]
  rw [hpass]
  obtain ⟨c1, hg1, _, hs1, hr1, _⟩ := GetHubCondition_SetHubCondition s.hub.Status
    (NewHubCondition (env.Now s.cluster) HubConditionType.Blocked
      ConditionStatus.ConditionTrue ResourceBlockReason
      "When upgrading from version 2.4 to 2.5, cluster backup must be disabled")
  refine ⟨rfl, rfl, ⟨c1, hg1, hs1, hr1⟩, ?_, rfl⟩
  simp [newCalls, newEvents, callsOf, setHubCondition_apply]

/-- C12, an instance: a hub at 2.4.2 that is to go to 2.5.0 with cluster backup enabled: the
pass ends at the guard with the empty outcome and the `Blocked` condition set. -/
theorem compat_guard_blocks_witness :
    (convergeFromCompatGuard quietEnv (exampleSt (upgradeHub "2.4.2" "2.5.0" true []))).1
      = Flow.done (Result.empty, none) ∧
    GetHubCondition
        (convergeFromCompatGuard quietEnv (exampleSt (upgradeHub "2.4.2" "2.5.0" true []))).2.hub.Status
        HubConditionType.Blocked
      = some ⟨HubConditionType.Blocked, ConditionStatus.ConditionTrue, ResourceBlockReason,
          "When upgrading from version 2.4 to 2.5, cluster backup must be disabled", 0, 0⟩ ∧
    newCalls (exampleSt (upgradeHub "2.4.2" "2.5.0" true []))
      (convergeFromCompatGuard quietEnv (exampleSt (upgradeHub "2.4.2" "2.5.0" true []))).2 = [] := by
  have h := compat_guard_blocks quietEnv (exampleSt (upgradeHub "2.4.2" "2.5.0" true []))
    ".2" ".0" (by decide) (by decide) rfl
  refine ⟨h.1, ?_, h.2.2.2.1⟩
  rw [h.2.1]
  rfl

theorem getCondition_removeCondition (l : List HubCondition) (t : HubConditionType) :
    getCondition (removeCondition l t) t = none := by
  simp [getCondition, removeCondition, List.find?_eq_none]

theorem stepCompatGuard_window {C : Type} (env : Env C) (s : St C)
    (hcur : matchString24 s.hub.Status.CurrentVersion = true)
    (hdes : matchString25 s.hub.Status.DesiredVersion = true)
    (hb : s.hub.Spec.EnableClusterBackup = false) :
    stepCompatGuard env s =
      if (env.exec (Call.ensureNoSubscription subscription.OldClusterBackup) s.hub s.cluster).1.1
          ≠ Result.empty then
        (Flow.done (env.exec (Call.ensureNoSubscription subscription.OldClusterBackup)
            s.hub s.cluster).1,
          afterCall env (Call.ensureNoSubscription subscription.OldClusterBackup) s)
      else
        (removeHubCondition HubConditionType.Blocked : Proc C Outcome Unit)
          (afterCall env (Call.ensureNoSubscription subscription.OldClusterBackup) s) := by
  simp only [stepCompatGuard, bind_apply, getSt_apply, hcur, hdes, hb, and_self, if_true,
    Bool.false_eq_true, if_false, guarded, guardResult_call_apply]
  by_cases hr : (env.exec (Call.ensureNoSubscription subscription.OldClusterBackup)
      s.hub s.cluster).1.1 ≠ Result.empty
  · rw [if_pos hr, if_pos hr]
  · rw [if_neg hr, if_neg hr]

theorem stepCompatGuard_outside {C : Type} (env : Env C) (s : St C)
    (h : ¬ (matchString24 s.hub.Status.CurrentVersion = true ∧
      matchString25 s.hub.Status.DesiredVersion = true)) :
    stepCompatGuard env s = (Flow.next (), s) := by
  simp only [stepCompatGuard, bind_apply, getSt_apply, h, if_false, pure_apply]

/-- C13 (amended): the guard acts only inside the version window. If the current version
matches `^2.4`, the desired version matches `^2.5` and cluster backup is not enabled, the
guard calls `ensureNoSubscription` on the old cluster-backup subscription and nothing else,
and a pass that gets past the guard has then removed the `Blocked` condition: none remains
in the status. If the versions are outside the window, the guard does nothing: the pass
goes on from the same state, a `Blocked` condition included. -/
theorem compat_guard_clears {C : Type} (env : Env C) (s : St C) :
    (matchString24 s.hub.Status.CurrentVersion = true →
      matchString25 s.hub.Status.DesiredVersion = true →
      s.hub.Spec.EnableClusterBackup = false →
      newCalls s (stepCompatGuard env s).2
        = [Call.ensureNoSubscription subscription.OldClusterBackup] ∧
      ((stepCompatGuard env s).1 = Flow.next () →
        (env.exec (Call.ensureNoSubscription subscription.OldClusterBackup)
          s.hub s.cluster).1.1 = Result.empty ∧
        (stepCompatGuard env s).2.hub.Status = RemoveHubCondition
          (afterCall env (Call.ensureNoSubscription subscription.OldClusterBackup) s).hub.Status
          HubConditionType.Blocked ∧
        GetHubCondition (stepCompatGuard env s).2.hub.Status HubConditionType.Blocked = none)) ∧
    (¬ (matchString24 s.hub.Status.CurrentVersion = true ∧
        matchString25 s.hub.Status.DesiredVersion = true) →
      stepCompatGuard env s = (Flow.next (), s)) := by
  refine ⟨?_, stepCompatGuard_outside env s⟩
  intro hcur hdes hb
  rw [stepCompatGuard_window env s hcur hdes hb]
  by_cases hr : (env.exec (Call.ensureNoSubscription subscription.OldClusterBackup)
      s.hub s.cluster).1.1 ≠ Result.empty
  · rw [if_pos hr]
    refine ⟨?_, ?_⟩
    · simp [newCalls, newEvents, callsOf, afterCall]
    · intro h
      cases h
  · rw [if_neg hr]
    refine ⟨?_, ?_⟩
    · simp [newCalls, newEvents, callsOf, afterCall, removeHubCondition]
    · intro _
      exact ⟨not_not.1 hr, rfl, getCondition_removeCondition _ _⟩

/-- C13, two instances. A hub at 2.4.2 that is to go to 2.5.0, cluster backup disabled, with
a stale `Blocked` condition: the guard calls `ensureNoSubscription` and no `Blocked`
condition remains. A hub at 2.3.0 that is to go to 2.4.0: the guard leaves the state. -/
theorem compat_guard_clears_witness :
    (newCalls (exampleSt (upgradeHub "2.4.2" "2.5.0" false [staleBlocked]))
        (stepCompatGuard quietEnv (exampleSt (upgradeHub "2.4.2" "2.5.0" false [staleBlocked]))).2
      = [Call.ensureNoSubscription subscription.OldClusterBackup] ∧
      GetHubCondition
        (stepCompatGuard quietEnv
          (exampleSt (upgradeHub "2.4.2" "2.5.0" false [staleBlocked]))).2.hub.Status
        HubConditionType.Blocked = none) ∧
    stepCompatGuard quietEnv (exampleSt (upgradeHub "2.3.0" "2.4.0" false []))
      = (Flow.next (), exampleSt (upgradeHub "2.3.0" "2.4.0" false [])) := by
  have h1 := (compat_guard_clears quietEnv
    (exampleSt (upgradeHub "2.4.2" "2.5.0" false [staleBlocked]))).1 (by decide) (by decide) rfl
  have h2 := (compat_guard_clears quietEnv
    (exampleSt (upgradeHub "2.3.0" "2.4.0" false []))).2 (by decide)
  exact ⟨⟨h1.1, (h1.2 (by rfl)).2.2⟩, h2⟩

/-- C13 as stated fails: for a hub at 2.5.0 with desired version 2.5.0 and cluster backup
disabled the incompatible combination is not detected and the pass gets past the guard, but
the stale `Blocked` condition is still in the status and `ensureNoSubscription` has not been
called. -/
theorem compat_guard_clears_counterexample :
    matchString24 (upgradeHub "2.5.0" "2.5.0" false [staleBlocked]).Status.CurrentVersion = false ∧
    (upgradeHub "2.5.0" "2.5.0" false [staleBlocked]).Spec.EnableClusterBackup = false ∧
    (stepCompatGuard quietEnv (exampleSt (upgradeHub "2.5.0" "2.5.0" false [staleBlocked]))).1
      = Flow.next () ∧
    GetHubCondition
        (stepCompatGuard quietEnv
          (exampleSt (upgradeHub "2.5.0" "2.5.0" false [staleBlocked]))).2.hub.Status
        HubConditionType.Blocked = some staleBlocked ∧
    newCalls (exampleSt (upgradeHub "2.5.0" "2.5.0" false [staleBlocked]))
      (stepCompatGuard quietEnv
        (exampleSt (upgradeHub "2.5.0" "2.5.0" false [staleBlocked]))).2 = [] := by
  refine ⟨by decide, rfl, by rfl, by rfl, by rfl⟩


/-! ## Statements about every run -/

theorem holds_pure {C ρ α : Type} (a : α) (Q : Flow ρ α → List Event → Prop)
    (h : Q (Flow.next a) []) : Holds (pure a : Proc C ρ α) Q :=
  fun _ => ⟨[], by simp, h⟩

theorem holds_ret {C ρ α : Type} (r : ρ) (Q : Flow ρ α → List Event → Prop)
    (h : Q (Flow.done r) []) : Holds (ret r : Proc C ρ α) Q :=
  fun _ => ⟨[], by simp, h⟩

theorem holds_goPanic {C ρ α : Type} (msg : String) (Q : Flow ρ α → List Event → Prop)
    (h : Q (Flow.panic msg) []) : Holds (goPanic msg : Proc C ρ α) Q :=
  fun _ => ⟨[], by simp [goPanic], h⟩

theorem holds_bind {C ρ α β : Type} (m : Proc C ρ α) (f : α → Proc C ρ β)
    (Q : Flow ρ β → List Event → Prop)
    (h : Holds m (fun fl l1 =>
      match fl with
      | Flow.next a => Holds (f a) (fun fl2 l2 => Q fl2 (l1 ++ l2))
      | Flow.done r => Q (Flow.done r) l1
      | Flow.panic msg => Q (Flow.panic msg) l1)) :
    Holds (m >>= f) Q := by
  intro s
  obtain ⟨l1, hl1, h1⟩ := h s
  rw [bind_apply]
  rcases hm : m s with ⟨a | r | msg, s1⟩
  · rw [hm] at hl1 h1
    simp only at hl1 h1
    obtain ⟨l2, hl2, h2⟩ := h1 s1
    exact ⟨l1 ++ l2, by rw [hl2, hl1, List.append_assoc], h2⟩
  · rw [hm] at hl1 h1
    exact ⟨l1, hl1, h1⟩
  · rw [hm] at hl1 h1
    exact ⟨l1, hl1, h1⟩

theorem holds_conseq {C ρ α : Type} (m : Proc C ρ α) (Q1 Q : Flow ρ α → List Event → Prop)
    (h : Holds m Q1) (hq : ∀ fl l, Q1 fl l → Q fl l) : Holds m Q :=
  fun s => by
    obtain ⟨l, hl, h1⟩ := h s
    exact ⟨l, hl, hq _ _ h1⟩

theorem holds_getSt {C ρ : Type} (Q : Flow ρ (St C) → List Event → Prop)
    (h : ∀ s, Q (Flow.next s) []) : Holds (getSt : Proc C ρ (St C)) Q :=
  fun s => ⟨[], by simp, h s⟩

theorem holds_modifyHub {C ρ : Type} (f : MultiClusterHub → MultiClusterHub)
    (Q : Flow ρ Unit → List Event → Prop) (h : Q (Flow.next ()) []) :
    Holds (modifyHub f : Proc C ρ Unit) Q :=
  fun _ => ⟨[], by simp [modifyHub], h⟩

theorem holds_modifyCache {C ρ : Type} (f : CacheSpec → CacheSpec)
    (Q : Flow ρ Unit → List Event → Prop) (h : Q (Flow.next ()) []) :
    Holds (modifyCache f : Proc C ρ Unit) Q :=
  fun _ => ⟨[], by simp [modifyCache], h⟩

theorem holds_applyDefaulting {C ρ : Type}
    (f : MultiClusterHubSpec → MultiClusterHubSpec × Bool)
    (Q : Flow ρ Bool → List Event → Prop) (h : ∀ b, Q (Flow.next b) []) :
    Holds (applyDefaulting f : Proc C ρ Bool) Q :=
  fun s => ⟨[], by simp [applyDefaulting], h _⟩

theorem holds_call {C ρ : Type} (env : Env C) (c : Call)
    (Q : Flow ρ Outcome → List Event → Prop)
    (h : ∀ out, Q (Flow.next out) [Event.call c out]) : Holds (call env c : Proc C ρ Outcome) Q :=
  fun s => ⟨[Event.call c (env.exec c s.hub s.cluster).1], rfl, h _⟩

theorem holds_ask {C ρ α : Type} (c : Call) (f : C → Except Error α)
    (Q : Flow ρ (Except Error α) → List Event → Prop)
    (h : ∀ x, Q (Flow.next x) [Event.call c (Result.empty, errOf x)]) :
    Holds (ask c f : Proc C ρ (Except Error α)) Q :=
  fun s => ⟨[Event.call c (Result.empty, errOf (f s.cluster))], rfl, h _⟩

theorem holds_deploy {C ρ : Type} (env : Env C) (u : Unstructured)
    (Q : Flow ρ (Option Error × Bool) → List Event → Prop)
    (h : ∀ r, Q (Flow.next r) [Event.call (Call.Deploy u) (Result.empty, r.1)]) :
    Holds (deploy env u : Proc C ρ (Option Error × Bool)) Q :=
  fun s => ⟨[Event.call (Call.Deploy u) (Result.empty, (env.Deploy u s.cluster).1.1)], rfl, h _⟩

theorem holds_setHubCondition {C ρ : Type} (env : Env C) (t : HubConditionType)
    (st : ConditionStatus) (reason message : String) (Q : Flow ρ Unit → List Event → Prop)
    (h : ∀ c, Q (Flow.next ()) [Event.SetHubCondition c]) :
    Holds (setHubCondition env t st reason message : Proc C ρ Unit) Q :=
  fun s => ⟨[Event.SetHubCondition (NewHubCondition (env.Now s.cluster) t st reason message)],
    rfl, h _⟩

theorem holds_removeHubCondition {C ρ : Type} (t : HubConditionType)
    (Q : Flow ρ Unit → List Event → Prop)
    (h : Q (Flow.next ()) [Event.RemoveHubCondition t]) :
    Holds (removeHubCondition t : Proc C ρ Unit) Q :=
  fun _ => ⟨[Event.RemoveHubCondition t], rfl, h⟩

theorem holds_Setenv {C ρ : Type} (key value : String)
    (Q : Flow ρ (Option Error) → List Event → Prop)
    (h : ∀ err, Q (Flow.next err) [Event.call (Call.Setenv key value) (Result.empty, err)]) :
    Holds (Setenv key value : Proc C ρ (Option Error)) Q := by
  intro s
  unfold Setenv
  split
  · exact ⟨_, rfl, h _⟩
  · exact ⟨_, rfl, h _⟩

theorem holds_fn {C ρ σ : Type} (body : Proc C ρ ρ) (Q : Flow σ ρ → List Event → Prop)
    (h : Holds body (fun fl l =>
      match fl with
      | Flow.next r => Q (Flow.next r) l
      | Flow.done r => Q (Flow.next r) l
      | Flow.panic msg => Q (Flow.panic msg) l)) :
    Holds (Proc.fn body : Proc C σ ρ) Q := by
  intro s
  obtain ⟨l, hl, h1⟩ := h s
  unfold Proc.fn
  rcases hm : body s with ⟨a | r | msg, s1⟩ <;>
  · rw [hm] at hl h1
    exact ⟨l, hl, h1⟩

theorem holds_ite {C ρ α : Type} (c : Prop) [Decidable c] (a b : Proc C ρ α)
    (Q : Flow ρ α → List Event → Prop) (ha : c → Holds a Q) (hb : ¬ c → Holds b Q) :
    Holds (if c then a else b) Q := by
  split
  · next h => exact ha h
  · next h => exact hb h

theorem holds_must {C α : Type} (c : Call) (f : C → Except Error α)
    (Q : Flow Outcome α → List Event → Prop)
    (herr : ∀ err, Q (Flow.done (Result.empty, some err))
      [Event.call c (Result.empty, some err)])
    (hok : ∀ v, Q (Flow.next v) [Event.call c (Result.empty, none)]) :
    Holds (must c f) Q := by
  intro s
  unfold must
  rw [bind_apply, ask_apply]
  cases hf : f s.cluster with
  | error err => exact ⟨_, rfl, herr err⟩
  | ok v => exact ⟨_, rfl, hok v⟩

theorem holds_seq {C ρ α β : Type} (A : Event → Prop) (B : ρ → Event → Prop)
    (hAB : ∀ r e, A e → B r e) (m : Proc C ρ α) (f : α → Proc C ρ β)
    (hm : Holds m (Post A B)) (hf : ∀ a, Holds (f a) (Post A B)) :
    Holds (m >>= f) (Post A B) := by
  apply holds_bind
  apply holds_conseq m _ _ hm
  intro fl l1 h1
  cases fl with
  | next a =>
    apply holds_conseq _ _ _ (hf a)
    intro fl2 l2 h2
    cases fl2 with
    | next b =>
      intro e he
      rcases List.mem_append.1 he with h | h
      · exact h1 e h
      · exact h2 e h
    | done r =>
      intro e he
      rcases List.mem_append.1 he with h | h
      · exact hAB r e (h1 e h)
      · exact h2 e h
    | panic msg =>
      intro e he
      rcases List.mem_append.1 he with h | h
      · exact h1 e h
      · exact h2 e h
  | done r => exact h1
  | panic msg => exact h1


/-! ## C14: `setDefaults` -/

theorem applyDefaulting_apply {C ρ : Type}
    (f : MultiClusterHubSpec → MultiClusterHubSpec × Bool) (s : St C) :
    (applyDefaulting f : Proc C ρ Bool) s =
      (Flow.next (f s.hub.Spec).2, { s with hub := { s.hub with Spec := (f s.hub.Spec).1 } }) :=
  rfl

theorem setDefaults_eq {C σ : Type} (env : Env C) :
    (setDefaults env : Proc C σ Outcome) = Proc.fn (do
      let c1 ← applyDefaulting env.SetDefaultComponents
      let c2 ← applyDefaulting env.DeduplicateComponents
      let c3 ← applyDefaulting env.MigrateToggles
      let updateNecessary := c1 || c2 || c3
      let s ← getSt
      if env.MchIsValid s.hub = true ∧ Getenv s.environ "ACM_HUB_OCP_VERSION" ≠ ""
          ∧ updateNecessary = false then
        ret (Result.empty, none)
      else do
        let u1 ← (if s.hub.Spec.SSLCiphers.length = 0 then do
            modifyHub (fun m => { m with Spec := { m.Spec with SSLCiphers := env.DefaultSSLCiphers } })
            pure true
          else pure updateNecessary)
        let s ← getSt
        let u2 ← (if env.AvailabilityConfigIsValid s.hub.Spec.AvailabilityConfig = false then do
            modifyHub (fun m => { m with Spec := { m.Spec with AvailabilityConfig := env.HAHigh } })
            pure true
          else pure u1)
        setDefaultsVersion env u2) := rfl
set_option maxHeartbeats 2000000 in
theorem setDefaultsVersion_post {C : Type} (env : Env C) (u : Bool) :
    Holds (setDefaultsVersion env u) (versionPost u) := by
  unfold setDefaultsVersion
  repeat' first
    | with_reducible apply holds_ret
    | with_reducible apply holds_pure
    | with_reducible apply holds_goPanic
    | (with_reducible apply holds_getSt; intro _)
    | (with_reducible apply holds_must <;> intro _)
    | (with_reducible apply holds_Setenv; intro _)
    | (with_reducible apply holds_call; intro _)
    | (with_reducible apply holds_ite <;> intro _)
    | with_reducible apply holds_bind
    | dsimp only
    | split
  all_goals (simp_all [versionPost, callsOf, isUpdate])
  all_goals
    (intro m r _ h
     subst h
     simp_all)

/-- The two ways `setDefaults` runs: it returns at the validity test without any event, or
it is the end `setDefaultsVersion` with the flag `specChanged`, run from a state with the
same trace. -/
theorem setDefaults_cases {C σ : Type} (env : Env C) (s : St C)
    (P : Flow σ Outcome × St C → Prop)
    (hearly : ∀ s3 : St C, s3.trace = s.trace → P (Flow.next (Result.empty, none), s3))
    (htail : ∀ s5 : St C, s5.trace = s.trace →
      P ((Proc.fn (setDefaultsVersion env (specChanged env s.hub.Spec)) : Proc C σ Outcome) s5)) :
    P ((setDefaults env : Proc C σ Outcome) s) := by
  rw [setDefaults_eq]
  by_cases hE : env.MchIsValid { s.hub with Spec := (defaultedSpec env s.hub.Spec).1 } = true ∧
      Getenv s.environ "ACM_HUB_OCP_VERSION" ≠ "" ∧ (defaultedSpec env s.hub.Spec).2 = false
  · simp only [defaultedSpec] at hE
    simp only [Proc.fn, bind_apply, applyDefaulting_apply, getSt_apply, ite_apply_proc, hE,
      and_self, if_true, ret_apply, ne_eq, not_false_eq_true]
    exact hearly _ rfl
  · simp only [defaultedSpec] at hE
    simp only [Proc.fn, bind_apply, applyDefaulting_apply, getSt_apply, ite_apply_proc, hE,
      if_false, ret_apply, modifyHub_apply, pure_apply]
    by_cases hS : (env.MigrateToggles (env.DeduplicateComponents
        (env.SetDefaultComponents s.hub.Spec).1).1).1.SSLCiphers.length = 0
    · have hc : specChanged env s.hub.Spec = true := by
        simp [specChanged, defaultedSpec, hS]
      rw [hc] at htail
      cases hV : env.AvailabilityConfigIsValid (env.MigrateToggles (env.DeduplicateComponents
        (env.SetDefaultComponents s.hub.Spec).1).1).1.AvailabilityConfig
      · simp only [hS, hV, if_true]
        exact htail _ rfl
      · simp only [hS, hV, if_true, Bool.true_eq_false, if_false]
        exact htail _ rfl
    · cases hV : env.AvailabilityConfigIsValid (env.MigrateToggles (env.DeduplicateComponents
        (env.SetDefaultComponents s.hub.Spec).1).1).1.AvailabilityConfig
      · have hc : specChanged env s.hub.Spec = true := by
          simp [specChanged, defaultedSpec, hV]
        rw [hc] at htail
        simp only [hS, hV, if_true, if_false]
        exact htail _ rfl
      · have hc : specChanged env s.hub.Spec = ((env.SetDefaultComponents s.hub.Spec).2 ||
            (env.DeduplicateComponents (env.SetDefaultComponents s.hub.Spec).1).2 ||
            (env.MigrateToggles (env.DeduplicateComponents
              (env.SetDefaultComponents s.hub.Spec).1).1).2) := by
          simp [specChanged, defaultedSpec, hS, hV]
        rw [hc] at htail
        simp only [hS, hV, if_false, Bool.true_eq_false]
        exact htail _ rfl

theorem fn_snd {C ρ σ : Type} (body : Proc C ρ ρ) (s : St C) :
    ((Proc.fn body : Proc C σ ρ) s).2 = (body s).2 := by
  unfold Proc.fn
  rcases body s with ⟨_ | _ | _, _⟩ <;> rfl

theorem fn_fst_done {C ρ σ : Type} (body : Proc C ρ ρ) (s : St C) (r : ρ)
    (h : (body s).1 = Flow.done r) : ((Proc.fn body : Proc C σ ρ) s).1 = Flow.next r := by
  unfold Proc.fn
  rcases hb : body s with ⟨_ | _ | _, _⟩ <;> rw [hb] at h <;> cases h
  rfl

theorem fn_fst_next {C ρ σ : Type} (body : Proc C ρ ρ) (s : St C) (r : ρ)
    (h : ((Proc.fn body : Proc C σ ρ) s).1 = Flow.next r) :
    (body s).1 = Flow.next r ∨ (body s).1 = Flow.done r := by
  unfold Proc.fn at h
  rcases hb : body s with ⟨_ | _ | _, _⟩ <;> rw [hb] at h <;> cases h
  · exact Or.inl rfl
  · exact Or.inr rfl

theorem stepSetDefaults_requeue {C : Type} (env : Env C) (s : St C)
    (h : ((setDefaults env : Proc C Outcome Outcome) s).1 = Flow.next (⟨true, 0⟩, none))
    (rest : Unit → Proc C Outcome Outcome) :
    (stepSetDefaults env >>= rest) s
      = (Flow.done (Result.empty, none), ((setDefaults env : Proc C Outcome Outcome) s).2) := by
  simp only [stepSetDefaults, bind_apply]
  rcases hs : (setDefaults env : Proc C Outcome Outcome) s with ⟨fl, s1⟩
  rw [hs] at h
  simp only at h
  subst h
  rfl

/-- What `setDefaults` does, in terms of `specChanged`. -/
theorem setDefaults_post {C : Type} (env : Env C) (s : St C) :
    (∀ m, Call.Update m ∈ newCalls s ((setDefaults env : Proc C Outcome Outcome) s).2 →
      specChanged env s.hub.Spec = true) ∧
    ((newCalls s ((setDefaults env : Proc C Outcome Outcome) s).2).filter isUpdate).length ≤ 1 ∧
    (specChanged env s.hub.Spec = false →
      ∀ out, ((setDefaults env : Proc C Outcome Outcome) s).1 = Flow.next out →
        out.1 = Result.empty ∧
        (out.2 ≠ none → ∃ c r,
          Event.call c (r, out.2) ∈ newEvents s ((setDefaults env : Proc C Outcome Outcome) s).2 ∧
          (c = Call.GetClusterVersion ∨ ∃ k v, c = Call.Setenv k v))) ∧
    (∀ m r, Event.call (Call.Update m) (r, none)
        ∈ newEvents s ((setDefaults env : Proc C Outcome Outcome) s).2 →
      ((setDefaults env : Proc C Outcome Outcome) s).1 = Flow.next (⟨true, 0⟩, none)) := by
  apply setDefaults_cases env s (fun x =>
    (∀ m, Call.Update m ∈ newCalls s x.2 → specChanged env s.hub.Spec = true) ∧
    ((newCalls s x.2).filter isUpdate).length ≤ 1 ∧
    (specChanged env s.hub.Spec = false →
      ∀ out, x.1 = Flow.next out → out.1 = Result.empty ∧
        (out.2 ≠ none → ∃ c r, Event.call c (r, out.2) ∈ newEvents s x.2 ∧
          (c = Call.GetClusterVersion ∨ ∃ k v, c = Call.Setenv k v))) ∧
    (∀ m r, Event.call (Call.Update m) (r, none) ∈ newEvents s x.2 →
      x.1 = Flow.next (⟨true, 0⟩, none)))
  · intro s3 h3
    have hn : newEvents s s3 = [] := newEvents_append s s3 [] (by simp [h3])
    simp only [newCalls, hn]
    refine ⟨by simp [callsOf], by simp [callsOf], ?_, by simp⟩
    intro _ out hout
    cases hout
    exact ⟨rfl, fun h => absurd rfl h⟩
  · intro s5 h5
    obtain ⟨l, hl, h1, h2, h3, h4, h6⟩ :=
      setDefaultsVersion_post env (specChanged env s.hub.Spec) s5
    have hn : newEvents s ((Proc.fn (setDefaultsVersion env (specChanged env s.hub.Spec)) :
        Proc C Outcome Outcome) s5).2 = l := by
      apply newEvents_append
      rw [fn_snd, hl, h5]
    simp only [newCalls, hn]
    refine ⟨h1, h2, ?_, ?_⟩
    · intro hc out hout
      rcases fn_fst_next _ _ _ hout with h | h
      · rcases h6 with ⟨o, ho⟩ | ⟨msg, ho⟩ <;> rw [ho] at h <;> cases h
      · exact h3 hc out h
    · intro m r hm
      exact fn_fst_done _ _ _ (h4 m r hm)

/-- C14 (amended): `setDefaults` calls `Update` only if a defaulting or migration step
changed the spec (`specChanged`: one of the three helpers reports a change, the list of SSL
ciphers was empty, or the availability config was not valid), and at most once. When nothing
changed it calls no `Update` and returns an empty result; the error it returns is then nil
unless the read of the cluster version or `Setenv` has failed, whose error it returns. When
an `Update` has succeeded, `setDefaults` returns `ctrl.Result{Requeue: true}, nil` and the
pass ends at once with the empty outcome, in the state `setDefaults` left: whatever step
comes next is not run. -/
theorem setDefaults_persists_only_changes {C : Type} (env : Env C) (s : St C) :
    (∀ m, Call.Update m ∈ newCalls s ((setDefaults env : Proc C Outcome Outcome) s).2 →
      specChanged env s.hub.Spec = true) ∧
    ((newCalls s ((setDefaults env : Proc C Outcome Outcome) s).2).filter isUpdate).length ≤ 1 ∧
    (specChanged env s.hub.Spec = false →
      (∀ m, Call.Update m ∉ newCalls s ((setDefaults env : Proc C Outcome Outcome) s).2) ∧
      ∀ out, ((setDefaults env : Proc C Outcome Outcome) s).1 = Flow.next out →
        out.1 = Result.empty ∧
        (out.2 ≠ none → ∃ c r,
          Event.call c (r, out.2) ∈ newEvents s ((setDefaults env : Proc C Outcome Outcome) s).2 ∧
          (c = Call.GetClusterVersion ∨ ∃ k v, c = Call.Setenv k v))) ∧
    (∀ m r, Event.call (Call.Update m) (r, none)
        ∈ newEvents s ((setDefaults env : Proc C Outcome Outcome) s).2 →
      ((setDefaults env : Proc C Outcome Outcome) s).1 = Flow.next (⟨true, 0⟩, none) ∧
      ∀ rest : Unit → Proc C Outcome Outcome,
        (stepSetDefaults env >>= rest) s
          = (Flow.done (Result.empty, none),
              ((setDefaults env : Proc C Outcome Outcome) s).2)) := by
  obtain ⟨h1, h2, h3, h4⟩ := setDefaults_post env s
  refine ⟨h1, h2, ?_, ?_⟩
  · intro hc
    refine ⟨fun m hm => ?_, h3 hc⟩
    have := h1 m hm
    rw [hc] at this
    cases this
  · intro m r hm
    exact ⟨h4 m r hm, stepSetDefaults_requeue env s (h4 m r hm)⟩

/-- C14, an instance: a first pass over a hub without SSL ciphers: `setDefaults` sets the
variable, persists the hub with the default ciphers, and the pass ends there. -/
theorem setDefaults_persists_only_changes_witness :
    newCalls (firstPassSt cipherlessHub)
        ((setDefaults quietEnv : Proc Unit Outcome Outcome) (firstPassSt cipherlessHub)).2
      = [Call.GetClusterVersion, Call.Setenv "ACM_HUB_OCP_VERSION" "4.10.0",
         Call.Update cipheredHub] ∧
    specChanged quietEnv (firstPassSt cipherlessHub).hub.Spec = true ∧
    (stepSetDefaults quietEnv >>= fun _ => convergeFromPauseGate quietEnv)
        (firstPassSt cipherlessHub)
      = (Flow.done (Result.empty, none),
          ((setDefaults quietEnv : Proc Unit Outcome Outcome) (firstPassSt cipherlessHub)).2) := by
  have hc : newCalls (firstPassSt cipherlessHub)
        ((setDefaults quietEnv : Proc Unit Outcome Outcome) (firstPassSt cipherlessHub)).2
      = [Call.GetClusterVersion, Call.Setenv "ACM_HUB_OCP_VERSION" "4.10.0",
         Call.Update cipheredHub] := by rfl
  have he : newEvents (firstPassSt cipherlessHub)
        ((setDefaults quietEnv : Proc Unit Outcome Outcome) (firstPassSt cipherlessHub)).2
      = [Event.call Call.GetClusterVersion (Result.empty, none),
         Event.call (Call.Setenv "ACM_HUB_OCP_VERSION" "4.10.0") (Result.empty, none),
         Event.call (Call.Update cipheredHub) (Result.empty, none)] := by rfl
  have h := setDefaults_persists_only_changes quietEnv (firstPassSt cipherlessHub)
  refine ⟨hc, h.1 cipheredHub (by rw [hc]; simp), ?_⟩
  exact (h.2.2.2 cipheredHub Result.empty (by rw [he]; simp)).2 _

/-- C14 as stated fails: on a first pass over `plainHub` no defaulting step changes the spec
and no `Update` is called, but the read of the cluster version fails and `setDefaults`
returns its error: the outcome is not empty. -/
theorem setDefaults_persists_only_changes_counterexample :
    specChanged versionFails (firstPassSt plainHub).hub.Spec = false ∧
    ((setDefaults versionFails : Proc Unit Outcome Outcome) (firstPassSt plainHub)).2.hub
      = plainHub ∧
    newCalls (firstPassSt plainHub)
        ((setDefaults versionFails : Proc Unit Outcome Outcome) (firstPassSt plainHub)).2
      = [Call.GetClusterVersion] ∧
    ((setDefaults versionFails : Proc Unit Outcome Outcome) (firstPassSt plainHub)).1
      = Flow.next (Result.empty, some "clusterversion unavailable") ∧
    ((setDefaults versionFails : Proc Unit Outcome Outcome) (firstPassSt plainHub)).1
      ≠ Flow.next (Result.empty, none) := by
  refine ⟨by rfl, by rfl, by rfl, by rfl, ?_⟩
  have h : ((setDefaults versionFails : Proc Unit Outcome Outcome) (firstPassSt plainHub)).1
      = Flow.next (Result.empty, some "clusterversion unavailable") := by rfl
  rw [h]
  intro h1
  cases h1

/-! ## C15 and C16: `installCRDs` -/

theorem validCRD_iff (crd : Unstructured) :
    validCRD crd = true ↔
      (NestedString crd.specNamesKind).2.2 = none ∧ (NestedString crd.specGroup).2.2 = none ∧
      ¬ (crd.Kind ≠ "CustomResourceDefinition" ∨ (NestedString crd.specNamesKind).1 = ""
        ∨ (NestedString crd.specGroup).1 = "") := by
  unfold validCRD NestedString
  cases crd.specNamesKind <;> cases crd.specGroup <;> simp

theorem render_bad {C ρ : Type} (env : Env C) (m : MultiClusterHub) (crdDir : String)
    (files : List String) (fileName : String) (crds : List Unstructured) (errs : List Error)
    (msg : Error) (s : St C) (hy : Ext fileName = ".yaml")
    (hbad : goodCRD env m crdDir s.cluster fileName = none)
    (ih : ∃ errs1 : List Error,
      (renderCRDs env m crdDir files crds (errs ++ [msg]) : Proc C ρ _)
          { s with trace := s.trace ++ [Event.call (Call.ReadFile crdDir fileName)
            (Result.empty, errOf (env.ReadFile crdDir fileName s.cluster))] } =
        (Flow.next (crds ++ renderedCRDs env m crdDir s.cluster files, (errs ++ [msg]) ++ errs1),
          { s with trace := (s.trace ++ [Event.call (Call.ReadFile crdDir fileName)
            (Result.empty, errOf (env.ReadFile crdDir fileName s.cluster))]) ++
              readEvents env crdDir s.cluster files }) ∧
      errs1.length = (failedFiles env m crdDir s.cluster files).length) :
    ∃ errs1 : List Error,
      (renderCRDs env m crdDir files crds (errs ++ [msg]) : Proc C ρ _)
          { s with trace := s.trace ++ [Event.call (Call.ReadFile crdDir fileName)
            (Result.empty, errOf (env.ReadFile crdDir fileName s.cluster))] } =
        (Flow.next (crds ++ renderedCRDs env m crdDir s.cluster (fileName :: files),
            errs ++ errs1),
          { s with trace := s.trace ++ readEvents env crdDir s.cluster (fileName :: files) }) ∧
      errs1.length = (failedFiles env m crdDir s.cluster (fileName :: files)).length := by
  obtain ⟨errs1, h1, h2⟩ := ih
  refine ⟨msg :: errs1, ?_, ?_⟩
  · rw [h1]
    simp [renderedCRDs, readEvents, yamlFiles, hy, hbad]
  · simp [failedFiles, yamlFiles, hy, hbad, h2]

theorem render_good {C ρ : Type} (env : Env C) (m : MultiClusterHub) (crdDir : String)
    (files : List String) (fileName : String) (crds : List Unstructured) (errs : List Error)
    (u : Unstructured) (s : St C) (hy : Ext fileName = ".yaml")
    (hgood : goodCRD env m crdDir s.cluster fileName = some u)
    (ih : ∃ errs1 : List Error,
      (renderCRDs env m crdDir files (crds ++ [u]) errs : Proc C ρ _)
          { s with trace := s.trace ++ [Event.call (Call.ReadFile crdDir fileName)
            (Result.empty, errOf (env.ReadFile crdDir fileName s.cluster))] } =
        (Flow.next ((crds ++ [u]) ++ renderedCRDs env m crdDir s.cluster files, errs ++ errs1),
          { s with trace := (s.trace ++ [Event.call (Call.ReadFile crdDir fileName)
            (Result.empty, errOf (env.ReadFile crdDir fileName s.cluster))]) ++
              readEvents env crdDir s.cluster files }) ∧
      errs1.length = (failedFiles env m crdDir s.cluster files).length) :
    ∃ errs1 : List Error,
      (renderCRDs env m crdDir files (crds ++ [u]) errs : Proc C ρ _)
          { s with trace := s.trace ++ [Event.call (Call.ReadFile crdDir fileName)
            (Result.empty, errOf (env.ReadFile crdDir fileName s.cluster))] } =
        (Flow.next (crds ++ renderedCRDs env m crdDir s.cluster (fileName :: files),
            errs ++ errs1),
          { s with trace := s.trace ++ readEvents env crdDir s.cluster (fileName :: files) }) ∧
      errs1.length = (failedFiles env m crdDir s.cluster (fileName :: files)).length := by
  obtain ⟨errs1, h1, h2⟩ := ih
  refine ⟨errs1, ?_, ?_⟩
  · rw [h1]
    simp [renderedCRDs, readEvents, yamlFiles, hy, hgood]
  · simp [failedFiles, yamlFiles, hy, hgood, h2]

/-- The first loop of `installCRDs` against the specification of one file: it goes through
the listing, reads the `.yaml` files, collects the definitions that render and one error for
every file that fails, and changes nothing but the trace. -/
theorem renderCRDs_spec {C ρ : Type} (env : Env C) (m : MultiClusterHub) (crdDir : String) :
    ∀ (files : List String) (crds : List Unstructured) (errs : List Error) (s : St C),
      ∃ errs1 : List Error,
        (renderCRDs env m crdDir files crds errs : Proc C ρ _) s =
          (Flow.next (crds ++ renderedCRDs env m crdDir s.cluster files, errs ++ errs1),
            { s with trace := s.trace ++ readEvents env crdDir s.cluster files }) ∧
        errs1.length = (failedFiles env m crdDir s.cluster files).length := by
  intro files
  induction files with
  | nil =>
    intro crds errs s
    exact ⟨[], by simp [renderCRDs, renderedCRDs, readEvents, yamlFiles], rfl⟩
  | cons fileName files ih =>
    intro crds errs s
    unfold renderCRDs
    by_cases hext : Ext fileName ≠ ".yaml"
    · rw [if_pos hext]
      obtain ⟨errs1, h1, h2⟩ := ih crds errs s
      refine ⟨errs1, ?_, ?_⟩
      · rw [h1]
        simp [renderedCRDs, readEvents, yamlFiles, hext]
      · rw [h2]
        simp [failedFiles, yamlFiles, hext]
    · rw [if_neg hext]
      have hy : Ext fileName = ".yaml" := not_not.1 hext
      simp only [bind_apply, ask_apply]
      cases hr : env.ReadFile crdDir fileName s.cluster with
      | error err =>
        have hbad : goodCRD env m crdDir s.cluster fileName = none := by
          simp [goodCRD, hr]
        have := render_bad (ρ := ρ) env m crdDir files fileName crds errs
          ("error reading file " ++ fileName ++ " : " ++ err) s hy hbad (ih _ _ _)
        rw [hr] at this
        exact this
      | ok src =>
        simp only
        cases hu : env.Unmarshal src with
        | error err =>
          have hbad : goodCRD env m crdDir s.cluster fileName = none := by
            simp [goodCRD, hr, hu]
          have := render_bad (ρ := ρ) env m crdDir files fileName crds errs
            ("error unmarshalling file " ++ fileName ++ " to unstructured: " ++ err)
            s hy hbad (ih _ _ _)
          rw [hr] at this
          exact this
        | ok crd =>
          simp only
          have hv := validCRD_iff crd
          cases hk : (NestedString crd.specNamesKind).2.2 with
          | some err =>
            have hbad : goodCRD env m crdDir s.cluster fileName = none := by
              simp [goodCRD, hr, hu, hv, hk]
            have := render_bad (ρ := ρ) env m crdDir files fileName crds errs
              ("error getting Kind field from " ++ fileName ++ ": " ++ err)
              s hy hbad (ih _ _ _)
            rw [hr] at this
            exact this
          | none =>
            simp only
            cases hg : (NestedString crd.specGroup).2.2 with
            | some err =>
              have hbad : goodCRD env m crdDir s.cluster fileName = none := by
                simp [goodCRD, hr, hu, hv, hk, hg]
              have := render_bad (ρ := ρ) env m crdDir files fileName crds errs
                ("error getting Group field for " ++ fileName ++ " : " ++ err)
                s hy hbad (ih _ _ _)
              rw [hr] at this
              exact this
            | none =>
              simp only
              by_cases hc : crd.Kind ≠ "CustomResourceDefinition" ∨
                  (NestedString crd.specNamesKind).1 = "" ∨ (NestedString crd.specGroup).1 = ""
              · rw [if_pos hc]
                have hbad : goodCRD env m crdDir s.cluster fileName = none := by
                  have hnv : ¬ validCRD crd = true := fun h => (hv.1 h).2.2 hc
                  simp [goodCRD, hr, hu, hnv]
                have := render_bad (ρ := ρ) env m crdDir files fileName crds errs
                  ("error verifying file " ++ fileName ++ " is a crd")
                  s hy hbad (ih _ _ _)
                rw [hr] at this
                exact this
              · rw [if_neg hc]
                have hgood : goodCRD env m crdDir s.cluster fileName
                    = some (AddInstallerLabel crd m.Name m.Namespace) := by
                  have hvv : validCRD crd = true := hv.2 ⟨hk, hg, hc⟩
                  simp [goodCRD, hr, hu, hvv]
                have := render_good (ρ := ρ) env m crdDir files fileName crds errs
                  (AddInstallerLabel crd m.Name m.Namespace) s hy hgood (ih _ _ _)
                rw [hr] at this
                exact this

/-- The second loop of `installCRDs`: it hands the definitions to `Deploy` in order, each at
most once, all of them when it runs to its end, and makes no other call. -/
theorem deployCRDs_calls {C : Type} (env : Env C) :
    ∀ (crds : List Unstructured) (s : St C),
      ∃ (l : List Event) (n : Nat), (deployCRDs env crds s).2.trace = s.trace ++ l ∧
        callsOf l = (crds.take n).map Call.Deploy ∧
        ((deployCRDs env crds s).1 = Flow.next () → callsOf l = crds.map Call.Deploy) := by
  intro crds
  induction crds with
  | nil => intro s; exact ⟨[], 0, by simp [deployCRDs], rfl, fun _ => rfl⟩
  | cons crd crds ih =>
    intro s
    unfold deployCRDs
    simp only [bind_apply, deploy_apply, ite_apply_proc, ret_apply]
    by_cases h1 : (env.Deploy crd s.cluster).1.1 ≠ none
    · rw [if_pos h1]
      refine ⟨[Event.call (Call.Deploy crd) (Result.empty, (env.Deploy crd s.cluster).1.1)], 1,
        rfl, by simp [callsOf], ?_⟩
      intro h
      cases h
    · rw [if_neg h1]
      cases hb : (env.Deploy crd s.cluster).1.2
      · simp only [Bool.false_eq_true, if_false, pure_apply]
        obtain ⟨l, n, hl, hc, hall⟩ := ih
          { s with cluster := (env.Deploy crd s.cluster).2,
                   trace := s.trace ++ [Event.call (Call.Deploy crd)
                     (Result.empty, (env.Deploy crd s.cluster).1.1)] }
        refine ⟨Event.call (Call.Deploy crd) (Result.empty, (env.Deploy crd s.cluster).1.1) :: l,
          n + 1, ?_, ?_, ?_⟩
        · rw [hl]; simp
        · simp only [callsOf, List.filterMap_cons, List.take_succ_cons, List.map_cons] at hc ⊢
          rw [hc]
        · intro h
          have := hall h
          simp only [callsOf, List.filterMap_cons, List.map_cons] at this ⊢
          rw [this]
      · simp only [if_true, setHubCondition_apply]
        obtain ⟨l, n, hl, hc, hall⟩ := ih
          { s with
            hub := { s.hub with
              Status := (SetHubCondition s.hub.Status
                (NewHubCondition (env.Now (env.Deploy crd s.cluster).2)
                  HubConditionType.Progressing ConditionStatus.ConditionTrue NewComponentReason
                  ("created new resource: " ++ crd.Kind ++ " " ++ crd.Name))) },
            cluster := (env.Deploy crd s.cluster).2,
            trace := s.trace ++ [Event.call (Call.Deploy crd)
                (Result.empty, (env.Deploy crd s.cluster).1.1)] ++
              [Event.SetHubCondition (NewHubCondition (env.Now (env.Deploy crd s.cluster).2)
                HubConditionType.Progressing ConditionStatus.ConditionTrue NewComponentReason
                ("created new resource: " ++ crd.Kind ++ " " ++ crd.Name))] }
        refine ⟨Event.call (Call.Deploy crd) (Result.empty, (env.Deploy crd s.cluster).1.1) ::
          Event.SetHubCondition (NewHubCondition (env.Now (env.Deploy crd s.cluster).2)
                HubConditionType.Progressing ConditionStatus.ConditionTrue NewComponentReason
                ("created new resource: " ++ crd.Kind ++ " " ++ crd.Name)) :: l,
          n + 1, ?_, ?_, ?_⟩
        · rw [hl]; simp
        · simp only [callsOf, List.filterMap_cons, List.take_succ_cons, List.map_cons] at hc ⊢
          rw [hc]
        · intro h
          have := hall h
          simp only [callsOf, List.filterMap_cons, List.map_cons] at this ⊢
          rw [this]

/-- The run of `installCRDs` on a directory that can be listed, against the specification of
one file: if a `.yaml` file fails, the aggregated error and no change but the reads in the
trace; if none fails, the reads followed by the deployment of the rendered definitions. -/
theorem installCRDs_spec {C σ : Type} (env : Env C) (s : St C) (crdDir : String)
    (files : List String) (hdir : lookupKey s.environ crdPathEnvVar = some crdDir)
    (hread : env.ReadDir crdDir s.cluster = .ok files) :
    (failedFiles env s.hub crdDir s.cluster files ≠ [] →
      ∃ errs : List Error,
        errs.length = (failedFiles env s.hub crdDir s.cluster files).length ∧
        (installCRDs env : Proc C σ _) s =
          (Flow.next (CRDRenderReason,
              some ("failed to render CRD templates: " ++ env.mergeErrors errs)),
            { s with trace := s.trace ++ [Event.call (Call.ReadDir crdDir) (Result.empty, none)]
                ++ readEvents env crdDir s.cluster files })) ∧
    (failedFiles env s.hub crdDir s.cluster files = [] →
      ∃ (l : List Event) (n : Nat),
        ((installCRDs env : Proc C σ _) s).2.trace =
          s.trace ++ [Event.call (Call.ReadDir crdDir) (Result.empty, none)]
            ++ readEvents env crdDir s.cluster files ++ l ∧
        callsOf l = ((renderedCRDs env s.hub crdDir s.cluster files).take n).map Call.Deploy ∧
        (((installCRDs env : Proc C σ _) s).1 = Flow.next ("", none) →
          callsOf l = (renderedCRDs env s.hub crdDir s.cluster files).map Call.Deploy)) := by
  obtain ⟨errs1, hrun, hlen⟩ := renderCRDs_spec (ρ := String × Option Error) env s.hub crdDir
    files [] []
    { s with trace := s.trace ++ [Event.call (Call.ReadDir crdDir) (Result.empty, none)] }
  have hunfold : (installCRDs env : Proc C σ _) s =
      (Proc.fn (do
        let r ← renderCRDs env s.hub crdDir files [] []
        if r.2.length > 0 then
          ret (CRDRenderReason, some ("failed to render CRD templates: " ++ env.mergeErrors r.2))
        else do
          deployCRDs env r.1
          return ("", none)) : Proc C σ _)
        { s with trace := s.trace ++ [Event.call (Call.ReadDir crdDir) (Result.empty, none)] } := by
    unfold installCRDs
    simp only [Proc.fn, bind_apply, getSt_apply, hdir, ask_apply, hread, errOf]
  rw [hunfold]
  simp only [Proc.fn, bind_apply, hrun, List.nil_append, ite_apply_proc, ret_apply, pure_apply]
  constructor
  · intro hf
    have hpos : errs1.length > 0 := by
      rw [hlen]
      exact List.length_pos.2 hf
    refine ⟨errs1, hlen, ?_⟩
    rw [if_pos hpos]
  · intro hf
    have hzero : ¬ errs1.length > 0 := by
      rw [hlen, hf]
      simp
    rw [if_neg hzero]
    obtain ⟨l, n, hl, hc, hall⟩ := deployCRDs_calls env
      (renderedCRDs env s.hub crdDir s.cluster files)
      { s with trace := s.trace ++ [Event.call (Call.ReadDir crdDir) (Result.empty, none)] ++
        readEvents env crdDir s.cluster files }
    refine ⟨l, n, ?_, hc, ?_⟩
    · rcases hd : deployCRDs env (renderedCRDs env s.hub crdDir s.cluster files)
        { s with trace := s.trace ++ [Event.call (Call.ReadDir crdDir) (Result.empty, none)] ++
          readEvents env crdDir s.cluster files } with ⟨fl, s2⟩
      rw [hd] at hl
      rcases fl with _ | _ | _ <;> exact hl
    · rcases hd : deployCRDs env (renderedCRDs env s.hub crdDir s.cluster files)
        { s with trace := s.trace ++ [Event.call (Call.ReadDir crdDir) (Result.empty, none)] ++
          readEvents env crdDir s.cluster files } with ⟨fl, s2⟩
      rw [hd] at hall
      rcases fl with _ | r | _
      · intro _
        exact hall rfl
      · intro h
        simp only [Flow.next.injEq] at h
        rcases deployCRDs_flow env (renderedCRDs env s.hub crdDir s.cluster files)
          { s with trace := s.trace ++ [Event.call (Call.ReadDir crdDir) (Result.empty, none)] ++
            readEvents env crdDir s.cluster files } with h2 | ⟨e, h2⟩
        · rw [hd] at h2
          cases h2
        · rw [hd] at h2
          simp only [Flow.done.injEq] at h2
          rw [h2] at h
          simp only [Prod.mk.injEq] at h
          exact absurd h.1 (by decide)
      · intro h
        cases h

theorem lookupKey_cons (x : String × String) (xs : List (String × String)) (k : String) :
    lookupKey (x :: xs) k = if x.1 = k then some x.2 else lookupKey xs k := by
  unfold lookupKey
  by_cases h : x.1 = k <;> simp [List.find?_cons, h]

theorem lookupKey_setKey_same (l : List (String × String)) (k v : String) :
    lookupKey (setKey l k v) k = some v := by
  induction l with
  | nil => simp [setKey, lookupKey_cons]
  | cons x xs ih =>
    unfold setKey
    by_cases h : x.1 = k
    · simp [h, lookupKey_cons]
    · simp [h, lookupKey_cons, ih]

theorem lookupKey_setKey_other (l : List (String × String)) (k v k1 : String) (hk : k ≠ k1) :
    lookupKey (setKey l k v) k1 = lookupKey l k1 := by
  induction l with
  | nil => simp [setKey, lookupKey_cons, hk, lookupKey]
  | cons x xs ih =>
    unfold setKey
    by_cases h : x.1 = k
    · have h1 : ¬ x.1 = k1 := by rw [h]; exact hk
      simp [h, lookupKey_cons, hk, h1]
    · simp [h, lookupKey_cons, ih]

theorem AddInstallerLabel_labels (u : Unstructured) (name ns : String) :
    lookupKey (AddInstallerLabel u name ns).Labels "installer.name" = some name ∧
    lookupKey (AddInstallerLabel u name ns).Labels "installer.namespace" = some ns := by
  unfold AddInstallerLabel
  refine ⟨?_, lookupKey_setKey_same _ _ _⟩
  rw [lookupKey_setKey_other _ _ _ _ (by decide)]
  exact lookupKey_setKey_same _ _ _

theorem validCRD_fields (crd : Unstructured) (h : validCRD crd = true) :
    crd.Kind = "CustomResourceDefinition" ∧
    (∃ k, crd.specNamesKind = NestedField.str k ∧ k ≠ "") ∧
    (∃ g, crd.specGroup = NestedField.str g ∧ g ≠ "") := by
  unfold validCRD at h
  cases hk : crd.specNamesKind <;> cases hg : crd.specGroup <;> rw [hk, hg] at h <;>
    simp at h
  exact ⟨h.1, ⟨_, rfl, h.2.1⟩, ⟨_, rfl, h.2.2⟩⟩

theorem goodCRD_some {C : Type} (env : Env C) (m : MultiClusterHub) (crdDir : String) (c : C)
    (f : String) (u : Unstructured) (h : goodCRD env m crdDir c f = some u) :
    ∃ src crd, env.ReadFile crdDir f c = .ok src ∧ env.Unmarshal src = .ok crd ∧
      validCRD crd = true ∧ u = AddInstallerLabel crd m.Name m.Namespace := by
  unfold goodCRD at h
  cases hr : env.ReadFile crdDir f c with
  | error e => rw [hr] at h; cases h
  | ok src =>
    rw [hr] at h
    simp only at h
    cases hu : env.Unmarshal src with
    | error e => rw [hu] at h; cases h
    | ok crd =>
      rw [hu] at h
      simp only at h
      by_cases hv : validCRD crd = true
      · rw [if_pos hv] at h
        cases h
        exact ⟨src, crd, rfl, hu, hv, rfl⟩
      · rw [if_neg hv] at h
        cases h

theorem mem_renderedCRDs {C : Type} (env : Env C) (m : MultiClusterHub) (crdDir : String)
    (c : C) (files : List String) (u : Unstructured)
    (h : u ∈ renderedCRDs env m crdDir c files) :
    ∃ f, f ∈ files ∧ Ext f = ".yaml" ∧ goodCRD env m crdDir c f = some u := by
  unfold renderedCRDs yamlFiles at h
  obtain ⟨f, hf, hg⟩ := List.mem_filterMap.1 h
  obtain ⟨hf1, hf2⟩ := List.mem_filter.1 hf
  exact ⟨f, hf1, of_decide_eq_true hf2, hg⟩

theorem callsOf_readEvents {C : Type} (env : Env C) (crdDir : String) (c : C)
    (files : List String) :
    callsOf (readEvents env crdDir c files) = (yamlFiles files).map (Call.ReadFile crdDir) := by
  unfold readEvents callsOf
  induction yamlFiles files with
  | nil => rfl
  | cons f fs ih => simp only [List.map_cons, List.filterMap_cons, ih]

theorem installCRDs_no_listing {C σ : Type} (env : Env C) (s : St C)
    (h : lookupKey s.environ crdPathEnvVar = none ∨
      ∃ crdDir err, lookupKey s.environ crdPathEnvVar = some crdDir ∧
        env.ReadDir crdDir s.cluster = .error err) :
    ∀ u, Call.Deploy u ∉ newCalls s ((installCRDs env : Proc C σ _) s).2 := by
  intro u
  rcases h with h | ⟨crdDir, err, h1, h2⟩
  · have : (installCRDs env : Proc C σ _) s =
        (Flow.next (CRDRenderReason, some (crdPathEnvVar ++ " environment variable is required")),
          s) := by
      unfold installCRDs
      simp only [Proc.fn, bind_apply, getSt_apply, h, ret_apply]
    rw [this]
    simp [newCalls, newEvents, callsOf]
  · have : ((installCRDs env : Proc C σ _) s).2 =
        { s with trace := s.trace ++ [Event.call (Call.ReadDir crdDir) (Result.empty, some err)] } := by
      unfold installCRDs
      simp only [Proc.fn, bind_apply, getSt_apply, h1, ask_apply, h2, errOf, ret_apply]
    rw [this]
    simp [newCalls, newEvents, callsOf]

/-- C15: `installCRDs` is all-or-nothing with respect to rendering. If the directory listing
holds a `.yaml` file that fails to read, parse or validate, `installCRDs` returns the reason
`CRDRenderReason` with one error that aggregates one error per failed `.yaml` file, its
calls are the listing of the directory and the reads of the `.yaml` files, so that no
definition is handed to `Deploy`, and it changes nothing of the hub or the cluster. A file
without the extension `.yaml` is not read and is not among the failures. -/
theorem installCRDs_all_or_nothing {C : Type} (env : Env C) (s : St C) (crdDir : String)
    (files : List String) (f : String)
    (hdir : lookupKey s.environ crdPathEnvVar = some crdDir)
    (hread : env.ReadDir crdDir s.cluster = .ok files)
    (hf : f ∈ files) (hy : Ext f = ".yaml")
    (hfail : goodCRD env s.hub crdDir s.cluster f = none) :
    (∃ errs : List Error,
      errs.length = (failedFiles env s.hub crdDir s.cluster files).length ∧ 0 < errs.length ∧
      ((installCRDs env : Proc C Outcome _) s).1 = Flow.next (CRDRenderReason,
        some ("failed to render CRD templates: " ++ env.mergeErrors errs))) ∧
    newCalls s ((installCRDs env : Proc C Outcome _) s).2
      = Call.ReadDir crdDir :: (yamlFiles files).map (Call.ReadFile crdDir) ∧
    (∀ u, Call.Deploy u ∉ newCalls s ((installCRDs env : Proc C Outcome _) s).2) ∧
    ((installCRDs env : Proc C Outcome _) s).2.hub = s.hub ∧
    ((installCRDs env : Proc C Outcome _) s).2.cluster = s.cluster ∧
    (∀ g ∈ files, Ext g ≠ ".yaml" →
      Call.ReadFile crdDir g ∉ newCalls s ((installCRDs env : Proc C Outcome _) s).2 ∧
      g ∉ failedFiles env s.hub crdDir s.cluster files) := by
  have hmem : f ∈ failedFiles env s.hub crdDir s.cluster files := by
    unfold failedFiles yamlFiles
    simp [List.mem_filter, hf, hy, hfail]
  have hne : failedFiles env s.hub crdDir s.cluster files ≠ [] :=
    List.ne_nil_of_mem hmem
  obtain ⟨errs, hlen, hrun⟩ := (installCRDs_spec (σ := Outcome) env s crdDir files hdir hread).1 hne
  have hcalls : newCalls s ((installCRDs env : Proc C Outcome _) s).2
      = Call.ReadDir crdDir :: (yamlFiles files).map (Call.ReadFile crdDir) := by
    rw [hrun]
    unfold newCalls
    rw [newEvents_append s _ ([Event.call (Call.ReadDir crdDir) (Result.empty, none)]
      ++ readEvents env crdDir s.cluster files) (by simp)]
    rw [callsOf_append, callsOf_readEvents]
    rfl
  refine ⟨⟨errs, hlen, ?_, by rw [hrun]⟩, hcalls, ?_, by rw [hrun], by rw [hrun], ?_⟩
  · rw [hlen]
    exact List.length_pos.2 hne
  · intro u hu
    rw [hcalls] at hu
    simp at hu
  · intro g _ hg
    constructor
    · intro hu
      rw [hcalls] at hu
      simp only [List.mem_cons, List.mem_map, Call.ReadFile.injEq, true_and, exists_eq_right,
        false_or] at hu
      rcases hu with hu | hu
      · cases hu
      · unfold yamlFiles at hu
        exact hg (of_decide_eq_true (List.mem_filter.1 hu).2)
    · intro hu
      unfold failedFiles yamlFiles at hu
      exact hg (of_decide_eq_true (List.mem_filter.1 (List.mem_filter.1 hu).1).2)

/-- C15, an instance: a directory with `widget.yaml`, which renders, `README.md` and
`broken.yaml`, which does not parse: `installCRDs` returns `CRDRenderReason`, reads the two
`.yaml` files and deploys nothing. -/
theorem installCRDs_all_or_nothing_witness :
    newCalls (exampleSt plainHub)
        ((installCRDs (crdEnv ["widget.yaml", "README.md", "broken.yaml"]) :
          Proc Unit Outcome _) (exampleSt plainHub)).2
      = [Call.ReadDir "/crds", Call.ReadFile "/crds" "widget.yaml",
         Call.ReadFile "/crds" "broken.yaml"] ∧
    ((installCRDs (crdEnv ["widget.yaml", "README.md", "broken.yaml"]) :
        Proc Unit Outcome _) (exampleSt plainHub)).1
      = Flow.next (CRDRenderReason, some ("failed to render CRD templates: " ++
          "error unmarshalling file broken.yaml to unstructured: cannot unmarshal")) := by
  have h := installCRDs_all_or_nothing (crdEnv ["widget.yaml", "README.md", "broken.yaml"])
    (exampleSt plainHub) "/crds" ["widget.yaml", "README.md", "broken.yaml"] "broken.yaml"
    (by rfl) (by rfl) (by simp) (by rfl) (by rfl)
  refine ⟨?_, by rfl⟩
  rw [h.2.1]
  rfl

/-- C16: every definition that `installCRDs` hands to `Deploy` comes from a `.yaml` file of
the listed directory that was read and parsed, has passed structural validation (its kind
is `CustomResourceDefinition`, `spec.names.kind` and `spec.group` are non-empty strings),
and carries the installer labels of the hub (its name and its namespace). A `.yaml` file
that parses to a definition without `spec.names.kind` or without `spec.group` is rejected:
`installCRDs` returns an error with reason `CRDRenderReason` and deploys nothing. -/
theorem installCRDs_deploys_only_valid {C : Type} (env : Env C) (s : St C) :
    (∀ u, Call.Deploy u ∈ newCalls s ((installCRDs env : Proc C Outcome _) s).2 →
      ∃ crdDir files f src crd,
        lookupKey s.environ crdPathEnvVar = some crdDir ∧
        env.ReadDir crdDir s.cluster = .ok files ∧ f ∈ files ∧ Ext f = ".yaml" ∧
        env.ReadFile crdDir f s.cluster = .ok src ∧ env.Unmarshal src = .ok crd ∧
        crd.Kind = "CustomResourceDefinition" ∧
        (∃ k, crd.specNamesKind = NestedField.str k ∧ k ≠ "") ∧
        (∃ g, crd.specGroup = NestedField.str g ∧ g ≠ "") ∧
        u = AddInstallerLabel crd s.hub.Name s.hub.Namespace ∧
        lookupKey u.Labels "installer.name" = some s.hub.Name ∧
        lookupKey u.Labels "installer.namespace" = some s.hub.Namespace) ∧
    (∀ crdDir files f src crd,
      lookupKey s.environ crdPathEnvVar = some crdDir →
      env.ReadDir crdDir s.cluster = .ok files → f ∈ files → Ext f = ".yaml" →
      env.ReadFile crdDir f s.cluster = .ok src → env.Unmarshal src = .ok crd →
      (crd.specNamesKind = NestedField.absent ∨ crd.specGroup = NestedField.absent) →
      (∃ err, ((installCRDs env : Proc C Outcome _) s).1
        = Flow.next (CRDRenderReason, some err)) ∧
      ∀ u, Call.Deploy u ∉ newCalls s ((installCRDs env : Proc C Outcome _) s).2) := by
  constructor
  · intro u hu
    cases hdir : lookupKey s.environ crdPathEnvVar with
    | none => exact absurd hu (installCRDs_no_listing env s (Or.inl hdir) u)
    | some crdDir =>
      cases hread : env.ReadDir crdDir s.cluster with
      | error err =>
        exact absurd hu (installCRDs_no_listing env s (Or.inr ⟨crdDir, err, hdir, hread⟩) u)
      | ok files =>
        obtain ⟨hbad, hgood⟩ := installCRDs_spec (σ := Outcome) env s crdDir files hdir hread
        by_cases hf : failedFiles env s.hub crdDir s.cluster files = []
        · obtain ⟨l, n, hl, hc, _⟩ := hgood hf
          have hcalls : newCalls s ((installCRDs env : Proc C Outcome _) s).2
              = Call.ReadDir crdDir :: (yamlFiles files).map (Call.ReadFile crdDir) ++
                ((renderedCRDs env s.hub crdDir s.cluster files).take n).map Call.Deploy := by
            unfold newCalls
            rw [newEvents_append s _ _ (by rw [hl, List.append_assoc, List.append_assoc])]
            rw [callsOf_append, callsOf_append, callsOf_readEvents, hc]
            rfl
          rw [hcalls] at hu
          simp only [List.cons_append, List.mem_cons, List.mem_append, List.mem_map,
            Call.Deploy.injEq, exists_eq_right, false_or] at hu
          rcases hu with hu | hu | hu
          · cases hu
          · obtain ⟨_, _, h⟩ := hu
            cases h
          · obtain ⟨f, hf1, hy, hg⟩ := mem_renderedCRDs env s.hub crdDir s.cluster files u
              (List.mem_of_mem_take hu)
            obtain ⟨src, crd, hr, hum, hv, hu2⟩ := goodCRD_some env s.hub crdDir s.cluster f u hg
            obtain ⟨hk, hkind, hgroup⟩ := validCRD_fields crd hv
            have hlab := AddInstallerLabel_labels crd s.hub.Name s.hub.Namespace
            rw [← hu2] at hlab
            exact ⟨crdDir, files, f, src, crd, rfl, hread, hf1, hy, hr, hum, hk, hkind, hgroup,
              hu2, hlab.1, hlab.2⟩
        · obtain ⟨errs, _, hrun⟩ := hbad hf
          rw [hrun] at hu
          unfold newCalls at hu
          rw [newEvents_append s _ ([Event.call (Call.ReadDir crdDir) (Result.empty, none)]
            ++ readEvents env crdDir s.cluster files) (by simp)] at hu
          rw [callsOf_append, callsOf_readEvents] at hu
          simp [callsOf] at hu
  · intro crdDir files f src crd hdir hread hf hy hr hum hmiss
    have hnv : validCRD crd = false := by
      unfold validCRD
      rcases hmiss with h | h
      · rw [h]
      · rw [h]
        cases crd.specNamesKind <;> rfl
    have hfail : goodCRD env s.hub crdDir s.cluster f = none := by
      simp [goodCRD, hr, hum, hnv]
    have hmem : f ∈ failedFiles env s.hub crdDir s.cluster files := by
      unfold failedFiles yamlFiles
      simp [List.mem_filter, hf, hy, hfail]
    obtain ⟨errs, _, hrun⟩ := (installCRDs_spec (σ := Outcome) env s crdDir files hdir hread).1
      (List.ne_nil_of_mem hmem)
    refine ⟨⟨_, by rw [hrun]⟩, ?_⟩
    intro u hu
    rw [hrun] at hu
    unfold newCalls at hu
    rw [newEvents_append s _ ([Event.call (Call.ReadDir crdDir) (Result.empty, none)]
      ++ readEvents env crdDir s.cluster files) (by simp)] at hu
    rw [callsOf_append, callsOf_readEvents] at hu
    simp [callsOf] at hu

/-- C16, two instances. A directory with `widget.yaml` alone: the one definition deployed is
`widgetCRD` with the labels of the hub `hub` in `ocm`. A directory with `widget.yaml` and
`kindless.yaml`: the definition without `spec.names.kind` is rejected and nothing is
deployed. -/
theorem installCRDs_deploys_only_valid_witness :
    newCalls (exampleSt plainHub)
        ((installCRDs (crdEnv ["widget.yaml"]) : Proc Unit Outcome _) (exampleSt plainHub)).2
      = [Call.ReadDir "/crds", Call.ReadFile "/crds" "widget.yaml",
         Call.Deploy (AddInstallerLabel widgetCRD "hub" "ocm")] ∧
    (AddInstallerLabel widgetCRD "hub" "ocm").Labels
      = [("installer.name", "hub"), ("installer.namespace", "ocm")] ∧
    (∃ crd, crd.Kind = "CustomResourceDefinition" ∧
      AddInstallerLabel widgetCRD "hub" "ocm" = AddInstallerLabel crd "hub" "ocm") ∧
    (∀ u, Call.Deploy u ∉ newCalls (exampleSt plainHub)
      ((installCRDs (crdEnv ["widget.yaml", "kindless.yaml"]) : Proc Unit Outcome _)
        (exampleSt plainHub)).2) := by
  have h1 := (installCRDs_deploys_only_valid (crdEnv ["widget.yaml"]) (exampleSt plainHub)).1
    (AddInstallerLabel widgetCRD "hub" "ocm") (by decide)
  have h2 := (installCRDs_deploys_only_valid (crdEnv ["widget.yaml", "kindless.yaml"])
    (exampleSt plainHub)).2 "/crds" ["widget.yaml", "kindless.yaml"] "kindless.yaml"
    "kindless.yaml" kindlessCRD (by rfl) (by rfl) (by simp) (by rfl) (by rfl) (by rfl)
    (Or.inl rfl)
  obtain ⟨_, _, _, _, crd, _, _, _, _, _, _, hk, _, _, hu, _, _⟩ := h1
  exact ⟨by rfl, by rfl, ⟨crd, hk, hu⟩, h2.2⟩

/-! ## C17: the finalizer is added once -/

theorem stepAddFinalizer_apply {C : Type} (env : Env C) (s : St C) :
    stepAddFinalizer env s =
      if contains s.hub.Finalizers hubFinalizer = false then
        match errorOf env
            (Call.Update { s.hub with Finalizers := s.hub.Finalizers ++ [hubFinalizer] })
            { s with hub := { s.hub with Finalizers := s.hub.Finalizers ++ [hubFinalizer] } } with
        | some e => (Flow.done (Result.empty, some e),
            afterCall env
              (Call.Update { s.hub with Finalizers := s.hub.Finalizers ++ [hubFinalizer] })
              { s with hub := { s.hub with Finalizers := s.hub.Finalizers ++ [hubFinalizer] } })
        | none => (Flow.next (),
            afterCall env
              (Call.Update { s.hub with Finalizers := s.hub.Finalizers ++ [hubFinalizer] })
              { s with hub := { s.hub with Finalizers := s.hub.Finalizers ++ [hubFinalizer] } })
      else (Flow.next (), s) := by
  cases hc : contains s.hub.Finalizers hubFinalizer
  · simp only [stepAddFinalizer, addFinalizer, Proc.fn, bind_apply, getSt_apply, hc, if_true,
      modifyHub_apply, call_apply, ite_apply_proc, ret_apply, pure_apply, errorOf]
    cases he : (env.exec
      (Call.Update { s.hub with Finalizers := s.hub.Finalizers ++ [hubFinalizer] })
      { s.hub with Finalizers := s.hub.Finalizers ++ [hubFinalizer] } s.cluster).1.2 with
    | none => simp
    | some e => simp
  · simp only [stepAddFinalizer, bind_apply, getSt_apply, hc, Bool.true_eq_false, if_false,
      pure_apply, ite_apply_proc]

/-- C17: for a hub that is not being deleted. If its finalizer list does not contain
`hubFinalizer`, the pass first appends `hubFinalizer` to the list, the finalizers that were
there kept in order, and calls `Update` on the hub, before any other step; if the `Update`
fails, the pass returns its error there and its only call is that `Update`; otherwise the
rest of the pass runs from the state the `Update` has left. If the list contains
`hubFinalizer`, the step leaves the state as it is. In both cases `hubFinalizer` occurs
afterwards once if it did not occur before, and as often as before otherwise. -/
theorem finalizer_added_once {C : Type} (env : Env C) (s : St C)
    (hdel : s.hub.DeletionTimestamp = none) :
    (contains s.hub.Finalizers hubFinalizer = false →
      (stepAddFinalizer env s).2 = afterCall env
        (Call.Update { s.hub with Finalizers := s.hub.Finalizers ++ [hubFinalizer] })
        { s with hub := { s.hub with Finalizers := s.hub.Finalizers ++ [hubFinalizer] } } ∧
      (stepAddFinalizer env s).2.hub.Finalizers = s.hub.Finalizers ++ [hubFinalizer] ∧
      (∀ e, errorOf env
          (Call.Update { s.hub with Finalizers := s.hub.Finalizers ++ [hubFinalizer] })
          { s with hub := { s.hub with Finalizers := s.hub.Finalizers ++ [hubFinalizer] } }
          = some e →
        reconcilePass env s = (Flow.done (Result.empty, some e), (stepAddFinalizer env s).2) ∧
        newCalls s (reconcilePass env s).2
          = [Call.Update { s.hub with Finalizers := s.hub.Finalizers ++ [hubFinalizer] }]) ∧
      (errorOf env
          (Call.Update { s.hub with Finalizers := s.hub.Finalizers ++ [hubFinalizer] })
          { s with hub := { s.hub with Finalizers := s.hub.Finalizers ++ [hubFinalizer] } }
          = none →
        reconcilePass env s =
          (do
            stepSetDefaults env
            stepImageOverrides env
            stepUpgrade env
            stepLabelDeployments env
            convergeFromPauseGate env) (stepAddFinalizer env s).2)) ∧
    (contains s.hub.Finalizers hubFinalizer = true →
      stepAddFinalizer env s = (Flow.next (), s)) ∧
    (stepAddFinalizer env s).2.hub.Finalizers.count hubFinalizer
      = max 1 (s.hub.Finalizers.count hubFinalizer) := by
  have hpass : reconcilePass env s = convergencePass env s :=
    reconcilePass_converging env s (by rw [hdel]; rfl)
  have hconv : convergencePass env s =
      match stepAddFinalizer env s with
      | (Flow.next _, s1) =>
        (do
          stepSetDefaults env
          stepImageOverrides env
          stepUpgrade env
          stepLabelDeployments env
          convergeFromPauseGate env) s1
      | (Flow.done r, s1) => (Flow.done r, s1)
      | (Flow.panic msg, s1) => (Flow.panic msg, s1) := by
    rw [convergencePass, bind_apply]
    rcases stepAddFinalizer env s with ⟨_ | _ | _, _⟩ <;> rfl
  refine ⟨?_, ?_, ?_⟩
  · intro hc
    have happly := stepAddFinalizer_apply env s
    rw [if_pos hc] at happly
    cases he : errorOf env
        (Call.Update { s.hub with Finalizers := s.hub.Finalizers ++ [hubFinalizer] })
        { s with hub := { s.hub with Finalizers := s.hub.Finalizers ++ [hubFinalizer] } } with
    | none =>
      rw [he] at happly
      simp only at happly
      refine ⟨?_, ?_, ?_, ?_⟩
      · rw [happly]
      · rw [happly]; rfl
      · intro e h
        cases h
      · intro _
        rw [hpass, hconv, happly]
    | some e =>
      rw [he] at happly
      simp only at happly
      refine ⟨?_, ?_, ?_, ?_⟩
      · rw [happly]
      · rw [happly]; rfl
      · intro e1 h
        cases h
        rw [hpass, hconv, happly]
        refine ⟨rfl, ?_⟩
        simp [newCalls, newEvents, callsOf, afterCall]
      · intro h
        cases h
  · intro hc
    have happly := stepAddFinalizer_apply env s
    rw [if_neg (by rw [hc]; decide)] at happly
    exact happly
  · have happly := stepAddFinalizer_apply env s
    cases hc : contains s.hub.Finalizers hubFinalizer
    · rw [if_pos hc] at happly
      have hnot : hubFinalizer ∉ s.hub.Finalizers := by
        intro hm
        unfold contains at hc
        exact absurd (decide_eq_true hm) (by rw [hc]; decide)
      have hcount : s.hub.Finalizers.count hubFinalizer = 0 := List.count_eq_zero.2 hnot
      have hfin : (stepAddFinalizer env s).2.hub.Finalizers
          = s.hub.Finalizers ++ [hubFinalizer] := by
        rw [happly]
        cases errorOf env
          (Call.Update { s.hub with Finalizers := s.hub.Finalizers ++ [hubFinalizer] })
          { s with hub := { s.hub with Finalizers := s.hub.Finalizers ++ [hubFinalizer] } } <;>
        rfl
      rw [hfin, List.count_append, hcount]
      simp
    · rw [if_neg (by rw [hc]; decide)] at happly
      rw [happly]
      have hm : hubFinalizer ∈ s.hub.Finalizers := by
        unfold contains at hc
        exact of_decide_eq_true hc
      have hpos : 0 < s.hub.Finalizers.count hubFinalizer := List.count_pos_iff.2 hm
      simp only
      omega

/-- C17, an instance: `freshHub` has the finalizer `keep.me` only. The step appends
`hubFinalizer` after it; when the `Update` fails with a conflict, the pass returns that
error and has called nothing but the `Update`. -/
theorem finalizer_added_once_witness :
    (stepAddFinalizer quietEnv (exampleSt freshHub)).2.hub.Finalizers
      = ["keep.me", hubFinalizer] ∧
    (reconcilePass updateFails (exampleSt freshHub)).1
      = Flow.done (Result.empty, some "conflict") ∧
    newCalls (exampleSt freshHub) (reconcilePass updateFails (exampleSt freshHub)).2
      = [Call.Update finalizedHub] := by
  have h1 := (finalizer_added_once quietEnv (exampleSt freshHub) rfl).1 (by decide)
  have h2 := ((finalizer_added_once updateFails (exampleSt freshHub) rfl).1
    (by decide)).2.2.1 "conflict" (by rfl)
  exact ⟨h1.2.1, by rw [h2.1], h2.2⟩

/-! ## C18 and C19: the handlers of the watches -/

/-- C18 (amended): the two label-correlation handlers do not test whether the object
carries the identity labels. The `APIService` delete handler adds exactly one request to the
queue and the `Deployment` map function returns exactly one request; its name is the value
of the label `installer.name` and its namespace the value of `installer.namespace`, the
empty string for a label the object does not carry. When the object carries both labels the
request is built from their values. -/
theorem label_handlers_emit_one (labels : List (String × String)) (q : List Request) :
    (∃ r, apiServiceDeleteFunc labels q = q ++ [r] ∧ deploymentMapFunc labels = [r] ∧
      r.Name = (lookupKey labels "installer.name").getD "" ∧
      r.Namespace = (lookupKey labels "installer.namespace").getD "") ∧
    (∀ name ns, lookupKey labels "installer.name" = some name →
      lookupKey labels "installer.namespace" = some ns →
      apiServiceDeleteFunc labels q = q ++ [⟨name, ns⟩] ∧
      deploymentMapFunc labels = [⟨name, ns⟩]) := by
  refine ⟨⟨_, rfl, rfl, rfl, rfl⟩, ?_⟩
  intro name ns h1 h2
  simp [apiServiceDeleteFunc, deploymentMapFunc, labelValue, h1, h2]

/-- C18, an instance: an object labelled for the hub `hub` in `ocm`. -/
theorem label_handlers_emit_one_witness :
    apiServiceDeleteFunc [("app", "search"), ("installer.name", "hub"),
        ("installer.namespace", "ocm")] []
      = [⟨"hub", "ocm"⟩] ∧
    deploymentMapFunc [("app", "search"), ("installer.name", "hub"),
        ("installer.namespace", "ocm")]
      = [⟨"hub", "ocm"⟩] := by
  have h := (label_handlers_emit_one [("app", "search"), ("installer.name", "hub"),
    ("installer.namespace", "ocm")] []).2 "hub" "ocm" (by rfl) (by rfl)
  exact ⟨h.1, h.2⟩

/-- C18 as stated fails: for an object that carries neither identity label, and for one that
carries only `installer.name`, each handler still emits a request, with the empty string in
place of the missing value. -/
theorem label_handlers_emit_one_counterexample :
    lookupKey [("app", "search")] "installer.name" = none ∧
    lookupKey [("app", "search")] "installer.namespace" = none ∧
    apiServiceDeleteFunc [("app", "search")] [] = [⟨"", ""⟩] ∧
    deploymentMapFunc [("app", "search")] = [⟨"", ""⟩] ∧
    lookupKey [("installer.name", "hub")] "installer.namespace" = none ∧
    apiServiceDeleteFunc [("installer.name", "hub")] [] = [⟨"hub", ""⟩] := by
  refine ⟨by rfl, by rfl, by rfl, by rfl, by rfl, by rfl⟩

/-- C19: the `ClusterVersion` map function never indexes an empty list (it always returns a
list of requests), and it returns at most one request: exactly one, naming the listed hub,
when the listing succeeds with exactly one hub (the first hub, when it lists several); none
when the listing succeeds with no hub or fails. -/
theorem cluster_version_fan_out (listed : Except Error (List MultiClusterHub)) :
    (∃ reqs, clusterVersionMapFunc listed = .ok reqs ∧ reqs.length ≤ 1) ∧
    (∀ mch, listed = .ok [mch] →
      clusterVersionMapFunc listed = .ok [⟨mch.Name, mch.Namespace⟩]) ∧
    (∀ mch rest, listed = .ok (mch :: rest) →
      clusterVersionMapFunc listed = .ok [⟨mch.Name, mch.Namespace⟩]) ∧
    (listed = .ok [] → clusterVersionMapFunc listed = .ok []) ∧
    (∀ err, listed = .error err → clusterVersionMapFunc listed = .ok []) := by
  refine ⟨?_, ?_, ?_, ?_, ?_⟩
  · cases listed with
    | error err => exact ⟨[], rfl, by simp⟩
    | ok items =>
      cases items with
      | nil => exact ⟨[], rfl, by simp⟩
      | cons mch rest => exact ⟨[⟨mch.Name, mch.Namespace⟩], by simp [clusterVersionMapFunc], by simp⟩
  · intro mch h
    subst h
    simp [clusterVersionMapFunc]
  · intro mch rest h
    subst h
    simp [clusterVersionMapFunc]
  · intro h
    subst h
    rfl
  · intro err h
    subst h
    rfl

/-- C19, instances: one hub listed, no hub listed, and a listing that fails. -/
theorem cluster_version_fan_out_witness :
    clusterVersionMapFunc (.ok [plainHub]) = .ok [⟨"hub", "ocm"⟩] ∧
    clusterVersionMapFunc (.ok []) = .ok [] ∧
    clusterVersionMapFunc (.error "forbidden") = .ok [] := by
  have h := cluster_version_fan_out (.ok [plainHub])
  exact ⟨h.2.1 plainHub rfl, (cluster_version_fan_out (.ok [])).2.2.2.1 rfl,
    (cluster_version_fan_out (.error "forbidden")).2.2.2.2 "forbidden" rfl⟩

theorem quiet_settled (pol : Call → ErrorPolicy) (r : Outcome) (e : Event)
    (h : quietEvent pol e) : settledEvent pol r e := by
  cases e with
  | call c out =>
    refine ⟨h.1, fun hne => ?_⟩
    have h2 := h.2 hne
    cases hp : pol c <;> rw [hp] at h2 <;> simp only [mayGoOn] at h2 <;> simp only [follows]
    intro h3
    exact absurd h2 h3
  | SetHubCondition c => trivial
  | RemoveHubCondition t => trivial

/-! ## The error policy of the convergence steps -/

set_option linter.unusedTactic false

set_option linter.unreachableTactic false

set_option maxHeartbeats 1000000 in
theorem stepAddFinalizer_obeys {C : Type} (env : Env C) :
    Holds (stepAddFinalizer env)
      (Post (quietEvent convergencePolicy) (settledEvent convergencePolicy)) := by
  unfold stepAddFinalizer addFinalizer
  repeat' first
    | with_reducible apply holds_ret
    | with_reducible apply holds_pure
    | with_reducible apply holds_goPanic
    | (with_reducible apply holds_getSt; intro _)
    | with_reducible apply holds_modifyHub
    | with_reducible apply holds_modifyCache
    | (with_reducible apply holds_applyDefaulting; intro _)
    | (with_reducible apply holds_must <;> intro _)
    | (with_reducible apply holds_ask; intro _)
    | (with_reducible apply holds_Setenv; intro _)
    | (with_reducible apply holds_call; intro _)
    | (with_reducible apply holds_setHubCondition; intro _)
    | with_reducible apply holds_removeHubCondition
    | (with_reducible apply holds_ite <;> intro _)
    | with_reducible apply holds_fn
    | with_reducible apply holds_bind
    | dsimp only
    | split
  all_goals
    (try simp only [Post, List.nil_append, List.append_nil, List.cons_append, List.mem_cons,
      List.mem_singleton, List.not_mem_nil, or_false, forall_eq_or_imp, forall_eq,
      false_implies, implies_true]
     try dsimp only [quietEvent, settledEvent, convergencePolicy, isSync, follows, mayGoOn, timedRequeue]
     try simp_all)

set_option maxHeartbeats 1000000 in
theorem stepSetDefaults_obeys {C : Type} (env : Env C) :
    Holds (stepSetDefaults env)
      (Post (quietEvent convergencePolicy) (settledEvent convergencePolicy)) := by
  unfold stepSetDefaults setDefaults
  repeat' first
    | with_reducible apply holds_ret
    | with_reducible apply holds_pure
    | with_reducible apply holds_goPanic
    | (with_reducible apply holds_getSt; intro _)
    | with_reducible apply holds_modifyHub
    | with_reducible apply holds_modifyCache
    | (with_reducible apply holds_applyDefaulting; intro _)
    | (with_reducible apply holds_must <;> intro _)
    | (with_reducible apply holds_ask; intro _)
    | (with_reducible apply holds_Setenv; intro _)
    | (with_reducible apply holds_call; intro _)
    | (with_reducible apply holds_setHubCondition; intro _)
    | with_reducible apply holds_removeHubCondition
    | (with_reducible apply holds_ite <;> intro _)
    | with_reducible apply holds_fn
    | with_reducible apply holds_bind
    | dsimp only
    | split
  all_goals
    (try simp only [Post, List.nil_append, List.append_nil, List.cons_append, List.mem_cons,
      List.mem_singleton, List.not_mem_nil, or_false, forall_eq_or_imp, forall_eq,
      false_implies, implies_true]
     try dsimp only [quietEvent, settledEvent, convergencePolicy, isSync, follows, mayGoOn, timedRequeue]
     try simp_all)

set_option maxHeartbeats 1000000 in
theorem stepImageOverrides_obeys {C : Type} (env : Env C) :
    Holds (stepImageOverrides env)
      (Post (quietEvent convergencePolicy) (settledEvent convergencePolicy)) := by
  unfold stepImageOverrides
  repeat' first
    | with_reducible apply holds_ret
    | with_reducible apply holds_pure
    | with_reducible apply holds_goPanic
    | (with_reducible apply holds_getSt; intro _)
    | with_reducible apply holds_modifyHub
    | with_reducible apply holds_modifyCache
    | (with_reducible apply holds_applyDefaulting; intro _)
    | (with_reducible apply holds_must <;> intro _)
    | (with_reducible apply holds_ask; intro _)
    | (with_reducible apply holds_Setenv; intro _)
    | (with_reducible apply holds_call; intro _)
    | (with_reducible apply holds_setHubCondition; intro _)
    | with_reducible apply holds_removeHubCondition
    | (with_reducible apply holds_ite <;> intro _)
    | with_reducible apply holds_fn
    | with_reducible apply holds_bind
    | dsimp only
    | split
  all_goals
    (try simp only [Post, List.nil_append, List.append_nil, List.cons_append, List.mem_cons,
      List.mem_singleton, List.not_mem_nil, or_false, forall_eq_or_imp, forall_eq,
      false_implies, implies_true]
     try dsimp only [quietEvent, settledEvent, convergencePolicy, isSync, follows, mayGoOn, timedRequeue]
     try simp_all)

set_option maxHeartbeats 1000000 in
theorem stepUpgrade_obeys {C : Type} (env : Env C) :
    Holds (stepUpgrade env)
      (Post (quietEvent convergencePolicy) (settledEvent convergencePolicy)) := by
  unfold stepUpgrade
  repeat' first
    | with_reducible apply holds_ret
    | with_reducible apply holds_pure
    | with_reducible apply holds_goPanic
    | (with_reducible apply holds_getSt; intro _)
    | with_reducible apply holds_modifyHub
    | with_reducible apply holds_modifyCache
    | (with_reducible apply holds_applyDefaulting; intro _)
    | (with_reducible apply holds_must <;> intro _)
    | (with_reducible apply holds_ask; intro _)
    | (with_reducible apply holds_Setenv; intro _)
    | (with_reducible apply holds_call; intro _)
    | (with_reducible apply holds_setHubCondition; intro _)
    | with_reducible apply holds_removeHubCondition
    | (with_reducible apply holds_ite <;> intro _)
    | with_reducible apply holds_fn
    | with_reducible apply holds_bind
    | dsimp only
    | split
  all_goals
    (try simp only [Post, List.nil_append, List.append_nil, List.cons_append, List.mem_cons,
      List.mem_singleton, List.not_mem_nil, or_false, forall_eq_or_imp, forall_eq,
      false_implies, implies_true]
     try dsimp only [quietEvent, settledEvent, convergencePolicy, isSync, follows, mayGoOn, timedRequeue]
     try simp_all)

set_option maxHeartbeats 1000000 in
theorem stepLabelDeployments_obeys {C : Type} (env : Env C) :
    Holds (stepLabelDeployments env)
      (Post (quietEvent convergencePolicy) (settledEvent convergencePolicy)) := by
  unfold stepLabelDeployments
  repeat' first
    | with_reducible apply holds_ret
    | with_reducible apply holds_pure
    | with_reducible apply holds_goPanic
    | (with_reducible apply holds_getSt; intro _)
    | with_reducible apply holds_modifyHub
    | with_reducible apply holds_modifyCache
    | (with_reducible apply holds_applyDefaulting; intro _)
    | (with_reducible apply holds_must <;> intro _)
    | (with_reducible apply holds_ask; intro _)
    | (with_reducible apply holds_Setenv; intro _)
    | (with_reducible apply holds_call; intro _)
    | (with_reducible apply holds_setHubCondition; intro _)
    | with_reducible apply holds_removeHubCondition
    | (with_reducible apply holds_ite <;> intro _)
    | with_reducible apply holds_fn
    | with_reducible apply holds_bind
    | dsimp only
    | split
  all_goals
    (try simp only [Post, List.nil_append, List.append_nil, List.cons_append, List.mem_cons,
      List.mem_singleton, List.not_mem_nil, or_false, forall_eq_or_imp, forall_eq,
      false_implies, implies_true]
     try dsimp only [quietEvent, settledEvent, convergencePolicy, isSync, follows, mayGoOn, timedRequeue]
     try simp_all)

set_option maxHeartbeats 1000000 in
theorem stepPauseGate_obeys {C : Type} (env : Env C) :
    Holds (stepPauseGate env)
      (Post (quietEvent convergencePolicy) (settledEvent convergencePolicy)) := by
  unfold stepPauseGate updatePausedCondition
  repeat' first
    | with_reducible apply holds_ret
    | with_reducible apply holds_pure
    | with_reducible apply holds_goPanic
    | (with_reducible apply holds_getSt; intro _)
    | with_reducible apply holds_modifyHub
    | with_reducible apply holds_modifyCache
    | (with_reducible apply holds_applyDefaulting; intro _)
    | (with_reducible apply holds_must <;> intro _)
    | (with_reducible apply holds_ask; intro _)
    | (with_reducible apply holds_Setenv; intro _)
    | (with_reducible apply holds_call; intro _)
    | (with_reducible apply holds_setHubCondition; intro _)
    | with_reducible apply holds_removeHubCondition
    | (with_reducible apply holds_ite <;> intro _)
    | with_reducible apply holds_fn
    | with_reducible apply holds_bind
    | dsimp only
    | split
  all_goals
    (try simp only [Post, List.nil_append, List.append_nil, List.cons_append, List.mem_cons,
      List.mem_singleton, List.not_mem_nil, or_false, forall_eq_or_imp, forall_eq,
      false_implies, implies_true]
     try dsimp only [quietEvent, settledEvent, convergencePolicy, isSync, follows, mayGoOn, timedRequeue]
     try simp_all)

set_option maxHeartbeats 1000000 in
theorem stepCompatGuard_obeys {C : Type} (env : Env C) :
    Holds (stepCompatGuard env)
      (Post (quietEvent convergencePolicy) (settledEvent convergencePolicy)) := by
  unfold stepCompatGuard guarded guardResult
  repeat' first
    | with_reducible apply holds_ret
    | with_reducible apply holds_pure
    | with_reducible apply holds_goPanic
    | (with_reducible apply holds_getSt; intro _)
    | with_reducible apply holds_modifyHub
    | with_reducible apply holds_modifyCache
    | (with_reducible apply holds_applyDefaulting; intro _)
    | (with_reducible apply holds_must <;> intro _)
    | (with_reducible apply holds_ask; intro _)
    | (with_reducible apply holds_Setenv; intro _)
    | (with_reducible apply holds_call; intro _)
    | (with_reducible apply holds_setHubCondition; intro _)
    | with_reducible apply holds_removeHubCondition
    | (with_reducible apply holds_ite <;> intro _)
    | with_reducible apply holds_fn
    | with_reducible apply holds_bind
    | dsimp only
    | split
  all_goals
    (try simp only [Post, List.nil_append, List.append_nil, List.cons_append, List.mem_cons,
      List.mem_singleton, List.not_mem_nil, or_false, forall_eq_or_imp, forall_eq,
      false_implies, implies_true]
     try dsimp only [quietEvent, settledEvent, convergencePolicy, isSync, follows, mayGoOn, timedRequeue]
     try simp_all)

set_option maxHeartbeats 1000000 in
theorem stepOperator_obeys {C : Type} (env : Env C) :
    Holds (stepOperator env)
      (Post (quietEvent convergencePolicy) (settledEvent convergencePolicy)) := by
  unfold stepOperator guarded guardResult
  repeat' first
    | with_reducible apply holds_ret
    | with_reducible apply holds_pure
    | with_reducible apply holds_goPanic
    | (with_reducible apply holds_getSt; intro _)
    | with_reducible apply holds_modifyHub
    | with_reducible apply holds_modifyCache
    | (with_reducible apply holds_applyDefaulting; intro _)
    | (with_reducible apply holds_must <;> intro _)
    | (with_reducible apply holds_ask; intro _)
    | (with_reducible apply holds_Setenv; intro _)
    | (with_reducible apply holds_call; intro _)
    | (with_reducible apply holds_setHubCondition; intro _)
    | with_reducible apply holds_removeHubCondition
    | (with_reducible apply holds_ite <;> intro _)
    | with_reducible apply holds_fn
    | with_reducible apply holds_bind
    | dsimp only
    | split
  all_goals
    (try simp only [Post, List.nil_append, List.append_nil, List.cons_append, List.mem_cons,
      List.mem_singleton, List.not_mem_nil, or_false, forall_eq_or_imp, forall_eq,
      false_implies, implies_true]
     try dsimp only [quietEvent, settledEvent, convergencePolicy, isSync, follows, mayGoOn, timedRequeue]
     try simp_all)

set_option maxHeartbeats 1000000 in
theorem stepPullSecret_obeys {C : Type} (env : Env C) :
    Holds (stepPullSecret env)
      (Post (quietEvent convergencePolicy) (settledEvent convergencePolicy)) := by
  unfold stepPullSecret
  repeat' first
    | with_reducible apply holds_ret
    | with_reducible apply holds_pure
    | with_reducible apply holds_goPanic
    | (with_reducible apply holds_getSt; intro _)
    | with_reducible apply holds_modifyHub
    | with_reducible apply holds_modifyCache
    | (with_reducible apply holds_applyDefaulting; intro _)
    | (with_reducible apply holds_must <;> intro _)
    | (with_reducible apply holds_ask; intro _)
    | (with_reducible apply holds_Setenv; intro _)
    | (with_reducible apply holds_call; intro _)
    | (with_reducible apply holds_setHubCondition; intro _)
    | with_reducible apply holds_removeHubCondition
    | (with_reducible apply holds_ite <;> intro _)
    | with_reducible apply holds_fn
    | with_reducible apply holds_bind
    | dsimp only
    | split
  all_goals
    (try simp only [Post, List.nil_append, List.append_nil, List.cons_append, List.mem_cons,
      List.mem_singleton, List.not_mem_nil, or_false, forall_eq_or_imp, forall_eq,
      false_implies, implies_true]
     try dsimp only [quietEvent, settledEvent, convergencePolicy, isSync, follows, mayGoOn, timedRequeue]
     try simp_all)

set_option maxHeartbeats 1000000 in
theorem stepRepo_obeys {C : Type} (env : Env C) :
    Holds (stepRepo env)
      (Post (quietEvent convergencePolicy) (settledEvent convergencePolicy)) := by
  unfold stepRepo guarded guardResult
  repeat' first
    | with_reducible apply holds_ret
    | with_reducible apply holds_pure
    | with_reducible apply holds_goPanic
    | (with_reducible apply holds_getSt; intro _)
    | with_reducible apply holds_modifyHub
    | with_reducible apply holds_modifyCache
    | (with_reducible apply holds_applyDefaulting; intro _)
    | (with_reducible apply holds_must <;> intro _)
    | (with_reducible apply holds_ask; intro _)
    | (with_reducible apply holds_Setenv; intro _)
    | (with_reducible apply holds_call; intro _)
    | (with_reducible apply holds_setHubCondition; intro _)
    | with_reducible apply holds_removeHubCondition
    | (with_reducible apply holds_ite <;> intro _)
    | with_reducible apply holds_fn
    | with_reducible apply holds_bind
    | dsimp only
    | split
  all_goals
    (try simp only [Post, List.nil_append, List.append_nil, List.cons_append, List.mem_cons,
      List.mem_singleton, List.not_mem_nil, or_false, forall_eq_or_imp, forall_eq,
      false_implies, implies_true]
     try dsimp only [quietEvent, settledEvent, convergencePolicy, isSync, follows, mayGoOn, timedRequeue]
     try simp_all)

set_option maxHeartbeats 1000000 in
theorem stepEngineIngress_obeys {C : Type} (env : Env C) :
    Holds (stepEngineIngress env)
      (Post (quietEvent convergencePolicy) (settledEvent convergencePolicy)) := by
  unfold stepEngineIngress guarded guardResult ingressDomain
  repeat' first
    | with_reducible apply holds_ret
    | with_reducible apply holds_pure
    | with_reducible apply holds_goPanic
    | (with_reducible apply holds_getSt; intro _)
    | with_reducible apply holds_modifyHub
    | with_reducible apply holds_modifyCache
    | (with_reducible apply holds_applyDefaulting; intro _)
    | (with_reducible apply holds_must <;> intro _)
    | (with_reducible apply holds_ask; intro _)
    | (with_reducible apply holds_Setenv; intro _)
    | (with_reducible apply holds_call; intro _)
    | (with_reducible apply holds_setHubCondition; intro _)
    | with_reducible apply holds_removeHubCondition
    | (with_reducible apply holds_ite <;> intro _)
    | with_reducible apply holds_fn
    | with_reducible apply holds_bind
    | dsimp only
    | split
  all_goals
    (try simp only [Post, List.nil_append, List.append_nil, List.cons_append, List.mem_cons,
      List.mem_singleton, List.not_mem_nil, or_false, forall_eq_or_imp, forall_eq,
      false_implies, implies_true]
     try dsimp only [quietEvent, settledEvent, convergencePolicy, isSync, follows, mayGoOn, timedRequeue]
     try simp_all)

set_option maxHeartbeats 1000000 in
theorem stepClusterBackup_obeys {C : Type} (env : Env C) :
    Holds (stepClusterBackup env)
      (Post (quietEvent convergencePolicy) (settledEvent convergencePolicy)) := by
  unfold stepClusterBackup guarded guardResult
  repeat' first
    | with_reducible apply holds_ret
    | with_reducible apply holds_pure
    | with_reducible apply holds_goPanic
    | (with_reducible apply holds_getSt; intro _)
    | with_reducible apply holds_modifyHub
    | with_reducible apply holds_modifyCache
    | (with_reducible apply holds_applyDefaulting; intro _)
    | (with_reducible apply holds_must <;> intro _)
    | (with_reducible apply holds_ask; intro _)
    | (with_reducible apply holds_Setenv; intro _)
    | (with_reducible apply holds_call; intro _)
    | (with_reducible apply holds_setHubCondition; intro _)
    | with_reducible apply holds_removeHubCondition
    | (with_reducible apply holds_ite <;> intro _)
    | with_reducible apply holds_fn
    | with_reducible apply holds_bind
    | dsimp only
    | split
  all_goals
    (try simp only [Post, List.nil_append, List.append_nil, List.cons_append, List.mem_cons,
      List.mem_singleton, List.not_mem_nil, or_false, forall_eq_or_imp, forall_eq,
      false_implies, implies_true]
     try dsimp only [quietEvent, settledEvent, convergencePolicy, isSync, follows, mayGoOn, timedRequeue]
     try simp_all)

set_option maxHeartbeats 1000000 in
theorem stepSelfRegistration_obeys {C : Type} (env : Env C) :
    Holds (stepSelfRegistration env)
      (Post (quietEvent convergencePolicy) (settledEvent convergencePolicy)) := by
  unfold stepSelfRegistration guarded guardResult
  repeat' first
    | with_reducible apply holds_ret
    | with_reducible apply holds_pure
    | with_reducible apply holds_goPanic
    | (with_reducible apply holds_getSt; intro _)
    | with_reducible apply holds_modifyHub
    | with_reducible apply holds_modifyCache
    | (with_reducible apply holds_applyDefaulting; intro _)
    | (with_reducible apply holds_must <;> intro _)
    | (with_reducible apply holds_ask; intro _)
    | (with_reducible apply holds_Setenv; intro _)
    | (with_reducible apply holds_call; intro _)
    | (with_reducible apply holds_setHubCondition; intro _)
    | with_reducible apply holds_removeHubCondition
    | (with_reducible apply holds_ite <;> intro _)
    | with_reducible apply holds_fn
    | with_reducible apply holds_bind
    | dsimp only
    | split
  all_goals
    (try simp only [Post, List.nil_append, List.append_nil, List.cons_append, List.mem_cons,
      List.mem_singleton, List.not_mem_nil, or_false, forall_eq_or_imp, forall_eq,
      false_implies, implies_true]
     try dsimp only [quietEvent, settledEvent, convergencePolicy, isSync, follows, mayGoOn, timedRequeue]
     try simp_all)

set_option maxHeartbeats 1000000 in
theorem stepCleanup_obeys {C : Type} (env : Env C) :
    Holds (stepCleanup env)
      (Post (quietEvent convergencePolicy) (settledEvent convergencePolicy)) := by
  unfold stepCleanup guarded guardResult
  repeat' first
    | with_reducible apply holds_ret
    | with_reducible apply holds_pure
    | with_reducible apply holds_goPanic
    | (with_reducible apply holds_getSt; intro _)
    | with_reducible apply holds_modifyHub
    | with_reducible apply holds_modifyCache
    | (with_reducible apply holds_applyDefaulting; intro _)
    | (with_reducible apply holds_must <;> intro _)
    | (with_reducible apply holds_ask; intro _)
    | (with_reducible apply holds_Setenv; intro _)
    | (with_reducible apply holds_call; intro _)
    | (with_reducible apply holds_setHubCondition; intro _)
    | with_reducible apply holds_removeHubCondition
    | (with_reducible apply holds_ite <;> intro _)
    | with_reducible apply holds_fn
    | with_reducible apply holds_bind
    | dsimp only
    | split
  all_goals
    (try simp only [Post, List.nil_append, List.append_nil, List.cons_append, List.mem_cons,
      List.mem_singleton, List.not_mem_nil, or_false, forall_eq_or_imp, forall_eq,
      false_implies, implies_true]
     try dsimp only [quietEvent, settledEvent, convergencePolicy, isSync, follows, mayGoOn, timedRequeue]
     try simp_all)

set_option maxHeartbeats 1000000 in
theorem ensureComponent_obeys {C : Type} (env : Env C) (c : Component)
    (body : CacheSpec → Desired) :
    Holds (ensureComponent env c body)
      (Post (quietEvent convergencePolicy) (settledEvent convergencePolicy)) := by
  unfold ensureComponent guardResult
  repeat' first
    | with_reducible apply holds_ret
    | with_reducible apply holds_pure
    | with_reducible apply holds_goPanic
    | (with_reducible apply holds_getSt; intro _)
    | with_reducible apply holds_modifyHub
    | with_reducible apply holds_modifyCache
    | (with_reducible apply holds_applyDefaulting; intro _)
    | (with_reducible apply holds_must <;> intro _)
    | (with_reducible apply holds_ask; intro _)
    | (with_reducible apply holds_Setenv; intro _)
    | (with_reducible apply holds_call; intro _)
    | (with_reducible apply holds_setHubCondition; intro _)
    | with_reducible apply holds_removeHubCondition
    | (with_reducible apply holds_ite <;> intro _)
    | with_reducible apply holds_fn
    | with_reducible apply holds_bind
    | dsimp only
    | split
  all_goals
    (try simp only [Post, List.nil_append, List.append_nil, List.cons_append, List.mem_cons,
      List.mem_singleton, List.not_mem_nil, or_false, forall_eq_or_imp, forall_eq,
      false_implies, implies_true]
     try dsimp only [quietEvent, settledEvent, convergencePolicy, isSync, follows, mayGoOn, timedRequeue]
     try simp_all)

theorem quiet_returned (pol : Call → ErrorPolicy) (e : Event) (h : quietEvent pol e) :
    returnedEvent pol e := fun r _ => quiet_settled pol r e h

theorem readFile_returned (crdDir fileName : String) (out : Outcome) :
    returnedEvent convergencePolicy (Event.call (Call.ReadFile crdDir fileName) out) :=
  fun _ hr => ⟨rfl, fun _ => hr⟩

theorem readFile_quiet (crdDir fileName : String) (r : Result) :
    quietEvent convergencePolicy (Event.call (Call.ReadFile crdDir fileName) (r, none)) :=
  ⟨rfl, fun h => absurd rfl h⟩

theorem renderPost_bad {ρ α : Type} (pol : Call → ErrorPolicy) (n : Nat) (e0 : Event)
    (h0 : returnedEvent pol e0) (fl : Flow ρ (α × List Error)) (l : List Event)
    (h : renderPost pol (n + 1) fl l) : renderPost pol n fl ([e0] ++ l) := by
  obtain ⟨r, hr, hlen, _, hret⟩ := h
  refine ⟨r, hr, by omega, fun hle => by omega, ?_⟩
  intro e he
  rcases List.mem_append.1 he with h1 | h1
  · rw [List.mem_singleton.1 h1]
    exact h0
  · exact hret e h1

theorem renderPost_ok {ρ α : Type} (pol : Call → ErrorPolicy) (n : Nat) (e0 : Event)
    (h0 : quietEvent pol e0) (fl : Flow ρ (α × List Error)) (l : List Event)
    (h : renderPost pol n fl l) : renderPost pol n fl ([e0] ++ l) := by
  obtain ⟨r, hr, hlen, hq, hret⟩ := h
  refine ⟨r, hr, hlen, ?_, ?_⟩
  · intro hle e he
    rcases List.mem_append.1 he with h1 | h1
    · rw [List.mem_singleton.1 h1]
      exact h0
    · exact hq hle e h1
  · intro e he
    rcases List.mem_append.1 he with h1 | h1
    · rw [List.mem_singleton.1 h1]
      exact quiet_returned pol e0 h0
    · exact hret e h1

theorem renderPost_nil {ρ α : Type} (pol : Call → ErrorPolicy) (n : Nat)
    (r : α × List Error) (h : n ≤ r.2.length) :
    renderPost pol n (Flow.next r : Flow ρ (α × List Error)) [] :=
  ⟨r, rfl, h, fun _ e he => absurd he (List.not_mem_nil e),
    fun e he => absurd he (List.not_mem_nil e)⟩

theorem renderCRDs_obeys {C ρ : Type} (env : Env C) (m : MultiClusterHub) (crdDir : String) :
    ∀ (files : List String) (crds : List Unstructured) (errs : List Error),
      Holds (renderCRDs env m crdDir files crds errs : Proc C ρ _)
        (renderPost convergencePolicy errs.length) := by
  intro files
  induction files with
  | nil =>
    intro crds errs
    unfold renderCRDs
    exact holds_pure _ _ (renderPost_nil _ _ _ (Nat.le_refl _))
  | cons fileName files ih =>
    intro crds errs
    have hbad : ∀ (msg : Error) (out : Outcome),
        Holds (renderCRDs env m crdDir files crds (errs ++ [msg]) : Proc C ρ _)
          (fun fl l2 => renderPost convergencePolicy errs.length fl
            ([Event.call (Call.ReadFile crdDir fileName) out] ++ l2)) := by
      intro msg out
      apply holds_conseq _ _ _ (ih crds (errs ++ [msg]))
      intro fl l h
      apply renderPost_bad _ _ _ (readFile_returned _ _ _)
      simpa using h
    have hok : ∀ (crds1 : List Unstructured),
        Holds (renderCRDs env m crdDir files crds1 errs : Proc C ρ _)
          (fun fl l2 => renderPost convergencePolicy errs.length fl
            ([Event.call (Call.ReadFile crdDir fileName) (Result.empty, none)] ++ l2)) := by
      intro crds1
      apply holds_conseq _ _ _ (ih crds1 errs)
      intro fl l h
      exact renderPost_ok _ _ _ (readFile_quiet _ _ _) _ _ h
    unfold renderCRDs
    apply holds_ite
    · intro _
      exact ih crds errs
    · intro _
      apply holds_bind
      apply holds_ask
      intro x
      cases x with
      | error err => exact hbad _ _
      | ok src =>
        dsimp only
        cases env.Unmarshal src with
        | error err => exact hbad _ _
        | ok crd =>
          dsimp only
          cases (NestedString crd.specNamesKind).2.2 with
          | some err => exact hbad _ _
          | none =>
            dsimp only
            cases (NestedString crd.specGroup).2.2 with
            | some err => exact hbad _ _
            | none =>
              dsimp only
              apply holds_ite
              · intro _
                exact hbad _ _
              · intro _
                exact hok _

theorem renderResources_obeys {C ρ : Type} (env : Env C) (resourceDir : String) :
    ∀ (files : List String) (resources : List Unstructured) (errs : List Error),
      Holds (renderResources env resourceDir files resources errs : Proc C ρ _)
        (renderPost convergencePolicy errs.length) := by
  intro files
  induction files with
  | nil =>
    intro resources errs
    unfold renderResources
    exact holds_pure _ _ (renderPost_nil _ _ _ (Nat.le_refl _))
  | cons fileName files ih =>
    intro resources errs
    have hbad : ∀ (msg : Error) (out : Outcome),
        Holds (renderResources env resourceDir files resources (errs ++ [msg]) : Proc C ρ _)
          (fun fl l2 => renderPost convergencePolicy errs.length fl
            ([Event.call (Call.ReadFile resourceDir fileName) out] ++ l2)) := by
      intro msg out
      apply holds_conseq _ _ _ (ih resources (errs ++ [msg]))
      intro fl l h
      apply renderPost_bad _ _ _ (readFile_returned _ _ _)
      simpa using h
    have hok : ∀ (resources1 : List Unstructured),
        Holds (renderResources env resourceDir files resources1 errs : Proc C ρ _)
          (fun fl l2 => renderPost convergencePolicy errs.length fl
            ([Event.call (Call.ReadFile resourceDir fileName) (Result.empty, none)] ++ l2)) := by
      intro resources1
      apply holds_conseq _ _ _ (ih resources1 errs)
      intro fl l h
      exact renderPost_ok _ _ _ (readFile_quiet _ _ _) _ _ h
    unfold renderResources
    apply holds_ite
    · intro _
      exact ih resources errs
    · intro _
      apply holds_bind
      apply holds_ask
      intro x
      cases x with
      | error err => exact hbad _ _
      | ok src =>
        dsimp only
        cases env.Unmarshal src with
        | error err => exact hbad _ _
        | ok res => exact hok _

theorem deployPost_prepend {α : Type} (pol : Call → ErrorPolicy) (l0 : List Event)
    (h0 : ∀ e ∈ l0, quietEvent pol e) (fl : Flow (String × Option Error) α) (l : List Event)
    (h : deployPost pol fl l) : deployPost pol fl (l0 ++ l) := by
  cases fl with
  | next a =>
    intro e he
    rcases List.mem_append.1 he with h1 | h1
    · exact h0 e h1
    · exact h e h1
  | done r =>
    refine ⟨h.1, ?_⟩
    intro e he
    rcases List.mem_append.1 he with h1 | h1
    · exact quiet_returned pol e (h0 e h1)
    · exact h.2 e h1
  | panic msg => exact h

theorem deploy_returned (u : Unstructured) (out : Outcome) :
    returnedEvent convergencePolicy (Event.call (Call.Deploy u) out) :=
  fun _ hr => ⟨rfl, fun _ => hr⟩

theorem deploy_quiet (u : Unstructured) (r : Result) (err : Option Error) (h : ¬ err ≠ none) :
    quietEvent convergencePolicy (Event.call (Call.Deploy u) (r, err)) :=
  ⟨rfl, fun h1 => absurd h1 h⟩

theorem deployCRDs_obeys {C : Type} (env : Env C) :
    ∀ crds : List Unstructured, Holds (deployCRDs env crds) (deployPost convergencePolicy) := by
  intro crds
  induction crds with
  | nil =>
    unfold deployCRDs
    exact holds_pure _ _ (fun e he => absurd he (List.not_mem_nil e))
  | cons crd crds ih =>
    unfold deployCRDs
    apply holds_bind
    apply holds_deploy
    intro r
    dsimp only
    apply holds_ite
    · intro hr
      apply holds_ret
      refine ⟨by simp, ?_⟩
      intro e he
      simp only [List.append_nil, List.mem_singleton] at he
      rw [he]
      exact deploy_returned _ _
    · intro hr
      apply holds_bind
      apply holds_ite
      · intro _
        apply holds_setHubCondition
        intro c
        dsimp only
        apply holds_conseq _ _ _ ih
        intro fl l h
        rw [← List.append_assoc]
        apply deployPost_prepend _ _ _ _ _ h
        intro e he
        simp only [List.singleton_append, List.mem_cons, List.mem_singleton, List.not_mem_nil,
          or_false] at he
        rcases he with he | he
        · rw [he]
          exact deploy_quiet _ _ _ hr
        · rw [he]
          trivial
      · intro _
        apply holds_pure
        dsimp only
        apply holds_conseq _ _ _ ih
        intro fl l h
        rw [← List.append_assoc]
        apply deployPost_prepend _ _ _ _ _ h
        intro e he
        simp only [List.append_nil, List.mem_singleton] at he
        rw [he]
        exact deploy_quiet _ _ _ hr

theorem deployAll_obeys {C : Type} (env : Env C) :
    ∀ resources : List Unstructured,
      Holds (deployAll env resources) (deployPost convergencePolicy) := by
  intro resources
  induction resources with
  | nil =>
    unfold deployAll
    exact holds_pure _ _ (fun e he => absurd he (List.not_mem_nil e))
  | cons res resources ih =>
    unfold deployAll
    apply holds_bind
    apply holds_getSt
    intro s
    dsimp only
    apply holds_bind
    apply holds_deploy
    intro r
    dsimp only
    apply holds_ite
    · intro hr
      apply holds_ret
      refine ⟨by simp, ?_⟩
      intro e he
      simp only [List.append_nil, List.nil_append, List.mem_singleton] at he
      rw [he]
      exact deploy_returned _ _
    · intro hr
      apply holds_bind
      apply holds_ite
      · intro _
        apply holds_setHubCondition
        intro c
        dsimp only
        apply holds_conseq _ _ _ ih
        intro fl l h
        rw [List.nil_append, ← List.append_assoc]
        apply deployPost_prepend _ _ _ _ _ h
        intro e he
        simp only [List.singleton_append, List.mem_cons, List.mem_singleton, List.not_mem_nil,
          or_false] at he
        rcases he with he | he
        · rw [he]
          exact deploy_quiet _ _ _ hr
        · rw [he]
          trivial
      · intro _
        apply holds_pure
        dsimp only
        apply holds_conseq _ _ _ ih
        intro fl l h
        rw [List.nil_append, ← List.append_assoc]
        apply deployPost_prepend _ _ _ _ _ h
        intro e he
        simp only [List.append_nil, List.mem_singleton] at he
        rw [he]
        exact deploy_quiet _ _ _ hr

theorem all_append {P : Event → Prop} (l1 l2 : List Event) (h1 : ∀ e ∈ l1, P e)
    (h2 : ∀ e ∈ l2, P e) : ∀ e ∈ l1 ++ l2, P e := by
  intro e he
  rcases List.mem_append.1 he with h | h
  · exact h1 e h
  · exact h2 e h

theorem all_nil {P : Event → Prop} : ∀ e ∈ ([] : List Event), P e :=
  fun e he => absurd he (List.not_mem_nil e)

theorem all_single {P : Event → Prop} (e0 : Event) (h : P e0) : ∀ e ∈ [e0], P e := by
  intro e he
  rw [List.mem_singleton.1 he]
  exact h

theorem all_returned (pol : Call → ErrorPolicy) (l : List Event)
    (h : ∀ e ∈ l, quietEvent pol e) : ∀ e ∈ l, returnedEvent pol e :=
  fun e he => quiet_returned pol e (h e he)

theorem fnPost_err {σ : Type} (pol : Call → ErrorPolicy) (r : String × Option Error)
    (l : List Event) (hr : r.2 ≠ none) (h : ∀ e ∈ l, returnedEvent pol e) :
    fnPost pol (Flow.next r : Flow σ (String × Option Error)) l :=
  ⟨r, rfl, fun h0 => absurd h0 hr, h⟩

theorem fnPost_ok {σ : Type} (pol : Call → ErrorPolicy) (r : String × Option Error)
    (l : List Event) (h : ∀ e ∈ l, quietEvent pol e) :
    fnPost pol (Flow.next r : Flow σ (String × Option Error)) l :=
  ⟨r, rfl, fun _ => h, all_returned pol l h⟩

theorem readDir_returned (dir : String) (out : Outcome) :
    returnedEvent convergencePolicy (Event.call (Call.ReadDir dir) out) :=
  fun _ hr => ⟨rfl, fun _ => hr⟩

theorem readDir_quiet (dir : String) (r : Result) :
    quietEvent convergencePolicy (Event.call (Call.ReadDir dir) (r, none)) :=
  ⟨rfl, fun h => absurd rfl h⟩

theorem installCRDs_obeys {C σ : Type} (env : Env C) :
    Holds (installCRDs env : Proc C σ _) (fnPost convergencePolicy) := by
  unfold installCRDs
  apply holds_fn
  apply holds_bind
  apply holds_getSt
  intro s
  dsimp only
  cases lookupKey s.environ crdPathEnvVar with
  | none =>
    dsimp only
    apply holds_ret
    exact fnPost_err _ _ _ (by simp) all_nil
  | some crdDir =>
    dsimp only
    apply holds_bind
    apply holds_ask
    intro x
    cases x with
    | error err =>
      dsimp only
      apply holds_ret
      exact fnPost_err _ _ _ (by simp)
        (all_append _ _ all_nil (all_append _ _ (all_single _ (readDir_returned _ _)) all_nil))
    | ok files =>
      dsimp only
      apply holds_bind
      apply holds_conseq _ _ _ (renderCRDs_obeys env s.hub crdDir files [] [])
      intro fl l h
      obtain ⟨r, hr, _, hq, hret⟩ := h
      subst hr
      dsimp only
      apply holds_ite
      · intro hlen
        apply holds_ret
        exact fnPost_err _ _ _ (by simp)
          (all_append _ _ all_nil (all_append _ _
            (all_single _ (quiet_returned _ _ (readDir_quiet _ _)))
            (all_append _ _ hret all_nil)))
      · intro hlen
        have hq1 : ∀ e ∈ l, quietEvent convergencePolicy e :=
          hq (by simp only [List.length_nil]; omega)
        apply holds_bind
        apply holds_conseq _ _ _ (deployCRDs_obeys env r.1)
        intro fl2 l2 h2
        cases fl2 with
        | next a =>
          dsimp only
          apply holds_pure
          exact fnPost_ok _ _ _
            (all_append _ _ all_nil (all_append _ _ (all_single _ (readDir_quiet _ _))
              (all_append _ _ hq1 (all_append _ _ h2 all_nil))))
        | done r2 =>
          exact fnPost_err _ _ _ h2.1
            (all_append _ _ all_nil (all_append _ _
              (all_single _ (quiet_returned _ _ (readDir_quiet _ _)))
              (all_append _ _ hret h2.2)))
        | panic msg => exact absurd h2 id

theorem deployResources_obeys {C σ : Type} (env : Env C) :
    Holds (deployResources env : Proc C σ _) (fnPost convergencePolicy) := by
  unfold deployResources
  apply holds_fn
  apply holds_bind
  apply holds_getSt
  intro s
  dsimp only
  cases lookupKey s.environ templatesPathEnvVar with
  | none =>
    dsimp only
    apply holds_ret
    exact fnPost_err _ _ _ (by simp) all_nil
  | some dir =>
    dsimp only
    apply holds_bind
    apply holds_ask
    intro x
    cases x with
    | error err =>
      dsimp only
      apply holds_ret
      exact fnPost_err _ _ _ (by simp)
        (all_append _ _ all_nil (all_append _ _ (all_single _ (readDir_returned _ _)) all_nil))
    | ok files =>
      dsimp only
      apply holds_bind
      apply holds_conseq _ _ _
        (renderResources_obeys env (env.pathJoin [dir, templatesKind, "base"]) files [] [])
      intro fl l h
      obtain ⟨r, hr, _, hq, hret⟩ := h
      subst hr
      dsimp only
      apply holds_ite
      · intro hlen
        apply holds_ret
        exact fnPost_err _ _ _ (by simp)
          (all_append _ _ all_nil (all_append _ _
            (all_single _ (quiet_returned _ _ (readDir_quiet _ _)))
            (all_append _ _ hret all_nil)))
      · intro hlen
        have hq1 : ∀ e ∈ l, quietEvent convergencePolicy e :=
          hq (by simp only [List.length_nil]; omega)
        apply holds_bind
        apply holds_conseq _ _ _ (deployAll_obeys env r.1)
        intro fl2 l2 h2
        cases fl2 with
        | next a =>
          dsimp only
          apply holds_pure
          exact fnPost_ok _ _ _
            (all_append _ _ all_nil (all_append _ _ (all_single _ (readDir_quiet _ _))
              (all_append _ _ hq1 (all_append _ _ h2 all_nil))))
        | done r2 =>
          exact fnPost_err _ _ _ h2.1
            (all_append _ _ all_nil (all_append _ _
              (all_single _ (quiet_returned _ _ (readDir_quiet _ _)))
              (all_append _ _ hret h2.2)))
        | panic msg => exact absurd h2 id

theorem all_settled (pol : Call → ErrorPolicy) (l : List Event) (r : Outcome)
    (hr : r.2 ≠ none) (h : ∀ e ∈ l, returnedEvent pol e) : ∀ e ∈ l, settledEvent pol r e :=
  fun e he => h e he r hr

theorem stepInstallCRDs_obeys {C : Type} (env : Env C) :
    Holds (stepInstallCRDs env)
      (Post (quietEvent convergencePolicy) (settledEvent convergencePolicy)) := by
  unfold stepInstallCRDs
  apply holds_bind
  apply holds_conseq _ _ _ (installCRDs_obeys env)
  intro fl l h
  obtain ⟨r, hr, hq, hret⟩ := h
  subst hr
  dsimp only
  cases hr2 : r.2 with
  | none =>
    dsimp only
    apply holds_pure
    exact all_append _ _ (hq hr2) all_nil
  | some err =>
    dsimp only
    apply holds_bind
    apply holds_setHubCondition
    intro c
    dsimp only
    apply holds_ret
    exact all_settled _ _ _ (by simp)
      (all_append _ _ hret (all_append _ _ (all_single _ (fun _ _ => trivial)) all_nil))

theorem stepDeployResources_obeys {C : Type} (env : Env C) :
    Holds (stepDeployResources env)
      (Post (quietEvent convergencePolicy) (settledEvent convergencePolicy)) := by
  unfold stepDeployResources
  apply holds_bind
  apply holds_conseq _ _ _ (deployResources_obeys env)
  intro fl l h
  obtain ⟨r, hr, hq, hret⟩ := h
  subst hr
  dsimp only
  cases hr2 : r.2 with
  | none =>
    dsimp only
    apply holds_pure
    exact all_append _ _ (hq hr2) all_nil
  | some err =>
    dsimp only
    apply holds_bind
    apply holds_setHubCondition
    intro c
    dsimp only
    apply holds_ret
    exact all_settled _ _ _ (by simp)
      (all_append _ _ hret (all_append _ _ (all_single _ (fun _ _ => trivial)) all_nil))

theorem stepComponents_obeys {C : Type} (env : Env C) :
    Holds (stepComponents env)
      (Post (quietEvent convergencePolicy) (settledEvent convergencePolicy)) := by
  unfold stepComponents
  refine holds_seq _ _ (quiet_settled convergencePolicy) _ _
    (ensureComponent_obeys env _ _) (fun _ => ?_)
  refine holds_seq _ _ (quiet_settled convergencePolicy) _ _
    (ensureComponent_obeys env _ _) (fun _ => ?_)
  refine holds_seq _ _ (quiet_settled convergencePolicy) _ _
    (ensureComponent_obeys env _ _) (fun _ => ?_)
  refine holds_seq _ _ (quiet_settled convergencePolicy) _ _
    (ensureComponent_obeys env _ _) (fun _ => ?_)
  refine holds_seq _ _ (quiet_settled convergencePolicy) _ _
    (ensureComponent_obeys env _ _) (fun _ => ?_)
  refine holds_seq _ _ (quiet_settled convergencePolicy) _ _
    (ensureComponent_obeys env _ _) (fun _ => ?_)
  refine holds_seq _ _ (quiet_settled convergencePolicy) _ _
    (ensureComponent_obeys env _ _) (fun _ => ?_)
  refine holds_seq _ _ (quiet_settled convergencePolicy) _ _
    (stepClusterBackup_obeys env) (fun _ => ?_)
  exact ensureComponent_obeys env _ _

theorem convergeFromOperator_obeys {C : Type} (env : Env C) :
    Holds (convergeFromOperator env)
      (Post (quietEvent convergencePolicy) (settledEvent convergencePolicy)) := by
  unfold convergeFromOperator
  refine holds_seq _ _ (quiet_settled convergencePolicy) _ _
    (stepOperator_obeys env) (fun _ => ?_)
  refine holds_seq _ _ (quiet_settled convergencePolicy) _ _
    (stepInstallCRDs_obeys env) (fun _ => ?_)
  refine holds_seq _ _ (quiet_settled convergencePolicy) _ _
    (stepPullSecret_obeys env) (fun _ => ?_)
  refine holds_seq _ _ (quiet_settled convergencePolicy) _ _
    (stepRepo_obeys env) (fun _ => ?_)
  refine holds_seq _ _ (quiet_settled convergencePolicy) _ _
    (stepEngineIngress_obeys env) (fun _ => ?_)
  refine holds_seq _ _ (quiet_settled convergencePolicy) _ _
    (stepDeployResources_obeys env) (fun _ => ?_)
  refine holds_seq _ _ (quiet_settled convergencePolicy) _ _
    (stepComponents_obeys env) (fun _ => ?_)
  refine holds_seq _ _ (quiet_settled convergencePolicy) _ _
    (stepSelfRegistration_obeys env) (fun _ => ?_)
  refine holds_seq _ _ (quiet_settled convergencePolicy) _ _
    (stepCleanup_obeys env) (fun _ => ?_)
  exact holds_pure _ _ all_nil

/-- The convergence pass obeys the policy of the convergence steps: the status sync is not
called, and the outcome the pass returns follows the policy of every call that has returned
an error. -/
theorem convergencePass_obeys {C : Type} (env : Env C) :
    Holds (convergencePass env)
      (Post (quietEvent convergencePolicy) (settledEvent convergencePolicy)) := by
  unfold convergencePass convergeFromPauseGate convergeFromCompatGuard
  refine holds_seq _ _ (quiet_settled convergencePolicy) _ _
    (stepAddFinalizer_obeys env) (fun _ => ?_)
  refine holds_seq _ _ (quiet_settled convergencePolicy) _ _
    (stepSetDefaults_obeys env) (fun _ => ?_)
  refine holds_seq _ _ (quiet_settled convergencePolicy) _ _
    (stepImageOverrides_obeys env) (fun _ => ?_)
  refine holds_seq _ _ (quiet_settled convergencePolicy) _ _
    (stepUpgrade_obeys env) (fun _ => ?_)
  refine holds_seq _ _ (quiet_settled convergencePolicy) _ _
    (stepLabelDeployments_obeys env) (fun _ => ?_)
  refine holds_seq _ _ (quiet_settled convergencePolicy) _ _
    (stepPauseGate_obeys env) (fun _ => ?_)
  refine holds_seq _ _ (quiet_settled convergencePolicy) _ _
    (stepCompatGuard_obeys env) (fun _ => ?_)
  exact convergeFromOperator_obeys env

set_option maxHeartbeats 2000000 in
/-- The deletion branch obeys the policy of the teardown. -/
theorem deletionBranch_obeys {C : Type} (env : Env C) :
    Holds (deletionBranch env)
      (Post (quietEvent teardownPolicy) (settledEvent teardownPolicy)) := by
  unfold deletionBranch finalizeHub stage
  repeat' first
    | with_reducible apply holds_ret
    | with_reducible apply holds_pure
    | (with_reducible apply holds_getSt; intro _)
    | with_reducible apply holds_modifyHub
    | (with_reducible apply holds_call; intro _)
    | (with_reducible apply holds_setHubCondition; intro _)
    | (with_reducible apply holds_ite <;> intro _)
    | with_reducible apply holds_fn
    | with_reducible apply holds_bind
    | dsimp only
    | split
  all_goals
    (try simp only [Post, List.nil_append, List.append_nil, List.cons_append, List.mem_cons,
      List.mem_singleton, List.not_mem_nil, or_false, forall_eq_or_imp, forall_eq,
      false_implies, implies_true]
     try dsimp only [quietEvent, settledEvent, teardownPolicy, isSync, follows, mayGoOn,
       timedRequeue]
     try simp_all)

theorem errorPolicy_true : errorPolicy true = teardownPolicy :=
  funext (fun c => by simp [errorPolicy])

theorem errorPolicy_false : errorPolicy false = convergencePolicy :=
  funext (fun c => by simp [errorPolicy])

/-- The pass obeys the error policy: the status sync is not called in it, and the outcome it
returns follows the policy of every call that returned an error. -/
theorem reconcilePass_obeys {C : Type} (env : Env C) (s : St C) :
    ∃ l, (reconcilePass env s).2.trace = s.trace ++ l ∧
      Post (quietEvent (errorPolicy s.hub.DeletionTimestamp.isSome))
        (settledEvent (errorPolicy s.hub.DeletionTimestamp.isSome)) (reconcilePass env s).1 l := by
  cases h : s.hub.DeletionTimestamp.isSome
  · rw [reconcilePass_converging env s h, errorPolicy_false]
    exact convergencePass_obeys env s
  · rw [reconcilePass_deleting env s h, errorPolicy_true]
    exact deletionBranch_obeys env s

theorem post_no_sync {α : Type} (pol : Call → ErrorPolicy) (fl : Flow Outcome α)
    (l : List Event) (h : Post (quietEvent pol) (settledEvent pol) fl l) :
    ∀ c ∈ callsOf l, isSync c = false := by
  intro c hc
  unfold callsOf at hc
  obtain ⟨e, he, hce⟩ := List.mem_filterMap.1 hc
  cases e with
  | call c1 out =>
    simp only [Option.some.injEq] at hce
    subst hce
    cases fl with
    | next a => exact (h _ he).1
    | done r => exact (h _ he).1
    | panic msg => exact (h _ he).1
  | SetHubCondition c1 => cases hce
  | RemoveHubCondition t => cases hce

theorem reconcilePass_no_sync {C : Type} (env : Env C) (s : St C) :
    ∀ c ∈ newCalls s (reconcilePass env s).2, isSync c = false := by
  obtain ⟨l, hl, hp⟩ := reconcilePass_obeys env s
  unfold newCalls
  rw [newEvents_append s _ l hl]
  exact post_no_sync _ _ _ hp

theorem Reconcile_trace {C σ : Type} (env : Env C) (req : Request) (s s1 : St C)
    (hload : loadHub env req s = (Flow.next (), s1)) :
    ((Reconcile env req : Proc C σ Outcome) s).2
      = afterCall env (Call.syncHubStatus s1.hub.Status) (reconcilePass env s1).2 := by
  rw [Reconcile_apply env req s s1 hload]
  rcases reconcilePass env s1 with ⟨_ | _ | _, s2⟩ <;> rfl

/-- When the hub is loaded and the three listings succeed, so that the pass starts, the
status sync runs exactly once, after the pass and as the last call of `Reconcile`: the calls
of `Reconcile` are the four calls of the loading phase, the calls of the pass, none of which
is the status sync, and the status sync. -/
theorem Reconcile_sync_once {C : Type} (env : Env C) (req : Request) (s s1 : St C)
    (hload : loadHub env req s = (Flow.next (), s1)) :
    newCalls s ((Reconcile env req : Proc C Outcome Outcome) s).2
      = [Call.Get req, Call.listDeployments, Call.listHelmReleases, Call.listCustomResources]
        ++ newCalls s1 (reconcilePass env s1).2 ++ [Call.syncHubStatus s1.hub.Status] ∧
    (∀ c ∈ newCalls s1 (reconcilePass env s1).2, isSync c = false) ∧
    (newCalls s ((Reconcile env req : Proc C Outcome Outcome) s).2).filter
        (fun c => isSync c) = [Call.syncHubStatus s1.hub.Status] ∧
    (newCalls s ((Reconcile env req : Proc C Outcome Outcome) s).2).getLast?
      = some (Call.syncHubStatus s1.hub.Status) := by
  obtain ⟨m, _, hs1⟩ := loadHub_next env req s s1 hload
  obtain ⟨l1, hl1, hc1⟩ := passStart_calls env req m s
  rw [← hs1] at hl1
  obtain ⟨l2, hl2, hp⟩ := reconcilePass_obeys env s1
  have hns := post_no_sync _ _ _ hp
  have hn2 : newCalls s1 (reconcilePass env s1).2 = callsOf l2 := by
    unfold newCalls
    rw [newEvents_append s1 _ l2 hl2]
  have hcalls : newCalls s ((Reconcile env req : Proc C Outcome Outcome) s).2
      = [Call.Get req, Call.listDeployments, Call.listHelmReleases, Call.listCustomResources]
        ++ callsOf l2 ++ [Call.syncHubStatus s1.hub.Status] := by
    rw [Reconcile_trace env req s s1 hload]
    unfold newCalls
    rw [newEvents_append s _ (l1 ++ l2 ++ [Event.call (Call.syncHubStatus s1.hub.Status)
      (env.exec (Call.syncHubStatus s1.hub.Status) (reconcilePass env s1).2.hub
        (reconcilePass env s1).2.cluster).1])
      (by simp [afterCall, hl2, hl1])]
    rw [callsOf_append, callsOf_append, hc1]
    rfl
  have hfilter : (callsOf l2).filter (fun c => isSync c) = [] := by
    rw [List.filter_eq_nil_iff]
    intro c hc
    rw [hns c hc]
    decide
  rw [hn2]
  refine ⟨hcalls, hns, ?_, ?_⟩
  · rw [hcalls, List.filter_append, List.filter_append, hfilter]
    rfl
  · rw [hcalls]
    exact List.getLast?_concat _

/-- C5 as stated fails: `plainHub` is stored and `Reconcile` loads it, but the listing of
the deployments fails; `Reconcile` returns that error after two calls, and the status sync
has not run. -/
theorem status_sync_runs_once_counterexample :
    listingFails.Get exampleReq () = .ok plainHub ∧
    ((Reconcile listingFails exampleReq : Proc Unit Outcome Outcome) startSt).2.hub = plainHub ∧
    ((Reconcile listingFails exampleReq : Proc Unit Outcome Outcome) startSt).1
      = Flow.next (Result.empty, some "deployments unavailable") ∧
    newCalls startSt ((Reconcile listingFails exampleReq : Proc Unit Outcome Outcome) startSt).2
      = [Call.Get exampleReq, Call.listDeployments] ∧
    (newCalls startSt
      ((Reconcile listingFails exampleReq : Proc Unit Outcome Outcome) startSt).2).filter
        (fun c => isSync c) = [] := by
  refine ⟨by rfl, by rfl, by rfl, by rfl, by rfl⟩

/-- C7 (amended): when the pass has started and `Reconcile` returns `r`, the pass has
returned an outcome `p`, `r` is `p` with its empty places filled from the status sync, and
for every call of the pass that returned a non-nil error, `p` follows the policy of the
call (`teardownPolicy` for a hub in deletion, `convergencePolicy` otherwise): a call whose
error is to be returned makes `Reconcile` return a non-nil error; the error of a teardown
stage or of `BeginEnsuringHubIsUpgradeable` makes the pass return a requeue after
`resyncPeriod` with no error; the error of `labelDeployments` makes the pass end with the
empty outcome; a helper that is followed by the guard on its result makes `Reconcile`
return its result and error if the result is not empty. -/
theorem errors_follow_policy {C : Type} (env : Env C) (req : Request) (s s1 : St C)
    (hload : loadHub env req s = (Flow.next (), s1)) :
    ∀ r, ((Reconcile env req : Proc C Outcome Outcome) s).1 = Flow.next r →
      ∃ p, ((reconcilePass env s1).1 = Flow.next p ∨ (reconcilePass env s1).1 = Flow.done p) ∧
        r = combine p (env.exec (Call.syncHubStatus s1.hub.Status)
          (reconcilePass env s1).2.hub (reconcilePass env s1).2.cluster).1 ∧
        ∀ c out, Event.call c out ∈ newEvents s1 (reconcilePass env s1).2 → out.2 ≠ none →
          follows (errorPolicy s1.hub.DeletionTimestamp.isSome c) out p ∧
          (errorPolicy s1.hub.DeletionTimestamp.isSome c = ErrorPolicy.returned → r.2 ≠ none) ∧
          (errorPolicy s1.hub.DeletionTimestamp.isSome c = ErrorPolicy.requeued →
            r.1 = ⟨false, resyncPeriod⟩ ∧ p.2 = none) ∧
          (errorPolicy s1.hub.DeletionTimestamp.isSome c = ErrorPolicy.ended →
            p = (Result.empty, none)) ∧
          (errorPolicy s1.hub.DeletionTimestamp.isSome c = ErrorPolicy.guarded →
            out.1 ≠ Result.empty → r = out) := by
  intro r hr
  obtain ⟨l, hl, hp⟩ := reconcilePass_obeys env s1
  have hev : newEvents s1 (reconcilePass env s1).2 = l := newEvents_append s1 _ l hl
  rw [hev]
  rw [Reconcile_apply env req s s1 hload] at hr
  have key : ∀ p : Outcome,
      (∀ e ∈ l, settledEvent (errorPolicy s1.hub.DeletionTimestamp.isSome) p e) →
      r = combine p (env.exec (Call.syncHubStatus s1.hub.Status)
          (reconcilePass env s1).2.hub (reconcilePass env s1).2.cluster).1 →
      ∀ c out, Event.call c out ∈ l → out.2 ≠ none →
          follows (errorPolicy s1.hub.DeletionTimestamp.isSome c) out p ∧
          (errorPolicy s1.hub.DeletionTimestamp.isSome c = ErrorPolicy.returned → r.2 ≠ none) ∧
          (errorPolicy s1.hub.DeletionTimestamp.isSome c = ErrorPolicy.requeued →
            r.1 = ⟨false, resyncPeriod⟩ ∧ p.2 = none) ∧
          (errorPolicy s1.hub.DeletionTimestamp.isSome c = ErrorPolicy.ended →
            p = (Result.empty, none)) ∧
          (errorPolicy s1.hub.DeletionTimestamp.isSome c = ErrorPolicy.guarded →
            out.1 ≠ Result.empty → r = out) := by
    intro p hset hcomb c out hmem hne
    have hf : follows (errorPolicy s1.hub.DeletionTimestamp.isSome c) out p :=
      (hset _ hmem).2 hne
    refine ⟨hf, ?_, ?_, ?_, ?_⟩
    · intro hpol
      rw [hpol] at hf
      have hp2 : p.2 ≠ none := hf
      rw [hcomb]
      simp only [combine, hp2, if_false]
      exact hp2
    · intro hpol
      rw [hpol] at hf
      have hp2 : p = timedRequeue := hf
      rw [hcomb, hp2]
      simp only [combine, timedRequeue, timed_ne_empty, if_false]
      exact ⟨trivial, trivial⟩
    · intro hpol
      rw [hpol] at hf
      exact hf
    · intro hpol hres
      rw [hpol] at hf
      have hp2 : p = out := hf hres
      rw [hcomb, hp2]
      simp only [combine, hres, hne, if_false]
  rcases hflow : reconcilePass env s1 with ⟨p | p | msg, s2⟩
  · rw [hflow] at hr hp key
    simp only [Flow.next.injEq] at hr
    refine ⟨p, Or.inl rfl, hr.symm, ?_⟩
    exact key p (fun e he => quiet_settled _ p e (hp e he)) hr.symm
  · rw [hflow] at hr hp key
    simp only [Flow.next.injEq] at hr
    refine ⟨p, Or.inr rfl, hr.symm, ?_⟩
    exact key p hp hr.symm
  · rw [hflow] at hr
    cases hr

/-- C7, an instance: the teardown of `deletedHub` fails at `cleanupCRDs`; the policy of that
stage is `requeued`, and the pass returns the requeue after `resyncPeriod` with no error. -/
theorem errors_follow_policy_witness :
    errorPolicy (loadHub stuckEnv exampleReq startSt).2.hub.DeletionTimestamp.isSome
      Call.cleanupCRDs = ErrorPolicy.requeued ∧
    ∃ p, ((reconcilePass stuckEnv (loadHub stuckEnv exampleReq startSt).2).1 = Flow.next p ∨
        (reconcilePass stuckEnv (loadHub stuckEnv exampleReq startSt).2).1 = Flow.done p) ∧
      p = (⟨false, resyncPeriod⟩, none) := by
  obtain ⟨p, hp, _, hall⟩ := errors_follow_policy stuckEnv exampleReq startSt
    (loadHub stuckEnv exampleReq startSt).2 (by rfl) (⟨false, resyncPeriod⟩, none) (by rfl)
  have h := hall Call.cleanupCRDs (Result.empty, some "crds remain") (by decide) (by simp)
  exact ⟨by rfl, p, hp, h.1⟩

/-- C7 as stated fails: `terminatingHub` is in deletion and already carries the
`Terminating` condition; its teardown stage `cleanupCRDs` returns an error, and `Reconcile`
returns the requeue after `resyncPeriod` with no error while the status of the hub is what
it was: the error has changed no condition and has not been returned. -/
theorem errors_follow_policy_counterexample :
    Event.call Call.cleanupCRDs (Result.empty, some "crds remain")
      ∈ newEvents startSt
        ((Reconcile stuckTerminating exampleReq : Proc Unit Outcome Outcome) startSt).2 ∧
    ((Reconcile stuckTerminating exampleReq : Proc Unit Outcome Outcome) startSt).1
      = Flow.next (⟨false, resyncPeriod⟩, none) ∧
    ((Reconcile stuckTerminating exampleReq : Proc Unit Outcome Outcome) startSt).2.hub.Status
      = terminatingHub.Status ∧
    ((Reconcile stuckTerminating exampleReq : Proc Unit Outcome Outcome) startSt).2.hub
      = terminatingHub := by
  refine ⟨by decide, by rfl, by rfl, by rfl⟩

/-! ## Every step of the pass returns -/

set_option maxHeartbeats 1000000 in
theorem stepAddFinalizer_returns {C : Type} (env : Env C) : Holds (stepAddFinalizer env) Returns := by
  unfold stepAddFinalizer addFinalizer
  repeat' first
    | with_reducible apply holds_ret
    | with_reducible apply holds_pure
    | with_reducible apply holds_goPanic
    | (with_reducible apply holds_getSt; intro _)
    | with_reducible apply holds_modifyHub
    | with_reducible apply holds_modifyCache
    | (with_reducible apply holds_applyDefaulting; intro _)
    | (with_reducible apply holds_must <;> intro _)
    | (with_reducible apply holds_ask; intro _)
    | (with_reducible apply holds_Setenv; intro _)
    | (with_reducible apply holds_call; intro _)
    | (with_reducible apply holds_setHubCondition; intro _)
    | with_reducible apply holds_removeHubCondition
    | (with_reducible apply holds_ite <;> intro _)
    | with_reducible apply holds_fn
    | with_reducible apply holds_bind
    | dsimp only
    | split
  all_goals first
    | exact True.intro
    | simp_all [Returns]

set_option maxHeartbeats 1000000 in
theorem stepSetDefaults_returns {C : Type} (env : Env C) : Holds (stepSetDefaults env) Returns := by
  unfold stepSetDefaults setDefaults
  repeat' first
    | with_reducible apply holds_ret
    | with_reducible apply holds_pure
    | with_reducible apply holds_goPanic
    | (with_reducible apply holds_getSt; intro _)
    | with_reducible apply holds_modifyHub
    | with_reducible apply holds_modifyCache
    | (with_reducible apply holds_applyDefaulting; intro _)
    | (with_reducible apply holds_must <;> intro _)
    | (with_reducible apply holds_ask; intro _)
    | (with_reducible apply holds_Setenv; intro _)
    | (with_reducible apply holds_call; intro _)
    | (with_reducible apply holds_setHubCondition; intro _)
    | with_reducible apply holds_removeHubCondition
    | (with_reducible apply holds_ite <;> intro _)
    | with_reducible apply holds_fn
    | with_reducible apply holds_bind
    | dsimp only
    | split
  all_goals first
    | exact True.intro
    | simp_all [Returns]

set_option maxHeartbeats 1000000 in
theorem stepImageOverrides_returns {C : Type} (env : Env C) : Holds (stepImageOverrides env) Returns := by
  unfold stepImageOverrides
  repeat' first
    | with_reducible apply holds_ret
    | with_reducible apply holds_pure
    | with_reducible apply holds_goPanic
    | (with_reducible apply holds_getSt; intro _)
    | with_reducible apply holds_modifyHub
    | with_reducible apply holds_modifyCache
    | (with_reducible apply holds_applyDefaulting; intro _)
    | (with_reducible apply holds_must <;> intro _)
    | (with_reducible apply holds_ask; intro _)
    | (with_reducible apply holds_Setenv; intro _)
    | (with_reducible apply holds_call; intro _)
    | (with_reducible apply holds_setHubCondition; intro _)
    | with_reducible apply holds_removeHubCondition
    | (with_reducible apply holds_ite <;> intro _)
    | with_reducible apply holds_fn
    | with_reducible apply holds_bind
    | dsimp only
    | split
  all_goals first
    | exact True.intro
    | simp_all [Returns]

set_option maxHeartbeats 1000000 in
theorem stepUpgrade_returns {C : Type} (env : Env C) : Holds (stepUpgrade env) Returns := by
  unfold stepUpgrade
  repeat' first
    | with_reducible apply holds_ret
    | with_reducible apply holds_pure
    | with_reducible apply holds_goPanic
    | (with_reducible apply holds_getSt; intro _)
    | with_reducible apply holds_modifyHub
    | with_reducible apply holds_modifyCache
    | (with_reducible apply holds_applyDefaulting; intro _)
    | (with_reducible apply holds_must <;> intro _)
    | (with_reducible apply holds_ask; intro _)
    | (with_reducible apply holds_Setenv; intro _)
    | (with_reducible apply holds_call; intro _)
    | (with_reducible apply holds_setHubCondition; intro _)
    | with_reducible apply holds_removeHubCondition
    | (with_reducible apply holds_ite <;> intro _)
    | with_reducible apply holds_fn
    | with_reducible apply holds_bind
    | dsimp only
    | split
  all_goals first
    | exact True.intro
    | simp_all [Returns]

set_option maxHeartbeats 1000000 in
theorem stepLabelDeployments_returns {C : Type} (env : Env C) : Holds (stepLabelDeployments env) Returns := by
  unfold stepLabelDeployments
  repeat' first
    | with_reducible apply holds_ret
    | with_reducible apply holds_pure
    | with_reducible apply holds_goPanic
    | (with_reducible apply holds_getSt; intro _)
    | with_reducible apply holds_modifyHub
    | with_reducible apply holds_modifyCache
    | (with_reducible apply holds_applyDefaulting; intro _)
    | (with_reducible apply holds_must <;> intro _)
    | (with_reducible apply holds_ask; intro _)
    | (with_reducible apply holds_Setenv; intro _)
    | (with_reducible apply holds_call; intro _)
    | (with_reducible apply holds_setHubCondition; intro _)
    | with_reducible apply holds_removeHubCondition
    | (with_reducible apply holds_ite <;> intro _)
    | with_reducible apply holds_fn
    | with_reducible apply holds_bind
    | dsimp only
    | split
  all_goals first
    | exact True.intro
    | simp_all [Returns]

set_option maxHeartbeats 1000000 in
theorem stepPauseGate_returns {C : Type} (env : Env C) : Holds (stepPauseGate env) Returns := by
  unfold stepPauseGate updatePausedCondition
  repeat' first
    | with_reducible apply holds_ret
    | with_reducible apply holds_pure
    | with_reducible apply holds_goPanic
    | (with_reducible apply holds_getSt; intro _)
    | with_reducible apply holds_modifyHub
    | with_reducible apply holds_modifyCache
    | (with_reducible apply holds_applyDefaulting; intro _)
    | (with_reducible apply holds_must <;> intro _)
    | (with_reducible apply holds_ask; intro _)
    | (with_reducible apply holds_Setenv; intro _)
    | (with_reducible apply holds_call; intro _)
    | (with_reducible apply holds_setHubCondition; intro _)
    | with_reducible apply holds_removeHubCondition
    | (with_reducible apply holds_ite <;> intro _)
    | with_reducible apply holds_fn
    | with_reducible apply holds_bind
    | dsimp only
    | split
  all_goals first
    | exact True.intro
    | simp_all [Returns]

set_option maxHeartbeats 1000000 in
theorem stepCompatGuard_returns {C : Type} (env : Env C) : Holds (stepCompatGuard env) Returns := by
  unfold stepCompatGuard guarded guardResult
  repeat' first
    | with_reducible apply holds_ret
    | with_reducible apply holds_pure
    | with_reducible apply holds_goPanic
    | (with_reducible apply holds_getSt; intro _)
    | with_reducible apply holds_modifyHub
    | with_reducible apply holds_modifyCache
    | (with_reducible apply holds_applyDefaulting; intro _)
    | (with_reducible apply holds_must <;> intro _)
    | (with_reducible apply holds_ask; intro _)
    | (with_reducible apply holds_Setenv; intro _)
    | (with_reducible apply holds_call; intro _)
    | (with_reducible apply holds_setHubCondition; intro _)
    | with_reducible apply holds_removeHubCondition
    | (with_reducible apply holds_ite <;> intro _)
    | with_reducible apply holds_fn
    | with_reducible apply holds_bind
    | dsimp only
    | split
  all_goals first
    | exact True.intro
    | simp_all [Returns]

set_option maxHeartbeats 1000000 in
theorem stepOperator_returns {C : Type} (env : Env C) : Holds (stepOperator env) Returns := by
  unfold stepOperator guarded guardResult
  repeat' first
    | with_reducible apply holds_ret
    | with_reducible apply holds_pure
    | with_reducible apply holds_goPanic
    | (with_reducible apply holds_getSt; intro _)
    | with_reducible apply holds_modifyHub
    | with_reducible apply holds_modifyCache
    | (with_reducible apply holds_applyDefaulting; intro _)
    | (with_reducible apply holds_must <;> intro _)
    | (with_reducible apply holds_ask; intro _)
    | (with_reducible apply holds_Setenv; intro _)
    | (with_reducible apply holds_call; intro _)
    | (with_reducible apply holds_setHubCondition; intro _)
    | with_reducible apply holds_removeHubCondition
    | (with_reducible apply holds_ite <;> intro _)
    | with_reducible apply holds_fn
    | with_reducible apply holds_bind
    | dsimp only
    | split
  all_goals first
    | exact True.intro
    | simp_all [Returns]

set_option maxHeartbeats 1000000 in
theorem stepPullSecret_returns {C : Type} (env : Env C) : Holds (stepPullSecret env) Returns := by
  unfold stepPullSecret
  repeat' first
    | with_reducible apply holds_ret
    | with_reducible apply holds_pure
    | with_reducible apply holds_goPanic
    | (with_reducible apply holds_getSt; intro _)
    | with_reducible apply holds_modifyHub
    | with_reducible apply holds_modifyCache
    | (with_reducible apply holds_applyDefaulting; intro _)
    | (with_reducible apply holds_must <;> intro _)
    | (with_reducible apply holds_ask; intro _)
    | (with_reducible apply holds_Setenv; intro _)
    | (with_reducible apply holds_call; intro _)
    | (with_reducible apply holds_setHubCondition; intro _)
    | with_reducible apply holds_removeHubCondition
    | (with_reducible apply holds_ite <;> intro _)
    | with_reducible apply holds_fn
    | with_reducible apply holds_bind
    | dsimp only
    | split
  all_goals first
    | exact True.intro
    | simp_all [Returns]

set_option maxHeartbeats 1000000 in
theorem stepRepo_returns {C : Type} (env : Env C) : Holds (stepRepo env) Returns := by
  unfold stepRepo guarded guardResult
  repeat' first
    | with_reducible apply holds_ret
    | with_reducible apply holds_pure
    | with_reducible apply holds_goPanic
    | (with_reducible apply holds_getSt; intro _)
    | with_reducible apply holds_modifyHub
    | with_reducible apply holds_modifyCache
    | (with_reducible apply holds_applyDefaulting; intro _)
    | (with_reducible apply holds_must <;> intro _)
    | (with_reducible apply holds_ask; intro _)
    | (with_reducible apply holds_Setenv; intro _)
    | (with_reducible apply holds_call; intro _)
    | (with_reducible apply holds_setHubCondition; intro _)
    | with_reducible apply holds_removeHubCondition
    | (with_reducible apply holds_ite <;> intro _)
    | with_reducible apply holds_fn
    | with_reducible apply holds_bind
    | dsimp only
    | split
  all_goals first
    | exact True.intro
    | simp_all [Returns]

set_option maxHeartbeats 1000000 in
theorem stepEngineIngress_returns {C : Type} (env : Env C) : Holds (stepEngineIngress env) Returns := by
  unfold stepEngineIngress guarded guardResult ingressDomain
  repeat' first
    | with_reducible apply holds_ret
    | with_reducible apply holds_pure
    | with_reducible apply holds_goPanic
    | (with_reducible apply holds_getSt; intro _)
    | with_reducible apply holds_modifyHub
    | with_reducible apply holds_modifyCache
    | (with_reducible apply holds_applyDefaulting; intro _)
    | (with_reducible apply holds_must <;> intro _)
    | (with_reducible apply holds_ask; intro _)
    | (with_reducible apply holds_Setenv; intro _)
    | (with_reducible apply holds_call; intro _)
    | (with_reducible apply holds_setHubCondition; intro _)
    | with_reducible apply holds_removeHubCondition
    | (with_reducible apply holds_ite <;> intro _)
    | with_reducible apply holds_fn
    | with_reducible apply holds_bind
    | dsimp only
    | split
  all_goals first
    | exact True.intro
    | simp_all [Returns]

set_option maxHeartbeats 1000000 in
theorem stepClusterBackup_returns {C : Type} (env : Env C) : Holds (stepClusterBackup env) Returns := by
  unfold stepClusterBackup guarded guardResult
  repeat' first
    | with_reducible apply holds_ret
    | with_reducible apply holds_pure
    | with_reducible apply holds_goPanic
    | (with_reducible apply holds_getSt; intro _)
    | with_reducible apply holds_modifyHub
    | with_reducible apply holds_modifyCache
    | (with_reducible apply holds_applyDefaulting; intro _)
    | (with_reducible apply holds_must <;> intro _)
    | (with_reducible apply holds_ask; intro _)
    | (with_reducible apply holds_Setenv; intro _)
    | (with_reducible apply holds_call; intro _)
    | (with_reducible apply holds_setHubCondition; intro _)
    | with_reducible apply holds_removeHubCondition
    | (with_reducible apply holds_ite <;> intro _)
    | with_reducible apply holds_fn
    | with_reducible apply holds_bind
    | dsimp only
    | split
  all_goals first
    | exact True.intro
    | simp_all [Returns]

set_option maxHeartbeats 1000000 in
theorem stepSelfRegistration_returns {C : Type} (env : Env C) : Holds (stepSelfRegistration env) Returns := by
  unfold stepSelfRegistration guarded guardResult
  repeat' first
    | with_reducible apply holds_ret
    | with_reducible apply holds_pure
    | with_reducible apply holds_goPanic
    | (with_reducible apply holds_getSt; intro _)
    | with_reducible apply holds_modifyHub
    | with_reducible apply holds_modifyCache
    | (with_reducible apply holds_applyDefaulting; intro _)
    | (with_reducible apply holds_must <;> intro _)
    | (with_reducible apply holds_ask; intro _)
    | (with_reducible apply holds_Setenv; intro _)
    | (with_reducible apply holds_call; intro _)
    | (with_reducible apply holds_setHubCondition; intro _)
    | with_reducible apply holds_removeHubCondition
    | (with_reducible apply holds_ite <;> intro _)
    | with_reducible apply holds_fn
    | with_reducible apply holds_bind
    | dsimp only
    | split
  all_goals first
    | exact True.intro
    | simp_all [Returns]

set_option maxHeartbeats 1000000 in
theorem stepCleanup_returns {C : Type} (env : Env C) : Holds (stepCleanup env) Returns := by
  unfold stepCleanup guarded guardResult
  repeat' first
    | with_reducible apply holds_ret
    | with_reducible apply holds_pure
    | with_reducible apply holds_goPanic
    | (with_reducible apply holds_getSt; intro _)
    | with_reducible apply holds_modifyHub
    | with_reducible apply holds_modifyCache
    | (with_reducible apply holds_applyDefaulting; intro _)
    | (with_reducible apply holds_must <;> intro _)
    | (with_reducible apply holds_ask; intro _)
    | (with_reducible apply holds_Setenv; intro _)
    | (with_reducible apply holds_call; intro _)
    | (with_reducible apply holds_setHubCondition; intro _)
    | with_reducible apply holds_removeHubCondition
    | (with_reducible apply holds_ite <;> intro _)
    | with_reducible apply holds_fn
    | with_reducible apply holds_bind
    | dsimp only
    | split
  all_goals first
    | exact True.intro
    | simp_all [Returns]

set_option maxHeartbeats 1000000 in
theorem ensureComponent_returns {C : Type} (env : Env C) (c : Component)
    (body : CacheSpec → Desired) : Holds (ensureComponent env c body) Returns := by
  unfold ensureComponent guardResult
  repeat' first
    | with_reducible apply holds_ret
    | with_reducible apply holds_pure
    | with_reducible apply holds_goPanic
    | (with_reducible apply holds_getSt; intro _)
    | with_reducible apply holds_modifyHub
    | with_reducible apply holds_modifyCache
    | (with_reducible apply holds_applyDefaulting; intro _)
    | (with_reducible apply holds_must <;> intro _)
    | (with_reducible apply holds_ask; intro _)
    | (with_reducible apply holds_Setenv; intro _)
    | (with_reducible apply holds_call; intro _)
    | (with_reducible apply holds_setHubCondition; intro _)
    | with_reducible apply holds_removeHubCondition
    | (with_reducible apply holds_ite <;> intro _)
    | with_reducible apply holds_fn
    | with_reducible apply holds_bind
    | dsimp only
    | split
  all_goals first
    | exact True.intro
    | simp_all [Returns]

set_option maxHeartbeats 1000000 in
theorem setDefaults_returns {C σ : Type} (env : Env C) :
    Holds (setDefaults env : Proc C σ Outcome) Returns := by
  unfold setDefaults
  repeat' first
    | with_reducible apply holds_ret
    | with_reducible apply holds_pure
    | with_reducible apply holds_goPanic
    | (with_reducible apply holds_getSt; intro _)
    | with_reducible apply holds_modifyHub
    | (with_reducible apply holds_applyDefaulting; intro _)
    | (with_reducible apply holds_must <;> intro _)
    | (with_reducible apply holds_Setenv; intro _)
    | (with_reducible apply holds_call; intro _)
    | (with_reducible apply holds_ite <;> intro _)
    | with_reducible apply holds_fn
    | with_reducible apply holds_bind
    | dsimp only
    | split
  all_goals first
    | exact True.intro
    | simp_all [Returns]

theorem returns_seq {C ρ α β : Type} (m : Proc C ρ α) (f : α → Proc C ρ β)
    (hm : Holds m Returns) (hf : ∀ a, Holds (f a) Returns) : Holds (m >>= f) Returns := by
  apply holds_bind
  apply holds_conseq m _ _ hm
  intro fl l1 h1
  cases fl with
  | next a => exact holds_conseq _ _ _ (hf a) (fun _ _ h => h)
  | done r => exact True.intro
  | panic msg => exact h1

theorem returns_of_holds {C ρ α : Type} (m : Proc C ρ α) (h : Holds m Returns) (s : St C) :
    ∃ s1, (∃ a, m s = (Flow.next a, s1)) ∨ ∃ r, m s = (Flow.done r, s1) := by
  obtain ⟨l, _, hl⟩ := h s
  rcases hm : m s with ⟨a | r | msg, s1⟩
  · exact ⟨s1, Or.inl ⟨a, rfl⟩⟩
  · exact ⟨s1, Or.inr ⟨r, rfl⟩⟩
  · rw [hm] at hl
    exact absurd hl (fun h => h)

theorem holds_after {C ρ α β : Type} (m : Proc C ρ α) (f : α → Proc C ρ β)
    (Q : Flow ρ β → List Event → Prop) (hm : Holds m Returns)
    (hf : ∀ a l1, Holds (f a) (fun fl2 l2 => Q fl2 (l1 ++ l2)))
    (hd : ∀ r l1, Q (Flow.done r) l1) : Holds (m >>= f) Q := by
  apply holds_bind
  apply holds_conseq m _ _ hm
  intro fl l1 h1
  cases fl with
  | next a => exact hf a l1
  | done r => exact hd r l1
  | panic msg => exact absurd h1 (fun h => h)

theorem renderCRDs_returns {C ρ : Type} (env : Env C) (m : MultiClusterHub) (crdDir : String) :
    ∀ (files : List String) (crds : List Unstructured) (errs : List Error),
      Holds (renderCRDs env m crdDir files crds errs : Proc C ρ _) Returns := by
  intro files
  induction files with
  | nil =>
    intro crds errs
    unfold renderCRDs
    exact holds_pure _ _ True.intro
  | cons fileName files ih =>
    intro crds errs
    unfold renderCRDs
    repeat' first
      | exact holds_conseq _ _ _ (ih _ _) (fun _ _ h => h)
      | (with_reducible apply holds_ask; intro _)
      | (with_reducible apply holds_ite <;> intro _)
      | with_reducible apply holds_bind
      | dsimp only
      | split

theorem renderResources_returns {C ρ : Type} (env : Env C) (resourceDir : String) :
    ∀ (files : List String) (resources : List Unstructured) (errs : List Error),
      Holds (renderResources env resourceDir files resources errs : Proc C ρ _) Returns := by
  intro files
  induction files with
  | nil =>
    intro resources errs
    unfold renderResources
    exact holds_pure _ _ True.intro
  | cons fileName files ih =>
    intro resources errs
    unfold renderResources
    repeat' first
      | exact holds_conseq _ _ _ (ih _ _) (fun _ _ h => h)
      | (with_reducible apply holds_ask; intro _)
      | (with_reducible apply holds_ite <;> intro _)
      | with_reducible apply holds_bind
      | dsimp only
      | split

theorem deployCRDs_returns {C : Type} (env : Env C) :
    ∀ crds : List Unstructured, Holds (deployCRDs env crds) Returns := by
  intro crds
  induction crds with
  | nil =>
    unfold deployCRDs
    exact holds_pure _ _ True.intro
  | cons crd crds ih =>
    unfold deployCRDs
    repeat' first
      | exact holds_conseq _ _ _ ih (fun _ _ h => h)
      | with_reducible apply holds_ret
      | with_reducible apply holds_pure
      | (with_reducible apply holds_deploy; intro _)
      | (with_reducible apply holds_setHubCondition; intro _)
      | (with_reducible apply holds_ite <;> intro _)
      | with_reducible apply holds_bind
      | dsimp only
      | split
    all_goals exact True.intro

theorem deployAll_returns {C : Type} (env : Env C) :
    ∀ resources : List Unstructured, Holds (deployAll env resources) Returns := by
  intro resources
  induction resources with
  | nil =>
    unfold deployAll
    exact holds_pure _ _ True.intro
  | cons res resources ih =>
    unfold deployAll
    repeat' first
      | exact holds_conseq _ _ _ ih (fun _ _ h => h)
      | with_reducible apply holds_ret
      | with_reducible apply holds_pure
      | (with_reducible apply holds_getSt; intro _)
      | (with_reducible apply holds_deploy; intro _)
      | (with_reducible apply holds_setHubCondition; intro _)
      | (with_reducible apply holds_ite <;> intro _)
      | with_reducible apply holds_bind
      | dsimp only
      | split
    all_goals exact True.intro

theorem installCRDs_returns {C σ : Type} (env : Env C) :
    Holds (installCRDs env : Proc C σ (String × Option Error)) Returns := by
  unfold installCRDs
  repeat' first
    | (refine holds_after _ _ _ (deployCRDs_returns env _) ?_ ?_ <;> intro _ _)
    | (refine holds_after _ _ _ (renderCRDs_returns env _ _ _ _ _) ?_ ?_ <;> intro _ _)
    | with_reducible apply holds_ret
    | with_reducible apply holds_pure
    | (with_reducible apply holds_getSt; intro _)
    | (with_reducible apply holds_ask; intro _)
    | (with_reducible apply holds_ite <;> intro _)
    | with_reducible apply holds_fn
    | with_reducible apply holds_bind
    | dsimp only
    | split
  all_goals exact True.intro

theorem deployResources_returns {C σ : Type} (env : Env C) :
    Holds (deployResources env : Proc C σ (String × Option Error)) Returns := by
  unfold deployResources
  repeat' first
    | (refine holds_after _ _ _ (deployAll_returns env _) ?_ ?_ <;> intro _ _)
    | (refine holds_after _ _ _ (renderResources_returns env _ _ _ _) ?_ ?_ <;> intro _ _)
    | with_reducible apply holds_ret
    | with_reducible apply holds_pure
    | (with_reducible apply holds_getSt; intro _)
    | (with_reducible apply holds_ask; intro _)
    | (with_reducible apply holds_ite <;> intro _)
    | with_reducible apply holds_fn
    | with_reducible apply holds_bind
    | dsimp only
    | split
  all_goals exact True.intro

theorem stepInstallCRDs_returns {C : Type} (env : Env C) :
    Holds (stepInstallCRDs env) Returns := by
  unfold stepInstallCRDs
  repeat' first
    | (refine holds_after _ _ _ (installCRDs_returns env) ?_ ?_ <;> intro _ _)
    | with_reducible apply holds_ret
    | with_reducible apply holds_pure
    | (with_reducible apply holds_setHubCondition; intro _)
    | with_reducible apply holds_bind
    | dsimp only
    | split
  all_goals exact True.intro

theorem stepDeployResources_returns {C : Type} (env : Env C) :
    Holds (stepDeployResources env) Returns := by
  unfold stepDeployResources
  repeat' first
    | (refine holds_after _ _ _ (deployResources_returns env) ?_ ?_ <;> intro _ _)
    | with_reducible apply holds_ret
    | with_reducible apply holds_pure
    | (with_reducible apply holds_setHubCondition; intro _)
    | with_reducible apply holds_bind
    | dsimp only
    | split
  all_goals exact True.intro

theorem stepComponents_returns {C : Type} (env : Env C) :
    Holds (stepComponents env) Returns := by
  unfold stepComponents
  repeat' first
    | with_reducible exact ensureComponent_returns env _ _
    | with_reducible exact stepClusterBackup_returns env
    | with_reducible refine returns_seq _ _ ?_ (fun _ => ?_)

theorem convergeFromOperator_returns {C : Type} (env : Env C) :
    Holds (convergeFromOperator env) Returns := by
  unfold convergeFromOperator
  repeat' first
    | with_reducible exact stepOperator_returns env
    | with_reducible exact stepInstallCRDs_returns env
    | with_reducible exact stepPullSecret_returns env
    | with_reducible exact stepRepo_returns env
    | with_reducible exact stepEngineIngress_returns env
    | with_reducible exact stepDeployResources_returns env
    | with_reducible exact stepComponents_returns env
    | with_reducible exact stepSelfRegistration_returns env
    | with_reducible exact stepCleanup_returns env
    | exact holds_pure _ _ True.intro
    | with_reducible refine returns_seq _ _ ?_ (fun _ => ?_)

theorem convergencePass_returns {C : Type} (env : Env C) :
    Holds (convergencePass env) Returns := by
  unfold convergencePass convergeFromPauseGate convergeFromCompatGuard
  repeat' first
    | with_reducible exact stepAddFinalizer_returns env
    | with_reducible exact stepSetDefaults_returns env
    | with_reducible exact stepImageOverrides_returns env
    | with_reducible exact stepUpgrade_returns env
    | with_reducible exact stepLabelDeployments_returns env
    | with_reducible exact stepPauseGate_returns env
    | with_reducible exact stepCompatGuard_returns env
    | with_reducible exact convergeFromOperator_returns env
    | with_reducible refine returns_seq _ _ ?_ (fun _ => ?_)

theorem returns_fn {C ρ σ : Type} (body : Proc C ρ ρ) (h : Holds body Returns) :
    Holds (Proc.fn body : Proc C σ ρ) Returns := by
  apply holds_fn
  apply holds_conseq body _ _ h
  intro fl l h1
  cases fl with
  | next r => exact True.intro
  | done r => exact True.intro
  | panic msg => exact h1

theorem stage_returns {C : Type} (env : Env C) (c : Call) : Holds (stage env c) Returns := by
  unfold stage
  apply holds_bind
  apply holds_call
  intro out
  dsimp only
  apply holds_ite
  · intro _
    exact holds_ret _ _ True.intro
  · intro _
    exact holds_pure _ _ True.intro

theorem finalizeHub_returns {C σ : Type} (env : Env C) :
    Holds (finalizeHub env : Proc C σ (Option Error)) Returns := by
  unfold finalizeHub
  apply returns_fn
  repeat' first
    | with_reducible exact stage_returns env _
    | exact holds_pure _ _ True.intro
    | exact holds_getSt _ (fun _ => True.intro)
    | (apply holds_ite <;> intro _)
    | with_reducible refine returns_seq _ _ ?_ (fun _ => ?_)

theorem deletionBranch_returns {C : Type} (env : Env C) :
    Holds (deletionBranch env) Returns := by
  unfold deletionBranch
  repeat' first
    | (refine holds_after _ _ _ (finalizeHub_returns env) ?_ ?_ <;> intro _ _)
    | with_reducible apply holds_ret
    | with_reducible apply holds_pure
    | (with_reducible apply holds_getSt; intro _)
    | with_reducible apply holds_modifyHub
    | (with_reducible apply holds_call; intro _)
    | (with_reducible apply holds_setHubCondition; intro _)
    | (with_reducible apply holds_ite <;> intro _)
    | with_reducible apply holds_bind
    | dsimp only
    | split
  all_goals exact True.intro

theorem reconcilePass_returns {C : Type} (env : Env C) :
    Holds (reconcilePass env) Returns := by
  unfold reconcilePass
  apply holds_bind
  apply holds_getSt
  intro s
  dsimp only
  apply holds_ite
  · intro _
    exact holds_conseq _ _ _ (deletionBranch_returns env) (fun _ _ h => h)
  · intro _
    exact holds_conseq _ _ _ (convergencePass_returns env) (fun _ _ h => h)

/-! ## C22: the cluster-version history in `setDefaults` -/

theorem setDefaultsVersion_eq {C : Type} (env : Env C) (u : Bool) :
    setDefaultsVersion env u = (do
      let clusterVersion ← must Call.GetClusterVersion env.GetClusterVersion
      (if clusterVersion.History.length = 0 ∧ env.IsUnitTest = false then
        ret (Result.empty, none)
      else pure ())
      let currentClusterVersion ← (if env.IsUnitTest = true then pure "4.9.0"
        else match clusterVersion.History with
          | v :: _ => pure v
          | [] => goPanic "index out of range [0] with length 0")
      setDefaultsPersist env currentClusterVersion u) := rfl

theorem setDefaultsVersion_error {C : Type} (env : Env C) (u : Bool) (s : St C) (err : Error)
    (hcv : env.GetClusterVersion s.cluster = Except.error err) :
    setDefaultsVersion env u s = (Flow.done (Result.empty, some err),
      { s with trace := s.trace ++ [Event.call Call.GetClusterVersion
        (Result.empty, some err)] }) := by
  simp only [setDefaultsVersion, must, bind_apply, ask_apply, hcv, ret_apply, errOf]

theorem setDefaultsVersion_empty {C : Type} (env : Env C) (u : Bool) (s : St C)
    (cv : ClusterVersion) (hcv : env.GetClusterVersion s.cluster = Except.ok cv)
    (hh : cv.History = []) (hu : env.IsUnitTest = false) :
    setDefaultsVersion env u s = (Flow.done (Result.empty, none),
      { s with trace := s.trace ++ [Event.call Call.GetClusterVersion (Result.empty, none)] }) := by
  simp only [setDefaultsVersion, must, bind_apply, ask_apply, hcv, pure_apply, hh, hu,
    List.length_nil, and_self, ite_apply_proc, if_true, ret_apply, errOf]

theorem setDefaultsVersion_unitTest {C : Type} (env : Env C) (u : Bool) (s : St C)
    (cv : ClusterVersion) (hcv : env.GetClusterVersion s.cluster = Except.ok cv)
    (hu : env.IsUnitTest = true) :
    setDefaultsVersion env u s = setDefaultsPersist env "4.9.0" u
      { s with trace := s.trace ++ [Event.call Call.GetClusterVersion (Result.empty, none)] } := by
  rw [setDefaultsVersion_eq]
  simp only [must, bind_apply, ask_apply, hcv, pure_apply, hu, ite_apply_proc, if_true, errOf,
    Bool.true_eq_false, and_false, if_false]

theorem setDefaultsVersion_head {C : Type} (env : Env C) (u : Bool) (s : St C)
    (cv : ClusterVersion) (v : String) (rest : List String)
    (hcv : env.GetClusterVersion s.cluster = Except.ok cv) (hh : cv.History = v :: rest)
    (hu : env.IsUnitTest = false) :
    setDefaultsVersion env u s = setDefaultsPersist env v u
      { s with trace := s.trace ++ [Event.call Call.GetClusterVersion (Result.empty, none)] } := by
  rw [setDefaultsVersion_eq]
  simp only [must, bind_apply, ask_apply, hcv, pure_apply, hu, hh, ite_apply_proc, errOf,
    Bool.false_eq_true, if_false, List.length_cons, Nat.succ_ne_zero, false_and]

theorem setDefaultsPersist_calls {C : Type} (env : Env C) (v : String) (u : Bool) :
    Holds (setDefaultsPersist env v u) (fun fl l =>
      (∃ out, fl = Flow.done out) ∧
      ∃ l1, callsOf l = Call.Setenv "ACM_HUB_OCP_VERSION" v :: l1 ∧
        ∀ c ∈ l1, isUpdate c = true) := by
  unfold setDefaultsPersist
  repeat' first
    | with_reducible apply holds_ret
    | (with_reducible apply holds_getSt; intro _)
    | (with_reducible apply holds_Setenv; intro _)
    | (with_reducible apply holds_call; intro _)
    | (with_reducible apply holds_ite <;> intro _)
    | with_reducible apply holds_bind
    | dsimp only
    | split
  all_goals simp [callsOf, isUpdate]

theorem newCalls_append {C : Type} (s s1 : St C) (l : List Event)
    (h : s1.trace = s.trace ++ l) : newCalls s s1 = callsOf l := by
  rw [newCalls, newEvents_append s s1 l h]

theorem newCalls_of_trace {C : Type} (s s5 s1 : St C) (h : s5.trace = s.trace) :
    newCalls s s1 = newCalls s5 s1 := by
  simp only [newCalls, newEvents, h]

theorem setDefaultsPersist_run {C : Type} (env : Env C) (v : String) (u : Bool) (s : St C)
    (e0 : Event) (c0 : Call) (hc0 : callsOf [e0] = [c0]) :
    (∃ out, (setDefaultsPersist env v u { s with trace := s.trace ++ [e0] }).1
      = Flow.done out) ∧
    ∃ l1, newCalls s (setDefaultsPersist env v u { s with trace := s.trace ++ [e0] }).2
        = c0 :: Call.Setenv "ACM_HUB_OCP_VERSION" v :: l1 ∧
      ∀ c ∈ l1, isUpdate c = true := by
  obtain ⟨l, hl, hdone, l1, hl1, hup⟩ :=
    setDefaultsPersist_calls env v u { s with trace := s.trace ++ [e0] }
  refine ⟨hdone, l1, ?_, hup⟩
  rw [newCalls_append s _ ([e0] ++ l) (by rw [hl, List.append_assoc]), callsOf_append, hc0, hl1]
  rfl

theorem setDefaultsVersion_history {C : Type} (env : Env C) (u : Bool) (s : St C) :
    (∃ out, (setDefaultsVersion env u s).1 = Flow.done out) ∧
    (∀ k v, Call.Setenv k v ∈ newCalls s (setDefaultsVersion env u s).2 →
      k = "ACM_HUB_OCP_VERSION" ∧
      (env.IsUnitTest = true → v = "4.9.0") ∧
      (env.IsUnitTest = false →
        ∃ cv, env.GetClusterVersion s.cluster = Except.ok cv ∧ cv.History.head? = some v)) ∧
    (∀ cv, env.GetClusterVersion s.cluster = Except.ok cv → env.IsUnitTest = true →
      Call.Setenv "ACM_HUB_OCP_VERSION" "4.9.0" ∈ newCalls s (setDefaultsVersion env u s).2) := by
  cases hcv : env.GetClusterVersion s.cluster with
  | error err =>
    rw [setDefaultsVersion_error env u s err hcv]
    refine ⟨⟨_, rfl⟩, ?_, ?_⟩
    · intro k v h
      rw [newCalls_append s _ _ rfl] at h
      simp [callsOf] at h
    · intro cv h
      cases h
  | ok cv =>
    cases hu : env.IsUnitTest with
    | true =>
      rw [setDefaultsVersion_unitTest env u s cv hcv hu]
      obtain ⟨hdone, l1, hl1, hup⟩ := setDefaultsPersist_run env "4.9.0" u s
        (Event.call Call.GetClusterVersion (Result.empty, none)) Call.GetClusterVersion rfl
      refine ⟨hdone, ?_, ?_⟩
      · intro k v h
        rw [hl1] at h
        simp only [List.mem_cons] at h
        rcases h with h | h | h
        · cases h
        · cases h
          exact ⟨rfl, fun _ => rfl, fun h => by cases h⟩
        · have := hup _ h
          simp [isUpdate] at this
      · intro _ _ _
        rw [hl1]
        simp
    | false =>
      cases hh : cv.History with
      | nil =>
        rw [setDefaultsVersion_empty env u s cv hcv hh hu]
        refine ⟨⟨_, rfl⟩, ?_, ?_⟩
        · intro k v h
          rw [newCalls_append s _ _ rfl] at h
          simp [callsOf] at h
        · intro _ _ h
          cases h
      | cons v0 rest =>
        rw [setDefaultsVersion_head env u s cv v0 rest hcv hh hu]
        obtain ⟨hdone, l1, hl1, hup⟩ := setDefaultsPersist_run env v0 u s
          (Event.call Call.GetClusterVersion (Result.empty, none)) Call.GetClusterVersion rfl
        refine ⟨hdone, ?_, ?_⟩
        · intro k v h
          rw [hl1] at h
          simp only [List.mem_cons] at h
          rcases h with h | h | h
          · cases h
          · cases h
            exact ⟨rfl, fun h => Bool.noConfusion h, fun _ => ⟨cv, rfl, by rw [hh]; rfl⟩⟩
          · have := hup _ h
            simp [isUpdate] at this
        · intro _ _ h
          cases h

/-- The two ways `setDefaults` runs, as `setDefaults_cases`, with the cluster and the
process environment of the state in which the end `setDefaultsVersion` starts. -/
theorem setDefaults_cases_frame {C σ : Type} (env : Env C) (s : St C)
    (P : Flow σ Outcome × St C → Prop)
    (hearly : ∀ s3 : St C, s3.trace = s.trace → s3.cluster = s.cluster →
      s3.environ = s.environ → P (Flow.next (Result.empty, none), s3))
    (htail : ∀ s5 : St C, s5.trace = s.trace → s5.cluster = s.cluster →
      s5.environ = s.environ →
      P ((Proc.fn (setDefaultsVersion env (specChanged env s.hub.Spec)) : Proc C σ Outcome) s5)) :
    P ((setDefaults env : Proc C σ Outcome) s) := by
  rw [setDefaults_eq]
  by_cases hE : env.MchIsValid { s.hub with Spec := (defaultedSpec env s.hub.Spec).1 } = true ∧
      Getenv s.environ "ACM_HUB_OCP_VERSION" ≠ "" ∧ (defaultedSpec env s.hub.Spec).2 = false
  · simp only [defaultedSpec] at hE
    simp only [Proc.fn, bind_apply, applyDefaulting_apply, getSt_apply, ite_apply_proc, hE,
      and_self, if_true, ret_apply, ne_eq, not_false_eq_true]
    exact hearly _ rfl rfl rfl
  · simp only [defaultedSpec] at hE
    simp only [Proc.fn, bind_apply, applyDefaulting_apply, getSt_apply, ite_apply_proc, hE,
      if_false, ret_apply, modifyHub_apply, pure_apply]
    by_cases hS : (env.MigrateToggles (env.DeduplicateComponents
        (env.SetDefaultComponents s.hub.Spec).1).1).1.SSLCiphers.length = 0
    · have hc : specChanged env s.hub.Spec = true := by
        simp [specChanged, defaultedSpec, hS]
      rw [hc] at htail
      cases hV : env.AvailabilityConfigIsValid (env.MigrateToggles (env.DeduplicateComponents
        (env.SetDefaultComponents s.hub.Spec).1).1).1.AvailabilityConfig
      · simp only [hS, hV, if_true]
        exact htail _ rfl rfl rfl
      · simp only [hS, hV, if_true, Bool.true_eq_false, if_false]
        exact htail _ rfl rfl rfl
    · cases hV : env.AvailabilityConfigIsValid (env.MigrateToggles (env.DeduplicateComponents
        (env.SetDefaultComponents s.hub.Spec).1).1).1.AvailabilityConfig
      · have hc : specChanged env s.hub.Spec = true := by
          simp [specChanged, defaultedSpec, hV]
        rw [hc] at htail
        simp only [hS, hV, if_true, if_false]
        exact htail _ rfl rfl rfl
      · have hc : specChanged env s.hub.Spec = ((env.SetDefaultComponents s.hub.Spec).2 ||
            (env.DeduplicateComponents (env.SetDefaultComponents s.hub.Spec).1).2 ||
            (env.MigrateToggles (env.DeduplicateComponents
              (env.SetDefaultComponents s.hub.Spec).1).1).2) := by
          simp [specChanged, defaultedSpec, hS, hV]
        rw [hc] at htail
        simp only [hS, hV, if_false, Bool.true_eq_false]
        exact htail _ rfl rfl rfl

/-- C22: `setDefaults` never reads the first entry of an empty cluster-version history. It
always returns (the model ends in a panic exactly where the code would index an empty
history, and no run ends so). Every value it sets `ACM_HUB_OCP_VERSION` to is `"4.9.0"` inside
the unit tests and the first entry of the history that was read outside them, so `History[0]`
is read only from a history that has one. With an empty history outside the unit tests it
returns `ctrl.Result{}, nil` and has made no call but the read of the cluster version: no
`Setenv`, no `Update`, and the process environment and the cluster are as before. Inside the
unit tests a run that reads an empty history sets the variable to `"4.9.0"`. -/
theorem setDefaults_history_guarded {C : Type} (env : Env C) (s : St C) :
    (∃ out, ((setDefaults env : Proc C Outcome Outcome) s).1 = Flow.next out) ∧
    (∀ k v, Call.Setenv k v ∈ newCalls s ((setDefaults env : Proc C Outcome Outcome) s).2 →
      k = "ACM_HUB_OCP_VERSION" ∧
      (env.IsUnitTest = true → v = "4.9.0") ∧
      (env.IsUnitTest = false →
        ∃ cv, env.GetClusterVersion s.cluster = Except.ok cv ∧ cv.History.head? = some v)) ∧
    (∀ cv, env.GetClusterVersion s.cluster = Except.ok cv → cv.History = [] →
      (env.IsUnitTest = false →
        ((setDefaults env : Proc C Outcome Outcome) s).1 = Flow.next (Result.empty, none) ∧
        (∀ c ∈ newCalls s ((setDefaults env : Proc C Outcome Outcome) s).2,
          c = Call.GetClusterVersion) ∧
        ((setDefaults env : Proc C Outcome Outcome) s).2.environ = s.environ ∧
        ((setDefaults env : Proc C Outcome Outcome) s).2.cluster = s.cluster) ∧
      (env.IsUnitTest = true →
        Call.GetClusterVersion ∈ newCalls s ((setDefaults env : Proc C Outcome Outcome) s).2 →
        Call.Setenv "ACM_HUB_OCP_VERSION" "4.9.0"
          ∈ newCalls s ((setDefaults env : Proc C Outcome Outcome) s).2)) := by
  apply setDefaults_cases_frame env s
    (fun x => (∃ out, x.1 = Flow.next out) ∧
      (∀ k v, Call.Setenv k v ∈ newCalls s x.2 →
        k = "ACM_HUB_OCP_VERSION" ∧
        (env.IsUnitTest = true → v = "4.9.0") ∧
        (env.IsUnitTest = false →
          ∃ cv, env.GetClusterVersion s.cluster = Except.ok cv ∧ cv.History.head? = some v)) ∧
      (∀ cv, env.GetClusterVersion s.cluster = Except.ok cv → cv.History = [] →
        (env.IsUnitTest = false →
          x.1 = Flow.next (Result.empty, none) ∧
          (∀ c ∈ newCalls s x.2, c = Call.GetClusterVersion) ∧
          x.2.environ = s.environ ∧ x.2.cluster = s.cluster) ∧
        (env.IsUnitTest = true → Call.GetClusterVersion ∈ newCalls s x.2 →
          Call.Setenv "ACM_HUB_OCP_VERSION" "4.9.0" ∈ newCalls s x.2)))
  · intro s3 ht hc he
    have hn : newCalls s s3 = [] := by
      rw [newCalls_append s s3 [] (by rw [ht, List.append_nil])]
      rfl
    rw [hn]
    refine ⟨⟨_, rfl⟩, ?_, ?_⟩
    · intro k v h
      cases h
    · intro cv _ _
      refine ⟨fun _ => ⟨rfl, ?_, he, hc⟩, fun _ h => ?_⟩
      · intro c h
        cases h
      · cases h
  · intro s5 ht hc he
    obtain ⟨⟨out, hout⟩, hset, hunit⟩ :=
      setDefaultsVersion_history env (specChanged env s.hub.Spec) s5
    have hfst := fn_fst_done (σ := Outcome) _ s5 out hout
    rw [fn_snd, newCalls_of_trace s s5 _ ht]
    rw [hc] at hset hunit
    refine ⟨⟨out, hfst⟩, hset, ?_⟩
    intro cv hcv hh
    refine ⟨fun hu => ?_, fun hu _ => hunit cv hcv hu⟩
    have hrun := setDefaultsVersion_empty env (specChanged env s.hub.Spec) s5 cv
      (by rw [hc]; exact hcv) hh hu
    rw [hrun] at hout
    rw [hfst, hrun]
    cases hout
    refine ⟨rfl, ?_, he, hc⟩
    intro c h
    rw [newCalls_append s5 _ _ rfl] at h
    simpa [callsOf] using h

/-- C22 at the hub `cipherlessHub` on a cluster whose version has no history, outside the
unit tests: the run returns `ctrl.Result{}, nil` after the read of the cluster version alone
and leaves the process environment as it was. -/
theorem setDefaults_history_guarded_witness :
    noHistory.GetClusterVersion (firstPassSt cipherlessHub).cluster = Except.ok ⟨[]⟩ ∧
    noHistory.IsUnitTest = false ∧
    ((setDefaults noHistory : Proc Unit Outcome Outcome) (firstPassSt cipherlessHub)).1
      = Flow.next (Result.empty, none) ∧
    (∀ c ∈ newCalls (firstPassSt cipherlessHub)
        ((setDefaults noHistory : Proc Unit Outcome Outcome) (firstPassSt cipherlessHub)).2,
      c = Call.GetClusterVersion) ∧
    ((setDefaults noHistory : Proc Unit Outcome Outcome) (firstPassSt cipherlessHub)).2.environ
      = (firstPassSt cipherlessHub).environ ∧
    ((setDefaults noHistory : Proc Unit Outcome Outcome) (firstPassSt cipherlessHub)).2.cluster
      = (firstPassSt cipherlessHub).cluster :=
  ⟨rfl, rfl, ((setDefaults_history_guarded noHistory (firstPassSt cipherlessHub)).2.2
    ⟨[]⟩ rfl rfl).1 rfl⟩

/-! ## C21: the outcome of `Reconcile` -/

/-- C21: once the hub and the listings are loaded, the pass returns an outcome `p` in some
state `s2` (it never panics), the deferred status sync then runs from `s2` with the status
the hub had when it was loaded, and `Reconcile` returns: as result the result of the pass
when that is not empty and the result of the status sync otherwise, as error the error of
the pass when that is not nil and the error of the status sync otherwise. So a non-empty
result or non-nil error of the pass is what `Reconcile` returns. -/
theorem reconcile_combines_outcomes {C : Type} (env : Env C) (req : Request) (s s1 : St C)
    (hload : loadHub env req s = (Flow.next (), s1)) :
    (∃ p s2, reconcilePass env s1 = (Flow.next p, s2) ∨
      reconcilePass env s1 = (Flow.done p, s2)) ∧
    ∀ p s2, (reconcilePass env s1 = (Flow.next p, s2) ∨
        reconcilePass env s1 = (Flow.done p, s2)) →
      (Reconcile env req : Proc C Outcome Outcome) s =
        (Flow.next
          (if p.1 = Result.empty
            then (env.exec (Call.syncHubStatus s1.hub.Status) s2.hub s2.cluster).1.1 else p.1,
           if p.2 = none
            then (env.exec (Call.syncHubStatus s1.hub.Status) s2.hub s2.cluster).1.2 else p.2),
          afterCall env (Call.syncHubStatus s1.hub.Status) s2) ∧
      ∀ r, ((Reconcile env req : Proc C Outcome Outcome) s).1 = Flow.next r →
        (p.1 ≠ Result.empty → r.1 = p.1) ∧ (p.2 ≠ none → r.2 = p.2) := by
  have happly := Reconcile_apply (σ := Outcome) env req s s1 hload
  constructor
  · obtain ⟨s2, h | h⟩ := returns_of_holds _ (reconcilePass_returns env) s1
    · obtain ⟨p, hp⟩ := h
      exact ⟨p, s2, Or.inl hp⟩
    · obtain ⟨p, hp⟩ := h
      exact ⟨p, s2, Or.inr hp⟩
  · intro p s2 hp
    have hrun : (Reconcile env req : Proc C Outcome Outcome) s =
        (Flow.next
          (if p.1 = Result.empty
            then (env.exec (Call.syncHubStatus s1.hub.Status) s2.hub s2.cluster).1.1 else p.1,
           if p.2 = none
            then (env.exec (Call.syncHubStatus s1.hub.Status) s2.hub s2.cluster).1.2 else p.2),
          afterCall env (Call.syncHubStatus s1.hub.Status) s2) := by
      rcases hp with hp | hp <;>
      · rw [hp] at happly
        exact happly
    refine ⟨hrun, ?_⟩
    intro r hr
    rw [hrun] at hr
    cases hr
    exact ⟨fun h => if_neg h, fun h => if_neg h⟩

/-- C21 at the hub `deletedHub`, whose teardown fails at `cleanupCRDs` while the status sync
fails with a conflict: the pass returns the timed requeue without an error, and `Reconcile`
returns the timed requeue of the pass with the error of the status sync. -/
theorem reconcile_combines_outcomes_witness :
    loadHub (syncFails stuckEnv) exampleReq startSt
      = (Flow.next (), (loadHub (syncFails stuckEnv) exampleReq startSt).2) ∧
    (reconcilePass (syncFails stuckEnv) (loadHub (syncFails stuckEnv) exampleReq startSt).2).1
      = Flow.done (⟨false, resyncPeriod⟩, none) ∧
    ((Reconcile (syncFails stuckEnv) exampleReq : Proc Unit Outcome Outcome) startSt).1
      = Flow.next (⟨false, resyncPeriod⟩, some "conflict") := by
  have h := ((reconcile_combines_outcomes (syncFails stuckEnv) exampleReq startSt
    (loadHub (syncFails stuckEnv) exampleReq startSt).2 (by rfl)).2
    (⟨false, resyncPeriod⟩, none)
    (reconcilePass (syncFails stuckEnv) (loadHub (syncFails stuckEnv) exampleReq startSt).2).2
    (Or.inr (by rfl))).1
  refine ⟨by rfl, by rfl, ?_⟩
  rw [h]
  rfl

/-! ## C9: how far the component stage goes -/

theorem afterCalls_append {C : Type} (env : Env C) (l1 l2 : List Call) (s : St C) :
    afterCalls env (l1 ++ l2) s = afterCalls env l2 (afterCalls env l1 s) := by
  simp [afterCalls, List.foldl_append]

theorem runGuarded_passes {C : Type} (env : Env C) :
    ∀ (cs : List Call) (s : St C), passes env cs s = true →
      runGuarded env cs s = (Flow.next (), afterCalls env cs s) := by
  intro cs
  induction cs with
  | nil => intro s _; rfl
  | cons c cs ih =>
    intro s h
    simp only [passes, Bool.and_eq_true, decide_eq_true_eq] at h
    simp only [runGuarded, afterCalls_cons]
    rw [if_neg (by rw [h.1]; exact fun h0 => h0 rfl)]
    exact ih _ h.2

theorem runGuarded_stops {C : Type} (env : Env C) (pre post : List Call) (c : Call) (s : St C)
    (hpre : passes env pre s = true)
    (hc : (env.exec c (afterCalls env pre s).hub (afterCalls env pre s).cluster).1.1
      ≠ Result.empty) :
    runGuarded env (pre ++ c :: post) s =
      (Flow.done (env.exec c (afterCalls env pre s).hub (afterCalls env pre s).cluster).1,
        afterCalls env (pre ++ [c]) s) := by
  rw [runGuarded_append, runGuarded_passes env pre s hpre]
  simp only [runGuarded]
  rw [if_pos hc, afterCalls_append]
  rfl

theorem runGuarded_reaches {C : Type} (env : Env C) (pre post : List Call) (c : Call) (s : St C)
    (hpre : passes env pre s = true) :
    pre ++ [c] <+: newCalls s (runGuarded env (pre ++ c :: post) s).2 := by
  by_cases hc : (env.exec c (afterCalls env pre s).hub (afterCalls env pre s).cluster).1.1
      ≠ Result.empty
  · rw [runGuarded_stops env pre post c s hpre hc, newCalls_afterCalls]
  · have hsplit : pre ++ c :: post = (pre ++ [c]) ++ post := by simp
    have hpass : passes env (pre ++ [c]) s = true := by
      have key : ∀ (l : List Call) (t : St C), passes env l t = true →
          (env.exec c (afterCalls env l t).hub (afterCalls env l t).cluster).1.1 = Result.empty →
          passes env (l ++ [c]) t = true := by
        intro l
        induction l with
        | nil =>
          intro t _ h
          simp only [List.nil_append, passes, Bool.and_true, decide_eq_true_eq]
          exact h
        | cons a l ih =>
          intro t hl h
          simp only [passes, Bool.and_eq_true, decide_eq_true_eq] at hl
          simp only [List.cons_append, passes, Bool.and_eq_true, decide_eq_true_eq]
          exact ⟨hl.1, ih _ hl.2 h⟩
      exact key pre s hpre (not_not.1 hc)
    rw [hsplit, runGuarded_append, runGuarded_passes env _ s hpass]
    obtain ⟨l, n, hl, hn, _⟩ := runGuarded_trace env post (afterCalls env (pre ++ [c]) s)
    obtain ⟨l0, hl0, hc0⟩ := afterCalls_trace env (pre ++ [c]) s
    simp only
    rw [newCalls_append s _ (l0 ++ l) (by rw [hl, hl0, List.append_assoc]), callsOf_append, hc0]
    exact List.prefix_append _ _

/-- How far the component stage goes: a call of the plan is made when the calls before it
have returned empty results; a call that returns a non-empty result is the last one, and its
outcome is returned; when every call returns an empty result the stage makes them all and
goes on. -/
theorem stepComponents_progress {C : Type} (env : Env C) (s : St C) :
    (∀ pre c post, componentCalls s.hub s.cache = pre ++ c :: post → passes env pre s = true →
      pre ++ [c] <+: newCalls s (stepComponents env s).2 ∧
      ((env.exec c (afterCalls env pre s).hub (afterCalls env pre s).cluster).1.1
          ≠ Result.empty →
        stepComponents env s =
          (Flow.done (env.exec c (afterCalls env pre s).hub (afterCalls env pre s).cluster).1,
            afterCalls env (pre ++ [c]) s) ∧
        newCalls s (stepComponents env s).2 = pre ++ [c])) ∧
    (passes env (componentCalls s.hub s.cache) s = true →
      stepComponents env s
        = (Flow.next (), afterCalls env (componentCalls s.hub s.cache) s) ∧
      newCalls s (stepComponents env s).2 = componentCalls s.hub s.cache) ∧
    newCalls s (stepComponents env s).2 <+: componentCalls s.hub s.cache := by
  rw [stepComponents_eq_runGuarded]
  refine ⟨?_, ?_, ?_⟩
  · intro pre c post hsplit hpre
    rw [hsplit]
    refine ⟨runGuarded_reaches env pre post c s hpre, fun hc => ?_⟩
    rw [runGuarded_stops env pre post c s hpre hc, newCalls_afterCalls]
    exact ⟨rfl, rfl⟩
  · intro h
    rw [runGuarded_passes env _ s h, newCalls_afterCalls]
    exact ⟨rfl, rfl⟩
  · obtain ⟨l, n, hl, hn, _⟩ := runGuarded_trace env (componentCalls s.hub s.cache) s
    rw [newCalls_append s _ l hl, hn]
    exact List.take_prefix _ _

theorem componentCalls_backup (m : MultiClusterHub) (cache : CacheSpec)
    (h : m.Enabled Component.ClusterBackup = true) :
    componentCalls m cache = (componentCalls m cache).take 7 ++
      Call.ensureNamespace subscription.Namespace ::
        [Call.ensureSubscription (subscription.ClusterBackup cache),
         expectedCall m cache Component.ClusterProxyAddon subscription.ClusterProxyAddon] := by
  simp [componentCalls, h]

theorem backup_not_before (m : MultiClusterHub) (cache : CacheSpec) (c : Call)
    (hc : subscriptionFactory c = some Factory.ClusterBackup) :
    c ∉ (componentCalls m cache).take 7 ++ [Call.ensureNamespace subscription.Namespace] := by
  intro hmem
  have hf : subscriptionFactory c ∈
      ((componentCalls m cache).take 7 ++ [Call.ensureNamespace subscription.Namespace]).map
        subscriptionFactory := List.mem_map_of_mem _ hmem
  rw [hc] at hf
  simp only [componentCalls, List.take, List.cons_append, List.nil_append, List.map,
    subscriptionFactory_expectedCall] at hf
  revert hf
  show ¬ (some Factory.ClusterBackup ∈ [some Factory.ManagementIngress, some Factory.Console,
    some Factory.Insights, some Factory.GRC, some Factory.ClusterLifecycle,
    some Factory.Volsync, some Factory.Search, none])
  decide

/-- C9 (amended): the component stage follows the plan `componentCalls`: for the components
in the fixed order ManagementIngress, Console, Insights, GRC, ClusterLifecycle, Volsync,
Search, ClusterBackup, ClusterProxyAddon, `ensureSubscription` of the desired body if the
component is enabled and `ensureNoSubscription` of the same body if it is not, with the
namespace of cluster backup ensured present before its subscription or absent after it.
The calls made are an initial part of the plan; a call is made when the calls before it
have returned empty results; a call that returns a non-empty result is the last one and its
outcome is returned; when all return empty results the whole plan is made and the stage
goes on. No subscription call is made twice, `ensureSubscription` is called on a body only
if the component is enabled and `ensureNoSubscription` only if it is not. For an enabled
cluster backup whose namespace call returns a non-empty result, neither subscription call
is made on its body. With Console enabled and Search disabled, the Console subscription is
ensured present once the call before it has returned an empty result, and the Search
subscription is ensured absent once the six calls before it have. -/
theorem components_visited_in_order {C : Type} (env : Env C) (s : St C) :
    componentOrder.map Prod.fst
      = [Component.ManagementIngress, Component.Console, Component.Insights, Component.GRC,
         Component.ClusterLifecycle, Component.Volsync, Component.Search,
         Component.ClusterBackup, Component.ClusterProxyAddon] ∧
    (componentCalls s.hub s.cache).filter isSubscriptionCall
      = componentOrder.map (fun p => expectedCall s.hub s.cache p.1 p.2) ∧
    newCalls s (stepComponents env s).2 <+: componentCalls s.hub s.cache ∧
    (∀ pre c post, componentCalls s.hub s.cache = pre ++ c :: post → passes env pre s = true →
      pre ++ [c] <+: newCalls s (stepComponents env s).2 ∧
      ((env.exec c (afterCalls env pre s).hub (afterCalls env pre s).cluster).1.1
          ≠ Result.empty →
        stepComponents env s =
          (Flow.done (env.exec c (afterCalls env pre s).hub (afterCalls env pre s).cluster).1,
            afterCalls env (pre ++ [c]) s) ∧
        newCalls s (stepComponents env s).2 = pre ++ [c])) ∧
    (passes env (componentCalls s.hub s.cache) s = true →
      stepComponents env s
        = (Flow.next (), afterCalls env (componentCalls s.hub s.cache) s) ∧
      newCalls s (stepComponents env s).2 = componentCalls s.hub s.cache) ∧
    ((newCalls s (stepComponents env s).2).filter isSubscriptionCall).Nodup ∧
    (∀ p ∈ componentOrder,
      (Call.ensureSubscription (p.2 s.cache) ∈ newCalls s (stepComponents env s).2 →
        s.hub.Enabled p.1 = true) ∧
      (Call.ensureNoSubscription (p.2 s.cache) ∈ newCalls s (stepComponents env s).2 →
        s.hub.Enabled p.1 = false)) ∧
    (s.hub.Enabled Component.ClusterBackup = true →
      passes env ((componentCalls s.hub s.cache).take 7) s = true →
      (env.exec (Call.ensureNamespace subscription.Namespace)
          (afterCalls env ((componentCalls s.hub s.cache).take 7) s).hub
          (afterCalls env ((componentCalls s.hub s.cache).take 7) s).cluster).1.1
        ≠ Result.empty →
      Call.ensureNamespace subscription.Namespace ∈ newCalls s (stepComponents env s).2 ∧
      Call.ensureSubscription (subscription.ClusterBackup s.cache)
        ∉ newCalls s (stepComponents env s).2 ∧
      Call.ensureNoSubscription (subscription.ClusterBackup s.cache)
        ∉ newCalls s (stepComponents env s).2) ∧
    (s.hub.Enabled Component.Console = true →
      passes env ((componentCalls s.hub s.cache).take 1) s = true →
      Call.ensureSubscription (subscription.Console s.cache)
        ∈ newCalls s (stepComponents env s).2) ∧
    (s.hub.Enabled Component.Search = false →
      passes env ((componentCalls s.hub s.cache).take 6) s = true →
      Call.ensureNoSubscription (subscription.Search s.cache)
        ∈ newCalls s (stepComponents env s).2) := by
  obtain ⟨hreach, hfull, hpre⟩ := stepComponents_progress env s
  obtain ⟨horder, _, _, _, hnodup, hmem, _⟩ := stepComponents_subscriptions env s
  refine ⟨horder, componentCalls_filter s.hub s.cache, hpre, hreach, hfull, hnodup, hmem,
    ?_, ?_, ?_⟩
  · intro hb hp hne
    obtain ⟨_, hstop⟩ := hreach _ _ _ (componentCalls_backup s.hub s.cache hb) hp
    obtain ⟨_, hcalls⟩ := hstop hne
    rw [hcalls]
    exact ⟨by simp, backup_not_before s.hub s.cache _ rfl, backup_not_before s.hub s.cache _ rfl⟩
  · intro hcon hp
    have hsplit : componentCalls s.hub s.cache = (componentCalls s.hub s.cache).take 1 ++
        Call.ensureSubscription (subscription.Console s.cache) ::
          (componentCalls s.hub s.cache).drop 2 := by
      simp [componentCalls, expectedCall, hcon]
    obtain ⟨hin, _⟩ := hreach _ _ _ hsplit hp
    exact hin.subset (by simp)
  · intro hsearch hp
    have hsplit : componentCalls s.hub s.cache = (componentCalls s.hub s.cache).take 6 ++
        Call.ensureNoSubscription (subscription.Search s.cache) ::
          (componentCalls s.hub s.cache).drop 7 := by
      simp [componentCalls, expectedCall, hsearch]
    obtain ⟨hin, _⟩ := hreach _ _ _ hsplit hp
    exact hin.subset (by simp)

/-- C9 at the hub `consoleHub`, Console enabled and Search disabled, when every call returns
an empty result: the stage makes the whole plan and goes on; the Console subscription is
ensured present and the Search subscription absent. -/
theorem components_visited_in_order_witness :
    passes quietEnv (componentCalls consoleHub (exampleSt consoleHub).cache)
      (exampleSt consoleHub) = true ∧
    (stepComponents quietEnv (exampleSt consoleHub)).1 = Flow.next () ∧
    newCalls (exampleSt consoleHub) (stepComponents quietEnv (exampleSt consoleHub)).2
      = componentCalls consoleHub (exampleSt consoleHub).cache ∧
    Call.ensureSubscription (subscription.Console (exampleSt consoleHub).cache)
      ∈ newCalls (exampleSt consoleHub) (stepComponents quietEnv (exampleSt consoleHub)).2 ∧
    Call.ensureNoSubscription (subscription.Search (exampleSt consoleHub).cache)
      ∈ newCalls (exampleSt consoleHub) (stepComponents quietEnv (exampleSt consoleHub)).2 := by
  have h := components_visited_in_order quietEnv (exampleSt consoleHub)
  have hfull := h.2.2.2.2.1 (by rfl)
  refine ⟨by rfl, ?_, hfull.2, h.2.2.2.2.2.2.2.2.1 (by rfl) (by rfl),
    h.2.2.2.2.2.2.2.2.2 (by rfl) (by rfl)⟩
  rw [hfull.1]

/-- C9 as stated fails for cluster backup: it is enabled in `backupHub` and the stage reaches
it (the namespace of cluster backup is ensured), but that call asks for a requeue, the pass
returns there, and neither `ensureSubscription` nor `ensureNoSubscription` is called on the
body of cluster backup. -/
theorem components_visited_in_order_counterexample :
    backupHub.Enabled Component.ClusterBackup = true ∧
    (stepComponents namespacePending (exampleSt backupHub)).1 = Flow.done (⟨true, 0⟩, none) ∧
    Call.ensureNamespace subscription.Namespace
      ∈ newCalls (exampleSt backupHub) (stepComponents namespacePending (exampleSt backupHub)).2 ∧
    Call.ensureSubscription (subscription.ClusterBackup (exampleSt backupHub).cache)
      ∉ newCalls (exampleSt backupHub) (stepComponents namespacePending (exampleSt backupHub)).2 ∧
    Call.ensureNoSubscription (subscription.ClusterBackup (exampleSt backupHub).cache)
      ∉ newCalls (exampleSt backupHub)
        (stepComponents namespacePending (exampleSt backupHub)).2 := by
  have h : newCalls (exampleSt backupHub)
      (stepComponents namespacePending (exampleSt backupHub)).2
      = (componentCalls backupHub (exampleSt backupHub).cache).take 8 := by rfl
  rw [h]
  refine ⟨by rfl, by rfl, ?_, ?_, ?_⟩ <;> decide

/-! ## C8: the reason of the condition of a configuration failure -/

/-- C8, the failing inputs evaluated. The pull-secret check of `plainHub` fails: the step ends
the pass with a non-nil error and sets `Progressing` to `False`, but the reason of the
condition is the text of the error, `secret not found` for one failure and
`secrets is forbidden` for another, so no fixed code is the reason of every pull-secret
failure. In `deployResources`, a template directory that cannot be read gives the reason
`ResourceRenderReason`, while a template that does not parse gives `CRDRenderReason`, the
code of a CRD that does not parse in `installCRDs`. -/
theorem config_failure_reason_not_fixed :
    (stepPullSecret (pullSecretFails "secret not found") (exampleSt plainHub)).1
      = Flow.done (Result.empty, some "failed to find pullsecret: secret not found") ∧
    progressingReason (stepPullSecret (pullSecretFails "secret not found")
      (exampleSt plainHub)).2 = some "secret not found" ∧
    progressingReason (stepPullSecret (pullSecretFails "secrets is forbidden")
      (exampleSt plainHub)).2 = some "secrets is forbidden" ∧
    (¬ ∃ code : String, ∀ err : Error,
      progressingReason (stepPullSecret (pullSecretFails err) (exampleSt plainHub)).2
        = some code) ∧
    progressingReason (stepDeployResources unreadableTemplates (exampleSt plainHub)).2
      = some ResourceRenderReason ∧
    progressingReason (stepDeployResources brokenTemplate (exampleSt plainHub)).2
      = some CRDRenderReason ∧
    progressingReason (stepInstallCRDs brokenTemplate (exampleSt plainHub)).2
      = some CRDRenderReason := by
  have h1 : progressingReason (stepPullSecret (pullSecretFails "secret not found")
      (exampleSt plainHub)).2 = some "secret not found" := by rfl
  have h2 : progressingReason (stepPullSecret (pullSecretFails "secrets is forbidden")
      (exampleSt plainHub)).2 = some "secrets is forbidden" := by rfl
  refine ⟨by rfl, h1, h2, ?_, by rfl, by rfl, by rfl⟩
  rintro ⟨code, h⟩
  have e1 := h "secret not found"
  have e2 := h "secrets is forbidden"
  rw [h1] at e1
  rw [h2] at e2
  rw [← e1] at e2
  exact absurd e2 (by decide)

/-! ## C5: the status sync and the listings -/

theorem Reconcile_load_done {C σ : Type} (env : Env C) (req : Request) (s s1 : St C)
    (out : Outcome) (h : loadHub env req s = (Flow.done out, s1)) :
    (Reconcile env req : Proc C σ Outcome) s = (Flow.next out, s1) := by
  simp only [Reconcile, Proc.fn, bind_apply, h]

theorem done_eq {C : Type} (x : Option Error) (e : Error) (s1 s2 : St C) (hx : x = some e)
    (hs : s1 = s2) :
    ((Flow.done (Result.empty, x), s1) : Flow Outcome Unit × St C)
      = (Flow.done (Result.empty, some e), s2) := by
  rw [hx, hs]

theorem loadHub_deployments {C : Type} (env : Env C) (req : Request) (s : St C)
    (m : MultiClusterHub) (e : Error) (hget : env.Get req s.cluster = Except.ok m)
    (h1 : errorOf env Call.listDeployments (fetched req m s) = some e) :
    loadHub env req s = (Flow.done (Result.empty, some e),
      afterCalls env [Call.listDeployments] (fetched req m s)) := by
  simp only [loadHub, bind_apply, modifyHub_apply, ask_apply, hget, call_apply, ite_apply_proc,
    ret_apply, pure_apply, ne_eq]
  split
  · exact done_eq _ e _ _ h1 rfl
  · next h =>
    have hn : errorOf env Call.listDeployments (fetched req m s) = none := not_not.1 h
    rw [h1] at hn
    cases hn

theorem loadHub_helmReleases {C : Type} (env : Env C) (req : Request) (s : St C)
    (m : MultiClusterHub) (e : Error) (hget : env.Get req s.cluster = Except.ok m)
    (h1 : errorOf env Call.listDeployments (fetched req m s) = none)
    (h2 : errorOf env Call.listHelmReleases
      (afterCalls env [Call.listDeployments] (fetched req m s)) = some e) :
    loadHub env req s = (Flow.done (Result.empty, some e),
      afterCalls env [Call.listDeployments, Call.listHelmReleases] (fetched req m s)) := by
  simp only [loadHub, bind_apply, modifyHub_apply, ask_apply, hget, call_apply, ite_apply_proc,
    ret_apply, pure_apply, ne_eq]
  split
  · next h => exact absurd h1 h
  · split
    · exact done_eq _ e _ _ h2 rfl
    · next h =>
      have hn : errorOf env Call.listHelmReleases
          (afterCalls env [Call.listDeployments] (fetched req m s)) = none := not_not.1 h
      rw [h2] at hn
      cases hn

theorem loadHub_customResources {C : Type} (env : Env C) (req : Request) (s : St C)
    (m : MultiClusterHub) (e : Error) (hget : env.Get req s.cluster = Except.ok m)
    (h1 : errorOf env Call.listDeployments (fetched req m s) = none)
    (h2 : errorOf env Call.listHelmReleases
      (afterCalls env [Call.listDeployments] (fetched req m s)) = none)
    (h3 : errorOf env Call.listCustomResources
      (afterCalls env [Call.listDeployments, Call.listHelmReleases] (fetched req m s))
        = some e) :
    loadHub env req s = (Flow.done (Result.empty, some e), passStart env req m s) := by
  simp only [loadHub, bind_apply, modifyHub_apply, ask_apply, hget, call_apply, ite_apply_proc,
    ret_apply, pure_apply, ne_eq]
  split
  · next h => exact absurd h1 h
  · split
    · next h => exact absurd h2 h
    · split
      · exact done_eq _ e _ _ h3 rfl
      · next h =>
        have hn : errorOf env Call.listCustomResources
            (afterCalls env [Call.listDeployments, Call.listHelmReleases] (fetched req m s))
              = none := not_not.1 h
        rw [h3] at hn
        cases hn

theorem loadHub_listed {C : Type} (env : Env C) (req : Request) (s : St C)
    (m : MultiClusterHub) (hget : env.Get req s.cluster = Except.ok m)
    (h1 : errorOf env Call.listDeployments (fetched req m s) = none)
    (h2 : errorOf env Call.listHelmReleases
      (afterCalls env [Call.listDeployments] (fetched req m s)) = none)
    (h3 : errorOf env Call.listCustomResources
      (afterCalls env [Call.listDeployments, Call.listHelmReleases] (fetched req m s))
        = none) :
    loadHub env req s = (Flow.next (), passStart env req m s) := by
  simp only [loadHub, bind_apply, modifyHub_apply, ask_apply, hget, call_apply, ite_apply_proc,
    ret_apply, pure_apply, ne_eq]
  split
  · next h => exact absurd h1 h
  · split
    · next h => exact absurd h2 h
    · split
      · next h => exact absurd h3 h
      · rfl

theorem newCalls_fetched {C : Type} (env : Env C) (req : Request) (m : MultiClusterHub)
    (cs : List Call) (s : St C) :
    newCalls s (afterCalls env cs (fetched req m s)) = Call.Get req :: cs := by
  obtain ⟨l, hl, hc⟩ := afterCalls_trace env cs (fetched req m s)
  rw [newCalls_append s _ ([Event.call (Call.Get req) (Result.empty, none)] ++ l)
    (by rw [hl]; exact List.append_assoc _ _ _), callsOf_append, hc]
  rfl

/-- C5 (amended): in every `Reconcile` invocation in which the hub is fetched. When the
listing of the deployments, of the helm releases or of the custom resources fails,
`Reconcile` returns that error with the empty result, and its calls are the `Get` and the
listings up to the failing one: the status sync does not run. When the three listings
succeed, `Reconcile` returns, and the status sync runs exactly once, after the pass and as
the last call, whatever the pass returns, also when it returns an error: the calls of
`Reconcile` are the four calls of the loading phase, the calls of the pass, none of which is
the status sync, and the status sync. -/
theorem status_sync_runs_once {C : Type} (env : Env C) (req : Request) (s : St C)
    (m : MultiClusterHub) (hget : env.Get req s.cluster = Except.ok m) :
    (∀ e, errorOf env Call.listDeployments (fetched req m s) = some e →
      (Reconcile env req : Proc C Outcome Outcome) s
        = (Flow.next (Result.empty, some e),
            afterCalls env [Call.listDeployments] (fetched req m s)) ∧
      newCalls s ((Reconcile env req : Proc C Outcome Outcome) s).2
        = [Call.Get req, Call.listDeployments]) ∧
    (errorOf env Call.listDeployments (fetched req m s) = none →
      ∀ e, errorOf env Call.listHelmReleases
          (afterCalls env [Call.listDeployments] (fetched req m s)) = some e →
        (Reconcile env req : Proc C Outcome Outcome) s
          = (Flow.next (Result.empty, some e),
              afterCalls env [Call.listDeployments, Call.listHelmReleases]
                (fetched req m s)) ∧
        newCalls s ((Reconcile env req : Proc C Outcome Outcome) s).2
          = [Call.Get req, Call.listDeployments, Call.listHelmReleases]) ∧
    (errorOf env Call.listDeployments (fetched req m s) = none →
      errorOf env Call.listHelmReleases
          (afterCalls env [Call.listDeployments] (fetched req m s)) = none →
      ∀ e, errorOf env Call.listCustomResources
          (afterCalls env [Call.listDeployments, Call.listHelmReleases] (fetched req m s))
            = some e →
        (Reconcile env req : Proc C Outcome Outcome) s
          = (Flow.next (Result.empty, some e), passStart env req m s) ∧
        newCalls s ((Reconcile env req : Proc C Outcome Outcome) s).2
          = [Call.Get req, Call.listDeployments, Call.listHelmReleases,
             Call.listCustomResources]) ∧
    (errorOf env Call.listDeployments (fetched req m s) = none →
      errorOf env Call.listHelmReleases
          (afterCalls env [Call.listDeployments] (fetched req m s)) = none →
      errorOf env Call.listCustomResources
          (afterCalls env [Call.listDeployments, Call.listHelmReleases] (fetched req m s))
            = none →
      loadHub env req s = (Flow.next (), passStart env req m s) ∧
      (∃ r, ((Reconcile env req : Proc C Outcome Outcome) s).1 = Flow.next r) ∧
      newCalls s ((Reconcile env req : Proc C Outcome Outcome) s).2
        = [Call.Get req, Call.listDeployments, Call.listHelmReleases,
            Call.listCustomResources]
          ++ newCalls (passStart env req m s) (reconcilePass env (passStart env req m s)).2
          ++ [Call.syncHubStatus (passStart env req m s).hub.Status] ∧
      (∀ c ∈ newCalls (passStart env req m s) (reconcilePass env (passStart env req m s)).2,
        isSync c = false) ∧
      (newCalls s ((Reconcile env req : Proc C Outcome Outcome) s).2).filter
          (fun c => isSync c) = [Call.syncHubStatus (passStart env req m s).hub.Status] ∧
      (newCalls s ((Reconcile env req : Proc C Outcome Outcome) s).2).getLast?
        = some (Call.syncHubStatus (passStart env req m s).hub.Status)) := by
  refine ⟨?_, ?_, ?_, ?_⟩
  · intro e h1
    rw [Reconcile_load_done env req s _ _ (loadHub_deployments env req s m e hget h1)]
    exact ⟨rfl, newCalls_fetched env req m _ s⟩
  · intro h1 e h2
    rw [Reconcile_load_done env req s _ _ (loadHub_helmReleases env req s m e hget h1 h2)]
    exact ⟨rfl, newCalls_fetched env req m _ s⟩
  · intro h1 h2 e h3
    rw [Reconcile_load_done env req s _ _
      (loadHub_customResources env req s m e hget h1 h2 h3)]
    exact ⟨rfl, newCalls_fetched env req m _ s⟩
  · intro h1 h2 h3
    have hload := loadHub_listed env req s m hget h1 h2 h3
    obtain ⟨hcalls, hns, hfilter, hlast⟩ := Reconcile_sync_once env req s _ hload
    refine ⟨hload, ?_, hcalls, hns, hfilter, hlast⟩
    have happly := Reconcile_apply (σ := Outcome) env req s _ hload
    obtain ⟨s2, h | h⟩ := returns_of_holds _ (reconcilePass_returns env) (passStart env req m s)
    · obtain ⟨p, hp⟩ := h
      rw [hp] at happly
      exact ⟨_, congrArg Prod.fst happly⟩
    · obtain ⟨p, hp⟩ := h
      rw [hp] at happly
      exact ⟨_, congrArg Prod.fst happly⟩

/-- C5 at two inputs. The hub `deletedHub` is fetched, the listings succeed and the teardown
fails at `cleanupCRDs`: the status sync is the last call of `Reconcile` and its only status
sync. The hub `plainHub` is fetched and the listing of the helm releases fails: `Reconcile`
returns that error after the `Get` and two listings, without a status sync. -/
theorem status_sync_runs_once_witness :
    stuckEnv.Get exampleReq startSt.cluster = Except.ok deletedHub ∧
    (newCalls startSt
      ((Reconcile stuckEnv exampleReq : Proc Unit Outcome Outcome) startSt).2).filter
        (fun c => isSync c) = [Call.syncHubStatus deletedHub.Status] ∧
    (newCalls startSt
      ((Reconcile stuckEnv exampleReq : Proc Unit Outcome Outcome) startSt).2).getLast?
      = some (Call.syncHubStatus deletedHub.Status) ∧
    helmListingFails.Get exampleReq startSt.cluster = Except.ok plainHub ∧
    ((Reconcile helmListingFails exampleReq : Proc Unit Outcome Outcome) startSt).1
      = Flow.next (Result.empty, some "helm releases unavailable") ∧
    newCalls startSt
      ((Reconcile helmListingFails exampleReq : Proc Unit Outcome Outcome) startSt).2
      = [Call.Get exampleReq, Call.listDeployments, Call.listHelmReleases] := by
  have h := (status_sync_runs_once stuckEnv exampleReq startSt deletedHub (by rfl)).2.2.2
    (by rfl) (by rfl) (by rfl)
  have h2 := (status_sync_runs_once helmListingFails exampleReq startSt plainHub (by rfl)).2.1
    (by rfl) "helm releases unavailable" (by rfl)
  exact ⟨by rfl, h.2.2.2.2.1, h.2.2.2.2.2, by rfl, congrArg Prod.fst h2.1, h2.2⟩

end Hub
